import Mathlib

/-!
# The guest memory system (core/memory.cpp)

A shallow embedding of the page-table based address translator, its block
engine and the cache-membership transition, followed by the properties
proved about them.

Conventions of the embedding

* `u32`, `VAddr` and `PAddr` values are natural numbers; every place where
  the source computes in 32 bits carries an explicit `u32`.
* A host pointer into one of the backing arenas is a `BackingRef`
  (arena, byte offset); the null pointer is `none`.
* Page tables live in a store indexed by the identity of their
  `shared_ptr`; the registered list and the current table hold identities.
* `ASSERT`, `ASSERT_MSG(false, ..)` and `UNREACHABLE` end a call with a
  `Fault`; so do indexing a page-table array past its last entry and the
  exceptions of `string.reserve`.
  The mapping operations are embedded a second time with the state they end
  in (`MapPages.outcome` and its callers), for the properties that speak
  about the state at a failed assertion; `asResult` links the two.
* The rasterizer and the MMIO handlers are collaborators: their behaviour
  is a parameter (`Collaborators`), their private state is the field
  `world`, and every call they receive is appended to `calls`.
* `LOG_ERROR` and `LOG_DEBUG` have no effect on the state and are left out.
* The surface descriptor of the rasterizer cache
  (video_core/rasterizer_cache/surface_params.h) is embedded next to the
  memory system: `SurfaceParams` with `UpdateParams` and `GetInterval` from
  the header; the matching predicates, which the header only declares, follow
  the wording of the specification.
* The Morton swizzle (video_core/rasterizer_cache/morton_swizzle.h) and the
  texel lookup and byte-order conversions of video_core/texture/texture_decode.cpp
  work on byte memories `Nat → Nat`; a `std::span` is a `Span` (offset of its
  first byte, size), and a call outside the precondition of `subspan` or
  `last`, a `std::memcpy` that leaves its buffer and a division by zero end
  with a `Fault`. The functions of headers that are not among the sources
  are the parameter `VideoFns`.
-/

namespace Memory

/-! ## Constants -/

/-- Modelled from the spec: the page constants are declared in core/memory.h,
which is not among the sources; the spec fixes 32-bit virtual addresses and a
page of 4096 bytes, hence 12 offset bits and 2^20 page-table entries. -/
def CITRA_PAGE_BITS : Nat := 12

/-- Modelled from the spec: the page size, 1 << CITRA_PAGE_BITS. -/
def CITRA_PAGE_SIZE : Nat := 4096

/-- Modelled from the spec: the page-offset mask, CITRA_PAGE_SIZE - 1. -/
def CITRA_PAGE_MASK : Nat := 4095

/-- Modelled from the spec: the length of the two page-table arrays, one entry
per page of the 32-bit address space. -/
def PAGE_TABLE_NUM_ENTRIES : Nat := 1048576

/-- Truncation to an unsigned 32-bit integer. -/
def u32 (n : Nat) : Nat := n % 4294967296

/-- Subtraction of unsigned 32-bit integers. -/
def sub32 (a b : Nat) : Nat := (a + 4294967296 - b % 4294967296) % 4294967296

/-- The region constants of core/memory.h. The header is not among the
sources, so the functions below take the constants as a parameter. -/
structure MemoryMap where
  VRAM_PADDR : Nat
  VRAM_SIZE : Nat
  VRAM_PADDR_END : Nat
  DSP_RAM_PADDR : Nat
  DSP_RAM_SIZE : Nat
  FCRAM_PADDR : Nat
  FCRAM_N3DS_SIZE : Nat
  FCRAM_PADDR_END : Nat
  FCRAM_N3DS_PADDR_END : Nat
  N3DS_EXTRA_RAM_PADDR : Nat
  N3DS_EXTRA_RAM_SIZE : Nat
  LINEAR_HEAP_VADDR : Nat
  LINEAR_HEAP_VADDR_END : Nat
  NEW_LINEAR_HEAP_VADDR : Nat
  NEW_LINEAR_HEAP_VADDR_END : Nat
  VRAM_VADDR : Nat
  VRAM_VADDR_END : Nat

/-- The memory map of the emulated console, used for the concrete runs. -/
def console : MemoryMap where
  VRAM_PADDR := 0x18000000
  VRAM_SIZE := 0x00600000
  VRAM_PADDR_END := 0x18600000
  DSP_RAM_PADDR := 0x1FF00000
  DSP_RAM_SIZE := 0x00080000
  FCRAM_PADDR := 0x20000000
  FCRAM_N3DS_SIZE := 0x10000000
  FCRAM_PADDR_END := 0x28000000
  FCRAM_N3DS_PADDR_END := 0x30000000
  N3DS_EXTRA_RAM_PADDR := 0x1F000000
  N3DS_EXTRA_RAM_SIZE := 0x00400000
  LINEAR_HEAP_VADDR := 0x14000000
  LINEAR_HEAP_VADDR_END := 0x1C000000
  NEW_LINEAR_HEAP_VADDR := 0x30000000
  NEW_LINEAR_HEAP_VADDR_END := 0x40000000
  VRAM_VADDR := 0x1F000000
  VRAM_VADDR_END := 0x1F600000

/-! ## Data model -/

/-- The ways a call can end without returning: a failed assertion,
UNREACHABLE, an access outside an array, a span or a buffer, a null pointer,
a division by zero, and the exceptions std::length_error and
std::bad_alloc. -/
inductive Fault where
  | assertion
  | unreachable
  | outOfBounds
  | nullPointer
  | divisionByZero
  | lengthError
  | badAlloc
  deriving DecidableEq, Repr

inductive PageType where
  | Unmapped
  | Memory
  | Special
  | RasterizerCachedMemory
  deriving DecidableEq, Repr

/-- The four backing arenas. -/
inductive Region where
  | FCRAM
  | VRAM
  | DSP
  | N3DS
  deriving DecidableEq, Repr

/-- A byte position in a backing arena: what a non-null host pointer into the
emulated memory denotes. -/
structure BackingRef where
  region : Region
  offset : Nat
  deriving DecidableEq, Repr

/-- Modelled from the spec: MemoryRef is declared in core/memory_ref.h, which
is not among the sources. It pairs a backing-store handle with a byte offset
and has a null state, here `none`. -/
abbrev MemoryRef := Option BackingRef

/-- The contents of the backing arenas, one byte per offset. -/
abbrev Backing := Region → Nat → Nat

structure SpecialRegion where
  base : Nat
  size : Nat
  handler : Nat
  deriving DecidableEq, Repr

/-- The page table: `pointers` and `attributes` are the two arrays of
PAGE_TABLE_NUM_ENTRIES entries, read here at an index below that bound. -/
structure PageTable where
  pointers : Nat → MemoryRef
  attributes : Nat → PageType
  special_regions : List SpecialRegion

/-- PageTable::Clear. -/
def PageTable.Clear (pt : PageTable) : PageTable :=
  { pt with pointers := fun _ => none, attributes := fun _ => PageType.Unmapped }

/-- Assignment to one entry of an array. -/
def setAt {α : Type} (f : Nat → α) (i : Nat) (v : α) : Nat → α :=
  fun j => if j = i then v else f j

/-- The three boolean arrays of RasterizerCacheMarker. -/
structure RasterizerCacheMarker where
  vram : Nat → Bool
  linear_heap : Nat → Bool
  new_linear_heap : Nat → Bool

/-- The array entry that RasterizerCacheMarker::At points to. -/
inductive MarkerSlot where
  | vram (i : Nat)
  | linear_heap (i : Nat)
  | new_linear_heap (i : Nat)
  deriving DecidableEq, Repr

/-- RasterizerCacheMarker::At; `none` is the null pointer. -/
def RasterizerCacheMarker.At (K : MemoryMap) (addr : Nat) : Option MarkerSlot :=
  if addr ≥ K.VRAM_VADDR ∧ addr < K.VRAM_VADDR_END then
    some (MarkerSlot.vram ((addr - K.VRAM_VADDR) / CITRA_PAGE_SIZE))
  else if addr ≥ K.LINEAR_HEAP_VADDR ∧ addr < K.LINEAR_HEAP_VADDR_END then
    some (MarkerSlot.linear_heap ((addr - K.LINEAR_HEAP_VADDR) / CITRA_PAGE_SIZE))
  else if addr ≥ K.NEW_LINEAR_HEAP_VADDR ∧ addr < K.NEW_LINEAR_HEAP_VADDR_END then
    some (MarkerSlot.new_linear_heap ((addr - K.NEW_LINEAR_HEAP_VADDR) / CITRA_PAGE_SIZE))
  else none

/-- RasterizerCacheMarker::Mark. -/
def RasterizerCacheMarker.Mark (K : MemoryMap) (m : RasterizerCacheMarker) (addr : Nat)
    (cached : Bool) : RasterizerCacheMarker :=
  match RasterizerCacheMarker.At K addr with
  | some (MarkerSlot.vram i) => { m with vram := setAt m.vram i cached }
  | some (MarkerSlot.linear_heap i) => { m with linear_heap := setAt m.linear_heap i cached }
  | some (MarkerSlot.new_linear_heap i) =>
      { m with new_linear_heap := setAt m.new_linear_heap i cached }
  | none => m

/-- RasterizerCacheMarker::IsCached. -/
def RasterizerCacheMarker.IsCached (K : MemoryMap) (m : RasterizerCacheMarker) (addr : Nat) :
    Bool :=
  match RasterizerCacheMarker.At K addr with
  | some (MarkerSlot.vram i) => m.vram i
  | some (MarkerSlot.linear_heap i) => m.linear_heap i
  | some (MarkerSlot.new_linear_heap i) => m.new_linear_heap i
  | none => false

/-- A call received by a collaborator: the rasterizer (first four) or an
MMIO handler (the others, with the handler, the access width in bytes where
there is one, the address, and the data or length). -/
inductive Call where
  | FlushRegion (addr size : Nat)
  | InvalidateRegion (addr size : Nat)
  | FlushAndInvalidateRegion (addr size : Nat)
  | ClearAll (flush : Bool)
  | Read (handler width vaddr : Nat)
  | Write (handler width vaddr value : Nat)
  | ReadBlock (handler vaddr size : Nat)
  | WriteBlock (handler vaddr : Nat) (data : List Nat)
  deriving DecidableEq, Repr

/-- The collaborators of the memory system. `renderer` tells whether
VideoCore::g_renderer is set. The rasterizer acts on its own state and on the
backing arenas; an MMIO handler acts on its own state. `Read h w` and
`Write h w` are the Read8..Read64 and Write8..Write64 methods of handler `h`
for the width of `w` bytes; `ReadBlock` yields the bytes it stores into the
destination, by position. -/
structure Collaborators (ε : Type) where
  renderer : Bool
  FlushRegion : Nat → Nat → ε × Backing → ε × Backing
  InvalidateRegion : Nat → Nat → ε × Backing → ε × Backing
  FlushAndInvalidateRegion : Nat → Nat → ε × Backing → ε × Backing
  ClearAll : Bool → ε × Backing → ε × Backing
  Read : Nat → Nat → Nat → ε → Nat × ε
  Write : Nat → Nat → Nat → Nat → ε → ε
  ReadBlock : Nat → Nat → Nat → ε → (Nat → Nat) × ε
  WriteBlock : Nat → Nat → List Nat → ε → ε

/-- MemorySystem::Impl together with the page tables it refers to and the
state of the collaborators. -/
structure MemorySystem (ε : Type) where
  backing : Backing
  cache_marker : RasterizerCacheMarker
  page_tables : Nat → PageTable
  page_table_list : List Nat
  current_page_table : Option Nat
  world : ε
  calls : List Call

/-- Replace one page table of the store. -/
def MemorySystem.setTable {ε : Type} (s : MemorySystem ε) (t : Nat) (pt : PageTable) :
    MemorySystem ε :=
  { s with page_tables := setAt s.page_tables t pt }

/-- Impl::GetSize. -/
def Impl.GetSize (K : MemoryMap) : Region → Nat
  | Region.VRAM => K.VRAM_SIZE
  | Region.DSP => K.DSP_RAM_SIZE
  | Region.FCRAM => K.FCRAM_N3DS_SIZE
  | Region.N3DS => K.N3DS_EXTRA_RAM_SIZE

/-- Modelled from the spec: MemoryRef::GetSize (core/memory_ref.h is not among
the sources), the bytes of the arena from the offset on; 0 for the null
reference. -/
def MemoryRef.GetSize (K : MemoryMap) : MemoryRef → Nat
  | none => 0
  | some r => Impl.GetSize K r.region - r.offset

/-- Modelled from the spec: MemoryRef::operator+= (core/memory_ref.h is not
among the sources), which advances the offset. -/
def MemoryRef.advance (m : MemoryRef) (n : Nat) : MemoryRef :=
  m.map fun r => { r with offset := r.offset + n }

/-! ## Rasterizer call-outs -/

inductive FlushMode where
  | Flush
  | Invalidate
  | FlushAndInvalidate
  deriving DecidableEq, Repr

/-- One call of the rasterizer, selected by the mode. -/
def rasterizerCall {ε : Type} (E : Collaborators ε) (mode : FlushMode) (addr size : Nat)
    (s : MemorySystem ε) : MemorySystem ε :=
  match mode with
  | FlushMode.Flush =>
      let r := E.FlushRegion addr size (s.world, s.backing)
      { s with world := r.1, backing := r.2, calls := s.calls ++ [Call.FlushRegion addr size] }
  | FlushMode.Invalidate =>
      let r := E.InvalidateRegion addr size (s.world, s.backing)
      { s with world := r.1, backing := r.2,
               calls := s.calls ++ [Call.InvalidateRegion addr size] }
  | FlushMode.FlushAndInvalidate =>
      let r := E.FlushAndInvalidateRegion addr size (s.world, s.backing)
      { s with world := r.1, backing := r.2,
               calls := s.calls ++ [Call.FlushAndInvalidateRegion addr size] }

/-- RasterizerFlushRegion. -/
def RasterizerFlushRegion {ε : Type} (E : Collaborators ε) (start size : Nat)
    (s : MemorySystem ε) : MemorySystem ε :=
  if E.renderer = false then s
  else rasterizerCall E FlushMode.Flush start size s

/-- RasterizerInvalidateRegion. -/
def RasterizerInvalidateRegion {ε : Type} (E : Collaborators ε) (start size : Nat)
    (s : MemorySystem ε) : MemorySystem ε :=
  if E.renderer = false then s
  else rasterizerCall E FlushMode.Invalidate start size s

/-- RasterizerFlushAndInvalidateRegion. -/
def RasterizerFlushAndInvalidateRegion {ε : Type} (E : Collaborators ε) (start size : Nat)
    (s : MemorySystem ε) : MemorySystem ε :=
  if E.renderer = false then s
  else rasterizerCall E FlushMode.FlushAndInvalidate start size s

/-- RasterizerClearAll. -/
def RasterizerClearAll {ε : Type} (E : Collaborators ε) (flush : Bool) (s : MemorySystem ε) :
    MemorySystem ε :=
  if E.renderer = false then s
  else
    let r := E.ClearAll flush (s.world, s.backing)
    { s with world := r.1, backing := r.2, calls := s.calls ++ [Call.ClearAll flush] }

/-- The lambda CheckRegion of RasterizerFlushVirtualRegion; `start` and `end_`
are the captured bounds. -/
def CheckRegion {ε : Type} (E : Collaborators ε) (mode : FlushMode) (start end_ : Nat)
    (region_start region_end paddr_region_start : Nat) (s : MemorySystem ε) : MemorySystem ε :=
  if start ≥ region_end ∨ end_ ≤ region_start then s
  else
    let overlap_start := max start region_start
    let overlap_end := min end_ region_end
    let physical_start := u32 (paddr_region_start + sub32 overlap_start region_start)
    let overlap_size := sub32 overlap_end overlap_start
    rasterizerCall E mode physical_start overlap_size s

/-- RasterizerFlushVirtualRegion. -/
def RasterizerFlushVirtualRegion {ε : Type} (K : MemoryMap) (E : Collaborators ε)
    (start size : Nat) (mode : FlushMode) (s : MemorySystem ε) : MemorySystem ε :=
  if E.renderer = false then s
  else
    let end_ := u32 (start + size)
    let s1 := CheckRegion E mode start end_ K.LINEAR_HEAP_VADDR K.LINEAR_HEAP_VADDR_END
      K.FCRAM_PADDR s
    let s2 := CheckRegion E mode start end_ K.NEW_LINEAR_HEAP_VADDR K.NEW_LINEAR_HEAP_VADDR_END
      K.FCRAM_PADDR s1
    CheckRegion E mode start end_ K.VRAM_VADDR K.VRAM_VADDR_END K.VRAM_PADDR s2

/-! ## Mapping operations -/

/-- The loop of MapPages: `n` is the number of iterations left, `end - base`. -/
def MapPages.loop (K : MemoryMap) (marker : RasterizerCacheMarker) (type : PageType) :
    Nat → Nat → MemoryRef → PageTable → Except Fault PageTable
  | 0, _, _, pt => Except.ok pt
  | n + 1, base, memory, pt =>
    if ¬ base < PAGE_TABLE_NUM_ENTRIES then Except.error Fault.assertion
    else
      let pt1 : PageTable :=
        { pt with attributes := setAt pt.attributes base type,
                  pointers := setAt pt.pointers base memory }
      let pt2 : PageTable :=
        if type = PageType.Memory ∧
            RasterizerCacheMarker.IsCached K marker (u32 (base * CITRA_PAGE_SIZE)) = true then
          { pt1 with attributes := setAt pt1.attributes base PageType.RasterizerCachedMemory,
                     pointers := setAt pt1.pointers base none }
        else pt1
      let memory1 : MemoryRef :=
        if memory ≠ none ∧ MemoryRef.GetSize K memory > CITRA_PAGE_SIZE then
          MemoryRef.advance memory CITRA_PAGE_SIZE
        else memory
      MapPages.loop K marker type n (u32 (base + 1)) memory1 pt2

/-- MemorySystem::MapPages on the page table `t`; `base` and `size` count
pages. The loop runs while `base != end` with `end = base + size`, that is
`size` times. -/
def MapPages {ε : Type} (K : MemoryMap) (E : Collaborators ε) (t base size : Nat)
    (memory : MemoryRef) (type : PageType) (s : MemorySystem ε) :
    Except Fault (MemorySystem ε) :=
  let s1 := RasterizerFlushVirtualRegion K E (u32 (base <<< CITRA_PAGE_BITS))
    (u32 (size * CITRA_PAGE_SIZE)) FlushMode.FlushAndInvalidate s
  match MapPages.loop K s1.cache_marker type size base memory (s1.page_tables t) with
  | Except.ok pt => Except.ok (s1.setTable t pt)
  | Except.error e => Except.error e

/-- MemorySystem::MapMemoryRegion. -/
def MapMemoryRegion {ε : Type} (K : MemoryMap) (E : Collaborators ε) (t base size : Nat)
    (target : MemoryRef) (s : MemorySystem ε) : Except Fault (MemorySystem ε) :=
  if ¬ (size &&& CITRA_PAGE_MASK) = 0 then Except.error Fault.assertion
  else if ¬ (base &&& CITRA_PAGE_MASK) = 0 then Except.error Fault.assertion
  else MapPages K E t (base / CITRA_PAGE_SIZE) (size / CITRA_PAGE_SIZE) target PageType.Memory s

/-- MemorySystem::MapIoRegion. -/
def MapIoRegion {ε : Type} (K : MemoryMap) (E : Collaborators ε) (t base size : Nat)
    (mmio_handler : Nat) (s : MemorySystem ε) : Except Fault (MemorySystem ε) :=
  if ¬ (size &&& CITRA_PAGE_MASK) = 0 then Except.error Fault.assertion
  else if ¬ (base &&& CITRA_PAGE_MASK) = 0 then Except.error Fault.assertion
  else
    match MapPages K E t (base / CITRA_PAGE_SIZE) (size / CITRA_PAGE_SIZE) none
        PageType.Special s with
    | Except.ok s1 =>
        let pt := s1.page_tables t
        Except.ok (s1.setTable t
          { pt with special_regions := pt.special_regions ++ [⟨base, size, mmio_handler⟩] })
    | Except.error e => Except.error e

/-- MemorySystem::UnmapRegion. -/
def UnmapRegion {ε : Type} (K : MemoryMap) (E : Collaborators ε) (t base size : Nat)
    (s : MemorySystem ε) : Except Fault (MemorySystem ε) :=
  if ¬ (size &&& CITRA_PAGE_MASK) = 0 then Except.error Fault.assertion
  else if ¬ (base &&& CITRA_PAGE_MASK) = 0 then Except.error Fault.assertion
  else MapPages K E t (base / CITRA_PAGE_SIZE) (size / CITRA_PAGE_SIZE) none PageType.Unmapped s

/-- The loop of MapPages once more, this time keeping the page table as it is
when the loop ends: after the last page, or at the assertion that fails. -/
def MapPages.loopOutcome (K : MemoryMap) (marker : RasterizerCacheMarker) (type : PageType) :
    Nat → Nat → MemoryRef → PageTable → PageTable × Option Fault
  | 0, _, _, pt => (pt, none)
  | n + 1, base, memory, pt =>
    if ¬ base < PAGE_TABLE_NUM_ENTRIES then (pt, some Fault.assertion)
    else
      let pt1 : PageTable :=
        { pt with attributes := setAt pt.attributes base type,
                  pointers := setAt pt.pointers base memory }
      let pt2 : PageTable :=
        if type = PageType.Memory ∧
            RasterizerCacheMarker.IsCached K marker (u32 (base * CITRA_PAGE_SIZE)) = true then
          { pt1 with attributes := setAt pt1.attributes base PageType.RasterizerCachedMemory,
                     pointers := setAt pt1.pointers base none }
        else pt1
      let memory1 : MemoryRef :=
        if memory ≠ none ∧ MemoryRef.GetSize K memory > CITRA_PAGE_SIZE then
          MemoryRef.advance memory CITRA_PAGE_SIZE
        else memory
      MapPages.loopOutcome K marker type n (u32 (base + 1)) memory1 pt2

/-- MemorySystem::MapPages with the memory system as it is when the call
ends, and the fault that ended it if it did not return. -/
def MapPages.outcome {ε : Type} (K : MemoryMap) (E : Collaborators ε) (t base size : Nat)
    (memory : MemoryRef) (type : PageType) (s : MemorySystem ε) :
    MemorySystem ε × Option Fault :=
  let s1 := RasterizerFlushVirtualRegion K E (u32 (base <<< CITRA_PAGE_BITS))
    (u32 (size * CITRA_PAGE_SIZE)) FlushMode.FlushAndInvalidate s
  let r := MapPages.loopOutcome K s1.cache_marker type size base memory (s1.page_tables t)
  (s1.setTable t r.1, r.2)

/-- MemorySystem::MapMemoryRegion with the memory system as it is when the
call ends. -/
def MapMemoryRegion.outcome {ε : Type} (K : MemoryMap) (E : Collaborators ε) (t base size : Nat)
    (target : MemoryRef) (s : MemorySystem ε) : MemorySystem ε × Option Fault :=
  if ¬ (size &&& CITRA_PAGE_MASK) = 0 then (s, some Fault.assertion)
  else if ¬ (base &&& CITRA_PAGE_MASK) = 0 then (s, some Fault.assertion)
  else MapPages.outcome K E t (base / CITRA_PAGE_SIZE) (size / CITRA_PAGE_SIZE) target
    PageType.Memory s

/-- MemorySystem::MapIoRegion with the memory system as it is when the call
ends. -/
def MapIoRegion.outcome {ε : Type} (K : MemoryMap) (E : Collaborators ε) (t base size : Nat)
    (mmio_handler : Nat) (s : MemorySystem ε) : MemorySystem ε × Option Fault :=
  if ¬ (size &&& CITRA_PAGE_MASK) = 0 then (s, some Fault.assertion)
  else if ¬ (base &&& CITRA_PAGE_MASK) = 0 then (s, some Fault.assertion)
  else
    let r := MapPages.outcome K E t (base / CITRA_PAGE_SIZE) (size / CITRA_PAGE_SIZE) none
      PageType.Special s
    match r.2 with
    | none =>
        let pt := r.1.page_tables t
        (r.1.setTable t
          { pt with special_regions := pt.special_regions ++ [⟨base, size, mmio_handler⟩] }, none)
    | some e => (r.1, some e)

/-- MemorySystem::UnmapRegion with the memory system as it is when the call
ends. -/
def UnmapRegion.outcome {ε : Type} (K : MemoryMap) (E : Collaborators ε) (t base size : Nat)
    (s : MemorySystem ε) : MemorySystem ε × Option Fault :=
  if ¬ (size &&& CITRA_PAGE_MASK) = 0 then (s, some Fault.assertion)
  else if ¬ (base &&& CITRA_PAGE_MASK) = 0 then (s, some Fault.assertion)
  else MapPages.outcome K E t (base / CITRA_PAGE_SIZE) (size / CITRA_PAGE_SIZE) none
    PageType.Unmapped s

/-- The result of a call, from the state it ended in and the fault that ended
it: the state when it returned, the fault otherwise. -/
def asResult {α : Type} (r : α × Option Fault) : Except Fault α :=
  match r.2 with
  | none => Except.ok r.1
  | some e => Except.error e

/-- Impl::GetPointerForRasterizerCache. -/
def GetPointerForRasterizerCache (K : MemoryMap) (addr : Nat) : Except Fault BackingRef :=
  if addr ≥ K.LINEAR_HEAP_VADDR ∧ addr < K.LINEAR_HEAP_VADDR_END then
    Except.ok ⟨Region.FCRAM, addr - K.LINEAR_HEAP_VADDR⟩
  else if addr ≥ K.NEW_LINEAR_HEAP_VADDR ∧ addr < K.NEW_LINEAR_HEAP_VADDR_END then
    Except.ok ⟨Region.FCRAM, addr - K.NEW_LINEAR_HEAP_VADDR⟩
  else if addr ≥ K.VRAM_VADDR ∧ addr < K.VRAM_VADDR_END then
    Except.ok ⟨Region.VRAM, addr - K.VRAM_VADDR⟩
  else Except.error Fault.unreachable

/-- MemorySystem::RegisterPageTable. -/
def RegisterPageTable {ε : Type} (t : Nat) (s : MemorySystem ε) : MemorySystem ε :=
  { s with page_table_list := s.page_table_list ++ [t] }

/-- MemorySystem::SetCurrentPageTable. -/
def SetCurrentPageTable {ε : Type} (t : Nat) (s : MemorySystem ε) : MemorySystem ε :=
  { s with current_page_table := some t }

/-! ## Cache membership transition -/

/-- PhysicalToVirtualAddressForRasterizer. -/
def PhysicalToVirtualAddressForRasterizer (K : MemoryMap) (addr : Nat) : List Nat :=
  if addr ≥ K.VRAM_PADDR ∧ addr < K.VRAM_PADDR_END then
    [u32 (addr - K.VRAM_PADDR + K.VRAM_VADDR)]
  else if addr ≥ K.FCRAM_PADDR ∧ addr < K.FCRAM_PADDR_END then
    [u32 (addr - K.FCRAM_PADDR + K.LINEAR_HEAP_VADDR),
     u32 (addr - K.FCRAM_PADDR + K.NEW_LINEAR_HEAP_VADDR)]
  else if addr ≥ K.FCRAM_PADDR_END ∧ addr < K.FCRAM_N3DS_PADDR_END then
    [u32 (addr - K.FCRAM_PADDR + K.NEW_LINEAR_HEAP_VADDR)]
  else []

/-- The body of the innermost loop of RasterizerMarkRegionCached: the
transition of the entry of `vaddr` in one page table. -/
def markPage (K : MemoryMap) (cached : Bool) (vaddr : Nat) (pt : PageTable) :
    Except Fault PageTable :=
  let idx := vaddr >>> CITRA_PAGE_BITS
  if cached then
    match pt.attributes idx with
    | PageType.Unmapped => Except.ok pt
    | PageType.Memory =>
        Except.ok { pt with attributes := setAt pt.attributes idx PageType.RasterizerCachedMemory,
                            pointers := setAt pt.pointers idx none }
    | _ => Except.error Fault.unreachable
  else
    match pt.attributes idx with
    | PageType.Unmapped => Except.ok pt
    | PageType.RasterizerCachedMemory =>
        match GetPointerForRasterizerCache K (vaddr &&& 0xFFFFF000) with
        | Except.ok p =>
            Except.ok { pt with attributes := setAt pt.attributes idx PageType.Memory,
                                pointers := setAt pt.pointers idx (some p) }
        | Except.error e => Except.error e
    | _ => Except.error Fault.unreachable

/-- The loop over the registered page tables. -/
def markTables {ε : Type} (K : MemoryMap) (cached : Bool) (vaddr : Nat) :
    List Nat → MemorySystem ε → Except Fault (MemorySystem ε)
  | [], s => Except.ok s
  | t :: ts, s =>
    match markPage K cached vaddr (s.page_tables t) with
    | Except.ok pt => markTables K cached vaddr ts (s.setTable t pt)
    | Except.error e => Except.error e

/-- The loop over the virtual aliases of one physical page. -/
def markAliases {ε : Type} (K : MemoryMap) (cached : Bool) :
    List Nat → MemorySystem ε → Except Fault (MemorySystem ε)
  | [], s => Except.ok s
  | vaddr :: vs, s =>
    let s1 := { s with cache_marker := RasterizerCacheMarker.Mark K s.cache_marker vaddr cached }
    match markTables K cached vaddr s1.page_table_list s1 with
    | Except.ok s2 => markAliases K cached vs s2
    | Except.error e => Except.error e

/-- The loop over the physical pages: `n` pages are left, `paddr` is the
current one. -/
def markPages {ε : Type} (K : MemoryMap) (cached : Bool) :
    Nat → Nat → MemorySystem ε → Except Fault (MemorySystem ε)
  | 0, _, s => Except.ok s
  | n + 1, paddr, s =>
    match markAliases K cached (PhysicalToVirtualAddressForRasterizer K paddr) s with
    | Except.ok s1 => markPages K cached n (u32 (paddr + CITRA_PAGE_SIZE)) s1
    | Except.error e => Except.error e

/-- The page count computed by RasterizerMarkRegionCached. -/
def num_pages (start size : Nat) : Nat :=
  u32 (sub32 (sub32 (u32 (start + size)) 1 >>> CITRA_PAGE_BITS) (start >>> CITRA_PAGE_BITS) + 1)

/-- MemorySystem::RasterizerMarkRegionCached. -/
def RasterizerMarkRegionCached {ε : Type} (K : MemoryMap) (start size : Nat) (cached : Bool)
    (s : MemorySystem ε) : Except Fault (MemorySystem ε) :=
  if start = 0 then Except.ok s
  else markPages K cached (num_pages start size) start s

/-! ## Read and Write -/

/-- The value that std::memcpy of `n` bytes out of an arena at `p` yields on
a little-endian host: byte `k` has weight 256^k. -/
def loadLE (b : Backing) (p : BackingRef) : Nat → Nat
  | 0 => 0
  | n + 1 => loadLE b p n + 256 ^ n * b p.region (p.offset + n)

/-- The arenas after std::memcpy of the `n` bytes of the value `v` into an
arena at `p`, least significant byte first. -/
def storeLE (b : Backing) (p : BackingRef) (n v : Nat) : Backing :=
  fun r o =>
    if r = p.region ∧ p.offset ≤ o ∧ o < p.offset + n then v / 256 ^ (o - p.offset) % 256
    else b r o

/-- Impl::GetMMIOHandler on the list of special regions: the handler of the
first region that contains `vaddr`; the end of a region is computed in 32
bits. -/
def GetMMIOHandler.find : List SpecialRegion → Nat → Except Fault Nat
  | [], _ => Except.error Fault.assertion
  | region :: rest, vaddr =>
    if vaddr ≥ region.base ∧ vaddr < u32 (region.base + region.size) then
      Except.ok region.handler
    else GetMMIOHandler.find rest vaddr

/-- Impl::GetMMIOHandler. -/
def GetMMIOHandler (page_table : PageTable) (vaddr : Nat) : Except Fault Nat :=
  GetMMIOHandler.find page_table.special_regions vaddr

/-- ReadMMIO<T>: the read method of the handler for the width of `w` bytes. -/
def ReadMMIO {ε : Type} (E : Collaborators ε) (mmio_handler w addr : Nat) (s : MemorySystem ε) :
    Nat × MemorySystem ε :=
  let r := E.Read mmio_handler w addr s.world
  (r.1, { s with world := r.2, calls := s.calls ++ [Call.Read mmio_handler w addr] })

/-- WriteMMIO<T>: the write method of the handler for the width of `w`
bytes. -/
def WriteMMIO {ε : Type} (E : Collaborators ε) (mmio_handler w addr data : Nat)
    (s : MemorySystem ε) : MemorySystem ε :=
  { s with world := E.Write mmio_handler w addr data s.world,
           calls := s.calls ++ [Call.Write mmio_handler w addr data] }

/-- MemorySystem::Read<T> for a type T of `w` bytes. -/
def Read {ε : Type} (K : MemoryMap) (E : Collaborators ε) (w vaddr : Nat) (s : MemorySystem ε) :
    Except Fault (Nat × MemorySystem ε) :=
  match s.current_page_table with
  | none => Except.error Fault.nullPointer
  | some t =>
    let page_table := s.page_tables t
    match page_table.pointers (vaddr >>> CITRA_PAGE_BITS) with
    | some page_pointer =>
        let p : BackingRef :=
          ⟨page_pointer.region, page_pointer.offset + (vaddr &&& CITRA_PAGE_MASK)⟩
        Except.ok (loadLE s.backing p w, s)
    | none =>
      match page_table.attributes (vaddr >>> CITRA_PAGE_BITS) with
      | PageType.Unmapped => Except.ok (0, s)
      | PageType.Memory => Except.error Fault.assertion
      | PageType.RasterizerCachedMemory =>
          let s1 := RasterizerFlushVirtualRegion K E vaddr w FlushMode.Flush s
          match GetPointerForRasterizerCache K vaddr with
          | Except.ok p => Except.ok (loadLE s1.backing p w, s1)
          | Except.error e => Except.error e
      | PageType.Special =>
          match GetMMIOHandler page_table vaddr with
          | Except.ok h => Except.ok ( ReadMMIO E h w vaddr s)
          | Except.error e => Except.error e

/-- MemorySystem::Write<T> for a type T of `w` bytes. -/
def Write {ε : Type} (K : MemoryMap) (E : Collaborators ε) (w vaddr data : Nat)
    (s : MemorySystem ε) : Except Fault (MemorySystem ε) :=
  match s.current_page_table with
  | none => Except.error Fault.nullPointer
  | some t =>
    let page_table := s.page_tables t
    match page_table.pointers (vaddr >>> CITRA_PAGE_BITS) with
    | some page_pointer =>
        let p : BackingRef :=
          ⟨page_pointer.region, page_pointer.offset + (vaddr &&& CITRA_PAGE_MASK)⟩
        Except.ok { s with backing := storeLE s.backing p w data }
    | none =>
      match page_table.attributes (vaddr >>> CITRA_PAGE_BITS) with
      | PageType.Unmapped => Except.ok s
      | PageType.Memory => Except.error Fault.assertion
      | PageType.RasterizerCachedMemory =>
          let s1 := RasterizerFlushVirtualRegion K E vaddr w FlushMode.Invalidate s
          match GetPointerForRasterizerCache K vaddr with
          | Except.ok p => Except.ok { s1 with backing := storeLE s1.backing p w data }
          | Except.error e => Except.error e
      | PageType.Special =>
          match GetMMIOHandler page_table vaddr with
          | Except.ok h => Except.ok ( WriteMMIO E h w vaddr data s)
          | Except.error e => Except.error e

/-- The address lies in one of the three virtual ranges the rasterizer cache
covers. -/
def InRasterizerRange (K : MemoryMap) (addr : Nat) : Prop :=
  (addr ≥ K.LINEAR_HEAP_VADDR ∧ addr < K.LINEAR_HEAP_VADDR_END) ∨
  (addr ≥ K.NEW_LINEAR_HEAP_VADDR ∧ addr < K.NEW_LINEAR_HEAP_VADDR_END) ∨
  (addr ≥ K.VRAM_VADDR ∧ addr < K.VRAM_VADDR_END)

instance (K : MemoryMap) (addr : Nat) : Decidable (InRasterizerRange K addr) := by
  unfold InRasterizerRange
  exact inferInstance

/-! ## The block walk -/

/-- The local variables of one iteration of the loop of WalkBlock. -/
structure Chunk where
  page_index : Nat
  page_offset : Nat
  copy_amount : Nat
  current_vaddr : Nat
  deriving DecidableEq, Repr

/-- The loop of WalkBlock over an iteration body (the switch and the call of
`increment`). The first argument bounds the iterations; WalkBlock passes
`size`, and every iteration takes at least one byte off `remaining_size`. -/
def WalkBlock.loop {σ : Type} (body : Chunk → σ → Except Fault σ) :
    Nat → Nat → Nat → Nat → σ → Except Fault σ
  | 0, _, _, _, st => Except.ok st
  | fuel + 1, remaining_size, page_index, page_offset, st =>
    if remaining_size > 0 then
      let copy_amount := min (CITRA_PAGE_SIZE - page_offset) remaining_size
      let current_vaddr := u32 ((page_index <<< CITRA_PAGE_BITS) + page_offset)
      match body ⟨page_index, page_offset, copy_amount, current_vaddr⟩ st with
      | Except.ok st1 =>
          WalkBlock.loop body fuel (remaining_size - copy_amount) (page_index + 1) 0 st1
      | Except.error e => Except.error e
    else Except.ok st

/-- The five callbacks of WalkBlock. They act on the memory system and on the
variables `α` their closures capture. -/
structure Handlers (ε α : Type) where
  on_unmapped : Nat → Nat → MemorySystem ε × α → Except Fault (MemorySystem ε × α)
  on_memory : Nat → BackingRef → MemorySystem ε × α → Except Fault (MemorySystem ε × α)
  on_special : Nat → Nat → Nat → MemorySystem ε × α → Except Fault (MemorySystem ε × α)
  on_rasterizer : Nat → Nat → BackingRef → MemorySystem ε × α →
    Except Fault (MemorySystem ε × α)
  increment : Nat → α → α

/-- The body of the loop of WalkBlock: the switch on the page type of the page
table `t`, then `increment`. The attribute array is indexed below
PAGE_TABLE_NUM_ENTRIES; a Memory page needs its pointer. -/
def WalkBlock.body {ε α : Type} (K : MemoryMap) (t : Nat) (H : Handlers ε α) (c : Chunk)
    (st : MemorySystem ε × α) : Except Fault (MemorySystem ε × α) :=
  if ¬ c.page_index < PAGE_TABLE_NUM_ENTRIES then Except.error Fault.outOfBounds
  else
    let page_table := st.1.page_tables t
    let r : Except Fault (MemorySystem ε × α) :=
      match page_table.attributes c.page_index with
      | PageType.Unmapped => H.on_unmapped c.copy_amount c.current_vaddr st
      | PageType.Memory =>
          match page_table.pointers c.page_index with
          | some p => H.on_memory c.copy_amount ⟨p.region, p.offset + c.page_offset⟩ st
          | none => Except.error Fault.nullPointer
      | PageType.Special =>
          match GetMMIOHandler page_table c.current_vaddr with
          | Except.ok handler => H.on_special handler c.copy_amount c.current_vaddr st
          | Except.error e => Except.error e
      | PageType.RasterizerCachedMemory =>
          match GetPointerForRasterizerCache K c.current_vaddr with
          | Except.ok rasterizer_ptr =>
              H.on_rasterizer c.current_vaddr c.copy_amount rasterizer_ptr st
          | Except.error e => Except.error e
    match r with
    | Except.ok st1 => Except.ok (st1.1, H.increment c.copy_amount st1.2)
    | Except.error e => Except.error e

/-- Impl::WalkBlock on the page table `t` of the process. -/
def WalkBlock {ε α : Type} (K : MemoryMap) (t : Nat) (H : Handlers ε α) (src_addr size : Nat)
    (st : MemorySystem ε × α) : Except Fault (MemorySystem ε × α) :=
  WalkBlock.loop (WalkBlock.body K t H) size size (src_addr >>> CITRA_PAGE_BITS)
    (src_addr &&& CITRA_PAGE_MASK) st

/-- The chunks the loop of WalkBlock goes through, in order. -/
def WalkBlock.chunkList : Nat → Nat → Nat → Nat → List Chunk
  | 0, _, _, _ => []
  | fuel + 1, remaining_size, page_index, page_offset =>
    if remaining_size > 0 then
      let copy_amount := min (CITRA_PAGE_SIZE - page_offset) remaining_size
      let current_vaddr := u32 ((page_index <<< CITRA_PAGE_BITS) + page_offset)
      ⟨page_index, page_offset, copy_amount, current_vaddr⟩ ::
        WalkBlock.chunkList fuel (remaining_size - copy_amount) (page_index + 1) 0
    else []

/-- The chunks of a walk of `size` bytes from `src_addr`. -/
def WalkBlock.chunks (src_addr size : Nat) : List Chunk :=
  WalkBlock.chunkList size size (src_addr >>> CITRA_PAGE_BITS) (src_addr &&& CITRA_PAGE_MASK)

/-- Running a body over a list of chunks until the first fault. -/
def runChunks {σ : Type} (body : Chunk → σ → Except Fault σ) : List Chunk → σ → Except Fault σ
  | [], st => Except.ok st
  | c :: cs, st =>
    match body c st with
    | Except.ok st1 => runChunks body cs st1
    | Except.error e => Except.error e

/-- The bytes of a buffer after `n` bytes given by `src` are stored at `pos`. -/
def fill (d : Nat → Nat) (pos n : Nat) (src : Nat → Nat) : Nat → Nat :=
  fun j => if pos ≤ j ∧ j < pos + n then src (j - pos) else d j

/-- The arenas after std::memcpy or std::memset of `n` bytes given by `src`
to the arena position `p`. -/
def copyInto (b : Backing) (p : BackingRef) (n : Nat) (src : Nat → Nat) : Backing :=
  fun r o => if r = p.region ∧ p.offset ≤ o ∧ o < p.offset + n then src (o - p.offset) else b r o

/-- The `n` bytes at the arena position `p`, by position. -/
def bytesAt (b : Backing) (p : BackingRef) : Nat → Nat :=
  fun k => b p.region (p.offset + k)

/-- The callbacks of ReadBlockImpl<false>. The captured variable is the
destination: the contents of the caller's buffer and the position of
`dest_buffer` in it. The buffer lies outside the arenas. -/
def ReadBlockImpl.handlers {ε : Type} (K : MemoryMap) (E : Collaborators ε) :
    Handlers ε ((Nat → Nat) × Nat) where
  on_unmapped := fun copy_amount _ st =>
    Except.ok (st.1, (fill st.2.1 st.2.2 copy_amount (fun _ => 0), st.2.2))
  on_memory := fun copy_amount src_ptr st =>
    Except.ok (st.1, (fill st.2.1 st.2.2 copy_amount (bytesAt st.1.backing src_ptr), st.2.2))
  on_special := fun handler copy_amount current_vaddr st =>
    let r := E.ReadBlock handler current_vaddr copy_amount st.1.world
    Except.ok ({ st.1 with world := r.2,
                           calls := st.1.calls ++ [Call.ReadBlock handler current_vaddr copy_amount] },
      (fill st.2.1 st.2.2 copy_amount r.1, st.2.2))
  on_rasterizer := fun current_vaddr copy_amount rasterizer_ptr st =>
    let s1 := RasterizerFlushVirtualRegion K E current_vaddr (u32 copy_amount) FlushMode.Flush st.1
    Except.ok (s1, (fill st.2.1 st.2.2 copy_amount (bytesAt s1.backing rasterizer_ptr), st.2.2))
  increment := fun copy_amount d => (d.1, d.2 + copy_amount)

/-- Impl::ReadBlockImpl<false>, which MemorySystem::ReadBlock calls, on the
page table `t` of the process: the memory system and the contents of the
destination buffer afterwards. -/
def ReadBlock {ε : Type} (K : MemoryMap) (E : Collaborators ε) (t src_addr : Nat)
    (dest_buffer : Nat → Nat) (size : Nat) (s : MemorySystem ε) :
    Except Fault (MemorySystem ε × (Nat → Nat)) :=
  match WalkBlock K t (ReadBlockImpl.handlers K E) src_addr size (s, (dest_buffer, 0)) with
  | Except.ok st => Except.ok (st.1, st.2.1)
  | Except.error e => Except.error e

/-- The callbacks of WriteBlockImpl<false>. The source `src` gives the bytes
of the source buffer by position; it is read in the arenas of the moment when
the buffer lies in an arena. The captured variable is the position of
`src_buffer` in the source. -/
def WriteBlockImpl.handlers {ε : Type} (K : MemoryMap) (E : Collaborators ε)
    (src : Backing → Nat → Nat) : Handlers ε Nat where
  on_unmapped := fun _ _ st => Except.ok st
  on_memory := fun copy_amount dest_ptr st =>
    let b := copyInto st.1.backing dest_ptr copy_amount (fun k => src st.1.backing (st.2 + k))
    Except.ok ({ st.1 with backing := b }, st.2)
  on_special := fun handler copy_amount current_vaddr st =>
    let data := (List.range copy_amount).map (fun k => src st.1.backing (st.2 + k))
    Except.ok ({ st.1 with world := E.WriteBlock handler current_vaddr data st.1.world,
                           calls := st.1.calls ++ [Call.WriteBlock handler current_vaddr data] },
      st.2)
  on_rasterizer := fun current_vaddr copy_amount host_ptr st =>
    let s1 := RasterizerFlushVirtualRegion K E current_vaddr (u32 copy_amount)
      FlushMode.Invalidate st.1
    let b := copyInto s1.backing host_ptr copy_amount (fun k => src s1.backing (st.2 + k))
    Except.ok ({ s1 with backing := b }, st.2)
  increment := fun copy_amount pos => pos + copy_amount

/-- Impl::WriteBlockImpl<false> on the page table `t` of the process. -/
def WriteBlockImpl {ε : Type} (K : MemoryMap) (E : Collaborators ε) (t dest_addr : Nat)
    (src : Backing → Nat → Nat) (size : Nat) (s : MemorySystem ε) :
    Except Fault (MemorySystem ε) :=
  match WalkBlock K t (WriteBlockImpl.handlers K E src) dest_addr size (s, 0) with
  | Except.ok st => Except.ok st.1
  | Except.error e => Except.error e

/-- MemorySystem::WriteBlock with a source buffer outside the arenas, given
by its bytes. -/
def WriteBlock {ε : Type} (K : MemoryMap) (E : Collaborators ε) (t dest_addr : Nat)
    (src_buffer : Nat → Nat) (size : Nat) (s : MemorySystem ε) : Except Fault (MemorySystem ε) :=
  WriteBlockImpl K E t dest_addr (fun _ => src_buffer) size s

/-- The callbacks of ZeroBlock; nothing is captured and advanced. -/
def ZeroBlock.handlers {ε : Type} (K : MemoryMap) (E : Collaborators ε) : Handlers ε Unit where
  on_unmapped := fun _ _ st => Except.ok st
  on_memory := fun copy_amount dest_ptr st =>
    Except.ok ({ st.1 with backing := copyInto st.1.backing dest_ptr copy_amount (fun _ => 0) },
      st.2)
  on_special := fun handler copy_amount current_vaddr st =>
    let data := List.replicate copy_amount 0
    Except.ok ({ st.1 with world := E.WriteBlock handler current_vaddr data st.1.world,
                           calls := st.1.calls ++ [Call.WriteBlock handler current_vaddr data] },
      st.2)
  on_rasterizer := fun current_vaddr copy_amount rasterizer_ptr st =>
    let s1 := RasterizerFlushVirtualRegion K E current_vaddr (u32 copy_amount)
      FlushMode.Invalidate st.1
    Except.ok ({ s1 with backing := copyInto s1.backing rasterizer_ptr copy_amount (fun _ => 0) },
      st.2)
  increment := fun _ u => u

/-- MemorySystem::ZeroBlock on the page table `t` of the process. -/
def ZeroBlock {ε : Type} (K : MemoryMap) (E : Collaborators ε) (t dest_addr size : Nat)
    (s : MemorySystem ε) : Except Fault (MemorySystem ε) :=
  match WalkBlock K t (ZeroBlock.handlers K E) dest_addr size (s, ()) with
  | Except.ok st => Except.ok st.1
  | Except.error e => Except.error e

/-- Lift a call that only changes the memory system to the state of a walk. -/
def withCaptured {ε α : Type} (r : Except Fault (MemorySystem ε)) (a : α) :
    Except Fault (MemorySystem ε × α) :=
  match r with
  | Except.ok s => Except.ok (s, a)
  | Except.error e => Except.error e

/-- The callbacks of CopyBlock for the destination page table `dest_t`. The
captured variables are `dest_addr` and `src_addr`; `copy_buffer` holds what
the handler's ReadBlock stored, until the write that follows. -/
def CopyBlock.handlers {ε : Type} (K : MemoryMap) (E : Collaborators ε) (dest_t : Nat) :
    Handlers ε (Nat × Nat) where
  on_unmapped := fun copy_amount _ st =>
    withCaptured (ZeroBlock K E dest_t st.2.1 copy_amount st.1) st.2
  on_memory := fun copy_amount src_ptr st =>
    withCaptured (WriteBlockImpl K E dest_t st.2.1 (fun b => bytesAt b src_ptr) copy_amount st.1)
      st.2
  on_special := fun handler copy_amount current_vaddr st =>
    let r := E.ReadBlock handler current_vaddr copy_amount st.1.world
    let s1 : MemorySystem ε :=
      { st.1 with world := r.2,
                  calls := st.1.calls ++ [Call.ReadBlock handler current_vaddr copy_amount] }
    withCaptured (WriteBlockImpl K E dest_t st.2.1 (fun _ => r.1) copy_amount s1) st.2
  on_rasterizer := fun current_vaddr copy_amount rasterizer_ptr st =>
    let s1 := RasterizerFlushVirtualRegion K E current_vaddr (u32 copy_amount) FlushMode.Flush st.1
    withCaptured
      (WriteBlockImpl K E dest_t st.2.1 (fun b => bytesAt b rasterizer_ptr) copy_amount s1) st.2
  increment := fun copy_amount a => (u32 (a.1 + u32 copy_amount), u32 (a.2 + u32 copy_amount))

/-- MemorySystem::CopyBlock from the page table `src_t` of the source process
to the page table `dest_t` of the destination process. -/
def CopyBlock {ε : Type} (K : MemoryMap) (E : Collaborators ε) (dest_t src_t : Nat)
    (dest_addr src_addr size : Nat) (s : MemorySystem ε) : Except Fault (MemorySystem ε) :=
  match WalkBlock K src_t (CopyBlock.handlers K E dest_t) src_addr size
      (s, (dest_addr, src_addr)) with
  | Except.ok st => Except.ok st.1
  | Except.error e => Except.error e

/-! ## Sequences of mapping operations -/

/-- The operations that change page tables. -/
inductive Operation where
  | MapMemoryRegion (t base size : Nat) (target : MemoryRef)
  | MapIoRegion (t base size mmio_handler : Nat)
  | UnmapRegion (t base size : Nat)
  | RasterizerMarkRegionCached (start size : Nat) (cached : Bool)
  deriving DecidableEq, Repr

/-- One operation applied to the memory system. -/
def Operation.apply {ε : Type} (K : MemoryMap) (E : Collaborators ε) :
    Operation → MemorySystem ε → Except Fault (MemorySystem ε)
  | Operation.MapMemoryRegion t base size target, s =>
      Memory.MapMemoryRegion K E t base size target s
  | Operation.MapIoRegion t base size h, s => Memory.MapIoRegion K E t base size h s
  | Operation.UnmapRegion t base size, s => Memory.UnmapRegion K E t base size s
  | Operation.RasterizerMarkRegionCached start size cached, s =>
      Memory.RasterizerMarkRegionCached K start size cached s

/-- Whether the operation maps memory with the null reference. -/
def Operation.hasNullTarget : Operation → Bool
  | Operation.MapMemoryRegion _ _ _ none => true
  | _ => false

/-- A sequence of operations, each applied to the state the previous one
left; the first fault ends the run. -/
def runOperations {ε : Type} (K : MemoryMap) (E : Collaborators ε) :
    List Operation → MemorySystem ε → Except Fault (MemorySystem ε)
  | [], s => Except.ok s
  | op :: ops, s =>
    match op.apply K E s with
    | Except.ok s1 => runOperations K E ops s1
    | Except.error e => Except.error e

/-- The page-table invariant of the data model: the direct pointer of an
entry is non-null exactly when its type is Memory. -/
def PageTable.PointerIffMemory (pt : PageTable) : Prop :=
  ∀ i, pt.pointers i ≠ none ↔ pt.attributes i = PageType.Memory

/-! ## Concrete collaborators and states for the runs -/

/-- Collaborators that do nothing: a rasterizer whose calls leave the arenas
alone and handlers that read 0. -/
def stub : Collaborators Unit where
  renderer := true
  FlushRegion := fun _ _ x => x
  InvalidateRegion := fun _ _ x => x
  FlushAndInvalidateRegion := fun _ _ x => x
  ClearAll := fun _ x => x
  Read := fun _ _ _ x => (0, x)
  Write := fun _ _ _ _ x => x
  ReadBlock := fun _ _ _ x => (fun _ => 0, x)
  WriteBlock := fun _ _ _ x => x

/-- A page table as PageTable::Clear leaves it, with no special region. -/
def clearedTable : PageTable where
  pointers := fun _ => none
  attributes := fun _ => PageType.Unmapped
  special_regions := []

/-- A memory system with zeroed arenas, nothing cached, cleared page tables,
the tables 0 and 1 registered and table 0 current. -/
def freshSystem : MemorySystem Unit where
  backing := fun _ _ => 0
  cache_marker := ⟨fun _ => false, fun _ => false, fun _ => false⟩
  page_tables := fun _ => clearedTable
  page_table_list := [0, 1]
  current_page_table := some 0
  world := ()
  calls := []

/-- The state a call returned, or `d` when it ended with a fault. -/
def resultOr {α : Type} (r : Except Fault α) (d : α) : α :=
  match r with
  | Except.ok a => a
  | Except.error _ => d

/-- Whether a call returned. -/
def returns {α : Type} (r : Except Fault α) : Bool :=
  match r with
  | Except.ok _ => true
  | Except.error _ => false

/-! ## Surface parameters (video_core/rasterizer_cache/surface_params.h) -/

inductive TextureType where
  | Texture2D
  | CubeMap
  deriving DecidableEq, Repr

/-- The two functions of video_core/rasterizer_cache/pixel_format.h that
SurfaceParams calls. The header is not among the sources, so they are a
parameter; a pixel format and a surface type stand as the number of their
enumerator. -/
structure PixelFormats where
  GetFormatBpp : Nat → Nat
  GetFormatType : Nat → Nat

/-- The members of SurfaceParams; the member `end` is `end_` here. -/
structure SurfaceParams where
  addr : Nat
  end_ : Nat
  size : Nat
  width : Nat
  height : Nat
  stride : Nat
  res_scale : Nat
  is_tiled : Bool
  texture_type : TextureType
  pixel_format : Nat
  type : Nat
  deriving DecidableEq, Repr

/-- SurfaceInterval, boost::icl::right_open_interval<PAddr>: the addresses
from `lower` up to, not including, `upper`. -/
structure SurfaceInterval where
  lower : Nat
  upper : Nat
  deriving DecidableEq, Repr

/-- Membership in a right-open interval. -/
def SurfaceInterval.contains (i : SurfaceInterval) (a : Nat) : Prop :=
  i.lower ≤ a ∧ a < i.upper

/-- SurfaceParams::GetFormatBpp. -/
def SurfaceParams.GetFormatBpp (F : PixelFormats) (p : SurfaceParams) : Nat :=
  F.GetFormatBpp p.pixel_format

/-- SurfaceParams::PixelsInBytes, in 32 bits; the division is by the bits per
pixel of the format, which the source takes to be above 0. -/
def SurfaceParams.PixelsInBytes (F : PixelFormats) (p : SurfaceParams) (size : Nat) : Nat :=
  u32 (size * 8) / p.GetFormatBpp F

/-- SurfaceParams::BytesInPixels, in 32 bits. -/
def SurfaceParams.BytesInPixels (F : PixelFormats) (p : SurfaceParams) (pixels : Nat) : Nat :=
  u32 (pixels * p.GetFormatBpp F) / 8

/-- SurfaceParams::UpdateParams. Every product, sum and difference is taken
in 32 bits, as the members and the operands are u32. -/
def SurfaceParams.UpdateParams (F : PixelFormats) (p : SurfaceParams) : SurfaceParams :=
  let p1 : SurfaceParams := if p.stride = 0 then { p with stride := p.width } else p
  let p2 : SurfaceParams := { p1 with type := F.GetFormatType p1.pixel_format }
  let size :=
    if ¬ p2.is_tiled = true then
      p2.BytesInPixels F (u32 (u32 (p2.stride * sub32 p2.height 1) + p2.width))
    else
      p2.BytesInPixels F
        (u32 (u32 (u32 (p2.stride * 8) * sub32 (p2.height / 8) 1) + u32 (p2.width * 8)))
  { p2 with size := size, end_ := u32 (p2.addr + size) }

/-- SurfaceParams::IsScaled. -/
def SurfaceParams.IsScaled (p : SurfaceParams) : Bool :=
  decide (p.res_scale > 1)

/-- SurfaceParams::GetInterval. -/
def SurfaceParams.GetInterval (p : SurfaceParams) : SurfaceInterval :=
  ⟨p.addr, p.end_⟩

/-- Pixel formats for the runs: format 0 is RGBA8 with 32 bits per pixel,
the format of the spec's example, and format 13 has 4 bits per pixel; the
surface type is 0 for every format. -/
def sampleFormats : PixelFormats where
  GetFormatBpp := fun f => if f = 0 then 32 else if f = 13 then 4 else 16
  GetFormatType := fun _ => 0

/-- A surface before UpdateParams: only addr, width, height, stride, the
tiling and the format are set. -/
def surfaceOf (addr width height stride : Nat) (is_tiled : Bool) (pixel_format : Nat) :
    SurfaceParams where
  addr := addr
  end_ := 0
  size := 0
  width := width
  height := height
  stride := stride
  res_scale := 1
  is_tiled := is_tiled
  texture_type := TextureType.Texture2D
  pixel_format := pixel_format
  type := 0

/-! ## Definitions used by the statements: specifications, relations and concrete states -/

/-- A run that maps two pages of the linear heap, marks the first one cached,
maps an MMIO page, unmaps the second heap page and uncaches the first. -/
def sampleRun : List Operation :=
  [Operation.MapMemoryRegion 0 0x14000000 0x2000 (some ⟨Region.FCRAM, 0⟩),
   Operation.RasterizerMarkRegionCached 0x20000000 0x1000 true,
   Operation.MapIoRegion 0 0x1000 0x1000 7,
   Operation.UnmapRegion 0 0x14001000 0x1000,
   Operation.RasterizerMarkRegionCached 0x20000000 0x1000 false]

/-- The state after `sampleRun`: in table 0 the first page of the linear heap
is Memory again and the page at 0x1000 is Special with handler 7. -/
def sampleSystem : MemorySystem Unit :=
  resultOr (runOperations console stub sampleRun freshSystem) freshSystem

/-- The type and direct pointer of entry `pg`. -/
def PageTable.entry (pt : PageTable) (pg : Nat) : PageType × MemoryRef :=
  (pt.attributes pg, pt.pointers pg)

/-- What RasterizerMarkRegionCached does to an entry it visits and does not
fault on: Unmapped stays as it is; with `cached` a Memory entry becomes
RasterizerCachedMemory with a null pointer; without `cached` a
RasterizerCachedMemory entry becomes Memory with the arena pointer of the
start of its page. -/
def Transition (K : MemoryMap) (cached : Bool) (pg : Nat) (e e' : PageType × MemoryRef) : Prop :=
  (e.1 = PageType.Unmapped ∧ e' = e) ∨
  (cached = true ∧ e.1 = PageType.Memory ∧ e' = (PageType.RasterizerCachedMemory, none)) ∨
  (cached = false ∧ e.1 = PageType.RasterizerCachedMemory ∧
    ∃ p, GetPointerForRasterizerCache K (pg * 4096) = Except.ok p ∧
      e' = (PageType.Memory, some p))

/-- The entries `V` selects went through the transition, the others are as
they were. -/
def MarkRel {ε : Type} (K : MemoryMap) (cached : Bool) (V : Nat → Nat → Prop)
    (s s' : MemorySystem ε) : Prop :=
  ∀ t pg, (V t pg → Transition K cached pg ((s.page_tables t).entry pg)
      ((s'.page_tables t).entry pg)) ∧
    (¬ V t pg → (s'.page_tables t).entry pg = (s.page_tables t).entry pg)

/-- The physical address of the `i`-th iteration of the page loop that
starts at `paddr`. -/
def pageAddress (paddr : Nat) : Nat → Nat
  | 0 => paddr
  | i + 1 => pageAddress (u32 (paddr + CITRA_PAGE_SIZE)) i

/-- Two registered tables that map the first page of main memory through
different aliases: table 0 in the linear heap, table 1 in the new linear
heap. -/
def aliasSystem : MemorySystem Unit :=
  resultOr (runOperations console stub
    [Operation.MapMemoryRegion 0 0x14000000 0x1000 (some ⟨Region.FCRAM, 0⟩),
     Operation.MapMemoryRegion 1 0x30000000 0x1000 (some ⟨Region.FCRAM, 0⟩)] freshSystem)
    freshSystem

/-- The state of `aliasSystem` after the page is marked cached. -/
def aliasSystemCached : MemorySystem Unit :=
  resultOr (RasterizerMarkRegionCached console 0x20000000 0x1000 true aliasSystem) aliasSystem

/-- The reference MapPages holds after one more page: advanced by a page
while more than a page is left behind it. -/
def nextPageRef (K : MemoryMap) (memory : MemoryRef) : MemoryRef :=
  if memory ≠ none ∧ MemoryRef.GetSize K memory > CITRA_PAGE_SIZE then
    MemoryRef.advance memory CITRA_PAGE_SIZE
  else memory

/-- The reference MapPages holds when it reaches the `k`-th page. -/
def pageRef (K : MemoryMap) (memory : MemoryRef) : Nat → MemoryRef
  | 0 => memory
  | k + 1 => pageRef K (nextPageRef K memory) k

/-- The entry MapPages writes for page `j` when it holds the reference `m`. -/
def mappedEntry (K : MemoryMap) (marker : RasterizerCacheMarker) (type : PageType) (j : Nat)
    (m : MemoryRef) : PageType × MemoryRef :=
  if type = PageType.Memory ∧
      RasterizerCacheMarker.IsCached K marker (j * CITRA_PAGE_SIZE) = true then
    (PageType.RasterizerCachedMemory, none)
  else (type, m)

/-- The state with the first page of main memory marked cached. -/
def cachedSystem : MemorySystem Unit :=
  resultOr (RasterizerMarkRegionCached console 0x20000000 0x1000 true freshSystem) freshSystem

/-- The state of `cachedSystem` after table 0 maps two pages of the linear
heap. -/
def cachedSystemMapped : MemorySystem Unit :=
  resultOr (MapMemoryRegion console stub 0 0x14000000 0x2000 (some ⟨Region.FCRAM, 0⟩)
    cachedSystem) cachedSystem

/-- What the switch of WalkBlock needs of a chunk not to fault: an index
inside the page table, the pointer of a Memory page, the handler of a Special
page, the arena pointer of a RasterizerCachedMemory page. -/
def ChunkOk (K : MemoryMap) (pt : PageTable) (c : Chunk) : Prop :=
  c.page_index < PAGE_TABLE_NUM_ENTRIES ∧
  (pt.attributes c.page_index = PageType.Memory → pt.pointers c.page_index ≠ none) ∧
  (pt.attributes c.page_index = PageType.Special →
    ∃ h, GetMMIOHandler pt c.current_vaddr = Except.ok h) ∧
  (pt.attributes c.page_index = PageType.RasterizerCachedMemory →
    ∃ p, GetPointerForRasterizerCache K c.current_vaddr = Except.ok p)

/-- The memory system after ReadBlock has handled one chunk, and the bytes it
stored into the destination for it. -/
def readChunk {ε : Type} (K : MemoryMap) (E : Collaborators ε) (t : Nat) (c : Chunk)
    (s : MemorySystem ε) : MemorySystem ε × (Nat → Nat) :=
  match (s.page_tables t).attributes c.page_index with
  | PageType.Unmapped => (s, fun _ => 0)
  | PageType.Memory =>
      match (s.page_tables t).pointers c.page_index with
      | some p => (s, bytesAt s.backing ⟨p.region, p.offset + c.page_offset⟩)
      | none => (s, fun _ => 0)
  | PageType.Special =>
      match GetMMIOHandler (s.page_tables t) c.current_vaddr with
      | Except.ok h =>
          let r := E.ReadBlock h c.current_vaddr c.copy_amount s.world
          ({ s with world := r.2,
                    calls := s.calls ++ [Call.ReadBlock h c.current_vaddr c.copy_amount] }, r.1)
      | Except.error _ => (s, fun _ => 0)
  | PageType.RasterizerCachedMemory =>
      match GetPointerForRasterizerCache K c.current_vaddr with
      | Except.ok p =>
          let s1 := RasterizerFlushVirtualRegion K E c.current_vaddr (u32 c.copy_amount)
            FlushMode.Flush s
          (s1, bytesAt s1.backing p)
      | Except.error _ => (s, fun _ => 0)

/-- The address at which the chunk that holds the address `a` starts, in a
walk from `src_addr`: the start of the page of `a`, or `src_addr` on the
first page. -/
def chunkStart (src_addr a : Nat) : Nat :=
  max src_addr (a / CITRA_PAGE_SIZE * CITRA_PAGE_SIZE)

/-- The length of the chunk that holds the address `a`, in a walk of `size`
bytes from `src_addr`: up to the end of the page or of the range. -/
def chunkLength (src_addr size a : Nat) : Nat :=
  min (CITRA_PAGE_SIZE - chunkStart src_addr a % CITRA_PAGE_SIZE)
    (src_addr + size - chunkStart src_addr a)

/-- Collaborators whose MMIO handlers read, at each address, the low byte of
the address; the rasterizer does nothing. -/
def patternDevice : Collaborators Unit where
  renderer := true
  FlushRegion := fun _ _ x => x
  InvalidateRegion := fun _ _ x => x
  FlushAndInvalidateRegion := fun _ _ x => x
  ClearAll := fun _ x => x
  Read := fun _ _ vaddr x => (vaddr % 256, x)
  Write := fun _ _ _ _ x => x
  ReadBlock := fun _ vaddr _ x => (fun k => (vaddr + k) % 256, x)
  WriteBlock := fun _ _ _ x => x

/-- A page table with page 0x10 Unmapped, page 0x11 Memory at offset 0x101 of
main memory and page 0x12 Special with handler 7. -/
def blockTable : PageTable where
  pointers := fun i => if i = 0x11 then some ⟨Region.FCRAM, 0x101⟩ else none
  attributes := fun i =>
    if i = 0x11 then PageType.Memory else if i = 0x12 then PageType.Special
    else PageType.Unmapped
  special_regions := [⟨0x12000, 0x1000, 7⟩]

/-- A memory system whose arenas hold, at each offset, the low byte of the
offset, and whose page tables are `blockTable`. -/
def blockSystem : MemorySystem Unit where
  backing := fun _ o => o % 256
  cache_marker := ⟨fun _ => false, fun _ => false, fun _ => false⟩
  page_tables := fun _ => blockTable
  page_table_list := [0]
  current_page_table := some 0
  world := ()
  calls := []

/-- The three virtual ranges of the rasterizer cache, as CheckRegion and
GetPointerForRasterizerCache list them: start, end, physical start, arena. -/
def MemoryMap.rasterizerRanges (K : MemoryMap) : List (Nat × Nat × Nat × Region) :=
  [(K.LINEAR_HEAP_VADDR, K.LINEAR_HEAP_VADDR_END, K.FCRAM_PADDR, Region.FCRAM),
   (K.NEW_LINEAR_HEAP_VADDR, K.NEW_LINEAR_HEAP_VADDR_END, K.FCRAM_PADDR, Region.FCRAM),
   (K.VRAM_VADDR, K.VRAM_VADDR_END, K.VRAM_PADDR, Region.VRAM)]

/-- The three virtual ranges end at least 8 bytes before the end of the
address space and lie at least 8 bytes apart, so that an access of up to 8
bytes that starts in one does not reach another. -/
def MemoryMap.RangesApart (K : MemoryMap) : Prop :=
  K.LINEAR_HEAP_VADDR_END + 8 ≤ 4294967296 ∧
  K.NEW_LINEAR_HEAP_VADDR_END + 8 ≤ 4294967296 ∧
  K.VRAM_VADDR_END + 8 ≤ 4294967296 ∧
  (K.LINEAR_HEAP_VADDR_END + 8 ≤ K.NEW_LINEAR_HEAP_VADDR ∨
    K.NEW_LINEAR_HEAP_VADDR_END + 8 ≤ K.LINEAR_HEAP_VADDR) ∧
  (K.LINEAR_HEAP_VADDR_END + 8 ≤ K.VRAM_VADDR ∨ K.VRAM_VADDR_END + 8 ≤ K.LINEAR_HEAP_VADDR) ∧
  (K.NEW_LINEAR_HEAP_VADDR_END + 8 ≤ K.VRAM_VADDR ∨
    K.VRAM_VADDR_END + 8 ≤ K.NEW_LINEAR_HEAP_VADDR)

instance (K : MemoryMap) : Decidable K.RangesApart := by
  unfold MemoryMap.RangesApart
  exact inferInstance

/-- The last page of the linear heap mapped in table 0 and marked cached. -/
def heapEndSystem : MemorySystem Unit :=
  resultOr (runOperations console stub
    [Operation.MapMemoryRegion 0 0x1BFFF000 0x1000 (some ⟨Region.FCRAM, 0x07FFF000⟩),
     Operation.RasterizerMarkRegionCached 0x27FFF000 0x1000 true] freshSystem) freshSystem

/-- The first page of the linear heap mapped in table 0 and marked cached. -/
def heapStartSystem : MemorySystem Unit :=
  resultOr (runOperations console stub
    [Operation.MapMemoryRegion 0 0x14000000 0x1000 (some ⟨Region.FCRAM, 0⟩),
     Operation.RasterizerMarkRegionCached 0x20000000 0x1000 true] freshSystem) freshSystem

/-- The arena byte a block write at the address `a` lands on: the page
pointer plus the page offset on a Memory page, the arena pointer of the
address on a RasterizerCachedMemory page, none on other pages. -/
def writeTarget (K : MemoryMap) (pt : PageTable) (a : Nat) : Option BackingRef :=
  match pt.attributes (a >>> CITRA_PAGE_BITS) with
  | PageType.Memory =>
      (pt.pointers (a >>> CITRA_PAGE_BITS)).map
        (fun p => ⟨p.region, p.offset + (a &&& CITRA_PAGE_MASK)⟩)
  | PageType.RasterizerCachedMemory =>
      match GetPointerForRasterizerCache K a with
      | Except.ok p => some p
      | Except.error _ => none
  | _ => none

/-- The arenas with one byte replaced. -/
def setByte (b : Backing) (q : BackingRef) (v : Nat) : Backing :=
  fun r o => if r = q.region ∧ o = q.offset then v else b r o

/-- The arenas after the bytes `data 0 .. data (n-1)` are written, in this
order, to the targets of the addresses `addr .. addr + n - 1`. -/
def writeRange (tgt : Nat → Option BackingRef) (addr : Nat) (data : Nat → Nat) :
    Nat → Backing → Backing
  | 0, b => b
  | n + 1, b =>
    match tgt (addr + n) with
    | some q => setByte (writeRange tgt addr data n b) q (data n)
    | none => writeRange tgt addr data n b

/-- The bounds of the three virtual ranges are multiples of the page size. -/
def MemoryMap.PageAligned (K : MemoryMap) : Prop :=
  K.LINEAR_HEAP_VADDR % 4096 = 0 ∧ K.LINEAR_HEAP_VADDR_END % 4096 = 0 ∧
  K.NEW_LINEAR_HEAP_VADDR % 4096 = 0 ∧ K.NEW_LINEAR_HEAP_VADDR_END % 4096 = 0 ∧
  K.VRAM_VADDR % 4096 = 0 ∧ K.VRAM_VADDR_END % 4096 = 0

instance (K : MemoryMap) : Decidable K.PageAligned := by
  unfold MemoryMap.PageAligned
  exact inferInstance

/-- The chunks of the list follow each other from the address `addr` on, each
inside its page. -/
def ChunksFrom : Nat → List Chunk → Prop
  | _, [] => True
  | addr, c :: cs =>
    c.current_vaddr = addr ∧ c.page_index * 4096 + c.page_offset = addr ∧
    c.page_offset + c.copy_amount ≤ 4096 ∧ 0 < c.copy_amount ∧
    ChunksFrom (addr + c.copy_amount) cs

/-- The memory system after WriteBlockImpl has handled one chunk with the
source at position `pos`. -/
def writeChunk {ε : Type} (K : MemoryMap) (E : Collaborators ε) (t : Nat)
    (src : Backing → Nat → Nat) (c : Chunk) (pos : Nat) (s : MemorySystem ε) : MemorySystem ε :=
  match (s.page_tables t).attributes c.page_index with
  | PageType.Unmapped => s
  | PageType.Memory =>
      match (s.page_tables t).pointers c.page_index with
      | some p =>
          let b := copyInto s.backing ⟨p.region, p.offset + c.page_offset⟩ c.copy_amount
            (fun k => src s.backing (pos + k))
          { s with backing := b }
      | none => s
  | PageType.Special =>
      match GetMMIOHandler (s.page_tables t) c.current_vaddr with
      | Except.ok h =>
          let data := (List.range c.copy_amount).map (fun k => src s.backing (pos + k))
          { s with world := E.WriteBlock h c.current_vaddr data s.world,
                   calls := s.calls ++ [Call.WriteBlock h c.current_vaddr data] }
      | Except.error _ => s
  | PageType.RasterizerCachedMemory =>
      match GetPointerForRasterizerCache K c.current_vaddr with
      | Except.ok p =>
          let s1 := RasterizerFlushVirtualRegion K E c.current_vaddr (u32 c.copy_amount)
            FlushMode.Invalidate s
          let b := copyInto s1.backing p c.copy_amount (fun k => src s1.backing (pos + k))
          { s1 with backing := b }
      | Except.error _ => s

/-- Table 0 maps the pages 0x20 and 0x21 onto the same page of main memory;
page 0x22 is Unmapped. -/
def sharedPagesSystem : MemorySystem Unit :=
  resultOr (runOperations console stub
    [Operation.MapMemoryRegion 0 0x20000 0x1000 (some ⟨Region.FCRAM, 0x07FFF000⟩),
     Operation.MapMemoryRegion 0 0x21000 0x1000 (some ⟨Region.FCRAM, 0x07FFF000⟩)] freshSystem)
    freshSystem

/-- The bytes a walk over the source reads for one chunk, with the arenas `b`
and the collaborator state `w`: zeros on an Unmapped page, arena bytes on a
Memory or RasterizerCachedMemory page, the handler's bytes on a Special
page. -/
def sourceBytes {ε : Type} (K : MemoryMap) (E : Collaborators ε) (pt : PageTable)
    (b : Backing) (w : ε) (c : Chunk) : Nat → Nat :=
  match pt.attributes c.page_index with
  | PageType.Unmapped => fun _ => 0
  | PageType.Memory =>
      match pt.pointers c.page_index with
      | some p => bytesAt b ⟨p.region, p.offset + c.page_offset⟩
      | none => fun _ => 0
  | PageType.Special =>
      match GetMMIOHandler pt c.current_vaddr with
      | Except.ok h => (E.ReadBlock h c.current_vaddr c.copy_amount w).1
      | Except.error _ => fun _ => 0
  | PageType.RasterizerCachedMemory =>
      match GetPointerForRasterizerCache K c.current_vaddr with
      | Except.ok p => bytesAt b p
      | Except.error _ => fun _ => 0

/-- The fault that ended a call, if it did not return. -/
def faultOf {α : Type} (r : Except Fault α) : Option Fault :=
  match r with
  | Except.ok _ => none
  | Except.error e => some e

/-- The memory system after table 0 has mapped the last page of the address
space as an IO region with handler 7. -/
def topIoSystem : MemorySystem Unit :=
  resultOr (MapIoRegion console stub 0 0xFFFFF000 0x1000 7 freshSystem) freshSystem

/-- The memory system after table 0 has mapped the first page of video
memory, at 0x1F000000, as an IO region with handler 7. -/
def vramIoSystem : MemorySystem Unit :=
  resultOr (MapIoRegion console stub 0 0x1F000000 0x1000 7 freshSystem) freshSystem

/-- The virtual addresses RasterizerMarkRegionCached goes through, in the
order of its loops: the aliases of the `n` physical pages from `paddr` on. -/
def aliasList (K : MemoryMap) : Nat → Nat → List Nat
  | 0, _ => []
  | n + 1, paddr =>
    PhysicalToVirtualAddressForRasterizer K paddr ++ aliasList K n (u32 (paddr + CITRA_PAGE_SIZE))

/-- The page-table indices RasterizerMarkRegionCached(start, size, ..) goes
through, in order. -/
def aliasPages (K : MemoryMap) (start size : Nat) : List Nat :=
  (aliasList K (num_pages start size) start).map (fun v => v >>> CITRA_PAGE_BITS)

/-- The boolean of the tracker in one slot. -/
def RasterizerCacheMarker.get (m : RasterizerCacheMarker) : MarkerSlot → Bool
  | MarkerSlot.vram i => m.vram i
  | MarkerSlot.linear_heap i => m.linear_heap i
  | MarkerSlot.new_linear_heap i => m.new_linear_heap i

/-- The tracker after the addresses of the list are marked, one after the
other. -/
def markAll (K : MemoryMap) (cached : Bool) (m : RasterizerCacheMarker) (vs : List Nat) :
    RasterizerCacheMarker :=
  vs.foldl (fun m v => RasterizerCacheMarker.Mark K m v cached) m

/-- The virtual ranges of the memory map are page-aligned, end inside the
address space and are at least as long as the physical regions they alias, so
that every alias PhysicalToVirtualAddressForRasterizer yields lies in its
virtual range. -/
def MemoryMap.AliasesInRanges (K : MemoryMap) : Prop :=
  K.PageAligned ∧
  K.VRAM_VADDR + (K.VRAM_PADDR_END - K.VRAM_PADDR) ≤ K.VRAM_VADDR_END ∧
  K.VRAM_VADDR_END ≤ 4294967296 ∧
  K.LINEAR_HEAP_VADDR + (K.FCRAM_PADDR_END - K.FCRAM_PADDR) ≤ K.LINEAR_HEAP_VADDR_END ∧
  K.LINEAR_HEAP_VADDR_END ≤ 4294967296 ∧
  K.NEW_LINEAR_HEAP_VADDR + (K.FCRAM_N3DS_PADDR_END - K.FCRAM_PADDR) ≤
    K.NEW_LINEAR_HEAP_VADDR_END ∧
  K.NEW_LINEAR_HEAP_VADDR_END ≤ 4294967296 ∧
  K.FCRAM_PADDR ≤ K.FCRAM_PADDR_END ∧ K.FCRAM_PADDR_END ≤ K.FCRAM_N3DS_PADDR_END

instance (K : MemoryMap) : Decidable K.AliasesInRanges := by
  unfold MemoryMap.AliasesInRanges
  exact inferInstance

/-- The memory system after table 0 has mapped the last page of video memory,
at 0x1F5FF000, onto the last page of the video-memory arena. -/
def vramEndSystem : MemorySystem Unit :=
  resultOr (MapMemoryRegion console stub 0 0x1F5FF000 0x1000 (some ⟨Region.VRAM, 0x5FF000⟩)
    freshSystem) freshSystem

/-- The callbacks leave the tracker as it is. -/
def Handlers.KeepMarker {ε α : Type} (H : Handlers ε α) : Prop :=
  (∀ a b st st', H.on_unmapped a b st = Except.ok st' →
    st'.1.cache_marker = st.1.cache_marker) ∧
  (∀ a b st st', H.on_memory a b st = Except.ok st' →
    st'.1.cache_marker = st.1.cache_marker) ∧
  (∀ a b c st st', H.on_special a b c st = Except.ok st' →
    st'.1.cache_marker = st.1.cache_marker) ∧
  (∀ a b c st st', H.on_rasterizer a b c st = Except.ok st' →
    st'.1.cache_marker = st.1.cache_marker)

/-- The memory system without the record of the calls made to the
collaborators. -/
def MemorySystem.forgetCalls {ε : Type} (s : MemorySystem ε) : MemorySystem ε :=
  { s with calls := [] }

/-- A rasterizer whose FlushRegion, InvalidateRegion and
FlushAndInvalidateRegion do nothing. -/
def Collaborators.IdleRasterizer {ε : Type} (E : Collaborators ε) : Prop :=
  (∀ a n x, E.FlushRegion a n x = x) ∧ (∀ a n x, E.InvalidateRegion a n x = x) ∧
  (∀ a n x, E.FlushAndInvalidateRegion a n x = x)

/-- Collaborators as `stub`, with no renderer. -/
def noRenderer : Collaborators Unit :=
  { stub with renderer := false }

/-- Table 0 maps the pages 0x20 and 0x21 as Memory, onto pages of main memory
that do not follow each other: offsets 0x5000 and 0x1000. -/
def splitPagesSystem : MemorySystem Unit :=
  resultOr (runOperations console stub
    [Operation.MapMemoryRegion 0 0x20000 0x1000 (some ⟨Region.FCRAM, 0x5000⟩),
     Operation.MapMemoryRegion 0 0x21000 0x1000 (some ⟨Region.FCRAM, 0x1000⟩)] freshSystem)
    freshSystem

/-- The state of `splitPagesSystem` after the bytes 0x11, 0x22, 0x33, 0x44
are written, one Write8 each, to the four addresses from 0x20FFE on. -/
def straddleSystem : MemorySystem Unit :=
  resultOr
    (Write console stub 1 0x20FFE 0x11 splitPagesSystem >>= Write console stub 1 0x20FFF 0x22
      >>= Write console stub 1 0x21000 0x33 >>= Write console stub 1 0x21001 0x44)
    splitPagesSystem

/-- The cache-coherency invariant for one page table and the tracker `m`: no
entry is Memory while the boolean of the address of its page is true, and no
entry is RasterizerCachedMemory while that boolean is false. -/
def PageTable.Coherent (K : MemoryMap) (m : RasterizerCacheMarker) (pt : PageTable) : Prop :=
  ∀ pg, pg < PAGE_TABLE_NUM_ENTRIES →
    (pt.attributes pg = PageType.Memory →
      RasterizerCacheMarker.IsCached K m (pg * CITRA_PAGE_SIZE) = false) ∧
    (pt.attributes pg = PageType.RasterizerCachedMemory →
      RasterizerCacheMarker.IsCached K m (pg * CITRA_PAGE_SIZE) = true)

/-- The cache-coherency invariant of the memory system: every registered page
table is coherent with the tracker. -/
def MemorySystem.Coherent {ε : Type} (K : MemoryMap) (s : MemorySystem ε) : Prop :=
  ∀ t, t ∈ s.page_table_list → (s.page_tables t).Coherent K s.cache_marker

/-- Every entry of the page table is Unmapped. -/
def PageTable.AllUnmapped (pt : PageTable) : Prop :=
  ∀ pg, pg < PAGE_TABLE_NUM_ENTRIES → pt.attributes pg = PageType.Unmapped

/-- A step of a run: the registration of a page table, or one of the
operations that change page tables. -/
inductive Step where
  | Register (t : Nat)
  | Apply (op : Operation)
  deriving DecidableEq, Repr

/-- One step applied to the memory system. -/
def Step.apply {ε : Type} (K : MemoryMap) (E : Collaborators ε) :
    Step → MemorySystem ε → Except Fault (MemorySystem ε)
  | Step.Register t, s => Except.ok (RegisterPageTable t s)
  | Step.Apply op, s => op.apply K E s

/-- A sequence of steps, each applied to the state the previous one left; the
first fault ends the run. -/
def runSteps {ε : Type} (K : MemoryMap) (E : Collaborators ε) :
    List Step → MemorySystem ε → Except Fault (MemorySystem ε)
  | [], s => Except.ok s
  | st :: rest, s =>
    match st.apply K E s with
    | Except.ok s1 => runSteps K E rest s1
    | Except.error e => Except.error e

/-- Every registration of the run, started in the state `s`, registers a page
table whose entries are all Unmapped at that moment. -/
def RegistersUnmapped {ε : Type} (K : MemoryMap) (E : Collaborators ε) :
    List Step → MemorySystem ε → Prop
  | [], _ => True
  | Step.Register t :: rest, s =>
    (s.page_tables t).AllUnmapped ∧ RegistersUnmapped K E rest (RegisterPageTable t s)
  | Step.Apply op :: rest, s =>
    match op.apply K E s with
    | Except.ok s1 => RegistersUnmapped K E rest s1
    | Except.error _ => True

/-- A memory system as the constructor leaves it: zeroed arenas, nothing
cached, cleared page tables, no table registered, no current table. -/
def emptySystem : MemorySystem Unit where
  backing := fun _ _ => 0
  cache_marker := ⟨fun _ => false, fun _ => false, fun _ => false⟩
  page_tables := fun _ => clearedTable
  page_table_list := []
  current_page_table := none
  world := ()
  calls := []

/-- A run with two page tables: table 0 is registered and maps two pages of
the linear heap, the first of them is marked cached, then table 1 is
registered and maps the same physical page through the new linear heap, and
table 0 maps an MMIO page. -/
def coherentRun : List Step :=
  [Step.Register 0,
   Step.Apply (Operation.MapMemoryRegion 0 0x14000000 0x2000 (some ⟨Region.FCRAM, 0⟩)),
   Step.Apply (Operation.RasterizerMarkRegionCached 0x20000000 0x1000 true),
   Step.Register 1,
   Step.Apply (Operation.MapMemoryRegion 1 0x30000000 0x1000 (some ⟨Region.FCRAM, 0⟩)),
   Step.Apply (Operation.MapIoRegion 0 0x1000 0x1000 7)]

/-- The state after `coherentRun`. -/
def coherentSystem : MemorySystem Unit :=
  resultOr (runSteps console stub coherentRun emptySystem) emptySystem

/-- Common::Rectangle<u32> (common/math_util.h). -/
structure Rectangle where
  left : Nat
  top : Nat
  right : Nat
  bottom : Nat
  deriving DecidableEq, Repr

/-- SurfaceParams::GetRect: the rectangle of the whole surface, with the
bottom at 0 and the top at the height. -/
def SurfaceParams.GetRect (p : SurfaceParams) : Rectangle :=
  ⟨0, p.height, p.width, 0⟩

/-- The rectangle `a` lies inside the rectangle `b`, both with the bottom
below the top. -/
def Rectangle.Inside (a b : Rectangle) : Prop :=
  b.left ≤ a.left ∧ a.right ≤ b.right ∧ b.bottom ≤ a.bottom ∧ a.top ≤ b.top

instance (a b : Rectangle) : Decidable (a.Inside b) := by
  unfold Rectangle.Inside
  exact inferInstance

/-- Modelled from the spec: SurfaceParams::GetSubRect, which
surface_params.h declares and surface_params.cpp, not among the sources,
defines: the rectangle of the requested surface in the pixels of the
candidate. The spec keeps linear surfaces row-major and tiled ones in 8x8
blocks, so a request that starts `PixelsInBytes(sub.addr - addr)` pixels into
the candidate starts in column `index % stride` of row `index / stride` when
linear, and in column `(index % (stride * 8)) / 8` of row
`index / (stride * 8) * 8` when tiled; rows count from the bottom as in
GetRect. -/
def SurfaceParams.GetSubRect (F : PixelFormats) (c sub : SurfaceParams) : Rectangle :=
  let begin_pixel_index := c.PixelsInBytes F (sub32 sub.addr c.addr)
  let x0 :=
    if c.is_tiled = true then (begin_pixel_index % (c.stride * 8)) / 8
    else begin_pixel_index % c.stride
  let y0 :=
    if c.is_tiled = true then begin_pixel_index / (c.stride * 8) * 8
    else begin_pixel_index / c.stride
  ⟨x0, y0 + sub.height, x0 + sub.width, y0⟩

/-- Modelled from the spec: SurfaceParams::ExactMatch (defined in
surface_params.cpp, not among the sources): "identical
addr/width/height/stride/format/tiling/scale". -/
def SurfaceParams.ExactMatch (c r : SurfaceParams) : Bool :=
  decide (r.addr = c.addr ∧ r.width = c.width ∧ r.height = c.height ∧ r.stride = c.stride ∧
    r.pixel_format = c.pixel_format ∧ r.is_tiled = c.is_tiled ∧ r.res_scale = c.res_scale)

/-- Modelled from the spec: SurfaceParams::CanSubRect (defined in
surface_params.cpp, not among the sources): "requested surface's rectangle is
fully contained within the candidate's rectangle (same format/tiling/scale,
addr within candidate's interval, and compatible stride)". A compatible stride
is taken to be the same stride. -/
def SurfaceParams.CanSubRect (F : PixelFormats) (c r : SurfaceParams) : Bool :=
  decide (r.pixel_format = c.pixel_format ∧ r.is_tiled = c.is_tiled ∧
    r.res_scale = c.res_scale ∧ (c.addr ≤ r.addr ∧ r.addr < c.end_) ∧ r.stride = c.stride ∧
    (c.GetSubRect F r).Inside c.GetRect)

/-- Modelled from the spec: SurfaceParams::CanExpand (defined in
surface_params.cpp, not among the sources): "candidate can be grown to cover
the requested surface without reallocation (contiguous physical extension,
same row parameters)". The row parameters are the format, the tiling and the
stride. The spec's example has every match predicate false for the request
that starts where the candidate ends, so the extension is contiguous when the
two intervals share a byte. -/
def SurfaceParams.CanExpand (c r : SurfaceParams) : Bool :=
  decide (r.pixel_format = c.pixel_format ∧ r.is_tiled = c.is_tiled ∧ r.stride = c.stride ∧
    c.addr < r.end_ ∧ r.addr < c.end_)

/-- Modelled from the spec: SurfaceParams::CanTexCopy (defined in
surface_params.cpp, not among the sources): "requires only interval
containment and matching total byte size". The byte size of the request is
taken to match when it is the length of its interval. -/
def SurfaceParams.CanTexCopy (c r : SurfaceParams) : Bool :=
  decide ((c.addr ≤ r.addr ∧ r.end_ ≤ c.end_) ∧ r.size = r.end_ - r.addr)

/-- The interval of the request lies fully outside the interval of the
candidate: it ends at or before the start of the candidate, or starts at or
after its end. -/
def SurfaceParams.Outside (c r : SurfaceParams) : Prop :=
  r.end_ ≤ c.addr ∨ c.end_ ≤ r.addr

instance (c r : SurfaceParams) : Decidable (c.Outside r) := by
  unfold SurfaceParams.Outside
  exact inferInstance

/-- The candidate of the spec's example: a linear RGBA8 surface of 256 x 256
pixels at 0x1000 with stride 256 and scale 1, after UpdateParams. -/
def candidateSurface : SurfaceParams :=
  (surfaceOf 0x1000 256 256 256 false 0).UpdateParams sampleFormats

/-- The request of the spec's example: 64 x 64 pixels at 0x1000 with stride
256, after UpdateParams. -/
def requestSurface : SurfaceParams :=
  (surfaceOf 0x1000 64 64 256 false 0).UpdateParams sampleFormats

/-- A linear RGBA8 surface of 256 x 4 pixels at `addr`, 0x1000 bytes long,
after UpdateParams. -/
def stripSurface (addr : Nat) : SurfaceParams :=
  (surfaceOf addr 256 4 256 false 0).UpdateParams sampleFormats

/-- The members of the spec's example as the spec writes them: the linear
RGBA8 surface of `width` x `height` pixels and stride 256 from `addr` to
`end_`, scale 1. -/
def specSurface (addr end_ width height : Nat) : SurfaceParams where
  addr := addr
  end_ := end_
  size := end_ - addr
  width := width
  height := height
  stride := 256
  res_scale := 1
  is_tiled := false
  texture_type := TextureType.Texture2D
  pixel_format := 0
  type := 0

/-- The physical bounds the aliases are computed from are multiples of the
page size. -/
def MemoryMap.PhysicalAligned (K : MemoryMap) : Prop :=
  K.VRAM_PADDR % 4096 = 0 ∧ K.VRAM_PADDR_END % 4096 = 0 ∧ K.FCRAM_PADDR % 4096 = 0 ∧
  K.FCRAM_PADDR_END % 4096 = 0 ∧ K.FCRAM_N3DS_PADDR_END % 4096 = 0

instance (K : MemoryMap) : Decidable K.PhysicalAligned := by
  unfold MemoryMap.PhysicalAligned
  exact inferInstance

/-- The fresh memory system after table 0 has mapped page 1 as an IO region
with handler 7 and unmapped it again: the region stays registered. -/
def staleRegionSystem : MemorySystem Unit :=
  resultOr (runOperations console stub
    [Operation.MapIoRegion 0 0x1000 0x1000 7, Operation.UnmapRegion 0 0x1000 0x1000]
    freshSystem) freshSystem

/-! ## Physical addresses (GetPhysicalRef) -/

/-- The array `memory_areas` of GetPhysicalRef: start and size of the four
physical regions, in the order of the source. -/
def memory_areas (K : MemoryMap) : List (Nat × Nat) :=
  [(K.VRAM_PADDR, K.VRAM_SIZE), (K.DSP_RAM_PADDR, K.DSP_RAM_SIZE),
   (K.FCRAM_PADDR, K.FCRAM_N3DS_SIZE), (K.N3DS_EXTRA_RAM_PADDR, K.N3DS_EXTRA_RAM_SIZE)]

/-- The switch of GetPhysicalRef on the start of the area found: the arena of
the region, UNREACHABLE when the start is none of the four. -/
def GetPhysicalRef.target_mem (K : MemoryMap) (first : Nat) : Except Fault Region :=
  if first = K.VRAM_PADDR then Except.ok Region.VRAM
  else if first = K.DSP_RAM_PADDR then Except.ok Region.DSP
  else if first = K.FCRAM_PADDR then Except.ok Region.FCRAM
  else if first = K.N3DS_EXTRA_RAM_PADDR then Except.ok Region.N3DS
  else Except.error Fault.unreachable

/-- MemorySystem::GetPhysicalRef. The area is the first whose bounds hold the
address, the end included; the null reference is `none`. -/
def GetPhysicalRef (K : MemoryMap) (address : Nat) : Except Fault MemoryRef :=
  match (memory_areas K).find?
      (fun area => decide (address ≥ area.1 ∧ address ≤ u32 (area.1 + area.2))) with
  | none => Except.ok none
  | some area =>
    let offset_into_region := sub32 address area.1
    match GetPhysicalRef.target_mem K area.1 with
    | Except.ok target_mem =>
        if offset_into_region ≥ Impl.GetSize K target_mem then Except.ok none
        else Except.ok (some ⟨target_mem, offset_into_region⟩)
    | Except.error e => Except.error e

/-- MemorySystem::IsValidPhysicalAddress: whether GetPhysicalRef yields a
reference that is not null. -/
def IsValidPhysicalAddress (K : MemoryMap) (paddr : Nat) : Except Fault Bool :=
  match GetPhysicalRef K paddr with
  | Except.ok m => Except.ok m.isSome
  | Except.error e => Except.error e

/-- The physical regions of the memory map: the arena of the region, its
start and its size. -/
def MemoryMap.physicalRegions (K : MemoryMap) : List (Region × Nat × Nat) :=
  [(Region.VRAM, K.VRAM_PADDR, K.VRAM_SIZE), (Region.DSP, K.DSP_RAM_PADDR, K.DSP_RAM_SIZE),
   (Region.FCRAM, K.FCRAM_PADDR, K.FCRAM_N3DS_SIZE),
   (Region.N3DS, K.N3DS_EXTRA_RAM_PADDR, K.N3DS_EXTRA_RAM_SIZE)]

/-- The four physical regions end inside the address space and no address is
in one of them, or at its end, and in another or at its end. -/
def MemoryMap.PhysicalApart (K : MemoryMap) : Prop :=
  K.VRAM_PADDR + K.VRAM_SIZE < 4294967296 ∧ K.DSP_RAM_PADDR + K.DSP_RAM_SIZE < 4294967296 ∧
  K.FCRAM_PADDR + K.FCRAM_N3DS_SIZE < 4294967296 ∧
  K.N3DS_EXTRA_RAM_PADDR + K.N3DS_EXTRA_RAM_SIZE < 4294967296 ∧
  (K.VRAM_PADDR + K.VRAM_SIZE < K.DSP_RAM_PADDR ∨
    K.DSP_RAM_PADDR + K.DSP_RAM_SIZE < K.VRAM_PADDR) ∧
  (K.VRAM_PADDR + K.VRAM_SIZE < K.FCRAM_PADDR ∨
    K.FCRAM_PADDR + K.FCRAM_N3DS_SIZE < K.VRAM_PADDR) ∧
  (K.VRAM_PADDR + K.VRAM_SIZE < K.N3DS_EXTRA_RAM_PADDR ∨
    K.N3DS_EXTRA_RAM_PADDR + K.N3DS_EXTRA_RAM_SIZE < K.VRAM_PADDR) ∧
  (K.DSP_RAM_PADDR + K.DSP_RAM_SIZE < K.FCRAM_PADDR ∨
    K.FCRAM_PADDR + K.FCRAM_N3DS_SIZE < K.DSP_RAM_PADDR) ∧
  (K.DSP_RAM_PADDR + K.DSP_RAM_SIZE < K.N3DS_EXTRA_RAM_PADDR ∨
    K.N3DS_EXTRA_RAM_PADDR + K.N3DS_EXTRA_RAM_SIZE < K.DSP_RAM_PADDR) ∧
  (K.FCRAM_PADDR + K.FCRAM_N3DS_SIZE < K.N3DS_EXTRA_RAM_PADDR ∨
    K.N3DS_EXTRA_RAM_PADDR + K.N3DS_EXTRA_RAM_SIZE < K.FCRAM_PADDR)

instance (K : MemoryMap) : Decidable K.PhysicalApart := by
  unfold MemoryMap.PhysicalApart
  exact inferInstance

/-- The end constants of the memory map are the ends of its regions: video
memory ends at its start plus its size, and main memory with the N3DS size
ends at its start plus that size. -/
def MemoryMap.EndsAgree (K : MemoryMap) : Prop :=
  K.VRAM_PADDR_END = K.VRAM_PADDR + K.VRAM_SIZE ∧
  K.FCRAM_N3DS_PADDR_END = K.FCRAM_PADDR + K.FCRAM_N3DS_SIZE

instance (K : MemoryMap) : Decidable K.EndsAgree := by
  unfold MemoryMap.EndsAgree
  exact inferInstance

/-- The three virtual ranges do not overlap. -/
def MemoryMap.VirtualDisjoint (K : MemoryMap) : Prop :=
  (K.LINEAR_HEAP_VADDR_END ≤ K.NEW_LINEAR_HEAP_VADDR ∨
    K.NEW_LINEAR_HEAP_VADDR_END ≤ K.LINEAR_HEAP_VADDR) ∧
  (K.LINEAR_HEAP_VADDR_END ≤ K.VRAM_VADDR ∨ K.VRAM_VADDR_END ≤ K.LINEAR_HEAP_VADDR) ∧
  (K.NEW_LINEAR_HEAP_VADDR_END ≤ K.VRAM_VADDR ∨ K.VRAM_VADDR_END ≤ K.NEW_LINEAR_HEAP_VADDR)

instance (K : MemoryMap) : Decidable K.VirtualDisjoint := by
  unfold MemoryMap.VirtualDisjoint
  exact inferInstance

/-- The three virtual ranges are not empty and end inside the address space,
none is longer than the physical region aliased into it, and the physical
regions of video memory and of main memory end inside the address space and do
not overlap. -/
def MemoryMap.VirtualInPhysical (K : MemoryMap) : Prop :=
  K.VRAM_VADDR < K.VRAM_VADDR_END ∧ K.VRAM_VADDR_END ≤ 4294967296 ∧
  K.VRAM_VADDR_END - K.VRAM_VADDR ≤ K.VRAM_PADDR_END - K.VRAM_PADDR ∧
  K.LINEAR_HEAP_VADDR < K.LINEAR_HEAP_VADDR_END ∧ K.LINEAR_HEAP_VADDR_END ≤ 4294967296 ∧
  K.LINEAR_HEAP_VADDR_END - K.LINEAR_HEAP_VADDR ≤ K.FCRAM_PADDR_END - K.FCRAM_PADDR ∧
  K.NEW_LINEAR_HEAP_VADDR < K.NEW_LINEAR_HEAP_VADDR_END ∧
  K.NEW_LINEAR_HEAP_VADDR_END ≤ 4294967296 ∧
  K.NEW_LINEAR_HEAP_VADDR_END - K.NEW_LINEAR_HEAP_VADDR ≤
    K.FCRAM_N3DS_PADDR_END - K.FCRAM_PADDR ∧
  K.VRAM_PADDR ≤ K.VRAM_PADDR_END ∧ K.VRAM_PADDR_END ≤ 4294967296 ∧
  K.FCRAM_PADDR ≤ K.FCRAM_PADDR_END ∧ K.FCRAM_PADDR_END ≤ K.FCRAM_N3DS_PADDR_END ∧
  K.FCRAM_N3DS_PADDR_END ≤ 4294967296 ∧
  (K.VRAM_PADDR_END ≤ K.FCRAM_PADDR ∨ K.FCRAM_N3DS_PADDR_END ≤ K.VRAM_PADDR)

instance (K : MemoryMap) : Decidable K.VirtualInPhysical := by
  unfold MemoryMap.VirtualInPhysical
  exact inferInstance

/-- What CheckRegion is to do for the range [start, start + size) and the
virtual range [rs, re) with the physical start ps: nothing when they do not
overlap, else one call of the rasterizer for the physical image of the
overlap. -/
def overlapCall {ε : Type} (E : Collaborators ε) (mode : FlushMode) (start size rs re ps : Nat)
    (s : MemorySystem ε) : MemorySystem ε :=
  if start < re ∧ rs < start + size then
    rasterizerCall E mode (ps + (max start rs - rs)) (min (start + size) re - max start rs) s
  else s

/-- A call of one of the four per-page callbacks of WalkBlock, with its
arguments. -/
inductive HandlerCall where
  | on_unmapped (copy_amount current_vaddr : Nat)
  | on_memory (copy_amount : Nat) (src_ptr : BackingRef)
  | on_special (handler copy_amount current_vaddr : Nat)
  | on_rasterizer (current_vaddr copy_amount : Nat) (rasterizer_ptr : BackingRef)
  deriving DecidableEq, Repr

/-- Callbacks that only record, in the captured list, that they were called
and with which arguments. -/
def recorder {ε : Type} : Handlers ε (List HandlerCall) where
  on_unmapped := fun copy_amount current_vaddr st =>
    Except.ok (st.1, st.2 ++ [HandlerCall.on_unmapped copy_amount current_vaddr])
  on_memory := fun copy_amount src_ptr st =>
    Except.ok (st.1, st.2 ++ [HandlerCall.on_memory copy_amount src_ptr])
  on_special := fun handler copy_amount current_vaddr st =>
    Except.ok (st.1, st.2 ++ [HandlerCall.on_special handler copy_amount current_vaddr])
  on_rasterizer := fun current_vaddr copy_amount rasterizer_ptr st =>
    Except.ok (st.1, st.2 ++ [HandlerCall.on_rasterizer current_vaddr copy_amount rasterizer_ptr])
  increment := fun _ calls => calls

/-- The callback the page type of the chunk selects, with the arguments of the
chunk; none when the switch ends with a fault. -/
def expectedCall (K : MemoryMap) (pt : PageTable) (c : Chunk) : Option HandlerCall :=
  match pt.attributes c.page_index with
  | PageType.Unmapped => some (HandlerCall.on_unmapped c.copy_amount c.current_vaddr)
  | PageType.Memory =>
      (pt.pointers c.page_index).map
        (fun p => HandlerCall.on_memory c.copy_amount ⟨p.region, p.offset + c.page_offset⟩)
  | PageType.Special =>
      (GetMMIOHandler pt c.current_vaddr).toOption.map
        (fun h => HandlerCall.on_special h c.copy_amount c.current_vaddr)
  | PageType.RasterizerCachedMemory =>
      (GetPointerForRasterizerCache K c.current_vaddr).toOption.map
        (fun p => HandlerCall.on_rasterizer c.current_vaddr c.copy_amount p)

/-- The number of pages that the range [src_addr, src_addr + size) overlaps. -/
def pagesOverlapped (src_addr size : Nat) : Nat :=
  if size = 0 then 0
  else (src_addr + size - 1) / CITRA_PAGE_SIZE - src_addr / CITRA_PAGE_SIZE + 1

/-! ## ReadCString -/

/-- The loop of MemorySystem::ReadCString: `n` iterations are left, `string`
holds the characters pushed so far. -/
def ReadCString.loop {ε : Type} (K : MemoryMap) (E : Collaborators ε) :
    Nat → Nat → List Nat → MemorySystem ε → Except Fault (List Nat × MemorySystem ε)
  | 0, _, string, s => Except.ok (string, s)
  | n + 1, vaddr, string, s =>
    match Read K E 1 vaddr s with
    | Except.ok (c, s1) =>
        if c = 0 then Except.ok (string, s1)
        else ReadCString.loop K E n (u32 (vaddr + 1)) (string ++ [c]) s1
    | Except.error e => Except.error e

/-- MemorySystem::ReadCString; the string is the list of its characters. The
standard library is not among the sources; of `string.reserve(max_length)`
the embedding keeps the two exceptions: std::length_error for a length above
`max_size`, the value of std::string::max_size(), and std::bad_alloc for a
length above `free_store`, the largest capacity the allocator grants at the
call. Both are thrown before the first read. After the reserve the string
never grows past its capacity, and `shrink_to_fit` leaves its characters as
they are. -/
def ReadCString {ε : Type} (K : MemoryMap) (E : Collaborators ε) (max_size free_store : Nat)
    (vaddr max_length : Nat) (s : MemorySystem ε) : Except Fault (List Nat × MemorySystem ε) :=
  if max_length > max_size then Except.error Fault.lengthError
  else if max_length > free_store then Except.error Fault.badAlloc
  else ReadCString.loop K E max_length vaddr [] s

/-- The bytes Read8(vaddr), Read8(vaddr + 1), .., `n` of them, read one after
the other, and the memory system after the last read. -/
def readBytes {ε : Type} (K : MemoryMap) (E : Collaborators ε) :
    Nat → Nat → MemorySystem ε → Except Fault (List Nat × MemorySystem ε)
  | 0, _, s => Except.ok ([], s)
  | n + 1, vaddr, s =>
    match Read K E 1 vaddr s with
    | Except.ok (c, s1) =>
        match readBytes K E n (u32 (vaddr + 1)) s1 with
        | Except.ok (cs, s2) => Except.ok (c :: cs, s2)
        | Except.error e => Except.error e
    | Except.error e => Except.error e

/-- What Read needs of the page of an address not to end with a fault: a
direct pointer, or an Unmapped page, or a RasterizerCachedMemory page in a
rasterizer range, or a Special page with a handler for the address. -/
def Readable (K : MemoryMap) (pt : PageTable) (a : Nat) : Prop :=
  pt.pointers (a >>> CITRA_PAGE_BITS) ≠ none ∨
  pt.attributes (a >>> CITRA_PAGE_BITS) = PageType.Unmapped ∨
  (pt.attributes (a >>> CITRA_PAGE_BITS) = PageType.RasterizerCachedMemory ∧
    InRasterizerRange K a) ∨
  (pt.attributes (a >>> CITRA_PAGE_BITS) = PageType.Special ∧
    ∃ h, GetMMIOHandler pt a = Except.ok h)

/-- The state of `blockSystem` with the bytes 0x41, 0x42, 0x43, 0 written at
0x11000. -/
def stringSystem : MemorySystem Unit :=
  resultOr
    (Write console stub 1 0x11000 0x41 blockSystem >>= Write console stub 1 0x11001 0x42
      >>= Write console stub 1 0x11002 0x43 >>= Write console stub 1 0x11003 0)
    blockSystem

/-! ## Texture conversions (video_core/texture/texture_decode.cpp) -/

/-- The byte at position `j` of an unsigned integer stored little-endian. -/
def byteOf (v j : Nat) : Nat := v / 256 ^ j % 256

/-- Byte reversal of a 32-bit value, used for Common::swap32 in the runs;
common/swap.h is not among the sources and the functions below take swap32
as a parameter. -/
def reverseBytes32 (v : Nat) : Nat :=
  byteOf v 3 + 256 * byteOf v 2 + 65536 * byteOf v 1 + 16777216 * byteOf v 0

/-- The loop of ConvertBGRToRGB: `i` is the loop variable, the first argument
bounds the iterations. The source span is the list of its bytes; the
destination is the memory from `dest.data()` on, by offset. The memcpy from
the source fills the three low bytes of `bgr`; the memcpy to the destination
stores the three low bytes of `rgb` at `dest.data()`. -/
def ConvertBGRToRGB.loop (swap32 : Nat → Nat) (source : List Nat) :
    Nat → Nat → (Nat → Nat) → (Nat → Nat)
  | 0, _, dest => dest
  | fuel + 1, i, dest =>
    if i < source.length then
      let bgr := source.getD i 0 + 256 * source.getD (i + 1) 0 + 65536 * source.getD (i + 2) 0
      let rgb := swap32 (u32 (bgr <<< 8))
      let dest1 : Nat → Nat := fun j => if j < 3 then byteOf rgb j else dest j
      ConvertBGRToRGB.loop swap32 source fuel (i + 3) dest1
    else dest

/-- Pica::Texture::ConvertBGRToRGB. The loop runs while `i < source.size()`
with `i += 3`, at most `source.size()` times. -/
def ConvertBGRToRGB (swap32 : Nat → Nat) (source : List Nat) (dest : Nat → Nat) : Nat → Nat :=
  ConvertBGRToRGB.loop swap32 source source.length 0 dest

/-- The loop of ConvertBGRToRGBA: `i` and `j` are the two counters. -/
def ConvertBGRToRGBA.loop (source : List Nat) :
    Nat → Nat → Nat → (Nat → Nat) → (Nat → Nat)
  | 0, _, _, dest => dest
  | fuel + 1, i, j, dest =>
    if i < source.length then
      let d1 := setAt dest j (source.getD (i + 2) 0)
      let d2 := setAt d1 (j + 1) (source.getD (i + 1) 0)
      let d3 := setAt d2 (j + 2) (source.getD i 0)
      let d4 := setAt d3 (j + 3) 0xFF
      ConvertBGRToRGBA.loop source fuel (i + 3) (u32 (j + 4)) d4
    else dest

/-- Pica::Texture::ConvertBGRToRGBA. -/
def ConvertBGRToRGBA (source : List Nat) (dest : Nat → Nat) : Nat → Nat :=
  ConvertBGRToRGBA.loop source source.length 0 0 dest

/-- The first `n` bytes of a buffer. -/
def bytesOf (dest : Nat → Nat) (n : Nat) : List Nat :=
  (List.range n).map dest

/-! ## Morton swizzle (video_core/rasterizer_cache/morton_swizzle.h) and the
texel lookup (video_core/texture/texture_decode.cpp) -/

/-- VideoCore::PixelFormat, with the enumerators the swizzle tables name. -/
inductive PixelFormat where
  | RGBA8 | RGB8 | RGB5A1 | RGB565 | RGBA4 | IA8 | RG8 | I8 | A8 | IA4 | I4 | A4
  | ETC1 | ETC1A4 | D16 | D24 | D24S8 | Invalid
  deriving DecidableEq, Repr

/-- Pica::TexturingRegs::TextureFormat, with the enumerators
LookupTexelInTile names; `Unknown` is any other value. -/
inductive TextureFormat where
  | RGBA8 | RGB8 | RGB5A1 | RGB565 | RGBA4 | IA8 | RG8 | I8 | A8 | IA4 | I4 | A4
  | ETC1 | ETC1A4 | Unknown
  deriving DecidableEq, Repr

/-- Common::Vec4<u8>. -/
structure Vec4 where
  r : Nat
  g : Nat
  b : Nat
  a : Nat
  deriving DecidableEq, Repr

/-- The four bytes of the vector, in the order of its array. -/
def Vec4.AsArray (v : Vec4) : Nat → Nat
  | 0 => v.r
  | 1 => v.g
  | 2 => v.b
  | _ => v.a

/-- The functions of headers that are not among the sources
(pixel_format.h, video_core/utils.h, common/color.h, common/alignment.h,
texture/etc1.h); the swizzle and the texel lookup take them as a parameter. A
decoder gets the bytes from its pointer on; SampleETC1Subtile yields the three
colour bytes. -/
structure VideoFns where
  GetFormatBpp : PixelFormat → Nat
  GetBytesPerPixel : PixelFormat → Nat
  MortonInterleave : Nat → Nat → Nat
  Convert4To8 : Nat → Nat
  DecodeRGBA8 : (Nat → Nat) → Vec4
  DecodeRGB8 : (Nat → Nat) → Vec4
  DecodeRGB5A1 : (Nat → Nat) → Vec4
  DecodeRGB565 : (Nat → Nat) → Vec4
  DecodeRGBA4 : (Nat → Nat) → Vec4
  DecodeRG8 : (Nat → Nat) → Vec4
  SampleETC1Subtile : Nat → Nat → Nat → Nat → Nat
  AlignUp : Nat → Nat → Nat
  AlignDown : Nat → Nat → Nat

/-- MakeInt<T> for a type of `n` bytes: the bytes from the pointer on, read as
a little-endian integer. -/
def MakeInt : Nat → (Nat → Nat) → Nat
  | 0, _ => 0
  | n + 1, bytes => bytes 0 + 256 * MakeInt n (fun i => bytes (i + 1))

/-- Rotation used for std::rotl on a u32. -/
def rotl32 (v k : Nat) : Nat := u32 (v <<< k) ||| (v >>> (32 - k))

/-- Rotation used for std::rotr on a u32. -/
def rotr32 (v k : Nat) : Nat := (v >>> k) ||| u32 (v <<< (32 - k))

/-- DecodePixel<format>: `source` are the bytes from the source pointer on,
the destination pointer is offset `d` of the buffer `dest`. -/
def DecodePixel (U : VideoFns) (format : PixelFormat) (source : Nat → Nat) (dest : Nat → Nat)
    (d : Nat) : Nat → Nat :=
  let bytes_per_pixel := U.GetFormatBpp format / 8
  match format with
  | PixelFormat.D24S8 =>
      let d24s8 := rotl32 (MakeInt 4 source) 8
      fill dest d 4 (byteOf d24s8)
  | PixelFormat.IA8 => setAt (fill dest d 3 (fun _ => source 1)) (d + 3) (source 0)
  | PixelFormat.RG8 =>
      let rgba := U.DecodeRG8 source
      fill dest d 4 rgba.AsArray
  | PixelFormat.I8 => setAt (fill dest d 3 (fun _ => source 0)) (d + 3) 255
  | PixelFormat.A8 => setAt (fill dest d 3 (fun _ => 0)) (d + 3) (source 0)
  | PixelFormat.IA4 =>
      let ia4 := source 0
      setAt (fill dest d 3 (fun _ => U.Convert4To8 (ia4 >>> 4))) (d + 3)
        (U.Convert4To8 (ia4 &&& 0xF))
  | _ => fill dest d bytes_per_pixel source

/-- DecodePixel4<format>, instantiated for I4 and A4. -/
def DecodePixel4 (U : VideoFns) (format : PixelFormat) (x y : Nat) (source_tile : Nat → Nat)
    (dest : Nat → Nat) (d : Nat) : Nat → Nat :=
  let morton_offset := U.MortonInterleave x y
  let value := source_tile (morton_offset >>> 1)
  let pixel := U.Convert4To8 (if morton_offset % 2 ≠ 0 then value >>> 4 else value &&& 0xF)
  if format = PixelFormat.I4 then setAt (fill dest d 3 (fun _ => pixel)) (d + 3) 255
  else setAt (fill dest d 3 (fun _ => 0)) (d + 3) pixel

/-- DecodePixelETC1<format>, instantiated for ETC1 and ETC1A4. -/
def DecodePixelETC1 (U : VideoFns) (format : PixelFormat) (x y : Nat) (source_tile : Nat → Nat)
    (dest : Nat → Nat) (d : Nat) : Nat → Nat :=
  let subtile_width := 4
  let subtile_height := 4
  let has_alpha := decide (format = PixelFormat.ETC1A4)
  let subtile_size := if has_alpha then 16 else 8
  let subtile_index := u32 (x / subtile_width + 2 * (y / subtile_height))
  let x1 := x % subtile_width
  let y1 := y % subtile_height
  let subtile_ptr : Nat → Nat := fun i => source_tile (subtile_index * subtile_size + i)
  let alpha :=
    if has_alpha then
      U.Convert4To8 ((MakeInt 8 subtile_ptr >>> (4 * (x1 * subtile_width + y1))) &&& 0xF)
    else 255
  let subtile_ptr1 : Nat → Nat := if has_alpha then fun i => subtile_ptr (8 + i) else subtile_ptr
  let subtile_data := MakeInt 8 subtile_ptr1
  setAt (fill dest d 3 (U.SampleETC1Subtile subtile_data x1 y1)) (d + 3) alpha

/-- EncodePixel<format>. -/
def EncodePixel (U : VideoFns) (format : PixelFormat) (source : Nat → Nat) (dest : Nat → Nat)
    (d : Nat) : Nat → Nat :=
  let bytes_per_pixel := U.GetFormatBpp format / 8
  if format = PixelFormat.D24S8 then
    let s8d24 := rotr32 (MakeInt 4 source) 8
    fill dest d 4 (byteOf s8d24)
  else fill dest d bytes_per_pixel source

/-- A std::span<std::byte> on one of the buffers: the offset of its first
byte in the buffer and its size. -/
structure Span where
  data : Nat
  size : Nat
  deriving DecidableEq, Repr

/-- The precondition of `span.subspan(offset, count)`: a call outside it ends
with a fault. -/
def Span.subspan (sp : Span) (offset count : Nat) : Except Fault Span :=
  if offset ≤ sp.size ∧ count ≤ sp.size - offset then Except.ok ⟨sp.data + offset, count⟩
  else Except.error Fault.outOfBounds

/-- The precondition of `span.last(count)`; `count` is a std::size_t that the
caller computes as `size_bytes() - linear_offset`, so an offset above the size
ends with a fault. -/
def Span.lastFrom (sp : Span) (offset : Nat) : Except Fault Span :=
  if offset ≤ sp.size then Except.ok ⟨sp.data + offset, sp.size - offset⟩
  else Except.error Fault.outOfBounds

/-- The body of the two loops of MortonCopyTile for the pixel (x, y): `tb` and
`lb` are the memory behind the tile span and behind the linear span. -/
def MortonCopyTile.pixel (U : VideoFns) (morton_to_linear : Bool) (format : PixelFormat)
    (stride : Nat) (tile_buffer linear_buffer : Span) (x y : Nat)
    (st : (Nat → Nat) × (Nat → Nat)) : Except Fault ((Nat → Nat) × (Nat → Nat)) :=
  let bytes_per_pixel := U.GetFormatBpp format / 8
  let linear_bytes_per_pixel := U.GetBytesPerPixel format
  let is_compressed := decide (format = PixelFormat.ETC1 ∨ format = PixelFormat.ETC1A4)
  let is_4bit := decide (format = PixelFormat.I4 ∨ format = PixelFormat.A4)
  match tile_buffer.subspan (u32 (U.MortonInterleave x y * bytes_per_pixel)) bytes_per_pixel with
  | Except.error e => Except.error e
  | Except.ok tiled_pixel =>
    match linear_buffer.subspan (u32 (u32 (u32 ((7 - y) * stride) + x) * linear_bytes_per_pixel))
        linear_bytes_per_pixel with
    | Except.error e => Except.error e
    | Except.ok linear_pixel =>
      if morton_to_linear then
        if is_compressed then
          Except.ok (st.1, DecodePixelETC1 U format x y (fun i => st.1 (tile_buffer.data + i))
            st.2 linear_pixel.data)
        else if is_4bit then
          Except.ok (st.1, DecodePixel4 U format x y (fun i => st.1 (tile_buffer.data + i))
            st.2 linear_pixel.data)
        else
          Except.ok (st.1, DecodePixel U format (fun i => st.1 (tiled_pixel.data + i))
            st.2 linear_pixel.data)
      else
        Except.ok (EncodePixel U format (fun i => st.2 (linear_pixel.data + i)) st.1
          tiled_pixel.data, st.2)

/-- The pixels of a tile in the order of the two loops of MortonCopyTile: y
from 0 to 7, and x from 0 to 7 for each y. -/
def tilePixels : List (Nat × Nat) :=
  (List.range 8).flatMap (fun y => (List.range 8).map (fun x => (x, y)))

/-- Running the pixel body over a list of pixels until the first fault. -/
def MortonCopyTile.run (U : VideoFns) (morton_to_linear : Bool) (format : PixelFormat)
    (stride : Nat) (tile_buffer linear_buffer : Span) :
    List (Nat × Nat) → (Nat → Nat) × (Nat → Nat) → Except Fault ((Nat → Nat) × (Nat → Nat))
  | [], st => Except.ok st
  | (x, y) :: rest, st =>
    match MortonCopyTile.pixel U morton_to_linear format stride tile_buffer linear_buffer x y
        st with
    | Except.ok st1 =>
        MortonCopyTile.run U morton_to_linear format stride tile_buffer linear_buffer rest st1
    | Except.error e => Except.error e

/-- MortonCopyTile<morton_to_linear, format>. -/
def MortonCopyTile (U : VideoFns) (morton_to_linear : Bool) (format : PixelFormat)
    (stride : Nat) (tile_buffer linear_buffer : Span) (st : (Nat → Nat) × (Nat → Nat)) :
    Except Fault ((Nat → Nat) × (Nat → Nat)) :=
  MortonCopyTile.run U morton_to_linear format stride tile_buffer linear_buffer tilePixels st

/-- Pica::Texture::LookupTexelInTile; `source` are the bytes from the tile
pointer on. An unknown format logs an error and yields the zero vector; the
DEBUG_ASSERTs are left out. -/
def LookupTexelInTile (U : VideoFns) (source : Nat → Nat) (x y : Nat) (format : TextureFormat)
    (disable_alpha : Bool) : Vec4 :=
  match format with
  | TextureFormat.RGBA8 =>
      let res := U.DecodeRGBA8 (fun i => source (u32 (U.MortonInterleave x y * 4) + i))
      ⟨res.r, res.g, res.b, if disable_alpha then 255 else res.a⟩
  | TextureFormat.RGB8 =>
      let res := U.DecodeRGB8 (fun i => source (u32 (U.MortonInterleave x y * 3) + i))
      ⟨res.r, res.g, res.b, 255⟩
  | TextureFormat.RGB5A1 =>
      let res := U.DecodeRGB5A1 (fun i => source (u32 (U.MortonInterleave x y * 2) + i))
      ⟨res.r, res.g, res.b, if disable_alpha then 255 else res.a⟩
  | TextureFormat.RGB565 =>
      let res := U.DecodeRGB565 (fun i => source (u32 (U.MortonInterleave x y * 2) + i))
      ⟨res.r, res.g, res.b, 255⟩
  | TextureFormat.RGBA4 =>
      let res := U.DecodeRGBA4 (fun i => source (u32 (U.MortonInterleave x y * 2) + i))
      ⟨res.r, res.g, res.b, if disable_alpha then 255 else res.a⟩
  | TextureFormat.IA8 =>
      let source_ptr : Nat → Nat := fun i => source (u32 (U.MortonInterleave x y * 2) + i)
      if disable_alpha then ⟨source_ptr 1, source_ptr 0, 0, 255⟩
      else ⟨source_ptr 1, source_ptr 1, source_ptr 1, source_ptr 0⟩
  | TextureFormat.RG8 =>
      let res := U.DecodeRG8 (fun i => source (u32 (U.MortonInterleave x y * 2) + i))
      ⟨res.r, res.g, 0, 255⟩
  | TextureFormat.I8 =>
      let source_ptr : Nat → Nat := fun i => source (U.MortonInterleave x y + i)
      ⟨source_ptr 0, source_ptr 0, source_ptr 0, 255⟩
  | TextureFormat.A8 =>
      let source_ptr : Nat → Nat := fun i => source (U.MortonInterleave x y + i)
      if disable_alpha then ⟨source_ptr 0, source_ptr 0, source_ptr 0, 255⟩
      else ⟨0, 0, 0, source_ptr 0⟩
  | TextureFormat.IA4 =>
      let source_ptr : Nat → Nat := fun i => source (U.MortonInterleave x y + i)
      let i := U.Convert4To8 ((source_ptr 0 &&& 0xF0) >>> 4)
      let a := U.Convert4To8 (source_ptr 0 &&& 0xF)
      if disable_alpha then ⟨i, a, 0, 255⟩ else ⟨i, i, i, a⟩
  | TextureFormat.I4 =>
      let morton_offset := U.MortonInterleave x y
      let source_ptr : Nat → Nat := fun i => source (morton_offset / 2 + i)
      let i :=
        if morton_offset % 2 ≠ 0 then (source_ptr 0 &&& 0xF0) >>> 4 else source_ptr 0 &&& 0xF
      let i := U.Convert4To8 i
      ⟨i, i, i, 255⟩
  | TextureFormat.A4 =>
      let morton_offset := U.MortonInterleave x y
      let source_ptr : Nat → Nat := fun i => source (morton_offset / 2 + i)
      let a :=
        if morton_offset % 2 ≠ 0 then (source_ptr 0 &&& 0xF0) >>> 4 else source_ptr 0 &&& 0xF
      let a := U.Convert4To8 a
      if disable_alpha then ⟨a, a, a, 255⟩ else ⟨0, 0, 0, a⟩
  | TextureFormat.ETC1 | TextureFormat.ETC1A4 =>
      let has_alpha := decide (format = TextureFormat.ETC1A4)
      let subtile_size := if has_alpha then 16 else 8
      let subtile_width := 4
      let subtile_height := 4
      let subtile_index := u32 (x / subtile_width + 2 * (y / subtile_height))
      let x1 := x % subtile_width
      let y1 := y % subtile_height
      let subtile_ptr : Nat → Nat := fun i => source (subtile_index * subtile_size + i)
      let alpha :=
        if has_alpha then
          U.Convert4To8 ((MakeInt 8 subtile_ptr >>> (4 * (x1 * subtile_width + y1))) &&& 0xF)
        else 255
      let subtile_ptr1 : Nat → Nat :=
        if has_alpha then fun i => subtile_ptr (8 + i) else subtile_ptr
      let subtile_data := MakeInt 8 subtile_ptr1
      let rgb := U.SampleETC1Subtile subtile_data x1 y1
      ⟨rgb 0, rgb 1, rgb 2, if disable_alpha then 255 else alpha⟩
  | TextureFormat.Unknown => ⟨0, 0, 0, 0⟩

/-- The texture format of the same name as the pixel format, for the formats
that are textures. -/
def PixelFormat.toTextureFormat : PixelFormat → TextureFormat
  | PixelFormat.RGBA8 => TextureFormat.RGBA8
  | PixelFormat.RGB8 => TextureFormat.RGB8
  | PixelFormat.RGB5A1 => TextureFormat.RGB5A1
  | PixelFormat.RGB565 => TextureFormat.RGB565
  | PixelFormat.RGBA4 => TextureFormat.RGBA4
  | PixelFormat.IA8 => TextureFormat.IA8
  | PixelFormat.RG8 => TextureFormat.RG8
  | PixelFormat.I8 => TextureFormat.I8
  | PixelFormat.A8 => TextureFormat.A8
  | PixelFormat.IA4 => TextureFormat.IA4
  | PixelFormat.I4 => TextureFormat.I4
  | PixelFormat.A4 => TextureFormat.A4
  | PixelFormat.ETC1 => TextureFormat.ETC1
  | PixelFormat.ETC1A4 => TextureFormat.ETC1A4
  | _ => TextureFormat.Unknown

/-- The functions of the missing headers as the runs take them: the usual bits
per pixel of each format, four bytes per pixel in the linear buffer except
for RGB8, the Morton order of an 8x8 tile, Convert4To8 as `v * 17`, alignment
to multiples, decoders that return their first four bytes. -/
def sampleVideo : VideoFns where
  GetFormatBpp := fun f =>
    match f with
    | PixelFormat.RGBA8 | PixelFormat.D24S8 => 32
    | PixelFormat.RGB8 | PixelFormat.D24 => 24
    | PixelFormat.RGB5A1 | PixelFormat.RGB565 | PixelFormat.RGBA4 | PixelFormat.IA8
    | PixelFormat.RG8 | PixelFormat.D16 => 16
    | PixelFormat.I8 | PixelFormat.A8 | PixelFormat.IA4 | PixelFormat.ETC1A4 => 8
    | PixelFormat.I4 | PixelFormat.A4 | PixelFormat.ETC1 => 4
    | PixelFormat.Invalid => 0
  GetBytesPerPixel := fun f =>
    match f with
    | PixelFormat.RGB8 => 3
    | PixelFormat.RGB5A1 | PixelFormat.RGB565 | PixelFormat.RGBA4 | PixelFormat.D16 => 2
    | _ => 4
  MortonInterleave := fun x y =>
    [0x00, 0x01, 0x04, 0x05, 0x10, 0x11, 0x14, 0x15].getD (x % 8) 0 +
      [0x00, 0x02, 0x08, 0x0a, 0x20, 0x22, 0x28, 0x2a].getD (y % 8) 0
  Convert4To8 := fun v => v * 17
  DecodeRGBA8 := fun p => ⟨p 3, p 2, p 1, p 0⟩
  DecodeRGB8 := fun p => ⟨p 2, p 1, p 0, 255⟩
  DecodeRGB5A1 := fun p => ⟨p 0, p 1, 0, 255⟩
  DecodeRGB565 := fun p => ⟨p 0, p 1, 0, 255⟩
  DecodeRGBA4 := fun p => ⟨p 0, p 1, 0, 255⟩
  DecodeRG8 := fun p => ⟨p 1, p 0, 0, 255⟩
  SampleETC1Subtile := fun _ _ _ _ => 0
  AlignUp := fun value size => if value % size = 0 then value else value - value % size + size
  AlignDown := fun value size => value - value % size

/-- The variables of MortonCopy that change from tile to tile. -/
structure MortonCopy.Vars where
  x : Nat
  y : Nat
  linear_offset : Nat
  tiled_offset : Nat
  deriving DecidableEq, Repr

/-- The lambda `linear_next_tile` of MortonCopy; a remainder by zero ends with
a fault. -/
def MortonCopy.linear_next_tile (aligned_bytes_per_pixel stride height : Nat)
    (v : MortonCopy.Vars) : Except Fault MortonCopy.Vars :=
  if stride = 0 then Except.error Fault.divisionByZero
  else
    let x := u32 (v.x + 8) % stride
    let linear_offset := u32 (v.linear_offset + u32 (8 * aligned_bytes_per_pixel))
    if x = 0 then
      if height = 0 then Except.error Fault.divisionByZero
      else
        let y := u32 (v.y + 8) % height
        if y = 0 then
          Except.ok { x := x, y := y, linear_offset := linear_offset,
                      tiled_offset := v.tiled_offset }
        else
          Except.ok { x := x, y := y,
                      linear_offset :=
                        sub32 linear_offset (u32 (u32 (stride * 9) * aligned_bytes_per_pixel)),
                      tiled_offset := v.tiled_offset }
    else
      Except.ok { x := x, y := v.y, linear_offset := linear_offset,
                  tiled_offset := v.tiled_offset }

/-- The loop `while (tiled_offset < buffer_end)` of MortonCopy. The result
carries the number of times the body has run. -/
def MortonCopy.loop (U : VideoFns) (morton_to_linear : Bool) (format : PixelFormat)
    (stride height : Nat) (linear_buffer tiled_buffer : Span) (buffer_end : Nat) :
    Nat → Nat → MortonCopy.Vars → (Nat → Nat) × (Nat → Nat) →
      Except Fault (Nat × MortonCopy.Vars × ((Nat → Nat) × (Nat → Nat)))
  | 0, count, v, st => Except.ok (count, v, st)
  | fuel + 1, count, v, st =>
    let tile_size := u32 (U.GetFormatBpp format * 64) / 8
    if v.tiled_offset < buffer_end then
      match linear_buffer.lastFrom v.linear_offset with
      | Except.error e => Except.error e
      | Except.ok linear_data =>
        match tiled_buffer.subspan v.tiled_offset tile_size with
        | Except.error e => Except.error e
        | Except.ok tiled_data =>
          match MortonCopyTile U morton_to_linear format stride tiled_data linear_data st with
          | Except.error e => Except.error e
          | Except.ok st1 =>
            match MortonCopy.linear_next_tile (U.GetBytesPerPixel format) stride height
                { x := v.x, y := v.y, linear_offset := v.linear_offset,
                  tiled_offset := u32 (v.tiled_offset + tile_size) } with
            | Except.error e => Except.error e
            | Except.ok v1 =>
              MortonCopy.loop U morton_to_linear format stride height linear_buffer tiled_buffer
                buffer_end fuel (count + 1) v1 st1
    else Except.ok (count, v, st)

/-- The first block of MortonCopy, for a start that is not tile aligned: the
tile is swizzled to the temporary array and the part from the start on is
copied to the start of the tiled buffer. A std::memcpy that leaves the array
or the tiled buffer ends with a fault. -/
def MortonCopy.first (U : VideoFns) (morton_to_linear : Bool) (format : PixelFormat)
    (stride height start_offset end_offset : Nat) (linear_buffer tiled_buffer : Span)
    (tmp_buf : Nat → Nat) (v : MortonCopy.Vars) (st : (Nat → Nat) × (Nat → Nat)) :
    Except Fault (MortonCopy.Vars × ((Nat → Nat) × (Nat → Nat))) :=
  let tile_size := u32 (U.GetFormatBpp format * 64) / 8
  let aligned_down_start_offset := u32 (U.AlignDown start_offset tile_size)
  let aligned_start_offset := u32 (U.AlignUp start_offset tile_size)
  match linear_buffer.lastFrom v.linear_offset with
  | Except.error e => Except.error e
  | Except.ok linear_data =>
    match MortonCopyTile U morton_to_linear format stride ⟨0, tile_size⟩ linear_data
        (tmp_buf, st.2) with
    | Except.error e => Except.error e
    | Except.ok tl =>
      let n := sub32 (min aligned_start_offset end_offset) start_offset
      if aligned_down_start_offset ≤ start_offset ∧
          start_offset - aligned_down_start_offset + n ≤ tile_size ∧ n ≤ tiled_buffer.size then
        match MortonCopy.linear_next_tile (U.GetBytesPerPixel format) stride height
            { x := v.x, y := v.y, linear_offset := v.linear_offset,
              tiled_offset := u32 (v.tiled_offset + sub32 aligned_start_offset start_offset) } with
        | Except.error e => Except.error e
        | Except.ok v1 =>
          Except.ok (v1, (fill st.1 tiled_buffer.data n
            (fun i => tl.1 (start_offset - aligned_down_start_offset + i)), tl.2))
      else Except.error Fault.outOfBounds

/-- The last block of MortonCopy, for an end that is not tile aligned: the tile
is swizzled to the temporary array and its part up to the end is copied to
the tiled buffer at the tiled offset. -/
def MortonCopy.last (U : VideoFns) (morton_to_linear : Bool) (format : PixelFormat)
    (stride end_offset : Nat) (linear_buffer tiled_buffer : Span)
    (tmp_buf : Nat → Nat) (v : MortonCopy.Vars) (st : (Nat → Nat) × (Nat → Nat)) :
    Except Fault ((Nat → Nat) × (Nat → Nat)) :=
  let aligned_bytes_per_pixel := U.GetBytesPerPixel format
  let tile_size := u32 (U.GetFormatBpp format * 64) / 8
  let linear_tile_size := u32 (u32 (u32 (7 * stride) + 8) * aligned_bytes_per_pixel)
  let aligned_end_offset := u32 (U.AlignDown end_offset tile_size)
  match linear_buffer.subspan v.linear_offset linear_tile_size with
  | Except.error e => Except.error e
  | Except.ok linear_data =>
    match MortonCopyTile U morton_to_linear format stride ⟨0, tile_size⟩ linear_data
        (tmp_buf, st.2) with
    | Except.error e => Except.error e
    | Except.ok tl =>
      let n := sub32 end_offset aligned_end_offset
      if n ≤ tile_size ∧ v.tiled_offset + n ≤ tiled_buffer.size then
        Except.ok (fill st.1 (tiled_buffer.data + v.tiled_offset) n tl.1, tl.2)
      else Except.error Fault.outOfBounds

/-- MortonCopy<morton_to_linear, format> together with the number of times
the body of the full-tile loop has run. The state is the memory behind the
tiled buffer and the memory behind the linear buffer; `tmp_buf` is the content
of the temporary array before it is written. A division by zero ends with a
fault. The loop gets one unit of fuel more than the tiled buffer has bytes. -/
def MortonCopy.run (U : VideoFns) (morton_to_linear : Bool) (format : PixelFormat)
    (stride height start_offset end_offset : Nat) (linear_buffer tiled_buffer : Span)
    (tmp_buf : Nat → Nat) (st : (Nat → Nat) × (Nat → Nat)) :
    Except Fault (Nat × ((Nat → Nat) × (Nat → Nat))) :=
  let aligned_bytes_per_pixel := U.GetBytesPerPixel format
  let tile_size := u32 (U.GetFormatBpp format * 64) / 8
  let aligned_down_start_offset := u32 (U.AlignDown start_offset tile_size)
  let aligned_start_offset := u32 (U.AlignUp start_offset tile_size)
  let aligned_end_offset := u32 (U.AlignDown end_offset tile_size)
  if morton_to_linear ∧
      ¬(aligned_start_offset = start_offset ∧ aligned_end_offset = end_offset) then
    Except.error Fault.assertion
  else if U.GetFormatBpp format = 0 ∨ u32 (stride * 8) = 0 then
    Except.error Fault.divisionByZero
  else
    let begin_pixel_index := u32 (aligned_down_start_offset * 8) / U.GetFormatBpp format
    let x := begin_pixel_index % u32 (stride * 8) / 8
    let y := u32 (begin_pixel_index / u32 (stride * 8) * 8)
    let linear_offset :=
      u32 (u32 (u32 (sub32 (sub32 height 8) y * stride) + x) * aligned_bytes_per_pixel)
    let v0 : MortonCopy.Vars :=
      { x := x, y := y, linear_offset := linear_offset, tiled_offset := 0 }
    let afterFirst :=
      if start_offset < aligned_start_offset ∧ ¬morton_to_linear then
        MortonCopy.first U morton_to_linear format stride height start_offset end_offset
          linear_buffer tiled_buffer tmp_buf v0 st
      else Except.ok (v0, st)
    match afterFirst with
    | Except.error e => Except.error e
    | Except.ok (v1, st1) =>
      let buffer_end := sub32 (u32 (v1.tiled_offset + aligned_end_offset)) aligned_start_offset
      match MortonCopy.loop U morton_to_linear format stride height linear_buffer tiled_buffer
          buffer_end (tiled_buffer.size + 1) 0 v1 st1 with
      | Except.error e => Except.error e
      | Except.ok (count, v2, st2) =>
        if end_offset > max aligned_start_offset aligned_end_offset ∧ ¬morton_to_linear then
          match MortonCopy.last U morton_to_linear format stride end_offset linear_buffer
              tiled_buffer tmp_buf v2 st2 with
          | Except.error e => Except.error e
          | Except.ok st3 => Except.ok (count, st3)
        else Except.ok (count, st2)

/-- MortonCopy<morton_to_linear, format>. -/
def MortonCopy (U : VideoFns) (morton_to_linear : Bool) (format : PixelFormat)
    (stride height start_offset end_offset : Nat) (linear_buffer tiled_buffer : Span)
    (tmp_buf : Nat → Nat) (st : (Nat → Nat) × (Nat → Nat)) :
    Except Fault ((Nat → Nat) × (Nat → Nat)) :=
  match MortonCopy.run U morton_to_linear format stride height start_offset end_offset
      linear_buffer tiled_buffer tmp_buf st with
  | Except.error e => Except.error e
  | Except.ok r => Except.ok r.2

/-- The offsets below `n` at which the memory `m` differs from `m0`. -/
def changedOffsets (m0 m : Nat → Nat) (n : Nat) : List Nat :=
  (List.range n).filter (fun j => m j ≠ m0 j)

/-! ## The collaborators and the states of the runs of CopyBlock -/

/-- What the comparison of CopyBlock with ReadBlock followed by WriteBlock
asks of the collaborators, for a relation `Sim` between their states. `Sim`
is an equivalence. What is done for the destination does not reach the
source: InvalidateRegion leaves the arenas alone, and it and a handler's
WriteBlock lead to an equivalent state. What is done for the source is the
same in equivalent states: a handler's ReadBlock stores the same bytes and
leads to equivalent states; FlushRegion changes no arena byte outside the
physical range it is called with and, with arenas that agree on that range,
leaves the same bytes in the range and leads to equivalent states. -/
structure Collaborators.Decoupled {ε : Type} (K : MemoryMap) (E : Collaborators ε)
    (Sim : ε → ε → Prop) : Prop where
  sim_refl : ∀ w, Sim w w
  sim_symm : ∀ w w', Sim w w' → Sim w' w
  sim_trans : ∀ w w' w'', Sim w w' → Sim w' w'' → Sim w w''
  invalidate_backing : ∀ a n x, (E.InvalidateRegion a n x).2 = x.2
  invalidate_sim : ∀ a n x, Sim (E.InvalidateRegion a n x).1 x.1
  write_sim : ∀ h va data w, Sim (E.WriteBlock h va data w) w
  read_sim : ∀ h va n w w', Sim w w' →
    (∀ k, k < n → (E.ReadBlock h va n w).1 k = (E.ReadBlock h va n w').1 k) ∧
    Sim (E.ReadBlock h va n w).2 (E.ReadBlock h va n w').2
  flush_frame : ∀ a n x (q : BackingRef),
    (∀ i, i < n → GetPhysicalRef K (a + i) ≠ Except.ok (some q)) →
    (E.FlushRegion a n x).2 q.region q.offset = x.2 q.region q.offset
  flush_sim : ∀ a n w w' (b b' : Backing), Sim w w' →
    (∀ i, i < n → ∀ q : BackingRef, GetPhysicalRef K (a + i) = Except.ok (some q) →
      b q.region q.offset = b' q.region q.offset) →
    Sim (E.FlushRegion a n (w, b)).1 (E.FlushRegion a n (w', b')).1 ∧
    ∀ i, i < n → ∀ q : BackingRef, GetPhysicalRef K (a + i) = Except.ok (some q) →
      (E.FlushRegion a n (w, b)).2 q.region q.offset =
        (E.FlushRegion a n (w', b')).2 q.region q.offset

/-- Collaborators whose handlers share one latch, the state: ReadBlock stores
the value of the latch in every byte and WriteBlock adds one to the latch.
The rasterizer does nothing. -/
def latchDevice : Collaborators Nat where
  renderer := true
  FlushRegion := fun _ _ x => x
  InvalidateRegion := fun _ _ x => x
  FlushAndInvalidateRegion := fun _ _ x => x
  ClearAll := fun _ x => x
  Read := fun _ _ _ w => (w, w)
  Write := fun _ _ _ _ w => w + 1
  ReadBlock := fun _ _ _ w => (fun _ => w, w)
  WriteBlock := fun _ _ _ w => w + 1

/-- A source page table: the pages 0x50 and 0x51 are Special, in one region
with handler 7. -/
def latchSource : PageTable where
  pointers := fun _ => none
  attributes := fun i => if i = 0x50 ∨ i = 0x51 then PageType.Special else PageType.Unmapped
  special_regions := [⟨0x50000, 0x2000, 7⟩]

/-- A destination page table: page 0x60 is Special with handler 9, page 0x61
is Memory at offset 0x100000 of main memory. -/
def latchDest : PageTable where
  pointers := fun i => if i = 0x61 then some ⟨Region.FCRAM, 0x100000⟩ else none
  attributes := fun i =>
    if i = 0x60 then PageType.Special else if i = 0x61 then PageType.Memory
    else PageType.Unmapped
  special_regions := [⟨0x60000, 0x1000, 9⟩]

/-- The source process has `latchSource` as table 0, the destination process
`latchDest` as table 1; every arena byte is 0xEE and the latch holds 0. -/
def latchSystem : MemorySystem Nat where
  backing := fun _ _ => 0xEE
  cache_marker := ⟨fun _ => false, fun _ => false, fun _ => false⟩
  page_tables := fun t => if t = 1 then latchDest else latchSource
  page_table_list := [0, 1]
  current_page_table := some 0
  world := 0
  calls := []

/-- Collaborators with a state of two counters, the bytes read from the
handlers and the bytes written to them. ReadBlock stores the bytes that follow
the first counter, so two reads in a row differ; WriteBlock only counts.
FlushRegion writes, for every byte of main memory in its physical range, the
byte 0xC0 plus the low four bits of the offset; InvalidateRegion does
nothing. -/
def queueDevice : Collaborators (Nat × Nat) where
  renderer := true
  FlushRegion := fun a n x =>
    (x.1, fun r o =>
      if r = Region.FCRAM ∧ 0x20000000 ≤ a ∧ a - 0x20000000 ≤ o ∧ o < a - 0x20000000 + n ∧
          o < 0x10000000 then 0xC0 + o % 16
      else x.2 r o)
  InvalidateRegion := fun _ _ x => x
  FlushAndInvalidateRegion := fun _ _ x => x
  ClearAll := fun _ x => x
  Read := fun _ _ _ w => (w.1 % 256, (w.1 + 1, w.2))
  Write := fun _ w _ _ x => (x.1, x.2 + w)
  ReadBlock := fun _ _ n w => (fun k => (w.1 + k) % 256, (w.1 + n, w.2))
  WriteBlock := fun _ _ data w => (w.1, w.2 + data.length)

/-- Two states of `queueDevice` with the same count of bytes read. -/
def sameReads (w w' : Nat × Nat) : Prop :=
  w.1 = w'.1

/-- A source page table around the start of the linear heap: page 0x13FFD is
Unmapped, page 0x13FFE is Memory at offset 0x200000 of main memory, page
0x13FFF is Special with handler 7 and page 0x14000, the first of the linear
heap, is RasterizerCachedMemory. -/
def mixedSource : PageTable where
  pointers := fun i => if i = 0x13FFE then some ⟨Region.FCRAM, 0x200000⟩ else none
  attributes := fun i =>
    if i = 0x13FFE then PageType.Memory else if i = 0x13FFF then PageType.Special
    else if i = 0x14000 then PageType.RasterizerCachedMemory else PageType.Unmapped
  special_regions := [⟨0x13FFF000, 0x1000, 7⟩]

/-- A destination page table around the start of video memory: page 0x1EFFE
is Memory at offset 0x100000 of main memory, page 0x1EFFF is Special with
handler 9 and page 0x1F000, the first of video memory, is
RasterizerCachedMemory. -/
def mixedDest : PageTable where
  pointers := fun i => if i = 0x1EFFE then some ⟨Region.FCRAM, 0x100000⟩ else none
  attributes := fun i =>
    if i = 0x1EFFE then PageType.Memory else if i = 0x1EFFF then PageType.Special
    else if i = 0x1F000 then PageType.RasterizerCachedMemory else PageType.Unmapped
  special_regions := [⟨0x1EFFF000, 0x1000, 9⟩]

/-- The source process has `mixedSource` as table 0, the destination process
`mixedDest` as table 1; the tracker has the first page of video memory and of
the linear heap cached, the arenas hold the low byte of each offset and both
counters of `queueDevice` are 0. -/
def mixedSystem : MemorySystem (Nat × Nat) where
  backing := fun _ o => o % 256
  cache_marker := ⟨fun i => decide (i = 0), fun i => decide (i = 0), fun _ => false⟩
  page_tables := fun t => if t = 1 then mixedDest else mixedSource
  page_table_list := [0, 1]
  current_page_table := some 0
  world := (0, 0)
  calls := []

/-- The conditions on the memory map under which CopyBlock is compared with
ReadBlock followed by WriteBlock; `console` meets them. The three virtual
ranges are page-aligned, lie at least 8 bytes apart and end at least 8 bytes
before the end of the address space, none is empty and none is longer than the
physical region aliased into it; the physical regions lie apart and end where
the end constants of the map say. -/
def MemoryMap.WellFormed (K : MemoryMap) : Prop :=
  K.PageAligned ∧ K.RangesApart ∧ K.VirtualInPhysical ∧ K.PhysicalApart ∧ K.EndsAgree

instance (K : MemoryMap) : Decidable K.WellFormed := by
  unfold MemoryMap.WellFormed
  exact inferInstance

/-! ## Basic lemmas -/

theorem eq_ok_of_returns {α : Type} (r : Except Fault α) (d : α) (h : returns r = true) :
    r = Except.ok (resultOr r d) := by
  cases r with
  | ok a => rfl
  | error e => simp [returns] at h

@[simp] theorem setAt_same {α : Type} (f : Nat → α) (i : Nat) (v : α) : setAt f i v i = v := by
  simp [setAt]

theorem setAt_other {α : Type} (f : Nat → α) (i j : Nat) (v : α) (h : j ≠ i) :
    setAt f i v j = f j := by
  simp [setAt, h]

theorem shr_page (v : Nat) : v >>> CITRA_PAGE_BITS = v / 4096 := by
  simp [CITRA_PAGE_BITS, Nat.shiftRight_eq_div_pow]

theorem and_page_mask (v : Nat) : v &&& CITRA_PAGE_MASK = v % 4096 := by
  have h : CITRA_PAGE_MASK = 2 ^ 12 - 1 := by simp [CITRA_PAGE_MASK]
  rw [h, Nat.and_pow_two_sub_one_eq_mod]

theorem sub32_of_le (a b : Nat) (hb : b ≤ a) (ha : a < 4294967296) : sub32 a b = a - b := by
  simp only [sub32]
  have : b % 4294967296 = b := Nat.mod_eq_of_lt (by omega)
  rw [this]
  omega

theorem u32_of_lt (a : Nat) (ha : a < 4294967296) : u32 a = a := by
  simp only [u32]; omega

/-- The slot of an address is the slot of the start of its page. -/
theorem at_of_page (K : MemoryMap) (hK : K.PageAligned) (v : Nat) :
    RasterizerCacheMarker.At K ((v >>> CITRA_PAGE_BITS) * CITRA_PAGE_SIZE) =
      RasterizerCacheMarker.At K v := by
  obtain ⟨a1, a2, a3, a4, a5, a6⟩ := hK
  have hs : v >>> CITRA_PAGE_BITS = v / 4096 := by
    simp [CITRA_PAGE_BITS, Nat.shiftRight_eq_div_pow]
  rw [hs]
  unfold RasterizerCacheMarker.At CITRA_PAGE_SIZE
  have c1 : (v / 4096 * 4096 ≥ K.VRAM_VADDR ∧ v / 4096 * 4096 < K.VRAM_VADDR_END) ↔
      (v ≥ K.VRAM_VADDR ∧ v < K.VRAM_VADDR_END) := by omega
  have c2 : (v / 4096 * 4096 ≥ K.LINEAR_HEAP_VADDR ∧ v / 4096 * 4096 < K.LINEAR_HEAP_VADDR_END) ↔
      (v ≥ K.LINEAR_HEAP_VADDR ∧ v < K.LINEAR_HEAP_VADDR_END) := by omega
  have c3 : (v / 4096 * 4096 ≥ K.NEW_LINEAR_HEAP_VADDR ∧
        v / 4096 * 4096 < K.NEW_LINEAR_HEAP_VADDR_END) ↔
      (v ≥ K.NEW_LINEAR_HEAP_VADDR ∧ v < K.NEW_LINEAR_HEAP_VADDR_END) := by omega
  have d1 : (v / 4096 * 4096 - K.VRAM_VADDR) / 4096 = (v - K.VRAM_VADDR) / 4096 := by omega
  have d2 : (v / 4096 * 4096 - K.LINEAR_HEAP_VADDR) / 4096 =
      (v - K.LINEAR_HEAP_VADDR) / 4096 := by omega
  have d3 : (v / 4096 * 4096 - K.NEW_LINEAR_HEAP_VADDR) / 4096 =
      (v - K.NEW_LINEAR_HEAP_VADDR) / 4096 := by omega
  simp only [c1, c2, c3, d1, d2, d3]

@[simp] theorem checkRegion_page_tables {ε : Type} (E : Collaborators ε) (mode : FlushMode)
    (a b c d e : Nat) (s : MemorySystem ε) :
    (CheckRegion E mode a b c d e s).page_tables = s.page_tables := by
  unfold CheckRegion
  split
  · rfl
  · cases mode <;> rfl

@[simp] theorem checkRegion_cache_marker {ε : Type} (E : Collaborators ε) (mode : FlushMode)
    (a b c d e : Nat) (s : MemorySystem ε) :
    (CheckRegion E mode a b c d e s).cache_marker = s.cache_marker := by
  unfold CheckRegion
  split
  · rfl
  · cases mode <;> rfl

@[simp] theorem checkRegion_page_table_list {ε : Type} (E : Collaborators ε) (mode : FlushMode)
    (a b c d e : Nat) (s : MemorySystem ε) :
    (CheckRegion E mode a b c d e s).page_table_list = s.page_table_list := by
  unfold CheckRegion
  split
  · rfl
  · cases mode <;> rfl

@[simp] theorem checkRegion_current {ε : Type} (E : Collaborators ε) (mode : FlushMode)
    (a b c d e : Nat) (s : MemorySystem ε) :
    (CheckRegion E mode a b c d e s).current_page_table = s.current_page_table := by
  unfold CheckRegion
  split
  · rfl
  · cases mode <;> rfl

@[simp] theorem flushVirtual_page_tables {ε : Type} (K : MemoryMap) (E : Collaborators ε)
    (a n : Nat) (mode : FlushMode) (s : MemorySystem ε) :
    (RasterizerFlushVirtualRegion K E a n mode s).page_tables = s.page_tables := by
  unfold RasterizerFlushVirtualRegion
  split <;> simp

@[simp] theorem flushVirtual_cache_marker {ε : Type} (K : MemoryMap) (E : Collaborators ε)
    (a n : Nat) (mode : FlushMode) (s : MemorySystem ε) :
    (RasterizerFlushVirtualRegion K E a n mode s).cache_marker = s.cache_marker := by
  unfold RasterizerFlushVirtualRegion
  split <;> simp

@[simp] theorem flushVirtual_page_table_list {ε : Type} (K : MemoryMap) (E : Collaborators ε)
    (a n : Nat) (mode : FlushMode) (s : MemorySystem ε) :
    (RasterizerFlushVirtualRegion K E a n mode s).page_table_list = s.page_table_list := by
  unfold RasterizerFlushVirtualRegion
  split <;> simp

@[simp] theorem flushVirtual_current {ε : Type} (K : MemoryMap) (E : Collaborators ε)
    (a n : Nat) (mode : FlushMode) (s : MemorySystem ε) :
    (RasterizerFlushVirtualRegion K E a n mode s).current_page_table = s.current_page_table := by
  unfold RasterizerFlushVirtualRegion
  split <;> simp

/-! ## The pointer invariant is kept by every operation -/

theorem advance_ne_none (m : MemoryRef) (n : Nat) : MemoryRef.advance m n ≠ none ↔ m ≠ none := by
  cases m <;> simp [MemoryRef.advance]

theorem mapPages_loop_invariant (K : MemoryMap) (marker : RasterizerCacheMarker)
    (type : PageType) :
    ∀ (n base : Nat) (memory : MemoryRef) (pt pt' : PageTable),
      (memory ≠ none ↔ type = PageType.Memory) → pt.PointerIffMemory →
      MapPages.loop K marker type n base memory pt = Except.ok pt' → pt'.PointerIffMemory := by
  intro n
  induction n with
  | zero =>
    intro base memory pt pt' _ hpt h
    simp [MapPages.loop] at h
    subst h
    exact hpt
  | succ n ih =>
    intro base memory pt pt' hmem hpt h
    rw [MapPages.loop] at h
    split at h
    · cases h
    · refine ih _ _ _ pt' ?_ ?_ h
      · split
        · rw [advance_ne_none]; exact hmem
        · exact hmem
      · intro i
        split
        · by_cases hi : i = base
          · subst hi; simp
          · simp [setAt_other _ _ _ _ hi]; exact hpt i
        · by_cases hi : i = base
          · subst hi; simpa using hmem
          · simp [setAt_other _ _ _ _ hi]; exact hpt i

theorem markPage_invariant (K : MemoryMap) (cached : Bool) (vaddr : Nat) (pt pt' : PageTable)
    (hpt : pt.PointerIffMemory) (h : markPage K cached vaddr pt = Except.ok pt') :
    pt'.PointerIffMemory := by
  unfold markPage at h
  cases cached with
  | true =>
    simp only [if_true] at h
    split at h
    · cases h; exact hpt
    · cases h
      intro i
      by_cases hi : i = vaddr >>> CITRA_PAGE_BITS
      · subst hi; simp
      · simp [setAt_other _ _ _ _ hi]; exact hpt i
    · cases h
  | false =>
    simp only [Bool.false_eq_true, if_false] at h
    split at h
    · cases h; exact hpt
    · split at h
      · cases h
        intro i
        by_cases hi : i = vaddr >>> CITRA_PAGE_BITS
        · subst hi; simp
        · simp [setAt_other _ _ _ _ hi]; exact hpt i
      · cases h
    · cases h

theorem markTables_invariant {ε : Type} (K : MemoryMap) (cached : Bool) (vaddr t : Nat) :
    ∀ (ts : List Nat) (s s' : MemorySystem ε), (s.page_tables t).PointerIffMemory →
      markTables K cached vaddr ts s = Except.ok s' → (s'.page_tables t).PointerIffMemory := by
  intro ts
  induction ts with
  | nil =>
    intro s s' hs h
    simp [markTables] at h
    subst h
    exact hs
  | cons t' ts ih =>
    intro s s' hs h
    rw [markTables] at h
    split at h
    · rename_i pt hpt
      refine ih _ _ ?_ h
      by_cases ht : t = t'
      · subst ht
        simp only [MemorySystem.setTable, setAt_same]
        exact markPage_invariant K cached vaddr _ _ hs hpt
      · simp only [MemorySystem.setTable, setAt_other _ _ _ _ ht]
        exact hs
    · cases h

theorem markAliases_invariant {ε : Type} (K : MemoryMap) (cached : Bool) (t : Nat) :
    ∀ (vs : List Nat) (s s' : MemorySystem ε), (s.page_tables t).PointerIffMemory →
      markAliases K cached vs s = Except.ok s' → (s'.page_tables t).PointerIffMemory := by
  intro vs
  induction vs with
  | nil =>
    intro s s' hs h
    simp [markAliases] at h
    subst h
    exact hs
  | cons v vs ih =>
    intro s s' hs h
    rw [markAliases] at h
    split at h
    · rename_i s2 hs2
      exact ih _ _ (markTables_invariant K cached v t _ _ _ (by exact hs) hs2) h
    · cases h

theorem markPages_invariant {ε : Type} (K : MemoryMap) (cached : Bool) (t : Nat) :
    ∀ (n paddr : Nat) (s s' : MemorySystem ε), (s.page_tables t).PointerIffMemory →
      markPages K cached n paddr s = Except.ok s' → (s'.page_tables t).PointerIffMemory := by
  intro n
  induction n with
  | zero =>
    intro paddr s s' hs h
    simp [markPages] at h
    subst h
    exact hs
  | succ n ih =>
    intro paddr s s' hs h
    rw [markPages] at h
    split at h
    · rename_i s1 hs1
      exact ih _ _ _ (markAliases_invariant K cached t _ _ _ hs hs1) h
    · cases h

theorem markRegionCached_invariant {ε : Type} (K : MemoryMap) (start size t : Nat)
    (cached : Bool) (s s' : MemorySystem ε) (hs : (s.page_tables t).PointerIffMemory)
    (h : RasterizerMarkRegionCached K start size cached s = Except.ok s') :
    (s'.page_tables t).PointerIffMemory := by
  unfold RasterizerMarkRegionCached at h
  split at h
  · cases h; exact hs
  · exact markPages_invariant K cached t _ _ _ _ hs h

theorem mapPages_invariant {ε : Type} (K : MemoryMap) (E : Collaborators ε)
    (t t' base size : Nat) (memory : MemoryRef) (type : PageType) (s s' : MemorySystem ε)
    (hmem : memory ≠ none ↔ type = PageType.Memory) (hs : (s.page_tables t).PointerIffMemory)
    (h : MapPages K E t' base size memory type s = Except.ok s') :
    (s'.page_tables t).PointerIffMemory := by
  unfold MapPages at h
  simp only at h
  split at h
  · rename_i pt hpt
    cases h
    by_cases ht : t = t'
    · subst ht
      simp only [MemorySystem.setTable, setAt_same]
      refine mapPages_loop_invariant K _ type _ _ _ _ _ hmem ?_ hpt
      simpa using hs
    · simp only [MemorySystem.setTable, setAt_other _ _ _ _ ht]
      simpa using hs
  · cases h

theorem operation_invariant {ε : Type} (K : MemoryMap) (E : Collaborators ε) (t : Nat)
    (op : Operation) (s s' : MemorySystem ε)
    (hop : op.hasNullTarget = false)
    (hs : (s.page_tables t).PointerIffMemory) (h : op.apply K E s = Except.ok s') :
    (s'.page_tables t).PointerIffMemory := by
  cases op with
  | MapMemoryRegion t' base size target =>
    simp only [Operation.apply, MapMemoryRegion] at h
    split at h
    · cases h
    · split at h
      · cases h
      · refine mapPages_invariant K E t t' _ _ target _ s s' ?_ hs h
        have : target ≠ none := by
          intro hn
          subst hn
          simp [Operation.hasNullTarget] at hop
        simp [this]
  | MapIoRegion t' base size handler =>
    simp only [Operation.apply, MapIoRegion] at h
    split at h
    · cases h
    · split at h
      · cases h
      · split at h
        · rename_i s1 hs1
          cases h
          have h1 := mapPages_invariant K E t t' _ _ none _ s s1 (by simp) hs hs1
          by_cases ht : t = t'
          · subst ht
            simp only [MemorySystem.setTable, setAt_same]
            exact h1
          · simp only [MemorySystem.setTable, setAt_other _ _ _ _ ht]
            exact h1
        · cases h
  | UnmapRegion t' base size =>
    simp only [Operation.apply, UnmapRegion] at h
    split at h
    · cases h
    · split at h
      · cases h
      · exact mapPages_invariant K E t t' _ _ none _ s s' (by simp) hs h
  | RasterizerMarkRegionCached start size cached =>
    simp only [Operation.apply] at h
    exact markRegionCached_invariant K start size t cached s s' hs h

theorem runOperations_invariant {ε : Type} (K : MemoryMap) (E : Collaborators ε) (t : Nat) :
    ∀ (ops : List Operation) (s s' : MemorySystem ε),
      (∀ op ∈ ops, op.hasNullTarget = false) →
      (s.page_tables t).PointerIffMemory →
      runOperations K E ops s = Except.ok s' → (s'.page_tables t).PointerIffMemory := by
  intro ops
  induction ops with
  | nil =>
    intro s s' _ hs h
    simp [runOperations] at h
    subst h
    exact hs
  | cons op ops ih =>
    intro s s' hops hs h
    rw [runOperations] at h
    split at h
    · rename_i s1 hs1
      refine ih s1 s' (fun o ho => hops o (List.mem_cons_of_mem _ ho)) ?_ h
      exact operation_invariant K E t op s s1 (hops op (List.mem_cons_self _ _)) hs hs1
    · cases h

/-! ## C1: the pointer invariant -/

/-- C1, as stated, fails: mapping one page of a cleared table with the null
reference completes and leaves entry 0 of type Memory with a null pointer. -/
theorem c1_null_target_breaks_invariant :
    (runOperations console stub [Operation.MapMemoryRegion 0 0 4096 none] freshSystem).toOption.map
      (fun s => ((s.page_tables 0).attributes 0, (s.page_tables 0).pointers 0))
      = some (PageType.Memory, none) := by
  decide

/-- C1, amended: starting from a cleared page table, after any finite
sequence of MapMemoryRegion calls with a non-null reference and of
MapIoRegion, UnmapRegion and RasterizerMarkRegionCached calls that complete
without a fatal error, every entry has a non-null direct pointer if and only
if its type is Memory. -/
theorem c1_pointer_iff_memory {ε : Type} (K : MemoryMap) (E : Collaborators ε) (t : Nat)
    (ops : List Operation) (s s' : MemorySystem ε)
    (hclear : s.page_tables t = (s.page_tables t).Clear)
    (hrefs : ∀ op ∈ ops, op.hasNullTarget = false)
    (hrun : runOperations K E ops s = Except.ok s') :
    ∀ i, (s'.page_tables t).pointers i ≠ none ↔
      (s'.page_tables t).attributes i = PageType.Memory := by
  refine runOperations_invariant K E t ops s s' hrefs ?_ hrun
  intro i
  rw [hclear]
  simp [PageTable.Clear]

/-- The theorem of C1 on `sampleRun`, read at the entry of the first heap
page. -/
theorem c1_pointer_iff_memory_witness :
    (freshSystem.page_tables 0 = (freshSystem.page_tables 0).Clear ∧
      (∀ op ∈ sampleRun, op.hasNullTarget = false) ∧
      returns (runOperations console stub sampleRun freshSystem) = true) ∧
    (((resultOr (runOperations console stub sampleRun freshSystem) freshSystem).page_tables
        0).pointers 0x14000 ≠ none ↔
      ((resultOr (runOperations console stub sampleRun freshSystem) freshSystem).page_tables
        0).attributes 0x14000 = PageType.Memory) :=
  ⟨⟨rfl, by decide, by decide⟩,
    c1_pointer_iff_memory console stub 0 sampleRun freshSystem _ rfl (by decide)
      (eq_ok_of_returns _ freshSystem (by decide)) 0x14000⟩

/-! ## C2: a write followed by a read -/

theorem loadLE_storeLE_le (b : Backing) (p : BackingRef) (n v : Nat) :
    ∀ m, m ≤ n → loadLE (storeLE b p n v) p m = v % 256 ^ m := by
  intro m
  induction m with
  | zero => intro _; simp [loadLE, Nat.mod_one]
  | succ m ih =>
    intro hm
    have hlt : m < n := hm
    rw [loadLE, ih (Nat.le_of_lt hlt), Nat.mod_pow_succ]
    simp [storeLE, hlt]

theorem loadLE_storeLE (b : Backing) (p : BackingRef) (n v : Nat) (hv : v < 256 ^ n) :
    loadLE (storeLE b p n v) p n = v := by
  rw [loadLE_storeLE_le b p n v n (Nat.le_refl n), Nat.mod_eq_of_lt hv]

theorem checkRegion_flush_backing {ε : Type} (E : Collaborators ε)
    (hflush : ∀ a n x, (E.FlushRegion a n x).2 = x.2) (a b c d e : Nat) (s : MemorySystem ε) :
    (CheckRegion E FlushMode.Flush a b c d e s).backing = s.backing := by
  unfold CheckRegion
  split
  · rfl
  · simp [rasterizerCall, hflush]

theorem flushVirtual_flush_backing {ε : Type} (K : MemoryMap) (E : Collaborators ε)
    (hflush : ∀ a n x, (E.FlushRegion a n x).2 = x.2) (a n : Nat) (s : MemorySystem ε) :
    (RasterizerFlushVirtualRegion K E a n FlushMode.Flush s).backing = s.backing := by
  unfold RasterizerFlushVirtualRegion
  split
  · rfl
  · simp [checkRegion_flush_backing E hflush]

theorem getPointer_of_inRange (K : MemoryMap) (addr : Nat) (h : InRasterizerRange K addr) :
    ∃ p, GetPointerForRasterizerCache K addr = Except.ok p := by
  unfold GetPointerForRasterizerCache
  split
  · exact ⟨_, rfl⟩
  · split
    · exact ⟨_, rfl⟩
    · split
      · exact ⟨_, rfl⟩
      · rename_i h1 h2 h3
        rcases h with h | h | h
        · exact absurd h h1
        · exact absurd h h2
        · exact absurd h h3

theorem pointer_none_of_not_memory (pt : PageTable) (hinv : pt.PointerIffMemory) (i : Nat)
    (h : pt.attributes i ≠ PageType.Memory) : pt.pointers i = none := by
  by_contra hne
  exact h ((hinv i).1 hne)

theorem write_of_pointer {ε : Type} (K : MemoryMap) (E : Collaborators ε) (s : MemorySystem ε)
    (t w vaddr v : Nat) (pp : BackingRef) (hcur : s.current_page_table = some t)
    (hpp : (s.page_tables t).pointers (vaddr >>> CITRA_PAGE_BITS) = some pp) :
    Write K E w vaddr v s = Except.ok { s with backing := (storeLE s.backing
      ⟨pp.region, pp.offset + (vaddr &&& CITRA_PAGE_MASK)⟩ w v) } := by
  simp only [Write, hcur, hpp]

theorem read_of_pointer {ε : Type} (K : MemoryMap) (E : Collaborators ε) (s : MemorySystem ε)
    (t w vaddr : Nat) (pp : BackingRef) (hcur : s.current_page_table = some t)
    (hpp : (s.page_tables t).pointers (vaddr >>> CITRA_PAGE_BITS) = some pp) :
    Read K E w vaddr s = Except.ok
      (loadLE s.backing ⟨pp.region, pp.offset + (vaddr &&& CITRA_PAGE_MASK)⟩ w, s) := by
  simp only [Read, hcur, hpp]

theorem write_of_cached {ε : Type} (K : MemoryMap) (E : Collaborators ε) (s : MemorySystem ε)
    (t w vaddr v : Nat) (p : BackingRef) (hcur : s.current_page_table = some t)
    (hp : (s.page_tables t).pointers (vaddr >>> CITRA_PAGE_BITS) = none)
    (hc : (s.page_tables t).attributes (vaddr >>> CITRA_PAGE_BITS) =
      PageType.RasterizerCachedMemory)
    (hptr : GetPointerForRasterizerCache K vaddr = Except.ok p) :
    Write K E w vaddr v s = Except.ok
      { RasterizerFlushVirtualRegion K E vaddr w FlushMode.Invalidate s with
        backing := storeLE
          (RasterizerFlushVirtualRegion K E vaddr w FlushMode.Invalidate s).backing p w v } := by
  simp only [Write, hcur, hp, hc, hptr]

theorem read_of_cached {ε : Type} (K : MemoryMap) (E : Collaborators ε) (s : MemorySystem ε)
    (t w vaddr : Nat) (p : BackingRef) (hcur : s.current_page_table = some t)
    (hp : (s.page_tables t).pointers (vaddr >>> CITRA_PAGE_BITS) = none)
    (hc : (s.page_tables t).attributes (vaddr >>> CITRA_PAGE_BITS) =
      PageType.RasterizerCachedMemory)
    (hptr : GetPointerForRasterizerCache K vaddr = Except.ok p) :
    Read K E w vaddr s = Except.ok
      (loadLE (RasterizerFlushVirtualRegion K E vaddr w FlushMode.Flush s).backing p w,
        RasterizerFlushVirtualRegion K E vaddr w FlushMode.Flush s) := by
  simp only [Read, hcur, hp, hc, hptr]

theorem write_of_special {ε : Type} (K : MemoryMap) (E : Collaborators ε) (s : MemorySystem ε)
    (t w vaddr v h : Nat) (hcur : s.current_page_table = some t)
    (hp : (s.page_tables t).pointers (vaddr >>> CITRA_PAGE_BITS) = none)
    (hsp : (s.page_tables t).attributes (vaddr >>> CITRA_PAGE_BITS) = PageType.Special)
    (hh : GetMMIOHandler (s.page_tables t) vaddr = Except.ok h) :
    Write K E w vaddr v s = Except.ok ( WriteMMIO E h w vaddr v s) := by
  simp only [Write, hcur, hp, hsp, hh]

theorem read_of_special {ε : Type} (K : MemoryMap) (E : Collaborators ε) (s : MemorySystem ε)
    (t w vaddr h : Nat) (hcur : s.current_page_table = some t)
    (hp : (s.page_tables t).pointers (vaddr >>> CITRA_PAGE_BITS) = none)
    (hsp : (s.page_tables t).attributes (vaddr >>> CITRA_PAGE_BITS) = PageType.Special)
    (hh : GetMMIOHandler (s.page_tables t) vaddr = Except.ok h) :
    Read K E w vaddr s = Except.ok ( ReadMMIO E h w vaddr s) := by
  simp only [Read, hcur, hp, hsp, hh]

theorem sampleSystem_invariant : (sampleSystem.page_tables 0).PointerIffMemory := by
  refine runOperations_invariant console stub 0 sampleRun freshSystem sampleSystem (by decide) ?_
    (eq_ok_of_returns _ freshSystem (by decide))
  intro i
  simp [freshSystem, clearedTable]

theorem and_not_page_mask (v : Nat) (hv : v < 4294967296) :
    v &&& 0xFFFFF000 = v / 4096 * 4096 := by
  have hm : (0xFFFFF000 : Nat) = (2 ^ 20 - 1) <<< 12 := by decide
  have hd : v / 4096 * 4096 = (v >>> 12) <<< 12 := by
    rw [Nat.shiftLeft_eq, Nat.shiftRight_eq_div_pow]
  rw [hm, hd]
  apply Nat.eq_of_testBit_eq
  intro i
  simp only [Nat.testBit_and, Nat.testBit_shiftLeft, Nat.testBit_shiftRight,
    Nat.testBit_two_pow_sub_one]
  by_cases h12 : 12 ≤ i
  · by_cases h32 : i < 32
    · have : i - 12 < 20 := by omega
      simp [h12, this]
    · have hlt : v < 2 ^ i := lt_of_lt_of_le hv (by
        calc 4294967296 = 2 ^ 32 := by norm_num
          _ ≤ 2 ^ i := Nat.pow_le_pow_right (by norm_num) (by omega))
      have : 12 + (i - 12) = i := by omega
      simp [h12, this, Nat.testBit_lt_two_pow hlt]
  · simp [h12]

theorem u32_lt (n : Nat) : u32 n < 4294967296 := Nat.mod_lt _ (by norm_num)

theorem transition_comp {K : MemoryMap} {cached : Bool} {pg : Nat}
    {e0 e1 e2 : PageType × MemoryRef} (h01 : Transition K cached pg e0 e1)
    (h12 : Transition K cached pg e1 e2) : Transition K cached pg e0 e2 := by
  rcases h01 with ⟨hu, he⟩ | ⟨hc, _, he⟩ | ⟨hc, _, p, _, he⟩
  · rw [he] at h12; exact h12
  · subst he
    rcases h12 with ⟨hu, _⟩ | ⟨_, hm, _⟩ | ⟨hc', _, _⟩
    · cases hu
    · cases hm
    · rw [hc] at hc'; cases hc'
  · subst he
    rcases h12 with ⟨hu, _⟩ | ⟨hc', _, _⟩ | ⟨_, hm, _⟩
    · cases hu
    · rw [hc] at hc'; cases hc'
    · cases hm

theorem markRel_refl {ε : Type} (K : MemoryMap) (cached : Bool) (s : MemorySystem ε) :
    MarkRel K cached (fun _ _ => False) s s := by
  intro t pg
  exact ⟨fun h => h.elim, fun _ => rfl⟩

theorem markRel_comp {ε : Type} {K : MemoryMap} {cached : Bool} {V W : Nat → Nat → Prop}
    {s s1 s2 : MemorySystem ε} (h1 : MarkRel K cached V s s1) (h2 : MarkRel K cached W s1 s2) :
    MarkRel K cached (fun t pg => V t pg ∨ W t pg) s s2 := by
  intro t pg
  constructor
  · intro hvw
    by_cases hv : V t pg
    · by_cases hw : W t pg
      · exact transition_comp ((h1 t pg).1 hv) ((h2 t pg).1 hw)
      · rw [(h2 t pg).2 hw]; exact (h1 t pg).1 hv
    · have hw : W t pg := hvw.resolve_left hv
      have := (h2 t pg).1 hw
      rw [(h1 t pg).2 hv] at this
      exact this
  · intro hvw
    have hv : ¬ V t pg := fun h => hvw (Or.inl h)
    have hw : ¬ W t pg := fun h => hvw (Or.inr h)
    rw [(h2 t pg).2 hw, (h1 t pg).2 hv]

theorem markRel_mono {ε : Type} {K : MemoryMap} {cached : Bool} {V W : Nat → Nat → Prop}
    {s s' : MemorySystem ε} (h : MarkRel K cached V s s') (hvw : ∀ t pg, V t pg ↔ W t pg) :
    MarkRel K cached W s s' := by
  intro t pg
  exact ⟨fun hw => (h t pg).1 ((hvw t pg).2 hw), fun hw => (h t pg).2 (fun hv => hw ((hvw t pg).1 hv))⟩

theorem markPage_entry (K : MemoryMap) (cached : Bool) (vaddr : Nat) (hv : vaddr < 4294967296)
    (pt pt' : PageTable) (h : markPage K cached vaddr pt = Except.ok pt') :
    Transition K cached (vaddr >>> CITRA_PAGE_BITS) (pt.entry (vaddr >>> CITRA_PAGE_BITS))
      (pt'.entry (vaddr >>> CITRA_PAGE_BITS)) ∧
    ∀ pg, pg ≠ vaddr >>> CITRA_PAGE_BITS → pt'.entry pg = pt.entry pg := by
  unfold markPage at h
  cases cached with
  | true =>
    simp only [if_true] at h
    split at h
    · rename_i hu
      cases h
      exact ⟨Or.inl ⟨hu, rfl⟩, fun _ _ => rfl⟩
    · rename_i hm
      cases h
      refine ⟨Or.inr (Or.inl ⟨rfl, hm, ?_⟩), ?_⟩
      · simp [PageTable.entry]
      · intro pg hpg
        simp [PageTable.entry, setAt_other _ _ _ _ hpg]
    · cases h
  | false =>
    simp only [Bool.false_eq_true, if_false] at h
    split at h
    · rename_i hu
      cases h
      exact ⟨Or.inl ⟨hu, rfl⟩, fun _ _ => rfl⟩
    · rename_i hc
      split at h
      · rename_i p hp
        cases h
        refine ⟨Or.inr (Or.inr ⟨rfl, hc, p, ?_, ?_⟩), ?_⟩
        · rw [and_not_page_mask vaddr hv] at hp
          rw [shr_page]
          exact hp
        · simp [PageTable.entry]
        · intro pg hpg
          simp [PageTable.entry, setAt_other _ _ _ _ hpg]
      · cases h
    · cases h

theorem markRel_of_setTable {ε : Type} (K : MemoryMap) (cached : Bool) (vaddr t' : Nat)
    (hv : vaddr < 4294967296) (s : MemorySystem ε) (pt : PageTable)
    (h : markPage K cached vaddr (s.page_tables t') = Except.ok pt) :
    MarkRel K cached (fun t pg => t = t' ∧ pg = vaddr >>> CITRA_PAGE_BITS) s
      (s.setTable t' pt) := by
  have hm := markPage_entry K cached vaddr hv _ _ h
  intro t pg
  constructor
  · rintro ⟨rfl, rfl⟩
    simp only [MemorySystem.setTable, setAt_same]
    exact hm.1
  · intro hn
    by_cases ht : t = t'
    · subst ht
      simp only [MemorySystem.setTable, setAt_same]
      exact hm.2 pg (fun hpg => hn ⟨rfl, hpg⟩)
    · simp only [MemorySystem.setTable, setAt_other _ _ _ _ ht]

theorem markTables_rel {ε : Type} (K : MemoryMap) (cached : Bool) (vaddr : Nat)
    (hv : vaddr < 4294967296) :
    ∀ (ts : List Nat) (s s' : MemorySystem ε), markTables K cached vaddr ts s = Except.ok s' →
      MarkRel K cached (fun t pg => t ∈ ts ∧ pg = vaddr >>> CITRA_PAGE_BITS) s s' ∧
      s'.page_table_list = s.page_table_list ∧ s'.cache_marker = s.cache_marker := by
  intro ts
  induction ts with
  | nil =>
    intro s s' h
    simp [markTables] at h
    subst h
    exact ⟨markRel_mono (markRel_refl K cached s) (by simp), rfl, rfl⟩
  | cons t' ts ih =>
    intro s s' h
    rw [markTables] at h
    split at h
    · rename_i pt hpt
      obtain ⟨hrel, hl, hm⟩ := ih _ _ h
      refine ⟨markRel_mono (markRel_comp (markRel_of_setTable K cached vaddr t' hv s pt hpt) hrel) ?_,
        ?_, ?_⟩
      · intro t pg
        simp only [List.mem_cons]
        tauto
      · rw [hl]; rfl
      · rw [hm]; rfl
    · cases h

theorem markAliases_rel {ε : Type} (K : MemoryMap) (cached : Bool) :
    ∀ (vs : List Nat) (s s' : MemorySystem ε), (∀ v ∈ vs, v < 4294967296) →
      markAliases K cached vs s = Except.ok s' →
      MarkRel K cached
        (fun t pg => t ∈ s.page_table_list ∧ ∃ v ∈ vs, pg = v >>> CITRA_PAGE_BITS) s s' ∧
      s'.page_table_list = s.page_table_list := by
  intro vs
  induction vs with
  | nil =>
    intro s s' _ h
    simp [markAliases] at h
    subst h
    exact ⟨markRel_mono (markRel_refl K cached s) (by simp), rfl⟩
  | cons v vs ih =>
    intro s s' hvs h
    rw [markAliases] at h
    split at h
    · rename_i s2 hs2
      obtain ⟨hrel1, hl1, _⟩ := markTables_rel K cached v (hvs v (List.mem_cons_self _ _)) _ _ _ hs2
      obtain ⟨hrel2, hl2⟩ := ih s2 s' (fun u hu => hvs u (List.mem_cons_of_mem _ hu)) h
      have hrel1' : MarkRel K cached
          (fun t pg => t ∈ s.page_table_list ∧ pg = v >>> CITRA_PAGE_BITS) s s2 := by
        intro t pg
        exact hrel1 t pg
      have hl1' : s2.page_table_list = s.page_table_list := hl1
      refine ⟨markRel_mono (markRel_comp hrel1' hrel2) ?_, ?_⟩
      · intro t pg
        rw [hl1']
        simp only [List.mem_cons]
        constructor
        · rintro (⟨ht, hpg⟩ | ⟨ht, u, hu, hpg⟩)
          · exact ⟨ht, v, Or.inl rfl, hpg⟩
          · exact ⟨ht, u, Or.inr hu, hpg⟩
        · rintro ⟨ht, u, hu | hu, hpg⟩
          · subst hu; exact Or.inl ⟨ht, hpg⟩
          · exact Or.inr ⟨ht, u, hu, hpg⟩
      · rw [hl2, hl1']
    · cases h

theorem pageAddress_succ (paddr i : Nat) :
    pageAddress paddr (i + 1) = pageAddress (u32 (paddr + CITRA_PAGE_SIZE)) i := by
  rw [pageAddress]

theorem physicalToVirtual_lt (K : MemoryMap) (addr v : Nat)
    (h : v ∈ PhysicalToVirtualAddressForRasterizer K addr) : v < 4294967296 := by
  unfold PhysicalToVirtualAddressForRasterizer at h
  split at h
  · simp at h; subst h; exact u32_lt _
  · split at h
    · simp at h
      rcases h with h | h <;> subst h <;> exact u32_lt _
    · split at h
      · simp at h; subst h; exact u32_lt _
      · simp at h

theorem markPages_rel {ε : Type} (K : MemoryMap) (cached : Bool) :
    ∀ (n paddr : Nat) (s s' : MemorySystem ε), markPages K cached n paddr s = Except.ok s' →
      MarkRel K cached
        (fun t pg => t ∈ s.page_table_list ∧ ∃ i, i < n ∧
          ∃ v ∈ PhysicalToVirtualAddressForRasterizer K (pageAddress paddr i),
            pg = v >>> CITRA_PAGE_BITS) s s' ∧
      s'.page_table_list = s.page_table_list := by
  intro n
  induction n with
  | zero =>
    intro paddr s s' h
    simp [markPages] at h
    subst h
    exact ⟨markRel_mono (markRel_refl K cached s) (by simp), rfl⟩
  | succ n ih =>
    intro paddr s s' h
    rw [markPages] at h
    split at h
    · rename_i s1 hs1
      obtain ⟨hrel1, hl1⟩ := markAliases_rel K cached _ s s1
        (fun v hv => physicalToVirtual_lt K paddr v hv) hs1
      obtain ⟨hrel2, hl2⟩ := ih _ s1 s' h
      refine ⟨markRel_mono (markRel_comp hrel1 hrel2) ?_, ?_⟩
      · intro t pg
        rw [hl1]
        constructor
        · rintro (⟨ht, v, hv, hpg⟩ | ⟨ht, i, hi, v, hv, hpg⟩)
          · exact ⟨ht, 0, Nat.succ_pos n, v, hv, hpg⟩
          · rw [← pageAddress_succ] at hv
            exact ⟨ht, i + 1, Nat.succ_lt_succ hi, v, hv, hpg⟩
        · rintro ⟨ht, i, hi, v, hv, hpg⟩
          cases i with
          | zero => exact Or.inl ⟨ht, v, hv, hpg⟩
          | succ i =>
            rw [pageAddress_succ] at hv
            exact Or.inr ⟨ht, i, Nat.lt_of_succ_lt_succ hi, v, hv, hpg⟩
      · rw [hl2, hl1]
    · cases h

theorem pageAddress_eq (start : Nat) (hs : start < 4294967296) :
    ∀ i, pageAddress start i = u32 (start + i * CITRA_PAGE_SIZE) := by
  intro i
  induction i generalizing start with
  | zero => simp [pageAddress, u32, Nat.mod_eq_of_lt hs]
  | succ i ih =>
    rw [pageAddress, ih _ (u32_lt _)]
    simp only [u32, CITRA_PAGE_SIZE]
    omega

/-- C3, as stated, fails for a range that starts at physical address 0: the
call returns at once, so the video-memory page that table 0 maps as Memory,
an alias of the physical page 0x18000000 of the range, is still Memory. -/
theorem c3_range_from_zero_is_not_marked :
    0x1F000000 ∈ PhysicalToVirtualAddressForRasterizer console 0x18000000 ∧
    (runOperations console stub
        [Operation.MapMemoryRegion 0 0x1F000000 0x1000 (some ⟨Region.VRAM, 0⟩),
         Operation.RasterizerMarkRegionCached 0 0x18001000 true] freshSystem).toOption.map
      (fun s => (s.page_tables 0).attributes 0x1F000) = some PageType.Memory := by
  decide

/-- C3, amended: for every list of registered page tables and every physical
range whose start is not 0, after RasterizerMarkRegionCached completes, in
every registered table each virtual alias page of each physical page the call
goes through (page `i` of `num_pages`, at `start + i * CITRA_PAGE_SIZE`) that
was Unmapped is still Unmapped; with cached = true each one that was Memory is
RasterizerCachedMemory with a null pointer; with cached = false each one that
was RasterizerCachedMemory is Memory with the arena pointer of its page. -/
theorem c3_mark_reaches_every_table {ε : Type} (K : MemoryMap) (s s' : MemorySystem ε)
    (start size : Nat) (cached : Bool) (hstart : start ≠ 0) (h32 : start < 4294967296)
    (hrun : RasterizerMarkRegionCached K start size cached s = Except.ok s') :
    ∀ t ∈ s.page_table_list, ∀ i, i < num_pages start size →
      ∀ v ∈ PhysicalToVirtualAddressForRasterizer K (u32 (start + i * CITRA_PAGE_SIZE)),
        ((s.page_tables t).attributes (v >>> CITRA_PAGE_BITS) = PageType.Unmapped →
          (s'.page_tables t).attributes (v >>> CITRA_PAGE_BITS) = PageType.Unmapped) ∧
        (cached = true →
          (s.page_tables t).attributes (v >>> CITRA_PAGE_BITS) = PageType.Memory →
          (s'.page_tables t).attributes (v >>> CITRA_PAGE_BITS) =
              PageType.RasterizerCachedMemory ∧
            (s'.page_tables t).pointers (v >>> CITRA_PAGE_BITS) = none) ∧
        (cached = false →
          (s.page_tables t).attributes (v >>> CITRA_PAGE_BITS) =
            PageType.RasterizerCachedMemory →
          (s'.page_tables t).attributes (v >>> CITRA_PAGE_BITS) = PageType.Memory ∧
            ∃ p, GetPointerForRasterizerCache K (v &&& 0xFFFFF000) = Except.ok p ∧
              (s'.page_tables t).pointers (v >>> CITRA_PAGE_BITS) = some p) := by
  intro t ht i hi v hv
  unfold RasterizerMarkRegionCached at hrun
  rw [if_neg hstart] at hrun
  obtain ⟨hrel, _⟩ := markPages_rel K cached _ _ s s' hrun
  rw [← pageAddress_eq start h32 i] at hv
  have htr := (hrel t (v >>> CITRA_PAGE_BITS)).1 ⟨ht, i, hi, v, hv, rfl⟩
  have hv32 := physicalToVirtual_lt K _ v hv
  simp only [PageTable.entry] at htr
  refine ⟨?_, ?_, ?_⟩
  · intro hu
    rcases htr with ⟨_, he⟩ | ⟨_, hm, _⟩ | ⟨_, hc, _⟩
    · rw [Prod.mk.injEq] at he
      rw [he.1]; exact hu
    · simp only at hm; rw [hu] at hm; cases hm
    · simp only at hc; rw [hu] at hc; cases hc
  · intro hcached hmem
    rcases htr with ⟨hu, _⟩ | ⟨_, _, he⟩ | ⟨hc, _, _⟩
    · simp only at hu; rw [hmem] at hu; cases hu
    · rw [Prod.mk.injEq] at he
      exact he
    · rw [hcached] at hc; cases hc
  · intro hcached hcm
    rcases htr with ⟨hu, _⟩ | ⟨hc, _, _⟩ | ⟨_, _, p, hp, he⟩
    · simp only at hu; rw [hcm] at hu; cases hu
    · rw [hcached] at hc; cases hc
    · rw [Prod.mk.injEq] at he
      refine ⟨he.1, p, ?_, he.2⟩
      rw [and_not_page_mask v hv32, ← shr_page]
      exact hp

/-- The theorem of C3 on `aliasSystem`: marking the physical page cached
flips the entry of table 0 and, through the other alias, the entry of
table 1. -/
theorem c3_mark_reaches_every_table_witness :
    ((aliasSystemCached.page_tables 0).attributes 0x14000 = PageType.RasterizerCachedMemory ∧
      (aliasSystemCached.page_tables 0).pointers 0x14000 = none) ∧
    ((aliasSystemCached.page_tables 1).attributes 0x30000 = PageType.RasterizerCachedMemory ∧
      (aliasSystemCached.page_tables 1).pointers 0x30000 = none) :=
  ⟨(c3_mark_reaches_every_table console aliasSystem aliasSystemCached 0x20000000 0x1000 true
      (by decide) (by decide) (eq_ok_of_returns _ aliasSystem (by decide))
      0 (by decide) 0 (by decide) 0x14000000 (by decide)).2.1 rfl (by decide),
   (c3_mark_reaches_every_table console aliasSystem aliasSystemCached 0x20000000 0x1000 true
      (by decide) (by decide) (eq_ok_of_returns _ aliasSystem (by decide))
      1 (by decide) 0 (by decide) 0x30000000 (by decide)).2.1 rfl (by decide)⟩

/-! ## C4: mapping memory whose page is marked cached -/

theorem mapPages_loop_entries (K : MemoryMap) (marker : RasterizerCacheMarker)
    (type : PageType) :
    ∀ (n base : Nat) (memory : MemoryRef) (pt pt' : PageTable),
      MapPages.loop K marker type n base memory pt = Except.ok pt' →
      (n = 0 ∨ base + n ≤ PAGE_TABLE_NUM_ENTRIES) ∧
      pt'.special_regions = pt.special_regions ∧
      ∀ j, (base ≤ j ∧ j < base + n →
          pt'.entry j = mappedEntry K marker type j (pageRef K memory (j - base))) ∧
        (¬ (base ≤ j ∧ j < base + n) → pt'.entry j = pt.entry j) := by
  intro n
  induction n with
  | zero =>
    intro base memory pt pt' h
    simp [MapPages.loop] at h
    subst h
    refine ⟨Or.inl rfl, rfl, fun j => ⟨fun hj => ?_, fun _ => rfl⟩⟩
    omega
  | succ n ih =>
    intro base memory pt pt' h
    rw [MapPages.loop] at h
    split at h
    · cases h
    · rename_i hb
      have hb' : base < PAGE_TABLE_NUM_ENTRIES := by
        by_contra hc
        exact hb hc
      have hnum : PAGE_TABLE_NUM_ENTRIES = 1048576 := rfl
      have hu : u32 (base + 1) = base + 1 := by
        simp only [u32]
        omega
      have hu2 : u32 (base * CITRA_PAGE_SIZE) = base * CITRA_PAGE_SIZE := by
        simp only [u32, CITRA_PAGE_SIZE]
        omega
      rw [hu, hu2] at h
      obtain ⟨hbound, hsr, hent⟩ := ih _ _ _ _ h
      refine ⟨Or.inr ?_, ?_, ?_⟩
      · rcases hbound with h0 | hle
        · omega
        · omega
      · rw [hsr]
        split <;> rfl
      · intro j
        constructor
        · intro hj
          by_cases hjb : j = base
          · subst hjb
            rw [(hent j).2 (by omega)]
            simp only [Nat.sub_self, pageRef, mappedEntry, PageTable.entry]
            split <;> simp
          · rw [(hent j).1 (by omega)]
            have : j - base = (j - (base + 1)) + 1 := by omega
            rw [this, pageRef]
            rfl
        · intro hj
          have hjb : j ≠ base := by omega
          rw [(hent j).2 (by omega)]
          simp only [PageTable.entry]
          split <;> simp [setAt_other _ _ _ _ hjb]

theorem mapPages_entries {ε : Type} (K : MemoryMap) (E : Collaborators ε)
    (t base size : Nat) (memory : MemoryRef) (type : PageType) (s s' : MemorySystem ε)
    (h : MapPages K E t base size memory type s = Except.ok s') :
    (size = 0 ∨ base + size ≤ PAGE_TABLE_NUM_ENTRIES) ∧
    s'.cache_marker = s.cache_marker ∧
    (s'.page_tables t).special_regions = (s.page_tables t).special_regions ∧
    ∀ j, (base ≤ j ∧ j < base + size →
        (s'.page_tables t).entry j =
          mappedEntry K s.cache_marker type j (pageRef K memory (j - base))) ∧
      (¬ (base ≤ j ∧ j < base + size) → (s'.page_tables t).entry j = (s.page_tables t).entry j) := by
  unfold MapPages at h
  simp only at h
  split at h
  · rename_i pt hpt
    cases h
    have := mapPages_loop_entries K _ type size base memory _ pt hpt
    simp only [flushVirtual_cache_marker, flushVirtual_page_tables] at this
    refine ⟨this.1, ?_, ?_, ?_⟩
    · simp [MemorySystem.setTable]
    · simpa [MemorySystem.setTable] using this.2.1
    · simpa [MemorySystem.setTable] using this.2.2
  · cases h

/-- C4, as stated, fails: with the first page of main memory marked cached,
mapping that physical page at the virtual address 0x08000000, outside the
ranges the tracker covers, leaves the page Memory with a direct pointer. -/
theorem c4_cached_target_mapped_elsewhere_stays_memory :
    (runOperations console stub
        [Operation.RasterizerMarkRegionCached 0x20000000 0x1000 true,
         Operation.MapMemoryRegion 0 0x08000000 0x1000 (some ⟨Region.FCRAM, 0⟩)]
        freshSystem).toOption.map
      (fun s => (RasterizerCacheMarker.IsCached console s.cache_marker 0x14000000,
        RasterizerCacheMarker.IsCached console s.cache_marker 0x30000000,
        (s.page_tables 0).attributes 0x08000, (s.page_tables 0).pointers 0x08000))
      = some (true, true, PageType.Memory, some ⟨Region.FCRAM, 0⟩) := by
  decide

/-- C4, amended: for every MapMemoryRegion call that completes, each page of
the range whose own virtual address is marked cached in the tracker ends as
RasterizerCachedMemory with a null pointer, whatever the reference refers
to. -/
theorem c4_map_page_marked_cached {ε : Type} (K : MemoryMap) (E : Collaborators ε)
    (t base size : Nat) (target : MemoryRef) (s s' : MemorySystem ε)
    (hrun : MapMemoryRegion K E t base size target s = Except.ok s') :
    ∀ k, k < size / CITRA_PAGE_SIZE →
      RasterizerCacheMarker.IsCached K s.cache_marker
        ((base / CITRA_PAGE_SIZE + k) * CITRA_PAGE_SIZE) = true →
      (s'.page_tables t).attributes (base / CITRA_PAGE_SIZE + k) =
          PageType.RasterizerCachedMemory ∧
        (s'.page_tables t).pointers (base / CITRA_PAGE_SIZE + k) = none := by
  intro k hk hcached
  unfold MapMemoryRegion at hrun
  split at hrun
  · cases hrun
  · split at hrun
    · cases hrun
    · have h := (mapPages_entries K E t _ _ target _ s s' hrun).2.2.2
        (base / CITRA_PAGE_SIZE + k)
      have he := h.1 ⟨Nat.le_add_right _ _, Nat.add_lt_add_left hk _⟩
      simp only [mappedEntry, hcached, and_self, if_true, PageTable.entry] at he
      rw [Prod.mk.injEq] at he
      exact he

/-- The theorem of C4 on `cachedSystem`: the first of the two mapped pages is
marked cached and ends as RasterizerCachedMemory with a null pointer. -/
theorem c4_map_page_marked_cached_witness :
    (cachedSystemMapped.page_tables 0).attributes (0x14000000 / CITRA_PAGE_SIZE + 0) =
        PageType.RasterizerCachedMemory ∧
      (cachedSystemMapped.page_tables 0).pointers (0x14000000 / CITRA_PAGE_SIZE + 0) = none :=
  c4_map_page_marked_cached console stub 0 0x14000000 0x2000 (some ⟨Region.FCRAM, 0⟩)
    cachedSystem cachedSystemMapped (eq_ok_of_returns _ cachedSystem (by decide)) 0 (by decide)
    (by decide)

/-! ## C6: the chunks of the block walk -/

theorem walkLoop_eq_runChunks {σ : Type} (body : Chunk → σ → Except Fault σ) :
    ∀ (fuel remaining page_index page_offset : Nat) (st : σ),
      WalkBlock.loop body fuel remaining page_index page_offset st =
        runChunks body (WalkBlock.chunkList fuel remaining page_index page_offset) st := by
  intro fuel
  induction fuel with
  | zero => intro _ _ _ st; rfl
  | succ fuel ih =>
    intro remaining page_index page_offset st
    rw [WalkBlock.loop, WalkBlock.chunkList]
    split
    · simp only [runChunks]
      split
      · exact ih _ _ _ _
      · rfl
    · rfl

theorem walkBlock_eq_runChunks {ε α : Type} (K : MemoryMap) (t : Nat) (H : Handlers ε α)
    (src_addr size : Nat) (st : MemorySystem ε × α) :
    WalkBlock K t H src_addr size st =
      runChunks (WalkBlock.body K t H) (WalkBlock.chunks src_addr size) st :=
  walkLoop_eq_runChunks _ _ _ _ _ _

theorem chunkList_zero (fuel page_index page_offset : Nat) :
    WalkBlock.chunkList fuel 0 page_index page_offset = [] := by
  cases fuel <;> simp [WalkBlock.chunkList]

theorem chunkList_sum :
    ∀ (fuel remaining page_index page_offset : Nat), remaining ≤ fuel → page_offset < 4096 →
      ((WalkBlock.chunkList fuel remaining page_index page_offset).map Chunk.copy_amount).sum =
        remaining := by
  intro fuel
  induction fuel with
  | zero =>
    intro remaining _ _ h _
    have : remaining = 0 := by omega
    subst this
    rfl
  | succ fuel ih =>
    intro remaining page_index page_offset h hpo
    rw [WalkBlock.chunkList]
    split
    · rename_i hpos
      simp only [List.map_cons, List.sum_cons, CITRA_PAGE_SIZE]
      rw [ih _ _ _ (by omega) (by omega)]
      omega
    · simp
      omega

theorem chunkList_get :
    ∀ (fuel remaining page_index page_offset : Nat), remaining ≤ fuel → page_offset < 4096 →
      ∀ (k : Nat) (c : Chunk),
        (WalkBlock.chunkList fuel remaining page_index page_offset)[k]? = some c →
        c.page_index = page_index + k ∧
        c.page_offset = (if k = 0 then page_offset else 0) ∧
        0 < c.copy_amount ∧
        c.page_offset + c.copy_amount ≤ 4096 ∧
        c.current_vaddr = u32 (c.page_index * 4096 + c.page_offset) ∧
        c.page_index * 4096 + c.page_offset = page_index * 4096 + page_offset +
          (((WalkBlock.chunkList fuel remaining page_index page_offset).take k).map
            Chunk.copy_amount).sum := by
  intro fuel
  induction fuel with
  | zero =>
    intro remaining _ _ _ _ k c h
    simp [WalkBlock.chunkList] at h
  | succ fuel ih =>
    intro remaining page_index page_offset hle hpo k c h
    rw [WalkBlock.chunkList] at h ⊢
    split at h
    · rename_i hpos
      rw [if_pos hpos]
      cases k with
      | zero =>
        simp only [List.getElem?_cons_zero, Option.some.injEq] at h
        subst h
        simp only [CITRA_PAGE_SIZE, CITRA_PAGE_BITS, Nat.shiftLeft_eq]
        refine ⟨rfl, rfl, ?_, ?_, ?_, ?_⟩
        · omega
        · omega
        · norm_num
        · simp
      | succ k =>
        simp only [List.getElem?_cons_succ] at h
        by_cases hrem : remaining - min (CITRA_PAGE_SIZE - page_offset) remaining = 0
        · rw [hrem, chunkList_zero] at h
          simp at h
        · obtain ⟨h1, h2, h3, h4, h5, h6⟩ := ih _ _ _ (by
            simp only [CITRA_PAGE_SIZE]; omega) (by omega) k c h
          refine ⟨by omega, ?_, h3, h4, h5, ?_⟩
          · rw [h2]; simp
          · rw [h6]
            simp only [List.take_succ_cons, List.map_cons, List.sum_cons, CITRA_PAGE_SIZE] at hrem ⊢
            omega
    · simp at h

/-- C6: WalkBlock runs its body over the chunks of `WalkBlock.chunks`, in
order, and reaches a handler only for a chunk whose page index is in the page
table. Every chunk is non-empty and lies within one page; chunk `k` is on
page `(src_addr >> CITRA_PAGE_BITS) + k`, starts at offset 0 unless it is the
first, and starts at `src_addr` plus the bytes of the chunks before it, which
is the virtual address passed with it; the lengths sum to `size`. -/
theorem c6_walk_chunks {ε α : Type} (K : MemoryMap) (t : Nat) (H : Handlers ε α)
    (st : MemorySystem ε × α) (src_addr size : Nat) :
    WalkBlock K t H src_addr size st =
      runChunks (WalkBlock.body K t H) (WalkBlock.chunks src_addr size) st ∧
    (∀ c st1, ¬ c.page_index < PAGE_TABLE_NUM_ENTRIES →
      WalkBlock.body K t H c st1 = Except.error Fault.outOfBounds) ∧
    ((WalkBlock.chunks src_addr size).map Chunk.copy_amount).sum = size ∧
    ∀ (k : Nat) (c : Chunk), (WalkBlock.chunks src_addr size)[k]? = some c →
      0 < c.copy_amount ∧
      c.page_offset + c.copy_amount ≤ CITRA_PAGE_SIZE ∧
      c.page_index = (src_addr >>> CITRA_PAGE_BITS) + k ∧
      (k = 0 → c.page_offset = src_addr &&& CITRA_PAGE_MASK) ∧
      (k ≠ 0 → c.page_offset = 0) ∧
      c.page_index * CITRA_PAGE_SIZE + c.page_offset =
        src_addr + (((WalkBlock.chunks src_addr size).take k).map Chunk.copy_amount).sum ∧
      (c.page_index < PAGE_TABLE_NUM_ENTRIES →
        c.current_vaddr =
          src_addr + (((WalkBlock.chunks src_addr size).take k).map Chunk.copy_amount).sum) := by
  have hoff : src_addr &&& CITRA_PAGE_MASK < 4096 := by
    rw [and_page_mask]; omega
  have hsplit : (src_addr >>> CITRA_PAGE_BITS) * 4096 + (src_addr &&& CITRA_PAGE_MASK) =
      src_addr := by
    rw [and_page_mask, shr_page]; omega
  refine ⟨walkBlock_eq_runChunks K t H src_addr size st, ?_, ?_, ?_⟩
  · intro c st1 hc
    simp [WalkBlock.body, hc]
  · exact chunkList_sum size size _ _ (Nat.le_refl _) hoff
  · intro k c h
    obtain ⟨h1, h2, h3, h4, h5, h6⟩ := chunkList_get size size _ _ (Nat.le_refl _) hoff k c h
    have h6' : c.page_index * 4096 + c.page_offset =
        src_addr + (((WalkBlock.chunks src_addr size).take k).map Chunk.copy_amount).sum := by
      rw [h6, hsplit]
      rfl
    refine ⟨h3, h4, h1, ?_, ?_, h6', ?_⟩
    · intro hk; rw [h2, if_pos hk]
    · intro hk; rw [h2, if_neg hk]
    · intro hlt
      rw [h5, ← h6']
      simp only [u32, PAGE_TABLE_NUM_ENTRIES] at hlt ⊢
      omega

/-- The theorem of C6 on a walk of 0x1004 bytes from 0xFFE: three chunks, of
2, 4096 and 2 bytes. -/
theorem c6_walk_chunks_witness :
    WalkBlock.chunks 0xFFE 0x1004 =
      [⟨0, 0xFFE, 2, 0xFFE⟩, ⟨1, 0, 0x1000, 0x1000⟩, ⟨2, 0, 2, 0x2000⟩] ∧
    ((WalkBlock.chunks 0xFFE 0x1004).map Chunk.copy_amount).sum = 0x1004 :=
  ⟨by decide,
   (c6_walk_chunks console 0 (ReadBlockImpl.handlers console stub)
      (freshSystem, (fun _ => 0, 0)) 0xFFE 0x1004).2.2.1⟩

/-! ## C5: ReadBlock, byte by byte -/

theorem chunkList_succ_pos (fuel remaining page_index page_offset : Nat) (h : remaining > 0) :
    WalkBlock.chunkList (fuel + 1) remaining page_index page_offset =
      ⟨page_index, page_offset, min (4096 - page_offset) remaining,
        u32 (page_index * 4096 + page_offset)⟩ ::
      WalkBlock.chunkList fuel (remaining - min (4096 - page_offset) remaining)
        (page_index + 1) 0 := by
  rw [WalkBlock.chunkList, if_pos h]
  simp only [CITRA_PAGE_SIZE, CITRA_PAGE_BITS, Nat.shiftLeft_eq]

theorem chunkList_fuel :
    ∀ (fuel fuel' remaining page_index page_offset : Nat), remaining ≤ fuel →
      remaining ≤ fuel' → page_offset < 4096 →
      WalkBlock.chunkList fuel remaining page_index page_offset =
        WalkBlock.chunkList fuel' remaining page_index page_offset := by
  intro fuel
  induction fuel with
  | zero =>
    intro fuel' remaining _ _ h _ _
    have : remaining = 0 := by omega
    subst this
    rw [chunkList_zero, chunkList_zero]
  | succ fuel ih =>
    intro fuel' remaining page_index page_offset h h' hpo
    by_cases hpos : remaining > 0
    · cases fuel' with
      | zero => omega
      | succ fuel' =>
        rw [chunkList_succ_pos _ _ _ _ hpos, chunkList_succ_pos _ _ _ _ hpos]
        rw [ih fuel' _ _ _ (by omega) (by omega) (by omega)]
    · have : remaining = 0 := by omega
      subst this
      rw [chunkList_zero, chunkList_zero]

theorem sum_take_le (l : List Nat) (k : Nat) : (l.take k).sum ≤ l.sum := by
  conv_rhs => rw [← List.take_append_drop k l]
  rw [List.sum_append]
  exact Nat.le_add_right _ _

theorem chunkList_amount :
    ∀ (fuel remaining page_index page_offset : Nat), remaining ≤ fuel → page_offset < 4096 →
      ∀ (k : Nat) (c : Chunk),
        (WalkBlock.chunkList fuel remaining page_index page_offset)[k]? = some c →
        c.copy_amount = min (4096 - c.page_offset)
          (remaining - (((WalkBlock.chunkList fuel remaining page_index page_offset).take k).map
            Chunk.copy_amount).sum) := by
  intro fuel
  induction fuel with
  | zero =>
    intro remaining _ _ _ _ k c h
    simp [WalkBlock.chunkList] at h
  | succ fuel ih =>
    intro remaining page_index page_offset hle hpo k c h
    by_cases hpos : remaining > 0
    · rw [chunkList_succ_pos _ _ _ _ hpos] at h ⊢
      cases k with
      | zero =>
        simp only [List.getElem?_cons_zero, Option.some.injEq] at h
        subst h
        simp
      | succ k =>
        simp only [List.getElem?_cons_succ] at h
        have := ih _ _ _ (by omega) (by omega) k c h
        rw [this]
        simp only [List.take_succ_cons, List.map_cons, List.sum_cons]
        congr 1
        omega
    · have : remaining = 0 := by omega
      subst this
      rw [chunkList_zero] at h
      simp at h

theorem chunkList_take :
    ∀ (fuel remaining page_index page_offset : Nat), remaining ≤ fuel → page_offset < 4096 →
      ∀ (k m : Nat),
        m = (((WalkBlock.chunkList fuel remaining page_index page_offset).take k).map
          Chunk.copy_amount).sum →
        (WalkBlock.chunkList fuel remaining page_index page_offset).take k =
          WalkBlock.chunkList fuel m page_index page_offset := by
  intro fuel
  induction fuel with
  | zero =>
    intro remaining _ _ _ _ k m _
    simp [WalkBlock.chunkList]
  | succ fuel ih =>
    intro remaining page_index page_offset hle hpo k m hm
    by_cases hpos : remaining > 0
    · cases k with
      | zero =>
        simp only [List.take_zero, List.map_nil, List.sum_nil] at hm
        subst hm
        rw [chunkList_zero]
        rfl
      | succ k =>
        rw [chunkList_succ_pos _ _ _ _ hpos] at hm ⊢
        simp only [List.take_succ_cons, List.map_cons, List.sum_cons] at hm ⊢
        have ih' := ih (remaining - min (4096 - page_offset) remaining) (page_index + 1) 0
          (by omega) (by omega) k _ rfl
        have hle' := sum_take_le ((WalkBlock.chunkList fuel
          (remaining - min (4096 - page_offset) remaining) (page_index + 1) 0).map
            Chunk.copy_amount) k
        rw [← List.map_take, chunkList_sum _ _ _ _ (by omega) (by omega)] at hle'
        generalize hn : (((WalkBlock.chunkList fuel
          (remaining - min (4096 - page_offset) remaining) (page_index + 1) 0).take k).map
            Chunk.copy_amount).sum = n at hm ih' hle'
        have hmpos : m > 0 := by omega
        rw [chunkList_succ_pos _ _ _ _ hmpos]
        have hmin : min (4096 - page_offset) m = min (4096 - page_offset) remaining := by omega
        rw [hmin]
        have hsub : m - min (4096 - page_offset) remaining = n := by omega
        rw [hsub, ih']
    · have h0 : remaining = 0 := by omega
      subst h0
      rw [chunkList_zero] at hm ⊢
      simp only [List.take_nil, List.map_nil, List.sum_nil] at hm ⊢
      subst hm
      rw [chunkList_zero]

theorem chunks_take (src_addr size k m : Nat)
    (hm : m = (((WalkBlock.chunks src_addr size).take k).map Chunk.copy_amount).sum) :
    (WalkBlock.chunks src_addr size).take k = WalkBlock.chunks src_addr m := by
  have hoff : src_addr &&& CITRA_PAGE_MASK < 4096 := by
    rw [and_page_mask]; omega
  have hle : m ≤ size := by
    have h1 := sum_take_le ((WalkBlock.chunks src_addr size).map Chunk.copy_amount) k
    rw [← List.map_take, ← hm] at h1
    have h2 := chunkList_sum size size (src_addr >>> CITRA_PAGE_BITS)
      (src_addr &&& CITRA_PAGE_MASK) (Nat.le_refl _) hoff
    unfold WalkBlock.chunks at h1
    omega
  unfold WalkBlock.chunks at hm ⊢
  rw [chunkList_take size size _ _ (Nat.le_refl _) hoff k m hm]
  exact chunkList_fuel size m m _ _ hle (Nat.le_refl _) hoff

/-- Some entry of a list of lengths covers each position below their sum. -/
theorem exists_chunk_of_lt_sum :
    ∀ (l : List Nat) (i : Nat), i < l.sum →
      ∃ k x, l[k]? = some x ∧ (l.take k).sum ≤ i ∧ i < (l.take k).sum + x := by
  intro l
  induction l with
  | nil => intro i h; simp at h
  | cons x l ih =>
    intro i h
    by_cases hi : i < x
    · exact ⟨0, x, by simp, by simp, by simpa using hi⟩
    · simp only [List.sum_cons] at h
      obtain ⟨k, y, hk, h1, h2⟩ := ih (i - x) (by omega)
      refine ⟨k + 1, y, by simpa using hk, ?_, ?_⟩
      · simp only [List.take_succ_cons, List.sum_cons]; omega
      · simp only [List.take_succ_cons, List.sum_cons]; omega

theorem readChunk_page_tables {ε : Type} (K : MemoryMap) (E : Collaborators ε) (t : Nat)
    (c : Chunk) (s : MemorySystem ε) : (readChunk K E t c s).1.page_tables = s.page_tables := by
  unfold readChunk
  split
  · rfl
  · split <;> rfl
  · split <;> rfl
  · split
    · simp
    · rfl

theorem readBody_ok {ε : Type} (K : MemoryMap) (E : Collaborators ε) (t : Nat) (c : Chunk)
    (s : MemorySystem ε) (d : Nat → Nat) (pos : Nat) (hok : ChunkOk K (s.page_tables t) c) :
    WalkBlock.body K t (ReadBlockImpl.handlers K E) c (s, (d, pos)) =
      Except.ok ((readChunk K E t c s).1,
        (fill d pos c.copy_amount (readChunk K E t c s).2, pos + c.copy_amount)) := by
  obtain ⟨hidx, hmem, hsp, hrc⟩ := hok
  unfold WalkBlock.body readChunk
  rw [if_neg (by simpa using hidx)]
  simp only
  cases hattr : (s.page_tables t).attributes c.page_index with
  | Unmapped => simp [ReadBlockImpl.handlers]
  | Memory =>
    obtain ⟨p, hp⟩ := Option.ne_none_iff_exists'.1 (hmem hattr)
    simp [ReadBlockImpl.handlers, hp]
  | Special =>
    obtain ⟨h, hh⟩ := hsp hattr
    simp [ReadBlockImpl.handlers, hh]
  | RasterizerCachedMemory =>
    obtain ⟨p, hp⟩ := hrc hattr
    simp [ReadBlockImpl.handlers, hp]

theorem fill_of_lt (d : Nat → Nat) (pos n : Nat) (src : Nat → Nat) (j : Nat) (h : j < pos) :
    fill d pos n src j = d j := by
  simp only [fill]
  rw [if_neg (by omega)]

theorem fill_of_ge (d : Nat → Nat) (pos n : Nat) (src : Nat → Nat) (j : Nat) (h : pos + n ≤ j) :
    fill d pos n src j = d j := by
  simp only [fill]
  rw [if_neg (by omega)]

theorem fill_of_mem (d : Nat → Nat) (pos n : Nat) (src : Nat → Nat) (i : Nat) (h : i < n) :
    fill d pos n src (pos + i) = src i := by
  simp only [fill]
  rw [if_pos (by omega), Nat.add_sub_cancel_left]

theorem runChunks_read {ε : Type} (K : MemoryMap) (E : Collaborators ε) (t : Nat) :
    ∀ (cs : List Chunk) (s : MemorySystem ε) (d : Nat → Nat) (pos : Nat),
      (∀ c ∈ cs, ChunkOk K (s.page_tables t) c) →
      ∃ s' d', runChunks (WalkBlock.body K t (ReadBlockImpl.handlers K E)) cs (s, (d, pos)) =
          Except.ok (s', (d', pos + (cs.map Chunk.copy_amount).sum)) ∧
        s'.page_tables = s.page_tables ∧
        (∀ j, j < pos → d' j = d j) ∧
        (∀ j, pos + (cs.map Chunk.copy_amount).sum ≤ j → d' j = d j) ∧
        ∀ k c, cs[k]? = some c →
          ∃ s_k d_k,
            runChunks (WalkBlock.body K t (ReadBlockImpl.handlers K E)) (cs.take k) (s, (d, pos)) =
              Except.ok (s_k, (d_k, pos + ((cs.take k).map Chunk.copy_amount).sum)) ∧
            s_k.page_tables = s.page_tables ∧
            ∀ i, i < c.copy_amount →
              d' (pos + ((cs.take k).map Chunk.copy_amount).sum + i) =
                (readChunk K E t c s_k).2 i := by
  intro cs
  induction cs with
  | nil =>
    intro s d pos _
    exact ⟨s, d, rfl, rfl, fun _ _ => rfl, fun _ _ => rfl, fun k c h => by simp at h⟩
  | cons c0 cs ih =>
    intro s d pos hok
    have hb := readBody_ok K E t c0 s d pos (hok c0 (List.mem_cons_self _ _))
    have htab := readChunk_page_tables K E t c0 s
    obtain ⟨s', d', hrun, hpt, hlt, hge, hk⟩ := ih (readChunk K E t c0 s).1
      (fill d pos c0.copy_amount (readChunk K E t c0 s).2) (pos + c0.copy_amount)
      (fun c hc => by rw [htab]; exact hok c (List.mem_cons_of_mem _ hc))
    refine ⟨s', d', ?_, ?_, ?_, ?_, ?_⟩
    · simp only [runChunks, hb, List.map_cons, List.sum_cons]
      rw [hrun, Nat.add_assoc]
    · rw [hpt, htab]
    · intro j hj
      rw [hlt j (by omega), fill_of_lt _ _ _ _ _ hj]
    · intro j hj
      simp only [List.map_cons, List.sum_cons] at hj
      rw [hge j (by omega), fill_of_ge _ _ _ _ _ (by omega)]
    · intro k c hc
      cases k with
      | zero =>
        simp only [List.getElem?_cons_zero, Option.some.injEq] at hc
        subst hc
        refine ⟨s, d, rfl, rfl, ?_⟩
        intro i hi
        simp only [List.take_zero, List.map_nil, List.sum_nil, Nat.add_zero]
        rw [hlt _ (by omega), fill_of_mem _ _ _ _ _ hi]
      | succ k =>
        simp only [List.getElem?_cons_succ] at hc
        obtain ⟨s_k, d_k, hrunk, hptk, hbytes⟩ := hk k c hc
        refine ⟨s_k, d_k, ?_, ?_, ?_⟩
        · simp only [List.take_succ_cons, runChunks, hb, List.map_cons, List.sum_cons]
          rw [hrunk, Nat.add_assoc]
        · rw [hptk, htab]
        · intro i hi
          simp only [List.take_succ_cons, List.map_cons, List.sum_cons]
          rw [← hbytes i hi]
          congr 1
          omega

/-- The facts about the chunk `k` of a walk that the block theorems use. -/
theorem chunks_get (src_addr size k : Nat) (c : Chunk)
    (h : (WalkBlock.chunks src_addr size)[k]? = some c) :
    c.page_index = src_addr / 4096 + k ∧
    (k = 0 → c.page_offset = src_addr % 4096) ∧
    (k ≠ 0 → c.page_offset = 0) ∧
    0 < c.copy_amount ∧
    c.page_offset + c.copy_amount ≤ 4096 ∧
    c.current_vaddr = u32 (c.page_index * 4096 + c.page_offset) ∧
    c.page_index * 4096 + c.page_offset =
      src_addr + (((WalkBlock.chunks src_addr size).take k).map Chunk.copy_amount).sum ∧
    c.copy_amount = min (4096 - c.page_offset)
      (size - (((WalkBlock.chunks src_addr size).take k).map Chunk.copy_amount).sum) ∧
    (((WalkBlock.chunks src_addr size).take k).map Chunk.copy_amount).sum < size := by
  have hoff : src_addr &&& CITRA_PAGE_MASK < 4096 := by
    rw [and_page_mask]; omega
  obtain ⟨h1, h2, h3, h4, h5, h6⟩ := chunkList_get size size _ _ (Nat.le_refl _) hoff k c h
  have h7 := chunkList_amount size size _ _ (Nat.le_refl _) hoff k c h
  rw [shr_page] at h1
  rw [shr_page, and_page_mask] at h6
  rw [and_page_mask] at h2
  unfold WalkBlock.chunks
  refine ⟨h1, ?_, ?_, h3, h4, h5, ?_, h7, ?_⟩
  · intro hk; rw [h2, if_pos hk]
  · intro hk; rw [h2, if_neg hk]
  · rw [h6, shr_page, and_page_mask]; omega
  · omega

theorem chunks_ok (K : MemoryMap) (pt : PageTable) (src_addr size : Nat)
    (h32 : src_addr + size ≤ 4294967296)
    (hmem : ∀ a, src_addr ≤ a → a < src_addr + size →
      pt.attributes (a >>> CITRA_PAGE_BITS) = PageType.Memory →
      pt.pointers (a >>> CITRA_PAGE_BITS) ≠ none)
    (hsp : ∀ a, src_addr ≤ a → a < src_addr + size →
      pt.attributes (a >>> CITRA_PAGE_BITS) = PageType.Special →
      ∃ h, GetMMIOHandler pt a = Except.ok h)
    (hrc : ∀ a, src_addr ≤ a → a < src_addr + size →
      pt.attributes (a >>> CITRA_PAGE_BITS) = PageType.RasterizerCachedMemory →
      InRasterizerRange K a) :
    ∀ c ∈ WalkBlock.chunks src_addr size, ChunkOk K pt c := by
  intro c hc
  obtain ⟨k, hk⟩ := List.mem_iff_getElem?.1 hc
  obtain ⟨h1, _, _, h4, h5, h6, h7, _, h9⟩ := chunks_get src_addr size k c hk
  have hlt : c.page_index * 4096 + c.page_offset < 4294967296 := by omega
  have hva : c.current_vaddr = c.page_index * 4096 + c.page_offset := by
    rw [h6]; simp only [u32]; omega
  have hpg : c.current_vaddr >>> CITRA_PAGE_BITS = c.page_index := by
    rw [shr_page, hva]; omega
  have hlo : src_addr ≤ c.current_vaddr := by omega
  have hhi : c.current_vaddr < src_addr + size := by omega
  refine ⟨?_, ?_, ?_, ?_⟩
  · simp only [PAGE_TABLE_NUM_ENTRIES]; omega
  · intro ha
    rw [← hpg] at ha ⊢
    exact hmem _ hlo hhi ha
  · intro ha
    rw [← hpg] at ha
    exact hsp _ hlo hhi ha
  · intro ha
    rw [← hpg] at ha
    exact getPointer_of_inRange K _ (hrc _ hlo hhi ha)

theorem readBlock_eq {ε : Type} (K : MemoryMap) (E : Collaborators ε) (t src_addr : Nat)
    (d : Nat → Nat) (size : Nat) (s s' : MemorySystem ε) (d' : Nat → Nat) (pos : Nat)
    (h : runChunks (WalkBlock.body K t (ReadBlockImpl.handlers K E))
      (WalkBlock.chunks src_addr size) (s, (d, 0)) = Except.ok (s', (d', pos))) :
    ReadBlock K E t src_addr d size s = Except.ok (s', d') := by
  unfold ReadBlock
  rw [walkBlock_eq_runChunks, h]

/-- C5: on a range inside the address space whose Memory pages have their
pointer, whose Special pages have a handler and whose RasterizerCachedMemory
pages lie in a rasterizer range, one ReadBlock call returns, leaves the
destination beyond `size` alone, and stores for every `i < size`: 0 when the
page of `src_addr + i` is Unmapped; the arena byte at the page pointer plus
the page offset when it is Memory; the byte the handler's ReadBlock produced
at that position of the chunk when it is Special; the arena byte at the arena
pointer of the address, read after the flush, when it is
RasterizerCachedMemory. The arenas and the handlers are those of the moment
the walk reaches the chunk: the state `s_k` that ReadBlock of the bytes
before the chunk leaves. An Unmapped page does not stop the walk. -/
theorem c5_read_block_bytes {ε : Type} (K : MemoryMap) (E : Collaborators ε)
    (t src_addr size : Nat) (dest_buffer : Nat → Nat) (s : MemorySystem ε)
    (h32 : src_addr + size ≤ 4294967296)
    (hmem : ∀ a, src_addr ≤ a → a < src_addr + size →
      (s.page_tables t).attributes (a >>> CITRA_PAGE_BITS) = PageType.Memory →
      (s.page_tables t).pointers (a >>> CITRA_PAGE_BITS) ≠ none)
    (hsp : ∀ a, src_addr ≤ a → a < src_addr + size →
      (s.page_tables t).attributes (a >>> CITRA_PAGE_BITS) = PageType.Special →
      ∃ h, GetMMIOHandler (s.page_tables t) a = Except.ok h)
    (hrc : ∀ a, src_addr ≤ a → a < src_addr + size →
      (s.page_tables t).attributes (a >>> CITRA_PAGE_BITS) = PageType.RasterizerCachedMemory →
      InRasterizerRange K a) :
    ∃ s' d', ReadBlock K E t src_addr dest_buffer size s = Except.ok (s', d') ∧
      (∀ j, size ≤ j → d' j = dest_buffer j) ∧
      ∀ i, i < size →
        ∃ s_k d_k,
          ReadBlock K E t src_addr dest_buffer
            (chunkStart src_addr (src_addr + i) - src_addr) s = Except.ok (s_k, d_k) ∧
          s_k.page_tables = s.page_tables ∧
          ((s.page_tables t).attributes ((src_addr + i) >>> CITRA_PAGE_BITS) =
              PageType.Unmapped → d' i = 0) ∧
          ((s.page_tables t).attributes ((src_addr + i) >>> CITRA_PAGE_BITS) =
              PageType.Memory →
            ∃ p, (s.page_tables t).pointers ((src_addr + i) >>> CITRA_PAGE_BITS) = some p ∧
              d' i = s_k.backing p.region (p.offset + ((src_addr + i) &&& CITRA_PAGE_MASK))) ∧
          ((s.page_tables t).attributes ((src_addr + i) >>> CITRA_PAGE_BITS) =
              PageType.Special →
            ∃ h, GetMMIOHandler (s.page_tables t) (chunkStart src_addr (src_addr + i)) =
                Except.ok h ∧
              d' i = (E.ReadBlock h (chunkStart src_addr (src_addr + i))
                (chunkLength src_addr size (src_addr + i)) s_k.world).1
                  (src_addr + i - chunkStart src_addr (src_addr + i))) ∧
          ((s.page_tables t).attributes ((src_addr + i) >>> CITRA_PAGE_BITS) =
              PageType.RasterizerCachedMemory →
            ∃ p, GetPointerForRasterizerCache K (chunkStart src_addr (src_addr + i)) =
                Except.ok p ∧
              d' i = (RasterizerFlushVirtualRegion K E (chunkStart src_addr (src_addr + i))
                (u32 (chunkLength src_addr size (src_addr + i))) FlushMode.Flush s_k).backing
                  p.region (p.offset + (src_addr + i - chunkStart src_addr (src_addr + i)))) := by
  have hoff : src_addr &&& CITRA_PAGE_MASK < 4096 := by
    rw [and_page_mask]; omega
  have hok := chunks_ok K (s.page_tables t) src_addr size h32 hmem hsp hrc
  have hsum : ((WalkBlock.chunks src_addr size).map Chunk.copy_amount).sum = size :=
    chunkList_sum size size _ _ (Nat.le_refl _) hoff
  obtain ⟨s', d', hrun, _, _, hge, hk⟩ :=
    runChunks_read K E t (WalkBlock.chunks src_addr size) s dest_buffer 0 hok
  refine ⟨s', d', readBlock_eq K E t src_addr dest_buffer size s s' d' _ hrun, ?_, ?_⟩
  · intro j hj
    exact hge j (by omega)
  · intro i hi
    obtain ⟨k, x, hx, hlo, hhi⟩ :=
      exists_chunk_of_lt_sum ((WalkBlock.chunks src_addr size).map Chunk.copy_amount) i
        (by omega)
    rw [List.getElem?_map] at hx
    obtain ⟨c, hc, hcx⟩ := Option.map_eq_some'.1 hx
    subst hcx
    rw [← List.map_take] at hlo hhi
    obtain ⟨s_k, d_k, hrunk, hptk, hbytes⟩ := hk k c hc
    obtain ⟨h1, h2, h3, h4, h5, h6, h7, h8, h9⟩ := chunks_get src_addr size k c hc
    have hcok := hok c (List.mem_iff_getElem?.2 ⟨k, hc⟩)
    generalize hn0 : (((WalkBlock.chunks src_addr size).take k).map Chunk.copy_amount).sum = n0
      at hlo hhi hrunk hbytes h7 h8 h9
    have hk0 : k = 0 → n0 = 0 := by
      intro hk0
      subst hk0
      simpa using hn0.symm
    have hstart : chunkStart src_addr (src_addr + i) = src_addr + n0 := by
      simp only [chunkStart, CITRA_PAGE_SIZE]
      by_cases hkz : k = 0
      · have := hk0 hkz
        have := h2 hkz
        omega
      · have := h3 hkz
        omega
    have hva : c.current_vaddr = src_addr + n0 := by
      rw [h6]; simp only [u32]; omega
    have hlen : chunkLength src_addr size (src_addr + i) = c.copy_amount := by
      simp only [chunkLength, hstart, CITRA_PAGE_SIZE]
      rw [h8]
      have : (src_addr + n0) % 4096 = c.page_offset := by omega
      rw [this]
      congr 1
      omega
    have hpage : (src_addr + i) >>> CITRA_PAGE_BITS = c.page_index := by
      rw [shr_page]; omega
    have hdi : d' i = (readChunk K E t c s_k).2 (i - n0) := by
      have := hbytes (i - n0) (by omega)
      rw [← this]
      congr 1
      omega
    refine ⟨s_k, d_k, ?_, hptk, ?_, ?_, ?_, ?_⟩
    · rw [hstart, Nat.add_sub_cancel_left]
      refine readBlock_eq K E t src_addr dest_buffer n0 s s_k d_k (0 + n0) ?_
      rw [← chunks_take src_addr size k n0 hn0.symm]
      exact hrunk
    · intro ha
      rw [hpage] at ha
      rw [hdi]
      simp [readChunk, hptk, ha]
    · intro ha
      rw [hpage] at ha ⊢
      obtain ⟨p, hp⟩ := Option.ne_none_iff_exists'.1 (hcok.2.1 ha)
      refine ⟨p, hp, ?_⟩
      have hrc2 : (readChunk K E t c s_k).2 =
          bytesAt s_k.backing ⟨p.region, p.offset + c.page_offset⟩ := by
        simp [readChunk, hptk, ha, hp]
      have hoffs : p.offset + c.page_offset + (i - n0) = p.offset + (src_addr + i) % 4096 := by
        omega
      rw [hdi, hrc2, and_page_mask]
      simp only [bytesAt]
      rw [hoffs]
    · intro ha
      rw [hpage] at ha
      obtain ⟨h, hh⟩ := hcok.2.2.1 ha
      have hrc2 : (readChunk K E t c s_k).2 =
          (E.ReadBlock h c.current_vaddr c.copy_amount s_k.world).1 := by
        simp [readChunk, hptk, ha, hh]
      have hoffs : src_addr + i - (src_addr + n0) = i - n0 := by omega
      rw [hstart, hlen, hoffs, ← hva]
      exact ⟨h, hh, by rw [hdi, hrc2]⟩
    · intro ha
      rw [hpage] at ha
      obtain ⟨p, hp⟩ := hcok.2.2.2 ha
      have hrc2 : (readChunk K E t c s_k).2 =
          bytesAt (RasterizerFlushVirtualRegion K E c.current_vaddr (u32 c.copy_amount)
            FlushMode.Flush s_k).backing p := by
        simp [readChunk, hptk, ha, hp]
      have hoffs : src_addr + i - (src_addr + n0) = i - n0 := by omega
      rw [hstart, hlen, hoffs, ← hva]
      exact ⟨p, hp, by rw [hdi, hrc2]; rfl⟩

theorem blockTable_memory (a : Nat)
    (h : blockTable.attributes (a >>> CITRA_PAGE_BITS) = PageType.Memory) :
    a >>> CITRA_PAGE_BITS = 0x11 := by
  simp only [blockTable] at h
  split at h
  · assumption
  · split at h <;> cases h

theorem blockTable_special (a : Nat)
    (h : blockTable.attributes (a >>> CITRA_PAGE_BITS) = PageType.Special) :
    a >>> CITRA_PAGE_BITS = 0x12 := by
  simp only [blockTable] at h
  split at h
  · cases h
  · split at h
    · assumption
    · cases h

theorem blockTable_not_cached (i : Nat) :
    blockTable.attributes i ≠ PageType.RasterizerCachedMemory := by
  simp only [blockTable]
  split
  · simp
  · split <;> simp

/-- The theorem of C5 on `blockSystem`, for the 0x1004 bytes from 0x10FFE: two
bytes of an Unmapped page, a whole Memory page and two bytes of a Special
page; and the bytes the call stores at the start of each of the three. -/
theorem c5_read_block_bytes_witness :
    (∃ s' d', ReadBlock console patternDevice 0 0x10FFE (fun _ => 0xEE) 0x1004 blockSystem =
        Except.ok (s', d') ∧
      (∀ j, 0x1004 ≤ j → d' j = (fun _ => 0xEE) j) ∧
      ∀ i, i < 0x1004 →
        ∃ s_k d_k,
          ReadBlock console patternDevice 0 0x10FFE (fun _ => 0xEE)
            (chunkStart 0x10FFE (0x10FFE + i) - 0x10FFE) blockSystem = Except.ok (s_k, d_k) ∧
          s_k.page_tables = blockSystem.page_tables ∧
          ((blockSystem.page_tables 0).attributes ((0x10FFE + i) >>> CITRA_PAGE_BITS) =
              PageType.Unmapped → d' i = 0) ∧
          ((blockSystem.page_tables 0).attributes ((0x10FFE + i) >>> CITRA_PAGE_BITS) =
              PageType.Memory →
            ∃ p, (blockSystem.page_tables 0).pointers ((0x10FFE + i) >>> CITRA_PAGE_BITS) =
                some p ∧
              d' i = s_k.backing p.region (p.offset + ((0x10FFE + i) &&& CITRA_PAGE_MASK))) ∧
          ((blockSystem.page_tables 0).attributes ((0x10FFE + i) >>> CITRA_PAGE_BITS) =
              PageType.Special →
            ∃ h, GetMMIOHandler (blockSystem.page_tables 0) (chunkStart 0x10FFE (0x10FFE + i)) =
                Except.ok h ∧
              d' i = (patternDevice.ReadBlock h (chunkStart 0x10FFE (0x10FFE + i))
                (chunkLength 0x10FFE 0x1004 (0x10FFE + i)) s_k.world).1
                  (0x10FFE + i - chunkStart 0x10FFE (0x10FFE + i))) ∧
          ((blockSystem.page_tables 0).attributes ((0x10FFE + i) >>> CITRA_PAGE_BITS) =
              PageType.RasterizerCachedMemory →
            ∃ p, GetPointerForRasterizerCache console (chunkStart 0x10FFE (0x10FFE + i)) =
                Except.ok p ∧
              d' i = (RasterizerFlushVirtualRegion console patternDevice
                (chunkStart 0x10FFE (0x10FFE + i))
                (u32 (chunkLength 0x10FFE 0x1004 (0x10FFE + i))) FlushMode.Flush s_k).backing
                  p.region (p.offset + (0x10FFE + i - chunkStart 0x10FFE (0x10FFE + i))))) ∧
    ((ReadBlock console patternDevice 0 0x10FFE (fun _ => 0xEE) 0x1004 blockSystem).toOption.map
      (fun r => (r.2 0, r.2 1, r.2 2, r.2 3, r.2 0x1002, r.2 0x1003, r.2 0x1004)))
      = some (0, 0, 1, 2, 0, 1, 0xEE) :=
  ⟨c5_read_block_bytes console patternDevice 0 0x10FFE 0x1004 (fun _ => 0xEE) blockSystem
      (by decide)
      (fun a _ _ ha => by
        have := blockTable_memory a ha
        simp [blockSystem, blockTable, this])
      (fun a _ _ ha => by
        have h12 := blockTable_special a ha
        rw [shr_page] at h12
        refine ⟨7, ?_⟩
        simp only [blockSystem, blockTable, GetMMIOHandler, GetMMIOHandler.find, u32]
        rw [if_pos (by omega)])
      (fun a _ _ ha => absurd ha (blockTable_not_cached _)),
   by rfl⟩

/-! ## C10: access to an Unmapped page -/

/-- C10: on a page table that satisfies the pointer invariant, for every
width and every address whose page is Unmapped, Read returns 0 and Write
returns, both with the memory system exactly as it was: arenas, page tables,
tracker, collaborator state and the list of calls made to the rasterizer and
the MMIO handlers. -/
theorem c10_unmapped_access {ε : Type} (K : MemoryMap) (E : Collaborators ε)
    (s : MemorySystem ε) (t w vaddr v : Nat)
    (hcur : s.current_page_table = some t)
    (hinv : (s.page_tables t).PointerIffMemory)
    (hun : (s.page_tables t).attributes (vaddr >>> CITRA_PAGE_BITS) = PageType.Unmapped) :
    Read K E w vaddr s = Except.ok (0, s) ∧ Write K E w vaddr v s = Except.ok s := by
  have hp := pointer_none_of_not_memory _ hinv (vaddr >>> CITRA_PAGE_BITS) (by rw [hun]; simp)
  constructor
  · simp only [Read, hcur, hp, hun]
  · simp only [Write, hcur, hp, hun]

/-- The theorem of C10 at a 16-bit access to the page 0x14001 of
`sampleSystem`, which `sampleRun` mapped and then unmapped. -/
theorem c10_unmapped_access_witness :
    Read console stub 2 0x14001234 sampleSystem = Except.ok (0, sampleSystem) ∧
      Write console stub 2 0x14001234 0xBEEF sampleSystem = Except.ok sampleSystem :=
  c10_unmapped_access console stub sampleSystem 0 2 0x14001234 0xBEEF (by decide)
    sampleSystem_invariant (by decide)

/-! ## C9: access to a RasterizerCachedMemory page -/

theorem checkRegion_miss {ε : Type} (E : Collaborators ε) (mode : FlushMode)
    (start end_ rs re ps : Nat) (s : MemorySystem ε) (h : start ≥ re ∨ end_ ≤ rs) :
    CheckRegion E mode start end_ rs re ps s = s := by
  unfold CheckRegion
  rw [if_pos h]

theorem checkRegion_hit {ε : Type} (E : Collaborators ε) (mode : FlushMode)
    (start w rs re ps : Nat) (s : MemorySystem ε) (h1 : rs ≤ start) (h2 : start < re)
    (hw : 0 < w) (h32 : re + 8 ≤ 4294967296) (hw8 : w ≤ 8) :
    CheckRegion E mode start (start + w) rs re ps s =
      rasterizerCall E mode (u32 (ps + (start - rs))) (min (start + w) re - start) s := by
  unfold CheckRegion
  rw [if_neg (by omega)]
  have hmax : max start rs = start := by omega
  simp only [hmax]
  have e1 : sub32 start rs = start - rs := by
    simp only [sub32]; omega
  have e2 : sub32 (min (start + w) re) start = min (start + w) re - start := by
    simp only [sub32]; omega
  rw [e1, e2]

/-- The state a RasterizerCachedMemory access of `w` bytes at `vaddr` finds
after the call to the rasterizer. -/
theorem flushVirtual_in_range {ε : Type} (K : MemoryMap) (E : Collaborators ε)
    (mode : FlushMode) (s : MemorySystem ε) (w vaddr rs re ps : Nat) (region : Region)
    (hK : K.RangesApart) (hw : 0 < w) (hw8 : w ≤ 8) (hrend : E.renderer = true)
    (hrange : (rs, re, ps, region) ∈ K.rasterizerRanges) (h1 : rs ≤ vaddr) (h2 : vaddr < re) :
    RasterizerFlushVirtualRegion K E vaddr w mode s =
        rasterizerCall E mode (u32 (ps + (vaddr - rs))) (min (vaddr + w) re - vaddr) s ∧
      GetPointerForRasterizerCache K vaddr = Except.ok ⟨region, vaddr - rs⟩ := by
  obtain ⟨a1, a2, a3, a4, a5, a6⟩ := hK
  simp only [MemoryMap.rasterizerRanges, List.mem_cons, Prod.mk.injEq, List.mem_singleton,
    List.not_mem_nil, or_false] at hrange
  unfold RasterizerFlushVirtualRegion GetPointerForRasterizerCache
  rw [if_neg (by simp [hrend])]
  rcases hrange with ⟨r1, r2, r3, r4⟩ | ⟨r1, r2, r3, r4⟩ | ⟨r1, r2, r3, r4⟩
  · subst r1 r2 r3 r4
    have hend : u32 (vaddr + w) = vaddr + w := by
      simp only [u32]; omega
    simp only [hend]
    rw [checkRegion_hit E mode vaddr w K.LINEAR_HEAP_VADDR K.LINEAR_HEAP_VADDR_END _ s h1 h2 hw
      a1 hw8]
    rw [checkRegion_miss E mode vaddr (vaddr + w) K.NEW_LINEAR_HEAP_VADDR
      K.NEW_LINEAR_HEAP_VADDR_END _ _ (by omega)]
    rw [checkRegion_miss E mode vaddr (vaddr + w) K.VRAM_VADDR K.VRAM_VADDR_END _ _ (by omega)]
    refine ⟨rfl, ?_⟩
    rw [if_pos ⟨h1, h2⟩]
  · subst r1 r2 r3 r4
    have hend : u32 (vaddr + w) = vaddr + w := by
      simp only [u32]; omega
    simp only [hend]
    rw [checkRegion_miss E mode vaddr (vaddr + w) K.LINEAR_HEAP_VADDR K.LINEAR_HEAP_VADDR_END
      _ _ (by omega)]
    rw [checkRegion_hit E mode vaddr w K.NEW_LINEAR_HEAP_VADDR K.NEW_LINEAR_HEAP_VADDR_END _ s
      h1 h2 hw a2 hw8]
    rw [checkRegion_miss E mode vaddr (vaddr + w) K.VRAM_VADDR K.VRAM_VADDR_END _ _ (by omega)]
    refine ⟨rfl, ?_⟩
    rw [if_neg (by omega), if_pos ⟨h1, h2⟩]
  · subst r1 r2 r3 r4
    have hend : u32 (vaddr + w) = vaddr + w := by
      simp only [u32]; omega
    simp only [hend]
    rw [checkRegion_miss E mode vaddr (vaddr + w) K.LINEAR_HEAP_VADDR K.LINEAR_HEAP_VADDR_END
      _ _ (by omega)]
    rw [checkRegion_miss E mode vaddr (vaddr + w) K.NEW_LINEAR_HEAP_VADDR
      K.NEW_LINEAR_HEAP_VADDR_END _ _ (by omega)]
    rw [checkRegion_hit E mode vaddr w K.VRAM_VADDR K.VRAM_VADDR_END _ s h1 h2 hw a3 hw8]
    refine ⟨rfl, ?_⟩
    rw [if_neg (by omega), if_neg (by omega), if_pos ⟨h1, h2⟩]

/-- C9, as stated, fails at the end of a rasterizer range: a 4-byte Read two
bytes before the end of the linear heap, on a RasterizerCachedMemory page,
makes the rasterizer receive FlushRegion for 2 bytes only (the call listed
after the one the mapping made), while 4 bytes are read from the arena. -/
theorem c9_flush_is_clipped_at_range_end :
    (heapEndSystem.page_tables 0).attributes (0x1BFFFFFE >>> CITRA_PAGE_BITS) =
      PageType.RasterizerCachedMemory ∧
    heapEndSystem.calls = [Call.FlushAndInvalidateRegion 0x27FFF000 0x1000] ∧
    (Read console stub 4 0x1BFFFFFE heapEndSystem).toOption.map (fun r => r.2.calls) =
      some [Call.FlushAndInvalidateRegion 0x27FFF000 0x1000, Call.FlushRegion 0x27FFFFFE 2] := by
  decide

/-- C9, amended: with a renderer active, on a RasterizerCachedMemory page
(null pointer) inside the rasterizer range `[rs, re)` with physical start `ps`
and arena `region`, a Read of `w` bytes (1 to 8) makes the rasterizer receive
exactly one call, FlushRegion for the physical image of the part of
`[vaddr, vaddr + w)` inside the range, and returns the value read from the
arena as that call left it; a Write makes it receive exactly one call,
InvalidateRegion for the same physical range, and stores the value into the
arena as that call left it. The part is the whole access when it does not run
past the end of the range. -/
theorem c9_cached_access_calls_rasterizer {ε : Type} (K : MemoryMap) (E : Collaborators ε)
    (s : MemorySystem ε) (t w vaddr v rs re ps : Nat) (region : Region)
    (hK : K.RangesApart) (hw : 0 < w) (hw8 : w ≤ 8) (hrend : E.renderer = true)
    (hcur : s.current_page_table = some t)
    (hp : (s.page_tables t).pointers (vaddr >>> CITRA_PAGE_BITS) = none)
    (hc : (s.page_tables t).attributes (vaddr >>> CITRA_PAGE_BITS) =
      PageType.RasterizerCachedMemory)
    (hrange : (rs, re, ps, region) ∈ K.rasterizerRanges) (h1 : rs ≤ vaddr) (h2 : vaddr < re) :
    Read K E w vaddr s = Except.ok
      (loadLE (E.FlushRegion (u32 (ps + (vaddr - rs))) (min (vaddr + w) re - vaddr)
          (s.world, s.backing)).2 ⟨region, vaddr - rs⟩ w,
        { s with
          world := (E.FlushRegion (u32 (ps + (vaddr - rs))) (min (vaddr + w) re - vaddr)
            (s.world, s.backing)).1,
          backing := (E.FlushRegion (u32 (ps + (vaddr - rs))) (min (vaddr + w) re - vaddr)
            (s.world, s.backing)).2,
          calls := s.calls ++
            [Call.FlushRegion (u32 (ps + (vaddr - rs))) (min (vaddr + w) re - vaddr)] }) ∧
    Write K E w vaddr v s = Except.ok
      { s with
        world := (E.InvalidateRegion (u32 (ps + (vaddr - rs))) (min (vaddr + w) re - vaddr)
          (s.world, s.backing)).1,
        backing := (storeLE (E.InvalidateRegion (u32 (ps + (vaddr - rs)))
          (min (vaddr + w) re - vaddr) (s.world, s.backing)).2 ⟨region, vaddr - rs⟩ w v),
        calls := s.calls ++
          [Call.InvalidateRegion (u32 (ps + (vaddr - rs))) (min (vaddr + w) re - vaddr)] } ∧
    (vaddr + w ≤ re → min (vaddr + w) re - vaddr = w) := by
  have hf := flushVirtual_in_range K E FlushMode.Flush s w vaddr rs re ps region hK hw hw8 hrend
    hrange h1 h2
  have hi := flushVirtual_in_range K E FlushMode.Invalidate s w vaddr rs re ps region hK hw hw8
    hrend hrange h1 h2
  refine ⟨?_, ?_, ?_⟩
  · rw [read_of_cached K E s t w vaddr _ hcur hp hc hf.2, hf.1]
    rfl
  · rw [write_of_cached K E s t w vaddr v _ hcur hp hc hi.2, hi.1]
    rfl
  · intro h
    omega

/-- The theorem of C9 at a 4-byte access at 0x14000010 in `heapStartSystem`:
the rasterizer receives FlushRegion, on Write InvalidateRegion, for the 4
bytes at the physical address 0x20000010. -/
theorem c9_cached_access_calls_rasterizer_witness :
    (Read console stub 4 0x14000010 heapStartSystem).toOption.map (fun r => r.2.calls) =
      some (heapStartSystem.calls ++ [Call.FlushRegion 0x20000010 4]) ∧
    (Write console stub 4 0x14000010 0xCAFE heapStartSystem).toOption.map (fun r => r.calls) =
      some (heapStartSystem.calls ++ [Call.InvalidateRegion 0x20000010 4]) := by
  have h := c9_cached_access_calls_rasterizer console stub heapStartSystem 0 4 0x14000010 0xCAFE
    0x14000000 0x1C000000 0x20000000 Region.FCRAM (by decide) (by decide) (by decide) rfl
    (by decide) (by decide) (by decide) (by decide) (by decide) (by decide)
  rw [h.1, h.2.1]
  exact ⟨rfl, rfl⟩

/-! ## C8: WriteBlock, byte by byte -/

theorem writeRange_split (tgt : Nat → Option BackingRef) (addr : Nat) (data : Nat → Nat)
    (n : Nat) (b : Backing) :
    ∀ m, writeRange tgt addr data (n + m) b =
      writeRange tgt (addr + n) (fun k => data (n + k)) m (writeRange tgt addr data n b) := by
  intro m
  induction m with
  | zero => rfl
  | succ m ih =>
    rw [← Nat.add_assoc, writeRange, writeRange, ih, Nat.add_assoc]

theorem writeRange_congr (tgt : Nat → Option BackingRef) (addr : Nat) (data data' : Nat → Nat)
    (b : Backing) :
    ∀ n, (∀ k, k < n → data k = data' k) →
      writeRange tgt addr data n b = writeRange tgt addr data' n b := by
  intro n
  induction n with
  | zero => intro _; rfl
  | succ n ih =>
    intro h
    rw [writeRange, writeRange, ih (fun k hk => h k (Nat.lt_succ_of_lt hk)),
      h n (Nat.lt_succ_self n)]

theorem writeRange_none (tgt : Nat → Option BackingRef) (addr : Nat) (data : Nat → Nat)
    (b : Backing) :
    ∀ n, (∀ k, k < n → tgt (addr + k) = none) → writeRange tgt addr data n b = b := by
  intro n
  induction n with
  | zero => intro _; rfl
  | succ n ih =>
    intro h
    rw [writeRange, h n (Nat.lt_succ_self n)]
    exact ih (fun k hk => h k (Nat.lt_succ_of_lt hk))

theorem writeRange_consecutive (tgt : Nat → Option BackingRef) (addr : Nat) (data : Nat → Nat)
    (b : Backing) (p : BackingRef) :
    ∀ n, (∀ k, k < n → tgt (addr + k) = some ⟨p.region, p.offset + k⟩) →
      writeRange tgt addr data n b = copyInto b p n data := by
  intro n
  induction n with
  | zero =>
    intro _
    funext r o
    simp only [writeRange, copyInto]
    rw [if_neg (by omega)]
  | succ n ih =>
    intro h
    rw [writeRange, h n (Nat.lt_succ_self n), ih (fun k hk => h k (Nat.lt_succ_of_lt hk))]
    funext r o
    simp only [setByte, copyInto]
    by_cases hr : r = p.region
    · by_cases ho : o = p.offset + n
      · subst ho
        simp [hr]
      · simp only [hr, ho, and_false, if_false, true_and]
        by_cases hlt : p.offset ≤ o ∧ o < p.offset + n
        · rw [if_pos hlt, if_pos (by omega)]
        · rw [if_neg hlt, if_neg (by omega)]
    · simp [hr]

theorem writeRange_untouched (tgt : Nat → Option BackingRef) (addr : Nat) (data : Nat → Nat)
    (b : Backing) (q : BackingRef) :
    ∀ n, (∀ j, j < n → tgt (addr + j) ≠ some q) →
      writeRange tgt addr data n b q.region q.offset = b q.region q.offset := by
  intro n
  induction n with
  | zero => intro _; rfl
  | succ n ih =>
    intro h
    rw [writeRange]
    have hn := h n (Nat.lt_succ_self n)
    cases hq' : tgt (addr + n) with
    | some q' =>
      have hne : q' ≠ q := by
        intro he
        subst he
        exact hn hq'
      simp only [setByte]
      rw [if_neg]
      · exact ih (fun j hj => h j (Nat.lt_succ_of_lt hj))
      · rintro ⟨h1, h2⟩
        apply hne
        cases q'
        cases q
        simp only at h1 h2
        rw [h1, h2]
    | none => exact ih (fun j hj => h j (Nat.lt_succ_of_lt hj))

theorem writeRange_get (tgt : Nat → Option BackingRef) (addr : Nat) (data : Nat → Nat)
    (b : Backing) (q : BackingRef) (i : Nat) (hq : tgt (addr + i) = some q) :
    ∀ n, i < n → (∀ j, i < j → j < n → tgt (addr + j) ≠ some q) →
      writeRange tgt addr data n b q.region q.offset = data i := by
  intro n
  induction n with
  | zero => intro h; omega
  | succ n ih =>
    intro hi h
    rw [writeRange]
    by_cases hin : i = n
    · subst hin
      rw [hq]
      simp [setByte]
    · have hn := h n (by omega) (Nat.lt_succ_self n)
      have hrec := ih (by omega) (fun j h1 h2 => h j h1 (Nat.lt_succ_of_lt h2))
      cases hq' : tgt (addr + n) with
      | some q' =>
        have hne : q' ≠ q := by
          intro he
          subst he
          exact hn hq'
        simp only [setByte]
        rw [if_neg]
        · exact hrec
        · rintro ⟨h1, h2⟩
          apply hne
          cases q'
          cases q
          simp only at h1 h2
          rw [h1, h2]
      | none => exact hrec

theorem chunkList_chunksFrom :
    ∀ (fuel remaining page_index page_offset : Nat), remaining ≤ fuel → page_offset < 4096 →
      page_index * 4096 + page_offset + remaining ≤ 4294967296 →
      ChunksFrom (page_index * 4096 + page_offset)
        (WalkBlock.chunkList fuel remaining page_index page_offset) := by
  intro fuel
  induction fuel with
  | zero =>
    intro remaining _ _ _ _ _
    simp [WalkBlock.chunkList, ChunksFrom]
  | succ fuel ih =>
    intro remaining page_index page_offset hle hpo h32
    by_cases hpos : remaining > 0
    · rw [chunkList_succ_pos _ _ _ _ hpos]
      refine ⟨?_, rfl, ?_, ?_, ?_⟩
      · simp only [u32]; omega
      · simp only; omega
      · simp only; omega
      · simp only
        by_cases hrest : remaining - min (4096 - page_offset) remaining = 0
        · rw [hrest, chunkList_zero]
          trivial
        · have := ih (remaining - min (4096 - page_offset) remaining) (page_index + 1) 0
            (by omega) (by omega) (by omega)
          have haddr : (page_index + 1) * 4096 + 0 =
              page_index * 4096 + page_offset + min (4096 - page_offset) remaining := by omega
          rw [haddr] at this
          exact this
    · have h0 : remaining = 0 := by omega
      subst h0
      rw [chunkList_zero]
      trivial

theorem chunks_chunksFrom (addr size : Nat) (h32 : addr + size ≤ 4294967296) :
    ChunksFrom addr (WalkBlock.chunks addr size) := by
  have hoff : addr &&& CITRA_PAGE_MASK < 4096 := by
    rw [and_page_mask]; omega
  have := chunkList_chunksFrom size size (addr >>> CITRA_PAGE_BITS) (addr &&& CITRA_PAGE_MASK)
    (Nat.le_refl _) hoff (by rw [shr_page, and_page_mask]; omega)
  have haddr : (addr >>> CITRA_PAGE_BITS) * 4096 + (addr &&& CITRA_PAGE_MASK) = addr := by
    rw [shr_page, and_page_mask]; omega
  rw [haddr] at this
  exact this

theorem getPointer_add (K : MemoryMap) (hK : K.PageAligned) (a k : Nat) (p : BackingRef)
    (hp : GetPointerForRasterizerCache K a = Except.ok p) (hpage : (a + k) / 4096 = a / 4096) :
    GetPointerForRasterizerCache K (a + k) = Except.ok ⟨p.region, p.offset + k⟩ := by
  obtain ⟨a1, a2, a3, a4, a5, a6⟩ := hK
  unfold GetPointerForRasterizerCache at hp ⊢
  split at hp
  · rename_i h1
    cases hp
    rw [if_pos (by omega)]
    simp only
    congr 2
    omega
  · rename_i h1
    split at hp
    · rename_i h2
      cases hp
      rw [if_neg (by omega), if_pos (by omega)]
      simp only
      congr 2
      omega
    · rename_i h2
      split at hp
      · rename_i h3
        cases hp
        rw [if_neg (by omega), if_neg (by omega), if_pos (by omega)]
        simp only
        congr 2
        omega
      · cases hp

theorem checkRegion_invalidate_backing {ε : Type} (E : Collaborators ε)
    (hinval : ∀ a n x, (E.InvalidateRegion a n x).2 = x.2) (a b c d e : Nat)
    (s : MemorySystem ε) :
    (CheckRegion E FlushMode.Invalidate a b c d e s).backing = s.backing := by
  unfold CheckRegion
  split
  · rfl
  · simp [rasterizerCall, hinval]

theorem flushVirtual_invalidate_backing {ε : Type} (K : MemoryMap) (E : Collaborators ε)
    (hinval : ∀ a n x, (E.InvalidateRegion a n x).2 = x.2) (a n : Nat) (s : MemorySystem ε) :
    (RasterizerFlushVirtualRegion K E a n FlushMode.Invalidate s).backing = s.backing := by
  unfold RasterizerFlushVirtualRegion
  split
  · rfl
  · simp [checkRegion_invalidate_backing E hinval]

theorem writeChunk_page_tables {ε : Type} (K : MemoryMap) (E : Collaborators ε) (t : Nat)
    (src : Backing → Nat → Nat) (c : Chunk) (pos : Nat) (s : MemorySystem ε) :
    (writeChunk K E t src c pos s).page_tables = s.page_tables := by
  unfold writeChunk
  split
  · rfl
  · split <;> rfl
  · split <;> rfl
  · split
    · simp
    · rfl

theorem writeBody_ok {ε : Type} (K : MemoryMap) (E : Collaborators ε) (t : Nat)
    (src : Backing → Nat → Nat) (c : Chunk) (s : MemorySystem ε) (pos : Nat)
    (hok : ChunkOk K (s.page_tables t) c) :
    WalkBlock.body K t (WriteBlockImpl.handlers K E src) c (s, pos) =
      Except.ok (writeChunk K E t src c pos s, pos + c.copy_amount) := by
  obtain ⟨hidx, hmem, hsp, hrc⟩ := hok
  unfold WalkBlock.body writeChunk
  rw [if_neg (by simpa using hidx)]
  simp only
  cases hattr : (s.page_tables t).attributes c.page_index with
  | Unmapped => simp [WriteBlockImpl.handlers]
  | Memory =>
    obtain ⟨p, hp⟩ := Option.ne_none_iff_exists'.1 (hmem hattr)
    simp [WriteBlockImpl.handlers, hp]
  | Special =>
    obtain ⟨h, hh⟩ := hsp hattr
    simp [WriteBlockImpl.handlers, hh]
  | RasterizerCachedMemory =>
    obtain ⟨p, hp⟩ := hrc hattr
    simp [WriteBlockImpl.handlers, hp]

theorem writeChunk_backing {ε : Type} (K : MemoryMap) (E : Collaborators ε) (t : Nat)
    (src : Backing → Nat → Nat) (c : Chunk) (pos addr : Nat) (s : MemorySystem ε)
    (hK : K.PageAligned) (hinval : ∀ a n x, (E.InvalidateRegion a n x).2 = x.2)
    (hok : ChunkOk K (s.page_tables t) c) (hva : c.current_vaddr = addr)
    (haddr : c.page_index * 4096 + c.page_offset = addr)
    (hin : c.page_offset + c.copy_amount ≤ 4096) :
    (writeChunk K E t src c pos s).backing =
      writeRange (writeTarget K (s.page_tables t)) addr (fun k => src s.backing (pos + k))
        c.copy_amount s.backing := by
  obtain ⟨_, hmem, hsp, hrc⟩ := hok
  have hpage : ∀ k, k < c.copy_amount → (addr + k) >>> CITRA_PAGE_BITS = c.page_index := by
    intro k hk
    rw [shr_page]; omega
  have hoffs : ∀ k, k < c.copy_amount → (addr + k) &&& CITRA_PAGE_MASK = c.page_offset + k := by
    intro k hk
    rw [and_page_mask]; omega
  unfold writeChunk
  cases hattr : (s.page_tables t).attributes c.page_index with
  | Unmapped =>
    simp only
    rw [writeRange_none]
    intro k hk
    simp only [writeTarget, hpage k hk, hattr]
  | Memory =>
    obtain ⟨p, hp⟩ := Option.ne_none_iff_exists'.1 (hmem hattr)
    simp only [hp]
    rw [writeRange_consecutive _ _ _ _ ⟨p.region, p.offset + c.page_offset⟩]
    intro k hk
    simp only [writeTarget, hpage k hk, hattr, hp, hoffs k hk, Option.map_some', Nat.add_assoc]
  | Special =>
    obtain ⟨h, hh⟩ := hsp hattr
    simp only [hh]
    rw [writeRange_none]
    intro k hk
    simp only [writeTarget, hpage k hk, hattr]
  | RasterizerCachedMemory =>
    obtain ⟨p, hp⟩ := hrc hattr
    simp only [hp, flushVirtual_invalidate_backing K E hinval]
    rw [writeRange_consecutive _ _ _ _ p]
    intro k hk
    rw [hva] at hp
    have := getPointer_add K hK addr k p hp (by omega)
    simp only [writeTarget, hpage k hk, hattr, this]

theorem runChunks_write {ε : Type} (K : MemoryMap) (E : Collaborators ε) (t : Nat)
    (src : Backing → Nat → Nat) (hK : K.PageAligned)
    (hinval : ∀ a n x, (E.InvalidateRegion a n x).2 = x.2) :
    ∀ (cs : List Chunk) (s : MemorySystem ε) (pos addr : Nat) (data : Nat → Nat),
      ChunksFrom addr cs → (∀ c ∈ cs, ChunkOk K (s.page_tables t) c) →
      (∀ b' : Backing,
        (∀ r o, (∀ j, j < (cs.map Chunk.copy_amount).sum →
            writeTarget K (s.page_tables t) (addr + j) ≠ some ⟨r, o⟩) → b' r o = s.backing r o) →
        ∀ k, k < (cs.map Chunk.copy_amount).sum → src b' (pos + k) = data k) →
      ∃ s', runChunks (WalkBlock.body K t (WriteBlockImpl.handlers K E src)) cs (s, pos) =
          Except.ok (s', pos + (cs.map Chunk.copy_amount).sum) ∧
        s'.page_tables = s.page_tables ∧
        s'.backing = writeRange (writeTarget K (s.page_tables t)) addr data
          (cs.map Chunk.copy_amount).sum s.backing := by
  intro cs
  induction cs with
  | nil =>
    intro s pos addr data _ _ _
    exact ⟨s, rfl, rfl, rfl⟩
  | cons c cs ih =>
    intro s pos addr data hfrom hok hsrc
    obtain ⟨hva, haddr, hin, _, hrest⟩ := hfrom
    have hcok := hok c (List.mem_cons_self _ _)
    have hb := writeBody_ok K E t src c s pos hcok
    have htab := writeChunk_page_tables K E t src c pos s
    have hback := writeChunk_backing K E t src c pos addr s hK hinval hcok hva haddr hin
    simp only [List.map_cons, List.sum_cons] at hsrc ⊢
    have hdata0 : ∀ k, k < c.copy_amount → src s.backing (pos + k) = data k := by
      intro k hk
      exact hsrc s.backing (fun _ _ _ => rfl) k (by omega)
    rw [writeRange_congr _ _ _ data _ _ hdata0] at hback
    obtain ⟨s', hrun, hpt, hbk⟩ := ih (writeChunk K E t src c pos s) (pos + c.copy_amount)
      (addr + c.copy_amount) (fun k => data (c.copy_amount + k)) hrest
      (fun c' hc' => by rw [htab]; exact hok c' (List.mem_cons_of_mem _ hc'))
      (by
        intro b' hagree k hk
        rw [Nat.add_assoc]
        apply hsrc b' _ (c.copy_amount + k) (by omega)
        intro r o hfree
        rw [hagree r o]
        · rw [hback]
          exact writeRange_untouched _ _ _ _ ⟨r, o⟩ _ (fun j hj => hfree j (by omega))
        · intro j hj
          rw [htab, Nat.add_assoc]
          exact hfree (c.copy_amount + j) (by omega))
    refine ⟨s', ?_, ?_, ?_⟩
    · simp only [runChunks, hb]
      rw [hrun, Nat.add_assoc]
    · rw [hpt, htab]
    · rw [hbk, htab, hback, writeRange_split]

theorem writeBlockImpl_backing {ε : Type} (K : MemoryMap) (E : Collaborators ε)
    (t addr size : Nat) (src : Backing → Nat → Nat) (data : Nat → Nat) (s : MemorySystem ε)
    (hK : K.PageAligned) (hinval : ∀ a n x, (E.InvalidateRegion a n x).2 = x.2)
    (h32 : addr + size ≤ 4294967296)
    (hmem : ∀ a, addr ≤ a → a < addr + size →
      (s.page_tables t).attributes (a >>> CITRA_PAGE_BITS) = PageType.Memory →
      (s.page_tables t).pointers (a >>> CITRA_PAGE_BITS) ≠ none)
    (hsp : ∀ a, addr ≤ a → a < addr + size →
      (s.page_tables t).attributes (a >>> CITRA_PAGE_BITS) = PageType.Special →
      ∃ h, GetMMIOHandler (s.page_tables t) a = Except.ok h)
    (hrc : ∀ a, addr ≤ a → a < addr + size →
      (s.page_tables t).attributes (a >>> CITRA_PAGE_BITS) = PageType.RasterizerCachedMemory →
      InRasterizerRange K a)
    (hsrc : ∀ b' : Backing,
      (∀ r o, (∀ j, j < size → writeTarget K (s.page_tables t) (addr + j) ≠ some ⟨r, o⟩) →
        b' r o = s.backing r o) →
      ∀ k, k < size → src b' k = data k) :
    ∃ s', WriteBlockImpl K E t addr src size s = Except.ok s' ∧
      s'.page_tables = s.page_tables ∧
      s'.backing = writeRange (writeTarget K (s.page_tables t)) addr data size s.backing := by
  have hoff : addr &&& CITRA_PAGE_MASK < 4096 := by
    rw [and_page_mask]; omega
  have hsum : ((WalkBlock.chunks addr size).map Chunk.copy_amount).sum = size :=
    chunkList_sum size size _ _ (Nat.le_refl _) hoff
  obtain ⟨s', hrun, hpt, hbk⟩ := runChunks_write K E t src hK hinval (WalkBlock.chunks addr size)
    s 0 addr data (chunks_chunksFrom addr size h32)
    (chunks_ok K (s.page_tables t) addr size h32 hmem hsp hrc)
    (by
      rw [hsum]
      intro b' hagree k hk
      rw [Nat.zero_add]
      exact hsrc b' hagree k hk)
  rw [hsum] at hrun hbk
  refine ⟨s', ?_, hpt, hbk⟩
  unfold WriteBlockImpl
  rw [walkBlock_eq_runChunks, hrun]

/-- C8, as stated, fails when two Memory pages of the range share backing
bytes: after WriteBlock of three pages (the third Unmapped) with source byte
`i % 251 + 1` at position `i`, the byte at `dest_addr + 0` reads 81, the
source byte of position 0x1000, and not 1, the source byte of position 0. -/
theorem c8_shared_backing_keeps_later_write :
    (sharedPagesSystem.page_tables 0).attributes 0x20 = PageType.Memory ∧
    (sharedPagesSystem.page_tables 0).attributes 0x21 = PageType.Memory ∧
    (sharedPagesSystem.page_tables 0).attributes 0x22 = PageType.Unmapped ∧
    ((WriteBlock console stub 0 0x20000 (fun i => i % 251 + 1) 0x3000
        sharedPagesSystem).toOption.bind
      (fun s' => (Read console stub 1 0x20000 s').toOption.map Prod.fst)) = some 81 := by
  refine ⟨by decide, by decide, by decide, ?_⟩
  rfl

/-- C8, amended: on a range inside the address space of a well-formed page
table (Memory pages have their pointer, Special pages a handler,
RasterizerCachedMemory pages lie in a rasterizer range), with Unmapped pages
anywhere in it, WriteBlock returns. A chunk on an Unmapped page leaves the
memory system as it is and only advances the source position. For every
`i < size` whose page is Memory, the arena byte of `dest_addr + i` afterwards
equals `src i`, provided no later byte of the range is written to the same
arena byte. The rasterizer's InvalidateRegion leaves the arenas alone. -/
theorem c8_write_block_bytes {ε : Type} (K : MemoryMap) (E : Collaborators ε)
    (t dest_addr size : Nat) (src_buffer : Nat → Nat) (s : MemorySystem ε)
    (hK : K.PageAligned) (hinval : ∀ a n x, (E.InvalidateRegion a n x).2 = x.2)
    (h32 : dest_addr + size ≤ 4294967296)
    (hmem : ∀ a, dest_addr ≤ a → a < dest_addr + size →
      (s.page_tables t).attributes (a >>> CITRA_PAGE_BITS) = PageType.Memory →
      (s.page_tables t).pointers (a >>> CITRA_PAGE_BITS) ≠ none)
    (hsp : ∀ a, dest_addr ≤ a → a < dest_addr + size →
      (s.page_tables t).attributes (a >>> CITRA_PAGE_BITS) = PageType.Special →
      ∃ h, GetMMIOHandler (s.page_tables t) a = Except.ok h)
    (hrc : ∀ a, dest_addr ≤ a → a < dest_addr + size →
      (s.page_tables t).attributes (a >>> CITRA_PAGE_BITS) = PageType.RasterizerCachedMemory →
      InRasterizerRange K a) :
    ∃ s', WriteBlock K E t dest_addr src_buffer size s = Except.ok s' ∧
      s'.page_tables = s.page_tables ∧
      (∀ (c : Chunk) (s1 : MemorySystem ε) (pos : Nat),
        c.page_index < PAGE_TABLE_NUM_ENTRIES →
        (s1.page_tables t).attributes c.page_index = PageType.Unmapped →
        WalkBlock.body K t (WriteBlockImpl.handlers K E (fun _ => src_buffer)) c (s1, pos) =
          Except.ok (s1, pos + c.copy_amount)) ∧
      ∀ i, i < size →
        (s.page_tables t).attributes ((dest_addr + i) >>> CITRA_PAGE_BITS) = PageType.Memory →
        ∃ p, (s.page_tables t).pointers ((dest_addr + i) >>> CITRA_PAGE_BITS) = some p ∧
          ((∀ j, i < j → j < size → writeTarget K (s.page_tables t) (dest_addr + j) ≠
              some ⟨p.region, p.offset + ((dest_addr + i) &&& CITRA_PAGE_MASK)⟩) →
            s'.backing p.region (p.offset + ((dest_addr + i) &&& CITRA_PAGE_MASK)) =
              src_buffer i) := by
  obtain ⟨s', hrun, hpt, hbk⟩ := writeBlockImpl_backing K E t dest_addr size
    (fun _ => src_buffer) src_buffer s hK hinval h32 hmem hsp hrc (fun _ _ _ _ => rfl)
  refine ⟨s', hrun, hpt, ?_, ?_⟩
  · intro c s1 pos hidx hun
    simp [WalkBlock.body, hidx, hun, WriteBlockImpl.handlers]
  · intro i hi hm
    obtain ⟨p, hp⟩ := Option.ne_none_iff_exists'.1 (hmem (dest_addr + i) (by omega) (by omega) hm)
    refine ⟨p, hp, ?_⟩
    intro hfree
    rw [hbk]
    exact writeRange_get _ _ _ _ ⟨p.region, p.offset + ((dest_addr + i) &&& CITRA_PAGE_MASK)⟩ i
      (by simp [writeTarget, hm, hp]) size hi hfree

theorem blockSystem_memory (a : Nat)
    (ha : (blockSystem.page_tables 0).attributes (a >>> CITRA_PAGE_BITS) = PageType.Memory) :
    (blockSystem.page_tables 0).pointers (a >>> CITRA_PAGE_BITS) ≠ none := by
  have := blockTable_memory a ha
  simp [blockSystem, blockTable, this]

theorem blockSystem_special (a : Nat)
    (ha : (blockSystem.page_tables 0).attributes (a >>> CITRA_PAGE_BITS) = PageType.Special) :
    ∃ h, GetMMIOHandler (blockSystem.page_tables 0) a = Except.ok h := by
  have h12 := blockTable_special a ha
  rw [shr_page] at h12
  refine ⟨7, ?_⟩
  simp only [blockSystem, blockTable, GetMMIOHandler, GetMMIOHandler.find, u32]
  rw [if_pos (by omega)]

/-- The theorem of C8 on `blockSystem`, for 0x1004 bytes written at 0x10FFE
with source byte `i % 251 + 1` at position `i`: the call returns although the
first page is Unmapped, and the Memory page, at offset 0x101 of main memory,
holds the source bytes from position 2 on; the byte before it is as it
was. -/
theorem c8_write_block_bytes_witness :
    (∃ s', WriteBlock console patternDevice 0 0x10FFE (fun i => i % 251 + 1) 0x1004
          blockSystem = Except.ok s' ∧
      s'.page_tables = blockSystem.page_tables ∧
      (∀ (c : Chunk) (s1 : MemorySystem Unit) (pos : Nat),
        c.page_index < PAGE_TABLE_NUM_ENTRIES →
        (s1.page_tables 0).attributes c.page_index = PageType.Unmapped →
        WalkBlock.body console 0
            (WriteBlockImpl.handlers console patternDevice (fun _ => fun i => i % 251 + 1)) c
            (s1, pos) = Except.ok (s1, pos + c.copy_amount)) ∧
      ∀ i, i < 0x1004 →
        (blockSystem.page_tables 0).attributes ((0x10FFE + i) >>> CITRA_PAGE_BITS) =
          PageType.Memory →
        ∃ p, (blockSystem.page_tables 0).pointers ((0x10FFE + i) >>> CITRA_PAGE_BITS) = some p ∧
          ((∀ j, i < j → j < 0x1004 →
              writeTarget console (blockSystem.page_tables 0) (0x10FFE + j) ≠
                some ⟨p.region, p.offset + ((0x10FFE + i) &&& CITRA_PAGE_MASK)⟩) →
            s'.backing p.region (p.offset + ((0x10FFE + i) &&& CITRA_PAGE_MASK)) =
              (fun i => i % 251 + 1) i)) ∧
    (WriteBlock console patternDevice 0 0x10FFE (fun i => i % 251 + 1) 0x1004
        blockSystem).toOption.map
      (fun s' => (s'.backing Region.FCRAM 0x100, s'.backing Region.FCRAM 0x101,
        s'.backing Region.FCRAM 0x102, s'.backing Region.FCRAM 0x1100,
        s'.backing Region.FCRAM 0x1101)) = some (0, 3, 4, 82, 1) :=
  ⟨c8_write_block_bytes console patternDevice 0 0x10FFE 0x1004 (fun i => i % 251 + 1)
      blockSystem (by decide) (fun _ _ _ => rfl) (by decide)
      (fun a _ _ ha => blockSystem_memory a ha)
      (fun a _ _ ha => blockSystem_special a ha)
      (fun a _ _ ha => absurd ha (blockTable_not_cached _)),
   by rfl⟩

/-! ## ZeroBlock byte by byte, and the source bytes of a chunk -/

theorem range_map_const (n : Nat) : (List.range n).map (fun _ => 0) = List.replicate n 0 := by
  induction n with
  | zero => rfl
  | succ n ih =>
    rw [List.range_succ, List.map_append, ih, List.replicate_succ']
    rfl

theorem zeroBody_ok {ε : Type} (K : MemoryMap) (E : Collaborators ε) (t : Nat) (c : Chunk)
    (s : MemorySystem ε) (hok : ChunkOk K (s.page_tables t) c) :
    WalkBlock.body K t (ZeroBlock.handlers K E) c (s, ()) =
      Except.ok (writeChunk K E t (fun _ _ => 0) c 0 s, ()) := by
  obtain ⟨hidx, hmem, hsp, hrc⟩ := hok
  unfold WalkBlock.body writeChunk
  rw [if_neg (by simpa using hidx)]
  simp only
  cases hattr : (s.page_tables t).attributes c.page_index with
  | Unmapped => simp [ZeroBlock.handlers]
  | Memory =>
    obtain ⟨p, hp⟩ := Option.ne_none_iff_exists'.1 (hmem hattr)
    simp [ZeroBlock.handlers, hp]
  | Special =>
    obtain ⟨h, hh⟩ := hsp hattr
    simp [ZeroBlock.handlers, hh, range_map_const]
  | RasterizerCachedMemory =>
    obtain ⟨p, hp⟩ := hrc hattr
    simp [ZeroBlock.handlers, hp]

theorem runChunks_zero {ε : Type} (K : MemoryMap) (E : Collaborators ε) (t : Nat) :
    ∀ (cs : List Chunk) (s s' : MemorySystem ε) (pos pos' : Nat),
      (∀ c ∈ cs, ChunkOk K (s.page_tables t) c) →
      runChunks (WalkBlock.body K t (WriteBlockImpl.handlers K E (fun _ _ => 0))) cs (s, pos) =
        Except.ok (s', pos') →
      runChunks (WalkBlock.body K t (ZeroBlock.handlers K E)) cs (s, ()) = Except.ok (s', ()) := by
  intro cs
  induction cs with
  | nil =>
    intro s s' pos pos' _ h
    simp only [runChunks, Except.ok.injEq, Prod.mk.injEq] at h
    rw [← h.1]
    rfl
  | cons c cs ih =>
    intro s s' pos pos' hok h
    have hcok := hok c (List.mem_cons_self _ _)
    rw [runChunks, writeBody_ok K E t _ c s pos hcok] at h
    rw [runChunks, zeroBody_ok K E t c s hcok]
    simp only at h ⊢
    have hsame : writeChunk K E t (fun _ _ => 0) c pos s = writeChunk K E t (fun _ _ => 0) c 0 s :=
      rfl
    rw [hsame] at h
    refine ih _ _ _ _ ?_ h
    intro c' hc'
    rw [writeChunk_page_tables]
    exact hok c' (List.mem_cons_of_mem _ hc')

theorem zeroBlock_backing {ε : Type} (K : MemoryMap) (E : Collaborators ε)
    (t addr size : Nat) (s : MemorySystem ε)
    (hK : K.PageAligned) (hinval : ∀ a n x, (E.InvalidateRegion a n x).2 = x.2)
    (h32 : addr + size ≤ 4294967296)
    (hmem : ∀ a, addr ≤ a → a < addr + size →
      (s.page_tables t).attributes (a >>> CITRA_PAGE_BITS) = PageType.Memory →
      (s.page_tables t).pointers (a >>> CITRA_PAGE_BITS) ≠ none)
    (hsp : ∀ a, addr ≤ a → a < addr + size →
      (s.page_tables t).attributes (a >>> CITRA_PAGE_BITS) = PageType.Special →
      ∃ h, GetMMIOHandler (s.page_tables t) a = Except.ok h)
    (hrc : ∀ a, addr ≤ a → a < addr + size →
      (s.page_tables t).attributes (a >>> CITRA_PAGE_BITS) = PageType.RasterizerCachedMemory →
      InRasterizerRange K a) :
    ∃ s', ZeroBlock K E t addr size s = Except.ok s' ∧
      s'.page_tables = s.page_tables ∧
      s'.backing = writeRange (writeTarget K (s.page_tables t)) addr (fun _ => 0) size
        s.backing := by
  have hoff : addr &&& CITRA_PAGE_MASK < 4096 := by
    rw [and_page_mask]; omega
  have hsum : ((WalkBlock.chunks addr size).map Chunk.copy_amount).sum = size :=
    chunkList_sum size size _ _ (Nat.le_refl _) hoff
  have hok := chunks_ok K (s.page_tables t) addr size h32 hmem hsp hrc
  obtain ⟨s', hrun, hpt, hbk⟩ := runChunks_write K E t (fun _ _ => 0) hK hinval
    (WalkBlock.chunks addr size) s 0 addr (fun _ => 0) (chunks_chunksFrom addr size h32) hok
    (fun _ _ _ _ => rfl)
  rw [hsum] at hbk
  refine ⟨s', ?_, hpt, hbk⟩
  unfold ZeroBlock
  rw [walkBlock_eq_runChunks, runChunks_zero K E t _ s s' 0 _ hok hrun]

theorem withCaptured_ok {ε α : Type} (r : Except Fault (MemorySystem ε)) (s' : MemorySystem ε)
    (a : α) (h : r = Except.ok s') : withCaptured r a = Except.ok (s', a) := by
  subst h
  rfl

theorem sourceBytes_agree {ε : Type} (K : MemoryMap) (E : Collaborators ε) (pt : PageTable)
    (b b' : Backing) (w : ε) (c : Chunk) (addr : Nat) (hK : K.PageAligned)
    (hva : c.current_vaddr = addr) (haddr : c.page_index * 4096 + c.page_offset = addr)
    (hin : c.page_offset + c.copy_amount ≤ 4096)
    (hag : ∀ i, i < c.copy_amount → ∀ q, writeTarget K pt (addr + i) = some q →
      b' q.region q.offset = b q.region q.offset) :
    ∀ i, i < c.copy_amount → sourceBytes K E pt b' w c i = sourceBytes K E pt b w c i := by
  intro i hi
  have hpage : (addr + i) >>> CITRA_PAGE_BITS = c.page_index := by
    rw [shr_page]; omega
  have hoffs : (addr + i) &&& CITRA_PAGE_MASK = c.page_offset + i := by
    rw [and_page_mask]; omega
  unfold sourceBytes
  cases hattr : pt.attributes c.page_index with
  | Unmapped => rfl
  | Memory =>
    cases hp : pt.pointers c.page_index with
    | none => rfl
    | some p =>
      simp only [bytesAt]
      have := hag i hi ⟨p.region, p.offset + (c.page_offset + i)⟩ (by
        simp only [writeTarget, hpage, hattr, hp, hoffs, Option.map_some'])
      simp only [Nat.add_assoc]
      exact this
  | Special => rfl
  | RasterizerCachedMemory =>
    cases hp : GetPointerForRasterizerCache K c.current_vaddr with
    | error e => rfl
    | ok p =>
      simp only [bytesAt]
      rw [hva] at hp
      have hq := getPointer_add K hK addr i p hp (by omega)
      exact hag i hi ⟨p.region, p.offset + i⟩ (by
        simp only [writeTarget, hpage, hattr, hq])

/-! ## The mapping operations and the state they end in -/

theorem mapPages_loop_asResult (K : MemoryMap) (marker : RasterizerCacheMarker)
    (type : PageType) :
    ∀ (n base : Nat) (memory : MemoryRef) (pt : PageTable),
      MapPages.loop K marker type n base memory pt =
        asResult (MapPages.loopOutcome K marker type n base memory pt) := by
  intro n
  induction n with
  | zero => intro base memory pt; rfl
  | succ n ih =>
    intro base memory pt
    rw [MapPages.loop, MapPages.loopOutcome]
    split
    · rfl
    · exact ih _ _ _

theorem mapPages_asResult {ε : Type} (K : MemoryMap) (E : Collaborators ε) (t base size : Nat)
    (memory : MemoryRef) (type : PageType) (s : MemorySystem ε) :
    MapPages K E t base size memory type s =
      asResult (MapPages.outcome K E t base size memory type s) := by
  unfold MapPages MapPages.outcome
  simp only [mapPages_loop_asResult]
  generalize MapPages.loopOutcome K _ type size base memory _ = r
  rcases r with ⟨pt, _ | e⟩ <;> rfl

theorem mapMemoryRegion_asResult {ε : Type} (K : MemoryMap) (E : Collaborators ε)
    (t base size : Nat) (target : MemoryRef) (s : MemorySystem ε) :
    MapMemoryRegion K E t base size target s =
      asResult (MapMemoryRegion.outcome K E t base size target s) := by
  unfold MapMemoryRegion MapMemoryRegion.outcome
  split
  · rfl
  · split
    · rfl
    · exact mapPages_asResult _ _ _ _ _ _ _ _

theorem unmapRegion_asResult {ε : Type} (K : MemoryMap) (E : Collaborators ε)
    (t base size : Nat) (s : MemorySystem ε) :
    UnmapRegion K E t base size s = asResult (UnmapRegion.outcome K E t base size s) := by
  unfold UnmapRegion UnmapRegion.outcome
  split
  · rfl
  · split
    · rfl
    · exact mapPages_asResult _ _ _ _ _ _ _ _

theorem mapIoRegion_asResult {ε : Type} (K : MemoryMap) (E : Collaborators ε)
    (t base size h : Nat) (s : MemorySystem ε) :
    MapIoRegion K E t base size h s = asResult (MapIoRegion.outcome K E t base size h s) := by
  unfold MapIoRegion MapIoRegion.outcome
  split
  · rfl
  · split
    · rfl
    · rw [mapPages_asResult]
      generalize MapPages.outcome K E t _ _ none PageType.Special s = r
      rcases r with ⟨s1, _ | e⟩ <;> rfl

/-! ## C13: misaligned mapping operations -/

/-- C13: when base or size is not a multiple of the page size,
MapMemoryRegion, MapIoRegion and UnmapRegion end with a failed assertion, and
the memory system is then as it was before the call: no page-table entry, no
special-region list and no collaborator state has changed, and no call has
been made to the rasterizer. -/
theorem c13_misaligned_mapping_fails {ε : Type} (K : MemoryMap) (E : Collaborators ε)
    (t base size mmio_handler : Nat) (target : MemoryRef) (s : MemorySystem ε)
    (hmis : ¬ (base % CITRA_PAGE_SIZE = 0 ∧ size % CITRA_PAGE_SIZE = 0)) :
    (MapMemoryRegion K E t base size target s = Except.error Fault.assertion ∧
      MapMemoryRegion.outcome K E t base size target s = (s, some Fault.assertion)) ∧
    (MapIoRegion K E t base size mmio_handler s = Except.error Fault.assertion ∧
      MapIoRegion.outcome K E t base size mmio_handler s = (s, some Fault.assertion)) ∧
    (UnmapRegion K E t base size s = Except.error Fault.assertion ∧
      UnmapRegion.outcome K E t base size s = (s, some Fault.assertion)) := by
  have hm : MapMemoryRegion.outcome K E t base size target s = (s, some Fault.assertion) := by
    unfold MapMemoryRegion.outcome
    rw [and_page_mask, and_page_mask]
    simp only [CITRA_PAGE_SIZE] at hmis
    by_cases h1 : size % 4096 = 0
    · rw [if_neg (by simpa using h1), if_pos (fun h2 => hmis ⟨h2, h1⟩)]
    · rw [if_pos h1]
  have hi : MapIoRegion.outcome K E t base size mmio_handler s = (s, some Fault.assertion) := by
    unfold MapIoRegion.outcome
    rw [and_page_mask, and_page_mask]
    simp only [CITRA_PAGE_SIZE] at hmis
    by_cases h1 : size % 4096 = 0
    · rw [if_neg (by simpa using h1), if_pos (fun h2 => hmis ⟨h2, h1⟩)]
    · rw [if_pos h1]
  have hu : UnmapRegion.outcome K E t base size s = (s, some Fault.assertion) := by
    unfold UnmapRegion.outcome
    rw [and_page_mask, and_page_mask]
    simp only [CITRA_PAGE_SIZE] at hmis
    by_cases h1 : size % 4096 = 0
    · rw [if_neg (by simpa using h1), if_pos (fun h2 => hmis ⟨h2, h1⟩)]
    · rw [if_pos h1]
  refine ⟨⟨?_, hm⟩, ⟨?_, hi⟩, ⟨?_, hu⟩⟩
  · rw [mapMemoryRegion_asResult, hm]; rfl
  · rw [mapIoRegion_asResult, hi]; rfl
  · rw [unmapRegion_asResult, hu]; rfl

/-- The example of C13: base 0x1001 and size 0x1000 with a page of 0x1000
bytes, on the fresh memory system. -/
theorem c13_misaligned_mapping_fails_witness :
    ¬ (0x1001 % CITRA_PAGE_SIZE = 0 ∧ 0x1000 % CITRA_PAGE_SIZE = 0) ∧
    (MapMemoryRegion console stub 0 0x1001 0x1000 (some ⟨Region.FCRAM, 0⟩) freshSystem =
        Except.error Fault.assertion ∧
      MapMemoryRegion.outcome console stub 0 0x1001 0x1000 (some ⟨Region.FCRAM, 0⟩) freshSystem =
        (freshSystem, some Fault.assertion)) :=
  ⟨by decide,
   (c13_misaligned_mapping_fails console stub 0 0x1001 0x1000 7 (some ⟨Region.FCRAM, 0⟩)
      freshSystem (by decide)).1⟩

/-! ## C14: a mapping that reaches past the last page-table entry -/

theorem mapPages_loopOutcome_past_end (K : MemoryMap) (marker : RasterizerCacheMarker)
    (type : PageType) :
    ∀ (n base : Nat) (memory : MemoryRef) (pt : PageTable),
      base ≤ PAGE_TABLE_NUM_ENTRIES → PAGE_TABLE_NUM_ENTRIES < base + n →
      (MapPages.loopOutcome K marker type n base memory pt).2 = some Fault.assertion ∧
      ∀ j, PAGE_TABLE_NUM_ENTRIES ≤ j →
        (MapPages.loopOutcome K marker type n base memory pt).1.entry j = pt.entry j := by
  intro n
  induction n with
  | zero => intro base memory pt h1 h2; omega
  | succ n ih =>
    intro base memory pt h1 h2
    rw [MapPages.loopOutcome]
    by_cases hb : base < PAGE_TABLE_NUM_ENTRIES
    · rw [if_neg (by simpa using hb)]
      have hu : u32 (base + 1) = base + 1 := by
        simp only [u32, PAGE_TABLE_NUM_ENTRIES] at *
        omega
      simp only [hu]
      have := ih (base + 1) (if memory ≠ none ∧ MemoryRef.GetSize K memory > CITRA_PAGE_SIZE then
          MemoryRef.advance memory CITRA_PAGE_SIZE else memory)
        (if type = PageType.Memory ∧
            RasterizerCacheMarker.IsCached K marker (u32 (base * CITRA_PAGE_SIZE)) = true then
          { pointers := setAt (setAt pt.pointers base memory) base none,
            attributes := setAt (setAt pt.attributes base type) base
              PageType.RasterizerCachedMemory,
            special_regions := pt.special_regions }
          else { pointers := setAt pt.pointers base memory,
                 attributes := setAt pt.attributes base type,
                 special_regions := pt.special_regions }) (by omega) (by omega)
      refine ⟨this.1, ?_⟩
      intro j hj
      rw [this.2 j hj]
      have hjb : j ≠ base := by omega
      split <;> simp [PageTable.entry, setAt, hjb]
    · rw [if_pos (by simpa using hb)]
      exact ⟨rfl, fun _ _ => rfl⟩

theorem mapPages_outcome_past_end {ε : Type} (K : MemoryMap) (E : Collaborators ε)
    (t base size : Nat) (memory : MemoryRef) (type : PageType) (s : MemorySystem ε)
    (h1 : base ≤ PAGE_TABLE_NUM_ENTRIES) (h2 : PAGE_TABLE_NUM_ENTRIES < base + size) :
    (MapPages.outcome K E t base size memory type s).2 = some Fault.assertion ∧
    ∀ j, PAGE_TABLE_NUM_ENTRIES ≤ j →
      ((MapPages.outcome K E t base size memory type s).1.page_tables t).entry j =
        (s.page_tables t).entry j := by
  unfold MapPages.outcome
  have := mapPages_loopOutcome_past_end K
    (RasterizerFlushVirtualRegion K E (u32 (base <<< CITRA_PAGE_BITS))
      (u32 (size * CITRA_PAGE_SIZE)) FlushMode.FlushAndInvalidate s).cache_marker type size base
    memory ((RasterizerFlushVirtualRegion K E (u32 (base <<< CITRA_PAGE_BITS))
      (u32 (size * CITRA_PAGE_SIZE)) FlushMode.FlushAndInvalidate s).page_tables t) h1 h2
  refine ⟨this.1, ?_⟩
  intro j hj
  simp only [MemorySystem.setTable, setAt_same]
  rw [this.2 j hj, flushVirtual_page_tables]

/-- C14: a mapping operation with page-aligned base and size whose range
reaches past the last page-table entry (base/CITRA_PAGE_SIZE +
size/CITRA_PAGE_SIZE > PAGE_TABLE_NUM_ENTRIES) ends with a failed assertion,
and in the state it ends in every attribute and pointer at an index of
PAGE_TABLE_NUM_ENTRIES or more is as it was: nothing was written there. This
holds for MapMemoryRegion, MapIoRegion and UnmapRegion. -/
theorem c14_mapping_past_table_end {ε : Type} (K : MemoryMap) (E : Collaborators ε)
    (t base size mmio_handler : Nat) (target : MemoryRef) (s : MemorySystem ε)
    (hbase : base < 4294967296)
    (hab : base % CITRA_PAGE_SIZE = 0) (has : size % CITRA_PAGE_SIZE = 0)
    (hpast : base / CITRA_PAGE_SIZE + size / CITRA_PAGE_SIZE > PAGE_TABLE_NUM_ENTRIES) :
    (MapMemoryRegion K E t base size target s = Except.error Fault.assertion ∧
      ∀ j, PAGE_TABLE_NUM_ENTRIES ≤ j →
        ((MapMemoryRegion.outcome K E t base size target s).1.page_tables t).entry j =
          (s.page_tables t).entry j) ∧
    (MapIoRegion K E t base size mmio_handler s = Except.error Fault.assertion ∧
      ∀ j, PAGE_TABLE_NUM_ENTRIES ≤ j →
        ((MapIoRegion.outcome K E t base size mmio_handler s).1.page_tables t).entry j =
          (s.page_tables t).entry j) ∧
    (UnmapRegion K E t base size s = Except.error Fault.assertion ∧
      ∀ j, PAGE_TABLE_NUM_ENTRIES ≤ j →
        ((UnmapRegion.outcome K E t base size s).1.page_tables t).entry j =
          (s.page_tables t).entry j) := by
  have hb : base / CITRA_PAGE_SIZE ≤ PAGE_TABLE_NUM_ENTRIES := by
    simp only [CITRA_PAGE_SIZE, PAGE_TABLE_NUM_ENTRIES]
    omega
  have hma : ¬ ¬ (base &&& CITRA_PAGE_MASK) = 0 := by
    rw [and_page_mask]; simpa [CITRA_PAGE_SIZE] using hab
  have hms : ¬ ¬ (size &&& CITRA_PAGE_MASK) = 0 := by
    rw [and_page_mask]; simpa [CITRA_PAGE_SIZE] using has
  have hpages := fun (memory : MemoryRef) (type : PageType) =>
    mapPages_outcome_past_end K E t (base / CITRA_PAGE_SIZE) (size / CITRA_PAGE_SIZE) memory type
      s hb hpast
  have hm : MapMemoryRegion.outcome K E t base size target s =
      MapPages.outcome K E t (base / CITRA_PAGE_SIZE) (size / CITRA_PAGE_SIZE) target
        PageType.Memory s := by
    unfold MapMemoryRegion.outcome
    rw [if_neg hms, if_neg hma]
  have hu : UnmapRegion.outcome K E t base size s =
      MapPages.outcome K E t (base / CITRA_PAGE_SIZE) (size / CITRA_PAGE_SIZE) none
        PageType.Unmapped s := by
    unfold UnmapRegion.outcome
    rw [if_neg hms, if_neg hma]
  have hi : MapIoRegion.outcome K E t base size mmio_handler s =
      ((MapPages.outcome K E t (base / CITRA_PAGE_SIZE) (size / CITRA_PAGE_SIZE) none
        PageType.Special s).1, some Fault.assertion) := by
    unfold MapIoRegion.outcome
    rw [if_neg hms, if_neg hma]
    simp only [(hpages none PageType.Special).1]
  refine ⟨⟨?_, ?_⟩, ⟨?_, ?_⟩, ⟨?_, ?_⟩⟩
  · rw [mapMemoryRegion_asResult, hm]
    unfold asResult
    rw [(hpages target PageType.Memory).1]
  · rw [hm]; exact (hpages target PageType.Memory).2
  · rw [mapIoRegion_asResult, hi]; rfl
  · rw [hi]; exact (hpages none PageType.Special).2
  · rw [unmapRegion_asResult, hu]
    unfold asResult
    rw [(hpages none PageType.Unmapped).1]
  · rw [hu]; exact (hpages none PageType.Unmapped).2

/-- The example of C14: base 0xFFFFF000 and size 0x2000. The call fails after
it has written the last entry of the table, 0xFFFFF. -/
theorem c14_mapping_past_table_end_witness :
    (0xFFFFF000 / CITRA_PAGE_SIZE + 0x2000 / CITRA_PAGE_SIZE > PAGE_TABLE_NUM_ENTRIES) ∧
    (UnmapRegion console stub 0 0xFFFFF000 0x2000 sampleSystem = Except.error Fault.assertion ∧
      ∀ j, PAGE_TABLE_NUM_ENTRIES ≤ j →
        ((UnmapRegion.outcome console stub 0 0xFFFFF000 0x2000 sampleSystem).1.page_tables
          0).entry j = (sampleSystem.page_tables 0).entry j) ∧
    (MapMemoryRegion.outcome console stub 0 0xFFFFF000 0x2000 (some ⟨Region.FCRAM, 0⟩)
      freshSystem).2 = some Fault.assertion ∧
    ((MapMemoryRegion.outcome console stub 0 0xFFFFF000 0x2000 (some ⟨Region.FCRAM, 0⟩)
      freshSystem).1.page_tables 0).entry 0xFFFFF = (PageType.Memory, some ⟨Region.FCRAM, 0⟩) :=
  ⟨by decide,
   (c14_mapping_past_table_end console stub 0 0xFFFFF000 0x2000 7 (some ⟨Region.FCRAM, 0⟩)
      sampleSystem (by decide) (by decide) (by decide) (by decide)).2.2,
   by decide, by decide⟩

/-! ## The mapping operations return on a range inside the table -/

theorem mapPages_loop_returns (K : MemoryMap) (marker : RasterizerCacheMarker)
    (type : PageType) :
    ∀ (n base : Nat) (memory : MemoryRef) (pt : PageTable),
      base + n ≤ PAGE_TABLE_NUM_ENTRIES →
      ∃ pt', MapPages.loop K marker type n base memory pt = Except.ok pt' := by
  intro n
  induction n with
  | zero => intro base memory pt _; exact ⟨pt, rfl⟩
  | succ n ih =>
    intro base memory pt h
    rw [MapPages.loop]
    have hb : base < PAGE_TABLE_NUM_ENTRIES := by omega
    rw [if_neg (by simpa using hb)]
    have hu : u32 (base + 1) = base + 1 := by
      simp only [u32, PAGE_TABLE_NUM_ENTRIES] at *
      omega
    simp only [hu]
    exact ih _ _ _ (by omega)

theorem mapPages_returns {ε : Type} (K : MemoryMap) (E : Collaborators ε)
    (t base size : Nat) (memory : MemoryRef) (type : PageType) (s : MemorySystem ε)
    (h : base + size ≤ PAGE_TABLE_NUM_ENTRIES) :
    ∃ pt', MapPages K E t base size memory type s =
      Except.ok ((RasterizerFlushVirtualRegion K E (u32 (base <<< CITRA_PAGE_BITS))
        (u32 (size * CITRA_PAGE_SIZE)) FlushMode.FlushAndInvalidate s).setTable t pt') := by
  unfold MapPages
  obtain ⟨pt', hpt⟩ := mapPages_loop_returns K
    (RasterizerFlushVirtualRegion K E (u32 (base <<< CITRA_PAGE_BITS))
      (u32 (size * CITRA_PAGE_SIZE)) FlushMode.FlushAndInvalidate s).cache_marker type size base
    memory ((RasterizerFlushVirtualRegion K E (u32 (base <<< CITRA_PAGE_BITS))
      (u32 (size * CITRA_PAGE_SIZE)) FlushMode.FlushAndInvalidate s).page_tables t) h
  refine ⟨pt', ?_⟩
  simp only [hpt]

theorem page_count_round_trip (base : Nat) (hb : base < 4294967296)
    (hab : base % CITRA_PAGE_SIZE = 0) :
    u32 ((base / CITRA_PAGE_SIZE) <<< CITRA_PAGE_BITS) = base ∧
    u32 (base / CITRA_PAGE_SIZE * CITRA_PAGE_SIZE) = base := by
  simp only [CITRA_PAGE_SIZE, CITRA_PAGE_BITS, u32, Nat.shiftLeft_eq] at *
  constructor <;> omega

theorem aligned_masks (base size : Nat) (hab : base % CITRA_PAGE_SIZE = 0)
    (has : size % CITRA_PAGE_SIZE = 0) :
    ¬ ¬ (size &&& CITRA_PAGE_MASK) = 0 ∧ ¬ ¬ (base &&& CITRA_PAGE_MASK) = 0 := by
  rw [and_page_mask, and_page_mask]
  simp only [CITRA_PAGE_SIZE] at hab has
  simp [hab, has]

theorem pages_inside_table (base size : Nat) (h32 : base + size ≤ 4294967296) :
    base / CITRA_PAGE_SIZE + size / CITRA_PAGE_SIZE ≤ PAGE_TABLE_NUM_ENTRIES := by
  simp only [CITRA_PAGE_SIZE, PAGE_TABLE_NUM_ENTRIES]
  omega

theorem getMMIOHandler_find_append (l l' : List SpecialRegion) (a : Nat)
    (h : ∀ r ∈ l, ¬ (a ≥ r.base ∧ a < u32 (r.base + r.size))) :
    GetMMIOHandler.find (l ++ l') a = GetMMIOHandler.find l' a := by
  induction l with
  | nil => rfl
  | cons r rs ih =>
    rw [List.cons_append, GetMMIOHandler.find, if_neg (h r (List.mem_cons_self _ _))]
    exact ih (fun r' hr' => h r' (List.mem_cons_of_mem _ hr'))

/-! ## C11: MapIoRegion and the handler that serves the region -/

theorem pageRef_none (K : MemoryMap) : ∀ k, pageRef K none k = none := by
  intro k
  induction k with
  | zero => rfl
  | succ k ih =>
    rw [pageRef]
    have : nextPageRef K none = none := by simp [nextPageRef]
    rw [this, ih]

theorem mappedEntry_not_memory (K : MemoryMap) (marker : RasterizerCacheMarker)
    (type : PageType) (j : Nat) (m : MemoryRef) (h : type ≠ PageType.Memory) :
    mappedEntry K marker type j m = (type, m) := by
  unfold mappedEntry
  rw [if_neg (fun hc => h hc.1)]

theorem mapPages_frame {ε : Type} (K : MemoryMap) (E : Collaborators ε)
    (t base size : Nat) (memory : MemoryRef) (type : PageType) (s s' : MemorySystem ε)
    (h : MapPages K E t base size memory type s = Except.ok s') :
    s'.current_page_table = s.current_page_table ∧
    s'.page_table_list = s.page_table_list ∧
    (∀ t', t' ≠ t → s'.page_tables t' = s.page_tables t') ∧
    s'.calls = (RasterizerFlushVirtualRegion K E (u32 (base <<< CITRA_PAGE_BITS))
      (u32 (size * CITRA_PAGE_SIZE)) FlushMode.FlushAndInvalidate s).calls ∧
    s'.world = (RasterizerFlushVirtualRegion K E (u32 (base <<< CITRA_PAGE_BITS))
      (u32 (size * CITRA_PAGE_SIZE)) FlushMode.FlushAndInvalidate s).world ∧
    s'.backing = (RasterizerFlushVirtualRegion K E (u32 (base <<< CITRA_PAGE_BITS))
      (u32 (size * CITRA_PAGE_SIZE)) FlushMode.FlushAndInvalidate s).backing := by
  unfold MapPages at h
  simp only at h
  split at h
  · cases h
    refine ⟨?_, ?_, ?_, rfl, rfl, rfl⟩
    · simp [MemorySystem.setTable]
    · simp [MemorySystem.setTable]
    · intro t' ht'
      simp [MemorySystem.setTable, setAt, ht']
  · cases h

/-- C11, as stated, fails: after MapIoRegion with handler 7, UnmapRegion and
MapIoRegion of the same page with handler 9, the page is Special, both
regions are registered, and a one-byte Read of the page goes to handler 7,
the handler of the first region that holds the address. -/
theorem c11_earlier_region_keeps_its_handler :
    (runOperations console stub
        [Operation.MapIoRegion 0 0x1000 0x1000 7, Operation.UnmapRegion 0 0x1000 0x1000,
         Operation.MapIoRegion 0 0x1000 0x1000 9] freshSystem).toOption.bind
      (fun s => (Read console stub 1 0x1000 s).toOption.map
        (fun r => ((s.page_tables 0).attributes 1, (s.page_tables 0).special_regions,
          r.2.calls))) =
      some (PageType.Special, [⟨0x1000, 0x1000, 7⟩, ⟨0x1000, 0x1000, 9⟩],
        [Call.Read 7 1 0x1000]) := by
  decide

theorem getMMIOHandler_find_first (pre post l' : List SpecialRegion) (r : SpecialRegion)
    (a : Nat) (hpre : ∀ q ∈ pre, ¬ (a ≥ q.base ∧ a < u32 (q.base + q.size)))
    (hr : a ≥ r.base ∧ a < u32 (r.base + r.size)) :
    GetMMIOHandler.find ((pre ++ r :: post) ++ l') a = Except.ok r.handler := by
  rw [List.append_assoc, getMMIOHandler_find_append _ _ _ hpre, List.cons_append,
    GetMMIOHandler.find, if_pos hr]

/-- C11, amended: for page-aligned base and size with base + size below 2^32,
MapIoRegion(table, base, size, h) returns, whatever the pages were before, and
appends the region to the regions of the table; afterwards every page of
[base, base+size) is Special with a null pointer, and, with the table
current, every Read and Write of any width at an address of [base, base+size)
goes to the Read or Write method of that width of the handler of the first
registered region that holds the address: of h when no region registered
earlier holds it, and else of the first of the earlier regions that does. A
region holds the addresses from its base up to its end in 32 bits, as
GetMMIOHandler tests it. -/
theorem c11_io_region_delegates {ε : Type} (K : MemoryMap) (E : Collaborators ε)
    (t base size h : Nat) (s : MemorySystem ε)
    (hab : base % CITRA_PAGE_SIZE = 0) (has : size % CITRA_PAGE_SIZE = 0)
    (h32 : base + size < 4294967296) (hcur : s.current_page_table = some t) :
    ∃ s', MapIoRegion K E t base size h s = Except.ok s' ∧
      (s'.page_tables t).special_regions =
        (s.page_tables t).special_regions ++ [⟨base, size, h⟩] ∧
      (∀ j, base / CITRA_PAGE_SIZE ≤ j → j < base / CITRA_PAGE_SIZE + size / CITRA_PAGE_SIZE →
        (s'.page_tables t).entry j = (PageType.Special, none)) ∧
      ∀ a, base ≤ a → a < base + size → ∀ w,
        ((∀ r ∈ (s.page_tables t).special_regions,
            ¬ (a ≥ r.base ∧ a < u32 (r.base + r.size))) →
          Read K E w a s' = Except.ok ( ReadMMIO E h w a s') ∧
          ∀ v, Write K E w a v s' = Except.ok ( WriteMMIO E h w a v s')) ∧
        (∀ pre r post, (s.page_tables t).special_regions = pre ++ r :: post →
          (∀ q ∈ pre, ¬ (a ≥ q.base ∧ a < u32 (q.base + q.size))) →
          a ≥ r.base ∧ a < u32 (r.base + r.size) →
          Read K E w a s' = Except.ok ( ReadMMIO E r.handler w a s') ∧
          ∀ v, Write K E w a v s' = Except.ok ( WriteMMIO E r.handler w a v s')) := by
  obtain ⟨pt', hret⟩ := mapPages_returns K E t (base / CITRA_PAGE_SIZE) (size / CITRA_PAGE_SIZE)
    none PageType.Special s (pages_inside_table base size (by omega))
  have hent := mapPages_entries K E t _ _ none PageType.Special s _ hret
  have hfr := mapPages_frame K E t _ _ none PageType.Special s _ hret
  have hmask := aligned_masks base size hab has
  generalize hs1 : (RasterizerFlushVirtualRegion K E (u32 ((base / CITRA_PAGE_SIZE) <<<
    CITRA_PAGE_BITS)) (u32 (size / CITRA_PAGE_SIZE * CITRA_PAGE_SIZE))
    FlushMode.FlushAndInvalidate s).setTable t pt' = s1 at hret hent hfr
  have hrun : MapIoRegion K E t base size h s = Except.ok (s1.setTable t
      { s1.page_tables t with
        special_regions := (s1.page_tables t).special_regions ++ [⟨base, size, h⟩] }) := by
    unfold MapIoRegion
    rw [if_neg hmask.1, if_neg hmask.2, hret]
  have hcur' : (s1.setTable t
      { s1.page_tables t with
        special_regions := (s1.page_tables t).special_regions ++ [⟨base, size, h⟩] }
      ).current_page_table = some t := by
    simp only [MemorySystem.setTable]
    rw [hfr.1, hcur]
  have hentry : ∀ a, base ≤ a → a < base + size →
      (s1.page_tables t).pointers (a >>> CITRA_PAGE_BITS) = none ∧
      (s1.page_tables t).attributes (a >>> CITRA_PAGE_BITS) = PageType.Special := by
    intro a ha1 ha2
    have hpage : base / CITRA_PAGE_SIZE ≤ a >>> CITRA_PAGE_BITS ∧
        a >>> CITRA_PAGE_BITS < base / CITRA_PAGE_SIZE + size / CITRA_PAGE_SIZE := by
      rw [shr_page]
      simp only [CITRA_PAGE_SIZE] at *
      omega
    have he := (hent.2.2.2 (a >>> CITRA_PAGE_BITS)).1 hpage
    rw [mappedEntry_not_memory _ _ _ _ _ (by decide), pageRef_none] at he
    simp only [PageTable.entry, Prod.mk.injEq] at he
    exact ⟨he.2, he.1⟩
  have hdeleg : ∀ a, base ≤ a → a < base + size → ∀ w g,
      GetMMIOHandler.find ((s.page_tables t).special_regions ++ [⟨base, size, h⟩]) a =
        Except.ok g →
      Read K E w a (s1.setTable t
        { s1.page_tables t with
          special_regions := (s1.page_tables t).special_regions ++ [⟨base, size, h⟩] }) =
        Except.ok ( ReadMMIO E g w a (s1.setTable t
          { s1.page_tables t with
            special_regions := (s1.page_tables t).special_regions ++ [⟨base, size, h⟩] })) ∧
      ∀ v, Write K E w a v (s1.setTable t
        { s1.page_tables t with
          special_regions := (s1.page_tables t).special_regions ++ [⟨base, size, h⟩] }) =
        Except.ok ( WriteMMIO E g w a v (s1.setTable t
          { s1.page_tables t with
            special_regions := (s1.page_tables t).special_regions ++ [⟨base, size, h⟩] })) := by
    intro a ha1 ha2 w g hg
    have he := hentry a ha1 ha2
    have hh : GetMMIOHandler ((s1.setTable t
        { s1.page_tables t with
          special_regions := (s1.page_tables t).special_regions ++ [⟨base, size, h⟩] }
        ).page_tables t) a = Except.ok g := by
      simp only [MemorySystem.setTable, setAt_same, GetMMIOHandler]
      rw [hent.2.2.1]
      exact hg
    constructor
    · exact read_of_special K E _ t w a g hcur' (by simpa [MemorySystem.setTable] using he.1)
        (by simpa [MemorySystem.setTable] using he.2) hh
    · intro v
      exact write_of_special K E _ t w a v g hcur' (by simpa [MemorySystem.setTable] using he.1)
        (by simpa [MemorySystem.setTable] using he.2) hh
  refine ⟨_, hrun, ?_, ?_, ?_⟩
  · simp only [MemorySystem.setTable, setAt_same]
    rw [hent.2.2.1]
  · intro j hj1 hj2
    have := (hent.2.2.2 j).1 ⟨hj1, hj2⟩
    rw [mappedEntry_not_memory _ _ _ _ _ (by decide), pageRef_none] at this
    simpa [MemorySystem.setTable, PageTable.entry] using this
  · intro a ha1 ha2 w
    constructor
    · intro hold
      apply hdeleg a ha1 ha2 w h
      rw [getMMIOHandler_find_append _ _ _ hold, GetMMIOHandler.find]
      have hu : u32 (base + size) = base + size := by
        simp only [u32]; omega
      simp only [hu]
      rw [if_pos ⟨ha1, ha2⟩]
    · intro pre r post hsplit hpre hr
      apply hdeleg a ha1 ha2 w r.handler
      rw [hsplit]
      exact getMMIOHandler_find_first pre post _ r a hpre hr

/-- The theorem of C11 on `staleRegionSystem`, where the region of handler 7
over page 1 is still registered and page 1 is Unmapped: the pages 1 and 2 are
mapped as an IO region with handler 9; a Read at 0x1004, which the earlier
region holds, is served by handler 7, and a Read at 0x2004, which no earlier
region holds, by handler 9. -/
theorem c11_io_region_delegates_witness :
    ((staleRegionSystem.page_tables 0).special_regions = [⟨0x1000, 0x1000, 7⟩] ∧
      (staleRegionSystem.page_tables 0).attributes 1 = PageType.Unmapped) ∧
    (∃ s', MapIoRegion console patternDevice 0 0x1000 0x2000 9 staleRegionSystem =
        Except.ok s' ∧
      (s'.page_tables 0).special_regions =
        (staleRegionSystem.page_tables 0).special_regions ++ [⟨0x1000, 0x2000, 9⟩] ∧
      (∀ j, 0x1000 / CITRA_PAGE_SIZE ≤ j →
        j < 0x1000 / CITRA_PAGE_SIZE + 0x2000 / CITRA_PAGE_SIZE →
        (s'.page_tables 0).entry j = (PageType.Special, none)) ∧
      ∀ a, 0x1000 ≤ a → a < 0x1000 + 0x2000 → ∀ w,
        ((∀ r ∈ (staleRegionSystem.page_tables 0).special_regions,
            ¬ (a ≥ r.base ∧ a < u32 (r.base + r.size))) →
          Read console patternDevice w a s' = Except.ok ( ReadMMIO patternDevice 9 w a s') ∧
          ∀ v, Write console patternDevice w a v s' =
            Except.ok ( WriteMMIO patternDevice 9 w a v s')) ∧
        (∀ pre r post, (staleRegionSystem.page_tables 0).special_regions = pre ++ r :: post →
          (∀ q ∈ pre, ¬ (a ≥ q.base ∧ a < u32 (q.base + q.size))) →
          a ≥ r.base ∧ a < u32 (r.base + r.size) →
          Read console patternDevice w a s' =
            Except.ok ( ReadMMIO patternDevice r.handler w a s') ∧
          ∀ v, Write console patternDevice w a v s' =
            Except.ok ( WriteMMIO patternDevice r.handler w a v s'))) ∧
    (MapIoRegion console patternDevice 0 0x1000 0x2000 9 staleRegionSystem).toOption.bind
      (fun s' => (Read console patternDevice 4 0x1004 s').toOption.bind
        (fun r1 => (Read console patternDevice 4 0x2004 r1.2).toOption.map
          (fun r2 => (r1.1, r2.1, r2.2.calls.reverse.take 2)))) =
      some (4, 4, [Call.Read 9 4 0x2004, Call.Read 7 4 0x1004]) :=
  ⟨by decide,
   c11_io_region_delegates console patternDevice 0 0x1000 0x2000 9 staleRegionSystem
     (by decide) (by decide) (by decide) (by decide),
   by decide⟩

/-! ## C12: when Read and Write fail -/

/-- C12 at its failing input: MapIoRegion of the last page of the address
space, base 0xFFFFF000 and size 0x1000, returns and leaves the page Special
with a null pointer and the region registered; the address 0xFFFFF000 lies
in the interval [base, base + size) of that region, and yet a Read and a
Write of one byte there end with the failed assertion of GetMMIOHandler,
which compares the address with base + size computed in 32 bits, here 0. -/
theorem c12_top_region_access_fails :
    returns (MapIoRegion console stub 0 0xFFFFF000 0x1000 7 freshSystem) = true ∧
    (topIoSystem.page_tables 0).entry (0xFFFFF000 >>> CITRA_PAGE_BITS) =
      (PageType.Special, none) ∧
    (topIoSystem.page_tables 0).special_regions = [⟨0xFFFFF000, 0x1000, 7⟩] ∧
    (0xFFFFF000 ≤ 0xFFFFF000 ∧ 0xFFFFF000 < 0xFFFFF000 + 0x1000) ∧
    u32 (0xFFFFF000 + 0x1000) = 0 ∧
    faultOf (Read console stub 1 0xFFFFF000 topIoSystem) = some Fault.assertion ∧
    faultOf (Write console stub 1 0xFFFFF000 0x5A topIoSystem) = some Fault.assertion := by
  decide

theorem getMMIOHandler_find_error (l : List SpecialRegion) (a : Nat) :
    (∃ e, GetMMIOHandler.find l a = Except.error e) ↔
      ∀ r ∈ l, ¬ (a ≥ r.base ∧ a < u32 (r.base + r.size)) := by
  induction l with
  | nil => simp [GetMMIOHandler.find]
  | cons r rs ih =>
    rw [GetMMIOHandler.find]
    by_cases hr : a ≥ r.base ∧ a < u32 (r.base + r.size)
    · rw [if_pos hr]
      constructor
      · rintro ⟨e, he⟩; cases he
      · intro h; exact absurd hr (h r (List.mem_cons_self _ _))
    · rw [if_neg hr, ih]
      constructor
      · intro h r' hr'
        rcases List.mem_cons.1 hr' with rfl | hm
        · exact hr
        · exact h r' hm
      · intro h r' hr'
        exact h r' (List.mem_cons_of_mem _ hr')

/-- Away from the failing input of C12: with a current page table whose
special regions all end below 2^32, a Read or a Write at an address whose
page is Unmapped, Memory or Special ends with a fault exactly when the direct
pointer of the page is null and either the page is Memory, or it is Special
and no registered region [base, base + size) holds the address. -/
theorem read_write_fault_iff {ε : Type} (K : MemoryMap) (E : Collaborators ε)
    (s : MemorySystem ε) (t w vaddr v : Nat) (hcur : s.current_page_table = some t)
    (hends : ∀ r ∈ (s.page_tables t).special_regions, r.base + r.size < 4294967296)
    (hty : (s.page_tables t).attributes (vaddr >>> CITRA_PAGE_BITS) ≠
      PageType.RasterizerCachedMemory) :
    (returns (Read K E w vaddr s) = false ↔
      ((s.page_tables t).pointers (vaddr >>> CITRA_PAGE_BITS) = none ∧
        ((s.page_tables t).attributes (vaddr >>> CITRA_PAGE_BITS) = PageType.Memory ∨
          ((s.page_tables t).attributes (vaddr >>> CITRA_PAGE_BITS) = PageType.Special ∧
            ∀ r ∈ (s.page_tables t).special_regions,
              ¬ (r.base ≤ vaddr ∧ vaddr < r.base + r.size))))) ∧
    (returns (Write K E w vaddr v s) = false ↔
      ((s.page_tables t).pointers (vaddr >>> CITRA_PAGE_BITS) = none ∧
        ((s.page_tables t).attributes (vaddr >>> CITRA_PAGE_BITS) = PageType.Memory ∨
          ((s.page_tables t).attributes (vaddr >>> CITRA_PAGE_BITS) = PageType.Special ∧
            ∀ r ∈ (s.page_tables t).special_regions,
              ¬ (r.base ≤ vaddr ∧ vaddr < r.base + r.size))))) := by
  have hfind : (∃ e, GetMMIOHandler (s.page_tables t) vaddr = Except.error e) ↔
      ∀ r ∈ (s.page_tables t).special_regions, ¬ (r.base ≤ vaddr ∧ vaddr < r.base + r.size) := by
    unfold GetMMIOHandler
    rw [getMMIOHandler_find_error]
    constructor
    · intro h r hr
      have := h r hr
      have hu : u32 (r.base + r.size) = r.base + r.size := by
        simp only [u32]; have := hends r hr; omega
      rw [hu] at this
      exact this
    · intro h r hr
      have hu : u32 (r.base + r.size) = r.base + r.size := by
        simp only [u32]; have := hends r hr; omega
      rw [hu]
      exact h r hr
  constructor
  · unfold Read
    simp only [hcur]
    cases hp : (s.page_tables t).pointers (vaddr >>> CITRA_PAGE_BITS) with
    | some p => simp [returns]
    | none =>
      simp only [true_and]
      cases ha : (s.page_tables t).attributes (vaddr >>> CITRA_PAGE_BITS) with
      | Unmapped => simp [returns]
      | Memory => simp [returns]
      | RasterizerCachedMemory => exact absurd ha hty
      | Special =>
        simp only [false_or, true_and, reduceCtorEq]
        rw [← hfind]
        cases hh : GetMMIOHandler (s.page_tables t) vaddr with
        | ok h => simp [returns]
        | error e => simp [returns]
  · unfold Write
    simp only [hcur]
    cases hp : (s.page_tables t).pointers (vaddr >>> CITRA_PAGE_BITS) with
    | some p => simp [returns]
    | none =>
      simp only [true_and]
      cases ha : (s.page_tables t).attributes (vaddr >>> CITRA_PAGE_BITS) with
      | Unmapped => simp [returns]
      | Memory => simp [returns]
      | RasterizerCachedMemory => exact absurd ha hty
      | Special =>
        simp only [false_or, true_and, reduceCtorEq]
        rw [← hfind]
        cases hh : GetMMIOHandler (s.page_tables t) vaddr with
        | ok h => simp [returns]
        | error e => simp [returns]

/-! ## C15: the rasterizer is asked to flush before the mapping changes -/

/-- C15 at its failing input: MapMemoryRegion of the range from 0x3FFFF000 to
the end of the address space (size 0xC0001000), with a renderer active,
returns and makes no call to the rasterizer, although the first page of the
range is the last page of the new linear heap and is remapped: the end of the
range, base + size, is 0 in 32 bits, so no overlap is found. The same page
mapped alone does make the rasterizer receive FlushAndInvalidateRegion. -/
theorem c15_range_to_top_is_not_flushed :
    stub.renderer = true ∧ InRasterizerRange console 0x3FFFF000 ∧
    u32 (0x3FFFF000 + 0xC0001000) = 0 ∧
    (MapMemoryRegion console stub 0 0x3FFFF000 0x1000 (some ⟨Region.FCRAM, 0⟩)
        freshSystem).toOption.map (fun s' => s'.calls) =
      some [Call.FlushAndInvalidateRegion 0x2FFFF000 0x1000] ∧
    ∃ s', MapMemoryRegion console stub 0 0x3FFFF000 0xC0001000 (some ⟨Region.FCRAM, 0⟩)
        freshSystem = Except.ok s' ∧
      s'.calls = [] ∧
      (s'.page_tables 0).entry 0x3FFFF = (PageType.Memory, some ⟨Region.FCRAM, 0⟩) := by
  refine ⟨rfl, by decide, by decide, by decide, ?_⟩
  obtain ⟨pt', hret⟩ := mapPages_returns console stub 0 (0x3FFFF000 / CITRA_PAGE_SIZE)
    (0xC0001000 / CITRA_PAGE_SIZE) (some ⟨Region.FCRAM, 0⟩) PageType.Memory freshSystem
    (by decide)
  have hent := mapPages_entries console stub 0 _ _ _ PageType.Memory freshSystem _ hret
  have hfr := mapPages_frame console stub 0 _ _ _ PageType.Memory freshSystem _ hret
  generalize (RasterizerFlushVirtualRegion console stub
    (u32 ((0x3FFFF000 / CITRA_PAGE_SIZE) <<< CITRA_PAGE_BITS))
    (u32 (0xC0001000 / CITRA_PAGE_SIZE * CITRA_PAGE_SIZE)) FlushMode.FlushAndInvalidate
    freshSystem).setTable 0 pt' = s1 at hret hent hfr
  refine ⟨s1, ?_, ?_, ?_⟩
  · unfold MapMemoryRegion
    rw [if_neg (by decide), if_neg (by decide)]
    exact hret
  · rw [hfr.2.2.2.1]
    decide
  · have := (hent.2.2.2 0x3FFFF).1 (by decide)
    rw [this]
    decide

theorem setTable_setTable {ε : Type} (s : MemorySystem ε) (t : Nat) (a b : PageTable) :
    (s.setTable t a).setTable t b = s.setTable t b := by
  simp only [MemorySystem.setTable]
  congr 1
  funext j
  by_cases hj : j = t
  · subst hj; simp only [setAt_same]
  · simp only [setAt, if_neg hj]

/-- What C15 says holds on every call in these terms: for page-aligned base
and size below 2^32, MapMemoryRegion, MapIoRegion and UnmapRegion first call
RasterizerFlushVirtualRegion(base, size, FlushAndInvalidate) on the state as
the caller left it, page tables included, and the state the call ends in,
with or without a fault, is that state with nothing but the page table of the
call replaced: the rasterizer received its calls before any entry
changed, and no further call is made. -/
theorem mapping_flushes_first {ε : Type} (K : MemoryMap) (E : Collaborators ε)
    (t base size mmio_handler : Nat) (target : MemoryRef) (s : MemorySystem ε)
    (hbase : base < 4294967296) (hsize : size < 4294967296)
    (hab : base % CITRA_PAGE_SIZE = 0) (has : size % CITRA_PAGE_SIZE = 0) :
    (RasterizerFlushVirtualRegion K E base size FlushMode.FlushAndInvalidate s).page_tables =
      s.page_tables ∧
    (∃ pt', (MapMemoryRegion.outcome K E t base size target s).1 =
      (RasterizerFlushVirtualRegion K E base size FlushMode.FlushAndInvalidate s).setTable t pt') ∧
    (∃ pt', (MapIoRegion.outcome K E t base size mmio_handler s).1 =
      (RasterizerFlushVirtualRegion K E base size FlushMode.FlushAndInvalidate s).setTable t pt') ∧
    (∃ pt', (UnmapRegion.outcome K E t base size s).1 =
      (RasterizerFlushVirtualRegion K E base size FlushMode.FlushAndInvalidate s).setTable
        t pt') := by
  have hmask := aligned_masks base size hab has
  have hb := page_count_round_trip base hbase hab
  have hs := page_count_round_trip size hsize has
  refine ⟨flushVirtual_page_tables K E base size _ s, ?_, ?_, ?_⟩
  · unfold MapMemoryRegion.outcome MapPages.outcome
    rw [if_neg hmask.1, if_neg hmask.2, hb.1, hs.2]
    exact ⟨_, rfl⟩
  · unfold MapIoRegion.outcome MapPages.outcome
    rw [if_neg hmask.1, if_neg hmask.2, hb.1, hs.2]
    simp only
    split
    · rw [setTable_setTable]
      exact ⟨_, rfl⟩
    · exact ⟨_, rfl⟩
  · unfold UnmapRegion.outcome MapPages.outcome
    rw [if_neg hmask.1, if_neg hmask.2, hb.1, hs.2]
    exact ⟨_, rfl⟩

/-! ## C16: the entries MapMemoryRegion writes -/

theorem pageRef_advance (K : MemoryMap) :
    ∀ (k : Nat) (r : BackingRef), (k = 0 ∨ k * CITRA_PAGE_SIZE < MemoryRef.GetSize K (some r)) →
      pageRef K (some r) k = MemoryRef.advance (some r) (k * CITRA_PAGE_SIZE) := by
  intro k
  induction k with
  | zero =>
    intro r _
    simp [pageRef, MemoryRef.advance]
  | succ k ih =>
    intro r h
    have hsz : (k + 1) * CITRA_PAGE_SIZE < MemoryRef.GetSize K (some r) := by
      rcases h with h | h
      · omega
      · exact h
    simp only [MemoryRef.GetSize, CITRA_PAGE_SIZE] at hsz
    have hnext : nextPageRef K (some r) = some ⟨r.region, r.offset + CITRA_PAGE_SIZE⟩ := by
      unfold nextPageRef
      rw [if_pos]
      · rfl
      · refine ⟨by simp, ?_⟩
        simp only [MemoryRef.GetSize, CITRA_PAGE_SIZE]
        omega
    rw [pageRef, hnext, ih ⟨r.region, r.offset + CITRA_PAGE_SIZE⟩]
    · simp only [MemoryRef.advance, Option.map_some', CITRA_PAGE_SIZE]
      congr 2
      omega
    · right
      simp only [MemoryRef.GetSize, CITRA_PAGE_SIZE]
      omega

/-- C16, as stated, fails: a reference to the last page of main memory mapped
over two pages that are not marked cached leaves both pages Memory with the
same pointer; the second one is not the reference advanced by a page. -/
theorem c16_reference_stops_at_arena_end :
    MemoryRef.GetSize console (some ⟨Region.FCRAM, 0x0FFFF000⟩) = CITRA_PAGE_SIZE ∧
    RasterizerCacheMarker.IsCached console freshSystem.cache_marker 0x21000 = false ∧
    MemoryRef.advance (some ⟨Region.FCRAM, 0x0FFFF000⟩) (1 * CITRA_PAGE_SIZE) =
      some ⟨Region.FCRAM, 0x10000000⟩ ∧
    (MapMemoryRegion console stub 0 0x20000 0x2000 (some ⟨Region.FCRAM, 0x0FFFF000⟩)
        freshSystem).toOption.map
      (fun s => ((s.page_tables 0).entry 0x20, (s.page_tables 0).entry 0x21)) =
      some ((PageType.Memory, some ⟨Region.FCRAM, 0x0FFFF000⟩),
        (PageType.Memory, some ⟨Region.FCRAM, 0x0FFFF000⟩)) := by
  decide

/-- C16, amended: for a non-null reference and page-aligned base and size
with the range inside the address space, MapMemoryRegion returns; for every
`k < size / CITRA_PAGE_SIZE` whose page is not marked cached and for which
more than `k * CITRA_PAGE_SIZE` bytes of the arena lie behind the reference
(always so for `k = 0`), page `base / CITRA_PAGE_SIZE + k` is Memory with the
reference advanced by `k * CITRA_PAGE_SIZE` bytes as its pointer; every entry
outside the range and every other page table is unchanged. -/
theorem c16_map_memory_entries {ε : Type} (K : MemoryMap) (E : Collaborators ε)
    (t base size : Nat) (ref : BackingRef) (s : MemorySystem ε)
    (hab : base % CITRA_PAGE_SIZE = 0) (has : size % CITRA_PAGE_SIZE = 0)
    (h32 : base + size ≤ 4294967296) :
    ∃ s', MapMemoryRegion K E t base size (some ref) s = Except.ok s' ∧
      (∀ k, k < size / CITRA_PAGE_SIZE →
        RasterizerCacheMarker.IsCached K s.cache_marker
          ((base / CITRA_PAGE_SIZE + k) * CITRA_PAGE_SIZE) = false →
        (k = 0 ∨ k * CITRA_PAGE_SIZE < MemoryRef.GetSize K (some ref)) →
        (s'.page_tables t).entry (base / CITRA_PAGE_SIZE + k) =
          (PageType.Memory, MemoryRef.advance (some ref) (k * CITRA_PAGE_SIZE))) ∧
      (∀ j, ¬ (base / CITRA_PAGE_SIZE ≤ j ∧
          j < base / CITRA_PAGE_SIZE + size / CITRA_PAGE_SIZE) →
        (s'.page_tables t).entry j = (s.page_tables t).entry j) ∧
      ∀ t', t' ≠ t → s'.page_tables t' = s.page_tables t' := by
  obtain ⟨pt', hret⟩ := mapPages_returns K E t (base / CITRA_PAGE_SIZE) (size / CITRA_PAGE_SIZE)
    (some ref) PageType.Memory s (pages_inside_table base size h32)
  have hent := mapPages_entries K E t _ _ _ PageType.Memory s _ hret
  have hfr := mapPages_frame K E t _ _ _ PageType.Memory s _ hret
  have hmask := aligned_masks base size hab has
  generalize (RasterizerFlushVirtualRegion K E (u32 ((base / CITRA_PAGE_SIZE) <<<
    CITRA_PAGE_BITS)) (u32 (size / CITRA_PAGE_SIZE * CITRA_PAGE_SIZE))
    FlushMode.FlushAndInvalidate s).setTable t pt' = s1 at hret hent hfr
  refine ⟨s1, ?_, ?_, ?_, hfr.2.2.1⟩
  · unfold MapMemoryRegion
    rw [if_neg hmask.1, if_neg hmask.2]
    exact hret
  · intro k hk hnc href
    have := (hent.2.2.2 (base / CITRA_PAGE_SIZE + k)).1 ⟨by omega, by omega⟩
    rw [this]
    unfold mappedEntry
    rw [if_neg (by simp [hnc]), Nat.add_sub_cancel_left, pageRef_advance K k ref href]
  · intro j hj
    exact (hent.2.2.2 j).2 hj

/-- The theorem of C16 on `cachedSystem`, where the first page of the linear
heap is marked cached: three pages of the linear heap are mapped onto main
memory from offset 0; the first page ends RasterizerCachedMemory, the second
and third are Memory with the reference advanced by one and two pages. -/
theorem c16_map_memory_entries_witness :
    (0x14000000 % CITRA_PAGE_SIZE = 0 ∧ 0x3000 % CITRA_PAGE_SIZE = 0 ∧
      0x14000000 + 0x3000 ≤ 4294967296) ∧
    (∃ s', MapMemoryRegion console stub 0 0x14000000 0x3000 (some ⟨Region.FCRAM, 0⟩)
        cachedSystem = Except.ok s' ∧
      (∀ k, k < 0x3000 / CITRA_PAGE_SIZE →
        RasterizerCacheMarker.IsCached console cachedSystem.cache_marker
          ((0x14000000 / CITRA_PAGE_SIZE + k) * CITRA_PAGE_SIZE) = false →
        (k = 0 ∨ k * CITRA_PAGE_SIZE < MemoryRef.GetSize console (some ⟨Region.FCRAM, 0⟩)) →
        (s'.page_tables 0).entry (0x14000000 / CITRA_PAGE_SIZE + k) =
          (PageType.Memory,
            MemoryRef.advance (some ⟨Region.FCRAM, 0⟩) (k * CITRA_PAGE_SIZE))) ∧
      (∀ j, ¬ (0x14000000 / CITRA_PAGE_SIZE ≤ j ∧
          j < 0x14000000 / CITRA_PAGE_SIZE + 0x3000 / CITRA_PAGE_SIZE) →
        (s'.page_tables 0).entry j = (cachedSystem.page_tables 0).entry j) ∧
      ∀ t', t' ≠ 0 → s'.page_tables t' = cachedSystem.page_tables t') ∧
    (MapMemoryRegion console stub 0 0x14000000 0x3000 (some ⟨Region.FCRAM, 0⟩)
        cachedSystem).toOption.map
      (fun s => ((s.page_tables 0).entry 0x14000, (s.page_tables 0).entry 0x14001,
        (s.page_tables 0).entry 0x14002, (s.page_tables 0).entry 0x14003)) =
      some ((PageType.RasterizerCachedMemory, none),
        (PageType.Memory, some ⟨Region.FCRAM, 0x1000⟩),
        (PageType.Memory, some ⟨Region.FCRAM, 0x2000⟩), (PageType.Unmapped, none)) :=
  ⟨by decide,
   c16_map_memory_entries console stub 0 0x14000000 0x3000 ⟨Region.FCRAM, 0⟩ cachedSystem
     (by decide) (by decide) (by decide),
   by decide⟩

/-! ## C17: UnmapRegion, and mapping followed by unmapping -/

/-- C17: for page-aligned base and size with the range inside the address
space, UnmapRegion returns and leaves every page of the range Unmapped with a
null pointer, whatever the page was before; and when the pages of the range
are Unmapped with a null pointer, MapMemoryRegion followed by UnmapRegion of
the same range returns and leaves the attribute array and the pointer array
of the table exactly as they were. -/
theorem c17_unmap_region {ε : Type} (K : MemoryMap) (E : Collaborators ε)
    (t base size : Nat) (target : MemoryRef) (s : MemorySystem ε)
    (hab : base % CITRA_PAGE_SIZE = 0) (has : size % CITRA_PAGE_SIZE = 0)
    (h32 : base + size ≤ 4294967296) :
    (∃ s', UnmapRegion K E t base size s = Except.ok s' ∧
      ∀ k, k < size / CITRA_PAGE_SIZE →
        (s'.page_tables t).entry (base / CITRA_PAGE_SIZE + k) = (PageType.Unmapped, none)) ∧
    ((∀ k, k < size / CITRA_PAGE_SIZE →
        (s.page_tables t).entry (base / CITRA_PAGE_SIZE + k) = (PageType.Unmapped, none)) →
      ∃ s1 s2, MapMemoryRegion K E t base size target s = Except.ok s1 ∧
        UnmapRegion K E t base size s1 = Except.ok s2 ∧
        (s2.page_tables t).attributes = (s.page_tables t).attributes ∧
        (s2.page_tables t).pointers = (s.page_tables t).pointers) := by
  have hmask := aligned_masks base size hab has
  have hin := pages_inside_table base size h32
  have hunmap : ∀ x : MemorySystem ε, ∃ s', UnmapRegion K E t base size x = Except.ok s' ∧
      (∀ k, k < size / CITRA_PAGE_SIZE →
        (s'.page_tables t).entry (base / CITRA_PAGE_SIZE + k) = (PageType.Unmapped, none)) ∧
      ∀ j, ¬ (base / CITRA_PAGE_SIZE ≤ j ∧
          j < base / CITRA_PAGE_SIZE + size / CITRA_PAGE_SIZE) →
        (s'.page_tables t).entry j = (x.page_tables t).entry j := by
    intro x
    obtain ⟨pt', hret⟩ := mapPages_returns K E t (base / CITRA_PAGE_SIZE)
      (size / CITRA_PAGE_SIZE) none PageType.Unmapped x hin
    have hent := mapPages_entries K E t _ _ _ PageType.Unmapped x _ hret
    generalize (RasterizerFlushVirtualRegion K E (u32 ((base / CITRA_PAGE_SIZE) <<<
      CITRA_PAGE_BITS)) (u32 (size / CITRA_PAGE_SIZE * CITRA_PAGE_SIZE))
      FlushMode.FlushAndInvalidate x).setTable t pt' = x1 at hret hent
    refine ⟨x1, ?_, ?_, ?_⟩
    · unfold UnmapRegion
      rw [if_neg hmask.1, if_neg hmask.2]
      exact hret
    · intro k hk
      have := (hent.2.2.2 (base / CITRA_PAGE_SIZE + k)).1 ⟨by omega, by omega⟩
      rw [this, mappedEntry_not_memory _ _ _ _ _ (by decide), pageRef_none]
    · intro j hj
      exact (hent.2.2.2 j).2 hj
  constructor
  · obtain ⟨s', h1, h2, _⟩ := hunmap s
    exact ⟨s', h1, h2⟩
  · intro hwas
    obtain ⟨pt', hret⟩ := mapPages_returns K E t (base / CITRA_PAGE_SIZE)
      (size / CITRA_PAGE_SIZE) target PageType.Memory s hin
    have hent := mapPages_entries K E t _ _ _ PageType.Memory s _ hret
    generalize (RasterizerFlushVirtualRegion K E (u32 ((base / CITRA_PAGE_SIZE) <<<
      CITRA_PAGE_BITS)) (u32 (size / CITRA_PAGE_SIZE * CITRA_PAGE_SIZE))
      FlushMode.FlushAndInvalidate s).setTable t pt' = s1 at hret hent
    obtain ⟨s2, hu, hin2, hout2⟩ := hunmap s1
    have hentry : ∀ j, (s2.page_tables t).entry j = (s.page_tables t).entry j := by
      intro j
      by_cases hj : base / CITRA_PAGE_SIZE ≤ j ∧
          j < base / CITRA_PAGE_SIZE + size / CITRA_PAGE_SIZE
      · have hk : j = base / CITRA_PAGE_SIZE + (j - base / CITRA_PAGE_SIZE) := by omega
        rw [hk, hin2 _ (by omega), hwas _ (by omega)]
      · rw [hout2 j hj, (hent.2.2.2 j).2 hj]
    refine ⟨s1, s2, ?_, hu, ?_, ?_⟩
    · unfold MapMemoryRegion
      rw [if_neg hmask.1, if_neg hmask.2]
      exact hret
    · funext j
      exact congrArg Prod.fst (hentry j)
    · funext j
      exact congrArg Prod.snd (hentry j)

/-- The theorem of C17 on the fresh memory system: two pages of the linear
heap are unmapped, and mapped and then unmapped; and on `sampleSystem`, whose
first linear-heap page is Memory and whose page 1 is Special, UnmapRegion
leaves both Unmapped with a null pointer. -/
theorem c17_unmap_region_witness :
    (0x14000000 % CITRA_PAGE_SIZE = 0 ∧ 0x2000 % CITRA_PAGE_SIZE = 0 ∧
      0x14000000 + 0x2000 ≤ 4294967296) ∧
    (∃ s', UnmapRegion console stub 0 0x14000000 0x2000 freshSystem = Except.ok s' ∧
      ∀ k, k < 0x2000 / CITRA_PAGE_SIZE →
        (s'.page_tables 0).entry (0x14000000 / CITRA_PAGE_SIZE + k) =
          (PageType.Unmapped, none)) ∧
    (∃ s1 s2, MapMemoryRegion console stub 0 0x14000000 0x2000 (some ⟨Region.FCRAM, 0⟩)
        freshSystem = Except.ok s1 ∧
      UnmapRegion console stub 0 0x14000000 0x2000 s1 = Except.ok s2 ∧
      (s2.page_tables 0).attributes = (freshSystem.page_tables 0).attributes ∧
      (s2.page_tables 0).pointers = (freshSystem.page_tables 0).pointers) ∧
    ((sampleSystem.page_tables 0).entry 0x14000, (sampleSystem.page_tables 0).entry 1) =
      ((PageType.Memory, some ⟨Region.FCRAM, 0⟩), (PageType.Special, none)) ∧
    ((UnmapRegion console stub 0 0x14000000 0x1000 sampleSystem).toOption.bind
      (fun s1 => (UnmapRegion console stub 0 0x1000 0x1000 s1).toOption.map
        (fun s2 => ((s2.page_tables 0).entry 0x14000, (s2.page_tables 0).entry 1)))) =
      some ((PageType.Unmapped, none), (PageType.Unmapped, none)) :=
  ⟨by decide,
   (c17_unmap_region console stub 0 0x14000000 0x2000 (some ⟨Region.FCRAM, 0⟩) freshSystem
     (by decide) (by decide) (by decide)).1,
   (c17_unmap_region console stub 0 0x14000000 0x2000 (some ⟨Region.FCRAM, 0⟩) freshSystem
     (by decide) (by decide) (by decide)).2 (fun _ _ => rfl),
   by decide, by decide⟩

/-! ## C18: pages in a state the transition does not expect -/

/-- C18, as stated, fails for a range that starts at physical address 0:
the alias page 0x1F000 of the physical page 0x18000000 of the range is
Special in the registered table 0, and RasterizerMarkRegionCached returns all
the same; the call for that page alone, from 0x18000000, does end in
UNREACHABLE. -/
theorem c18_range_from_zero_is_not_checked :
    0 ∈ vramIoSystem.page_table_list ∧
    0x1F000000 ∈ PhysicalToVirtualAddressForRasterizer console 0x18000000 ∧
    (vramIoSystem.page_tables 0).attributes (0x1F000000 >>> CITRA_PAGE_BITS) =
      PageType.Special ∧
    returns (RasterizerMarkRegionCached console 0 0x18001000 true vramIoSystem) = true ∧
    faultOf (RasterizerMarkRegionCached console 0x18000000 0x1000 true vramIoSystem) =
      some Fault.unreachable := by
  decide

/-- C18, amended: for a range whose start is not 0, RasterizerMarkRegionCached
ends with a fault whenever, in some registered page table, an alias page of a
physical page the call goes through is, with cached = true, Special or
RasterizerCachedMemory, or, with cached = false, Memory or Special; and the
transition of one page leaves an Unmapped page as it is, without a fault. -/
theorem c18_unexpected_state_is_fatal {ε : Type} (K : MemoryMap) (s : MemorySystem ε)
    (start size : Nat) (cached : Bool) (hstart : start ≠ 0) (h32 : start < 4294967296) :
    (∀ t ∈ s.page_table_list, ∀ i, i < num_pages start size →
      ∀ v ∈ PhysicalToVirtualAddressForRasterizer K (u32 (start + i * CITRA_PAGE_SIZE)),
        ((cached = true ∧
            ((s.page_tables t).attributes (v >>> CITRA_PAGE_BITS) = PageType.Special ∨
              (s.page_tables t).attributes (v >>> CITRA_PAGE_BITS) =
                PageType.RasterizerCachedMemory)) ∨
          (cached = false ∧
            ((s.page_tables t).attributes (v >>> CITRA_PAGE_BITS) = PageType.Memory ∨
              (s.page_tables t).attributes (v >>> CITRA_PAGE_BITS) = PageType.Special))) →
        ∃ e, RasterizerMarkRegionCached K start size cached s = Except.error e) ∧
    (∀ (vaddr : Nat) (pt : PageTable),
      pt.attributes (vaddr >>> CITRA_PAGE_BITS) = PageType.Unmapped →
      markPage K cached vaddr pt = Except.ok pt) := by
  constructor
  · intro t ht i hi v hv hbad
    cases hrun : RasterizerMarkRegionCached K start size cached s with
    | error e => exact ⟨e, rfl⟩
    | ok s' =>
      exfalso
      unfold RasterizerMarkRegionCached at hrun
      rw [if_neg hstart] at hrun
      obtain ⟨hrel, _⟩ := markPages_rel K cached _ _ s s' hrun
      rw [← pageAddress_eq start h32 i] at hv
      have htr := (hrel t (v >>> CITRA_PAGE_BITS)).1 ⟨ht, i, hi, v, hv, rfl⟩
      simp only [PageTable.entry] at htr
      rcases htr with ⟨hu, _⟩ | ⟨hc, hm, _⟩ | ⟨hc, hm, _⟩
      · simp only at hu
        rcases hbad with ⟨_, h | h⟩ | ⟨_, h | h⟩ <;> rw [hu] at h <;> cases h
      · simp only at hm
        rcases hbad with ⟨_, h | h⟩ | ⟨hf, _⟩
        · rw [hm] at h; cases h
        · rw [hm] at h; cases h
        · rw [hc] at hf; cases hf
      · simp only at hm
        rcases hbad with ⟨ht', _⟩ | ⟨_, h | h⟩
        · rw [hc] at ht'; cases ht'
        · rw [hm] at h; cases h
        · rw [hm] at h; cases h
  · intro vaddr pt hu
    unfold markPage
    cases cached <;> simp [hu]

/-- The theorem of C18 on `vramIoSystem`: the alias page of the first page of
video memory is Special in table 0, so marking that page cached ends with a
fault, and so does marking it uncached. -/
theorem c18_unexpected_state_is_fatal_witness :
    (0x18000000 ≠ 0 ∧ 0 ∈ vramIoSystem.page_table_list ∧ 0 < num_pages 0x18000000 0x1000 ∧
      0x1F000000 ∈ PhysicalToVirtualAddressForRasterizer console
        (u32 (0x18000000 + 0 * CITRA_PAGE_SIZE)) ∧
      (vramIoSystem.page_tables 0).attributes (0x1F000000 >>> CITRA_PAGE_BITS) =
        PageType.Special) ∧
    (∃ e, RasterizerMarkRegionCached console 0x18000000 0x1000 true vramIoSystem =
      Except.error e) ∧
    (faultOf (RasterizerMarkRegionCached console 0x18000000 0x1000 true vramIoSystem),
      faultOf (RasterizerMarkRegionCached console 0x18000000 0x1000 false vramIoSystem)) =
      (some Fault.unreachable, some Fault.unreachable) :=
  ⟨by decide,
   (c18_unexpected_state_is_fatal console vramIoSystem 0x18000000 0x1000 true (by decide)
     (by decide)).1 0 (by decide) 0 (by decide) 0x1F000000 (by decide)
     (Or.inl ⟨rfl, Or.inl (by decide)⟩),
   by decide⟩

/-! ## The cache-membership transition as one walk over the aliases -/

theorem markAliases_append {ε : Type} (K : MemoryMap) (cached : Bool) :
    ∀ (vs ws : List Nat) (s : MemorySystem ε),
      markAliases K cached (vs ++ ws) s =
        match markAliases K cached vs s with
        | Except.ok s1 => markAliases K cached ws s1
        | Except.error e => Except.error e := by
  intro vs
  induction vs with
  | nil => intro ws s; rfl
  | cons v vs ih =>
    intro ws s
    rw [List.cons_append, markAliases, markAliases]
    simp only
    cases markTables K cached v s.page_table_list
      { s with cache_marker := RasterizerCacheMarker.Mark K s.cache_marker v cached } with
    | ok s2 => exact ih ws s2
    | error e => rfl

theorem markPages_eq_markAliases {ε : Type} (K : MemoryMap) (cached : Bool) :
    ∀ (n paddr : Nat) (s : MemorySystem ε),
      markPages K cached n paddr s = markAliases K cached (aliasList K n paddr) s := by
  intro n
  induction n with
  | zero => intro paddr s; rfl
  | succ n ih =>
    intro paddr s
    rw [markPages, aliasList, markAliases_append]
    cases markAliases K cached (PhysicalToVirtualAddressForRasterizer K paddr) s with
    | ok s1 => exact ih _ s1
    | error e => rfl

theorem mem_aliasList (K : MemoryMap) (v : Nat) :
    ∀ (n paddr : Nat), v ∈ aliasList K n paddr ↔
      ∃ i, i < n ∧ v ∈ PhysicalToVirtualAddressForRasterizer K (pageAddress paddr i) := by
  intro n
  induction n with
  | zero => intro paddr; simp [aliasList]
  | succ n ih =>
    intro paddr
    rw [aliasList, List.mem_append, ih]
    constructor
    · rintro (h | ⟨i, hi, h⟩)
      · exact ⟨0, by omega, h⟩
      · refine ⟨i + 1, by omega, ?_⟩
        rw [pageAddress_succ]
        exact h
    · rintro ⟨i, hi, h⟩
      cases i with
      | zero => exact Or.inl h
      | succ i =>
        rw [pageAddress_succ] at h
        exact Or.inr ⟨i, by omega, h⟩

theorem aliasList_lt (K : MemoryMap) (n paddr v : Nat) (h : v ∈ aliasList K n paddr) :
    v < 4294967296 := by
  obtain ⟨i, _, hv⟩ := (mem_aliasList K v n paddr).1 h
  exact physicalToVirtual_lt K _ v hv

theorem markAliases_marker {ε : Type} (K : MemoryMap) (cached : Bool) :
    ∀ (vs : List Nat) (s s' : MemorySystem ε), (∀ v ∈ vs, v < 4294967296) →
      markAliases K cached vs s = Except.ok s' →
      s'.cache_marker = markAll K cached s.cache_marker vs := by
  intro vs
  induction vs with
  | nil =>
    intro s s' _ h
    simp [markAliases] at h
    subst h
    rfl
  | cons v vs ih =>
    intro s s' hlt h
    rw [markAliases] at h
    simp only at h
    split at h
    · rename_i s2 hs2
      have hm := (markTables_rel K cached v (hlt v (List.mem_cons_self _ _)) _ _ _ hs2).2.2
      rw [ih s2 s' (fun w hw => hlt w (List.mem_cons_of_mem _ hw)) h, hm]
      rfl
    · cases h

theorem marker_ext (m1 m2 : RasterizerCacheMarker) (h : ∀ slot, m1.get slot = m2.get slot) :
    m1 = m2 := by
  cases m1 with
  | mk a1 b1 c1 =>
    cases m2 with
    | mk a2 b2 c2 =>
      have ha : a1 = a2 := funext fun i => h (MarkerSlot.vram i)
      have hb : b1 = b2 := funext fun i => h (MarkerSlot.linear_heap i)
      have hc : c1 = c2 := funext fun i => h (MarkerSlot.new_linear_heap i)
      rw [ha, hb, hc]

theorem get_mark (K : MemoryMap) (m : RasterizerCacheMarker) (v : Nat) (c : Bool)
    (slot : MarkerSlot) :
    (RasterizerCacheMarker.Mark K m v c).get slot =
      if RasterizerCacheMarker.At K v = some slot then c else m.get slot := by
  unfold RasterizerCacheMarker.Mark
  cases hat : RasterizerCacheMarker.At K v with
  | none => simp
  | some sl =>
    cases sl <;> cases slot <;>
      simp [RasterizerCacheMarker.get, setAt, eq_comm]

theorem isCached_eq_get (K : MemoryMap) (m : RasterizerCacheMarker) (v : Nat) :
    RasterizerCacheMarker.IsCached K m v =
      match RasterizerCacheMarker.At K v with
      | some slot => m.get slot
      | none => false := by
  unfold RasterizerCacheMarker.IsCached
  cases RasterizerCacheMarker.At K v with
  | none => rfl
  | some sl => cases sl <;> rfl

theorem get_markAll (K : MemoryMap) (c : Bool) (slot : MarkerSlot) :
    ∀ (vs : List Nat) (m : RasterizerCacheMarker),
      ((∃ v ∈ vs, RasterizerCacheMarker.At K v = some slot) →
        (markAll K c m vs).get slot = c) ∧
      ((¬ ∃ v ∈ vs, RasterizerCacheMarker.At K v = some slot) →
        (markAll K c m vs).get slot = m.get slot) := by
  intro vs
  induction vs with
  | nil =>
    intro m
    simp [markAll]
  | cons v vs ih =>
    intro m
    have hstep : markAll K c m (v :: vs) =
        markAll K c (RasterizerCacheMarker.Mark K m v c) vs := rfl
    rw [hstep]
    obtain ⟨ih1, ih2⟩ := ih (RasterizerCacheMarker.Mark K m v c)
    constructor
    · rintro ⟨w, hw, hat⟩
      by_cases hex : ∃ v' ∈ vs, RasterizerCacheMarker.At K v' = some slot
      · exact ih1 hex
      · rw [ih2 hex, get_mark]
        rcases List.mem_cons.1 hw with rfl | hw'
        · rw [if_pos hat]
        · exact absurd ⟨w, hw', hat⟩ hex
    · intro hno
      have hno' : ¬ ∃ v' ∈ vs, RasterizerCacheMarker.At K v' = some slot := by
        rintro ⟨w, hw, hat⟩
        exact hno ⟨w, List.mem_cons_of_mem _ hw, hat⟩
      rw [ih2 hno', get_mark, if_neg]
      intro hat
      exact hno ⟨v, List.mem_cons_self _ _, hat⟩

theorem mark_eq_self (K : MemoryMap) (m : RasterizerCacheMarker) (v : Nat) (c : Bool)
    (h : ∀ slot, RasterizerCacheMarker.At K v = some slot → m.get slot = c) :
    RasterizerCacheMarker.Mark K m v c = m := by
  apply marker_ext
  intro slot
  rw [get_mark]
  split
  · rename_i hat
    exact (h slot hat).symm
  · rfl

theorem mark_markAll_self (K : MemoryMap) (c : Bool) (m : RasterizerCacheMarker)
    (vs : List Nat) (v : Nat) (hv : v ∈ vs) :
    RasterizerCacheMarker.Mark K (markAll K c m vs) v c = markAll K c m vs := by
  apply mark_eq_self
  intro slot hat
  exact (get_markAll K c slot vs m).1 ⟨v, hv, hat⟩

theorem markAll_restores (K : MemoryMap) (m : RasterizerCacheMarker) (vs : List Nat)
    (h : ∀ v ∈ vs, RasterizerCacheMarker.IsCached K m v = false) :
    markAll K false (markAll K true m vs) vs = m := by
  apply marker_ext
  intro slot
  by_cases hex : ∃ v ∈ vs, RasterizerCacheMarker.At K v = some slot
  · rw [(get_markAll K false slot vs _).1 hex]
    obtain ⟨v, hv, hat⟩ := hex
    have := h v hv
    rw [isCached_eq_get, hat] at this
    exact this.symm
  · rw [(get_markAll K false slot vs _).2 hex, (get_markAll K true slot vs m).2 hex]

theorem alias_in_range (K : MemoryMap) (hK : K.AliasesInRanges) (addr v : Nat)
    (hv : v ∈ PhysicalToVirtualAddressForRasterizer K addr) :
    InRasterizerRange K (v &&& 0xFFFFF000) := by
  rw [and_not_page_mask v (physicalToVirtual_lt K addr v hv)]
  obtain ⟨⟨a1, a2, a3, a4, a5, a6⟩, b1, b2, b3, b4, b5, b6, b7, b8⟩ := hK
  unfold PhysicalToVirtualAddressForRasterizer at hv
  unfold InRasterizerRange
  simp only [u32] at hv
  split at hv
  · rename_i h
    simp only [List.mem_singleton] at hv
    right; right
    omega
  · split at hv
    · rename_i h
      simp only [List.mem_cons, List.mem_singleton, List.not_mem_nil, or_false] at hv
      rcases hv with hv | hv
      · left; omega
      · right; left; omega
    · split at hv
      · rename_i h
        simp only [List.mem_singleton] at hv
        right; left
        omega
      · cases hv

theorem alias_resolves (K : MemoryMap) (hK : K.AliasesInRanges) (n paddr v : Nat)
    (hv : v ∈ aliasList K n paddr) :
    ∃ p, GetPointerForRasterizerCache K (v &&& 0xFFFFF000) = Except.ok p := by
  obtain ⟨i, _, hv'⟩ := (mem_aliasList K v n paddr).1 hv
  exact getPointer_of_inRange K _ (alias_in_range K hK _ v hv')

theorem setTable_self {ε : Type} (s : MemorySystem ε) (t : Nat) :
    s.setTable t (s.page_tables t) = s := by
  cases s
  simp only [MemorySystem.setTable]
  congr 1
  funext j
  by_cases hj : j = t
  · subst hj; simp only [setAt_same]
  · simp only [setAt, if_neg hj]

theorem markPage_unmapped (K : MemoryMap) (cached : Bool) (vaddr : Nat) (pt : PageTable)
    (h : pt.attributes (vaddr >>> CITRA_PAGE_BITS) = PageType.Unmapped) :
    markPage K cached vaddr pt = Except.ok pt := by
  unfold markPage
  cases cached <;> simp [h]

theorem markTables_unmapped {ε : Type} (K : MemoryMap) (cached : Bool) (vaddr : Nat) :
    ∀ (ts : List Nat) (s : MemorySystem ε),
      (∀ t ∈ ts, (s.page_tables t).attributes (vaddr >>> CITRA_PAGE_BITS) =
        PageType.Unmapped) →
      markTables K cached vaddr ts s = Except.ok s := by
  intro ts
  induction ts with
  | nil => intro s _; rfl
  | cons t ts ih =>
    intro s h
    rw [markTables, markPage_unmapped K cached vaddr _ (h t (List.mem_cons_self _ _))]
    simp only [setTable_self]
    exact ih s (fun t' ht' => h t' (List.mem_cons_of_mem _ ht'))

theorem markAliases_noop {ε : Type} (K : MemoryMap) (cached : Bool) :
    ∀ (vs : List Nat) (s : MemorySystem ε),
      (∀ v ∈ vs, RasterizerCacheMarker.Mark K s.cache_marker v cached = s.cache_marker ∧
        ∀ t ∈ s.page_table_list,
          (s.page_tables t).attributes (v >>> CITRA_PAGE_BITS) = PageType.Unmapped) →
      markAliases K cached vs s = Except.ok s := by
  intro vs
  induction vs with
  | nil => intro s _; rfl
  | cons v vs ih =>
    intro s h
    obtain ⟨hm, hu⟩ := h v (List.mem_cons_self _ _)
    rw [markAliases]
    simp only [hm]
    have hs : ({ s with cache_marker := s.cache_marker } : MemorySystem ε) = s := by
      cases s; rfl
    rw [hs, markTables_unmapped K cached v _ s hu]
    exact ih s (fun w hw => h w (List.mem_cons_of_mem _ hw))

theorem markPage_returns (K : MemoryMap) (cached : Bool) (vaddr : Nat) (pt : PageTable)
    (hexp : pt.attributes (vaddr >>> CITRA_PAGE_BITS) = PageType.Unmapped ∨
      (cached = true ∧ pt.attributes (vaddr >>> CITRA_PAGE_BITS) = PageType.Memory) ∨
      (cached = false ∧
        pt.attributes (vaddr >>> CITRA_PAGE_BITS) = PageType.RasterizerCachedMemory))
    (hres : ∃ p, GetPointerForRasterizerCache K (vaddr &&& 0xFFFFF000) = Except.ok p) :
    ∃ pt', markPage K cached vaddr pt = Except.ok pt' := by
  unfold markPage
  obtain ⟨p, hp⟩ := hres
  rcases hexp with h | ⟨hc, h⟩ | ⟨hc, h⟩
  · cases cached <;> simp [h]
  · subst hc; simp [h]
  · subst hc; simp [h, hp]

theorem markTables_returns {ε : Type} (K : MemoryMap) (cached : Bool) (vaddr : Nat)
    (hres : ∃ p, GetPointerForRasterizerCache K (vaddr &&& 0xFFFFF000) = Except.ok p) :
    ∀ (ts : List Nat) (s : MemorySystem ε), ts.Nodup →
      (∀ t ∈ ts,
        (s.page_tables t).attributes (vaddr >>> CITRA_PAGE_BITS) = PageType.Unmapped ∨
        (cached = true ∧
          (s.page_tables t).attributes (vaddr >>> CITRA_PAGE_BITS) = PageType.Memory) ∨
        (cached = false ∧ (s.page_tables t).attributes (vaddr >>> CITRA_PAGE_BITS) =
          PageType.RasterizerCachedMemory)) →
      ∃ s', markTables K cached vaddr ts s = Except.ok s' := by
  intro ts
  induction ts with
  | nil => intro s _ _; exact ⟨s, rfl⟩
  | cons t ts ih =>
    intro s hnd hexp
    obtain ⟨pt, hpt⟩ := markPage_returns K cached vaddr (s.page_tables t)
      (hexp t (List.mem_cons_self _ _)) hres
    rw [markTables, hpt]
    simp only
    have hnd' := List.nodup_cons.1 hnd
    apply ih (s.setTable t pt) hnd'.2
    intro t' ht'
    have hne : t' ≠ t := fun h => hnd'.1 (h ▸ ht')
    simp only [MemorySystem.setTable, setAt_other _ _ _ _ hne]
    exact hexp t' (List.mem_cons_of_mem _ ht')

theorem markAliases_returns {ε : Type} (K : MemoryMap) (cached : Bool) :
    ∀ (vs : List Nat) (s : MemorySystem ε), s.page_table_list.Nodup →
      (vs.map (fun v => v >>> CITRA_PAGE_BITS)).Nodup →
      (∀ v ∈ vs, v < 4294967296 ∧
        ∃ p, GetPointerForRasterizerCache K (v &&& 0xFFFFF000) = Except.ok p) →
      (∀ v ∈ vs, ∀ t ∈ s.page_table_list,
        (s.page_tables t).attributes (v >>> CITRA_PAGE_BITS) = PageType.Unmapped ∨
        (cached = true ∧
          (s.page_tables t).attributes (v >>> CITRA_PAGE_BITS) = PageType.Memory) ∨
        (cached = false ∧ (s.page_tables t).attributes (v >>> CITRA_PAGE_BITS) =
          PageType.RasterizerCachedMemory)) →
      ∃ s', markAliases K cached vs s = Except.ok s' := by
  intro vs
  induction vs with
  | nil => intro s _ _ _ _; exact ⟨s, rfl⟩
  | cons v vs ih =>
    intro s hT hP hres hexp
    rw [List.map_cons, List.nodup_cons] at hP
    obtain ⟨hv32, hvres⟩ := hres v (List.mem_cons_self _ _)
    obtain ⟨s2, hs2⟩ := markTables_returns K cached v hvres s.page_table_list
      { s with cache_marker := RasterizerCacheMarker.Mark K s.cache_marker v cached } hT
      (hexp v (List.mem_cons_self _ _))
    obtain ⟨hrel, hl, _⟩ := markTables_rel K cached v hv32 _ _ _ hs2
    rw [markAliases]
    simp only [hs2]
    apply ih s2 (by rw [hl]; exact hT) hP.2
      (fun w hw => hres w (List.mem_cons_of_mem _ hw))
    intro w hw t ht
    rw [hl] at ht
    have hne : ¬ (t ∈ s.page_table_list ∧ w >>> CITRA_PAGE_BITS = v >>> CITRA_PAGE_BITS) := by
      rintro ⟨_, h⟩
      exact hP.1 (List.mem_map.2 ⟨w, hw, h⟩)
    have hsame := (hrel t (w >>> CITRA_PAGE_BITS)).2 hne
    have ha : (s2.page_tables t).attributes (w >>> CITRA_PAGE_BITS) =
        (s.page_tables t).attributes (w >>> CITRA_PAGE_BITS) := congrArg Prod.fst hsame
    rw [ha]
    exact hexp w (List.mem_cons_of_mem _ hw) t ht

/-! ## C19: marking a range cached twice -/

/-- C19, as stated, fails: with the first page of main memory mapped as Memory
in two registered tables, RasterizerMarkRegionCached(0x20000000, 0x1000, true)
returns and leaves the page RasterizerCachedMemory, and the same call once
more ends in UNREACHABLE. -/
theorem c19_second_mark_is_fatal :
    (aliasSystem.page_tables 0).attributes 0x14000 = PageType.Memory ∧
    returns (RasterizerMarkRegionCached console 0x20000000 0x1000 true aliasSystem) = true ∧
    (aliasSystemCached.page_tables 0).attributes 0x14000 = PageType.RasterizerCachedMemory ∧
    faultOf (RasterizerMarkRegionCached console 0x20000000 0x1000 true aliasSystemCached) =
      some Fault.unreachable := by
  decide

theorem mem_aliasPages (K : MemoryMap) (start size pg : Nat) :
    pg ∈ aliasPages K start size ↔
      ∃ v ∈ aliasList K (num_pages start size) start, pg = v >>> CITRA_PAGE_BITS := by
  unfold aliasPages
  rw [List.mem_map]
  constructor
  · rintro ⟨v, hv, rfl⟩; exact ⟨v, hv, rfl⟩
  · rintro ⟨v, hv, rfl⟩; exact ⟨v, hv, rfl⟩

/-- C19, amended: after a call RasterizerMarkRegionCached(start, size, true)
that returned, with no Map or Unmap in between, the same call once more
returns and leaves the state of the first call as it is when every alias page
of the range was Unmapped in every registered table; when an alias page was
Memory in a registered table, and so is RasterizerCachedMemory now, the
second call ends with a fault (for start other than 0). -/
theorem c19_mark_twice {ε : Type} (K : MemoryMap) (s s1 : MemorySystem ε) (start size : Nat)
    (hfirst : RasterizerMarkRegionCached K start size true s = Except.ok s1) :
    ((∀ t ∈ s.page_table_list, ∀ pg ∈ aliasPages K start size,
        (s.page_tables t).attributes pg = PageType.Unmapped) →
      RasterizerMarkRegionCached K start size true s1 = Except.ok s1) ∧
    (start ≠ 0 →
      (∃ t ∈ s.page_table_list, ∃ pg ∈ aliasPages K start size,
        (s.page_tables t).attributes pg = PageType.Memory) →
      ∃ e, RasterizerMarkRegionCached K start size true s1 = Except.error e) := by
  by_cases hstart : start = 0
  · refine ⟨fun _ => ?_, fun h => absurd hstart h⟩
    unfold RasterizerMarkRegionCached
    rw [if_pos hstart]
  · unfold RasterizerMarkRegionCached at hfirst ⊢
    rw [if_neg hstart, markPages_eq_markAliases] at hfirst
    rw [if_neg hstart, markPages_eq_markAliases]
    have hlt : ∀ v ∈ aliasList K (num_pages start size) start, v < 4294967296 :=
      fun v hv => aliasList_lt K _ _ v hv
    obtain ⟨hrel, hlist⟩ := markAliases_rel K true _ s s1 hlt hfirst
    have hmarker := markAliases_marker K true _ s s1 hlt hfirst
    constructor
    · intro hun
      apply markAliases_noop
      intro v hv
      constructor
      · rw [hmarker]
        exact mark_markAll_self K true _ _ v hv
      · intro t ht
        rw [hlist] at ht
        have hu := hun t ht _ ((mem_aliasPages K start size _).2 ⟨v, hv, rfl⟩)
        have htr := (hrel t (v >>> CITRA_PAGE_BITS)).1 ⟨ht, v, hv, rfl⟩
        simp only [PageTable.entry] at htr
        rcases htr with ⟨_, he⟩ | ⟨_, hm, _⟩ | ⟨hc, _, _⟩
        · rw [Prod.mk.injEq] at he
          rw [he.1]; exact hu
        · simp only at hm; rw [hu] at hm; cases hm
        · cases hc
    · rintro _ ⟨t, ht, pg, hpg, hmem⟩
      obtain ⟨v, hv, rfl⟩ := (mem_aliasPages K start size pg).1 hpg
      have htr := (hrel t (v >>> CITRA_PAGE_BITS)).1 ⟨ht, v, hv, rfl⟩
      simp only [PageTable.entry] at htr
      have h1 : (s1.page_tables t).attributes (v >>> CITRA_PAGE_BITS) =
          PageType.RasterizerCachedMemory := by
        rcases htr with ⟨hu, _⟩ | ⟨_, _, he⟩ | ⟨hc, _, _⟩
        · simp only at hu; rw [hmem] at hu; cases hu
        · rw [Prod.mk.injEq] at he; exact he.1
        · cases hc
      cases hsecond : markAliases K true (aliasList K (num_pages start size) start) s1 with
      | error e => exact ⟨e, rfl⟩
      | ok s2 =>
        exfalso
        obtain ⟨hrel2, _⟩ := markAliases_rel K true _ s1 s2 hlt hsecond
        have htr2 := (hrel2 t (v >>> CITRA_PAGE_BITS)).1 ⟨by rw [hlist]; exact ht, v, hv, rfl⟩
        simp only [PageTable.entry] at htr2
        rcases htr2 with ⟨hu, _⟩ | ⟨_, hm, _⟩ | ⟨hc, _, _⟩
        · simp only at hu; rw [h1] at hu; cases hu
        · simp only at hm; rw [h1] at hm; cases hm
        · cases hc

/-- The theorem of C19 on the fresh memory system, where no table maps the
aliases 0x14000 and 0x30000 of the first page of main memory: the first call
returns `cachedSystem`, with both tracker booleans set, and the second call
returns `cachedSystem` again. -/
theorem c19_mark_twice_witness :
    (RasterizerMarkRegionCached console 0x20000000 0x1000 true freshSystem =
        Except.ok cachedSystem ∧
      aliasPages console 0x20000000 0x1000 = [0x14000, 0x30000] ∧
      ∀ t ∈ freshSystem.page_table_list, ∀ pg ∈ aliasPages console 0x20000000 0x1000,
        (freshSystem.page_tables t).attributes pg = PageType.Unmapped) ∧
    RasterizerMarkRegionCached console 0x20000000 0x1000 true cachedSystem =
      Except.ok cachedSystem ∧
    (RasterizerCacheMarker.IsCached console cachedSystem.cache_marker 0x14000000,
      RasterizerCacheMarker.IsCached console cachedSystem.cache_marker 0x30000000) =
      (true, true) :=
  ⟨⟨eq_ok_of_returns _ freshSystem (by decide), by decide, fun _ _ _ _ => rfl⟩,
   (c19_mark_twice console freshSystem cachedSystem 0x20000000 0x1000
     (eq_ok_of_returns _ freshSystem (by decide))).1 (fun _ _ _ _ => rfl),
   by decide⟩

/-! ## C20: marking a range cached and then uncached -/

/-- C20, as stated, fails: in `cachedSystem` every alias page of the first
page of main memory is Unmapped in both registered tables and its tracker
boolean is set; RasterizerMarkRegionCached(.., true) followed by
RasterizerMarkRegionCached(.., false) returns and leaves the boolean of
0x14000000 cleared, not as it was. -/
theorem c20_marked_boolean_is_not_restored :
    (∀ t ∈ cachedSystem.page_table_list, ∀ pg ∈ aliasPages console 0x20000000 0x1000,
      (cachedSystem.page_tables t).attributes pg = PageType.Unmapped) ∧
    RasterizerCacheMarker.IsCached console cachedSystem.cache_marker 0x14000000 = true ∧
    (RasterizerMarkRegionCached console 0x20000000 0x1000 true cachedSystem).toOption.bind
      (fun s1 => (RasterizerMarkRegionCached console 0x20000000 0x1000 false s1).toOption.map
        (fun s2 => RasterizerCacheMarker.IsCached console s2.cache_marker 0x14000000)) =
      some false := by
  decide

theorem mark_then_unmark_entries {ε : Type} (K : MemoryMap) (s s1 s2 : MemorySystem ε)
    (V W : Nat → Nat → Prop) (hVW : ∀ t pg, V t pg ↔ W t pg)
    (h1 : MarkRel K true V s s1) (h2 : MarkRel K false W s1 s2) (t pg : Nat) :
    ((s2.page_tables t).entry pg = (s.page_tables t).entry pg ∧
      ¬ ((s.page_tables t).attributes pg = PageType.Memory ∧
        (s1.page_tables t).attributes pg = PageType.RasterizerCachedMemory)) ∨
    (V t pg ∧ (s.page_tables t).attributes pg = PageType.Memory ∧
      (s1.page_tables t).entry pg = (PageType.RasterizerCachedMemory, none) ∧
      ∃ p, GetPointerForRasterizerCache K (pg * 4096) = Except.ok p ∧
        (s2.page_tables t).entry pg = (PageType.Memory, some p)) := by
  by_cases hv : V t pg
  · have tr1 := (h1 t pg).1 hv
    have tr2 := (h2 t pg).1 ((hVW t pg).1 hv)
    simp only [PageTable.entry] at tr1 tr2 ⊢
    rcases tr1 with ⟨hu, he⟩ | ⟨_, hm, he⟩ | ⟨hc, _, _⟩
    · left
      simp only at hu
      rw [Prod.mk.injEq] at he
      constructor
      · rcases tr2 with ⟨_, he2⟩ | ⟨hc2, _, _⟩ | ⟨_, hcm, _⟩
        · rw [he2, he.1, he.2]
        · cases hc2
        · simp only at hcm; rw [he.1, hu] at hcm; cases hcm
      · rintro ⟨hm, _⟩
        rw [hu] at hm; cases hm
    · right
      simp only at hm
      refine ⟨hv, hm, he, ?_⟩
      rw [Prod.mk.injEq] at he
      rcases tr2 with ⟨hu2, _⟩ | ⟨hc2, _, _⟩ | ⟨_, _, p, hp, he2⟩
      · simp only at hu2; rw [he.1] at hu2; cases hu2
      · cases hc2
      · exact ⟨p, hp, he2⟩
    · cases hc
  · left
    have e1 := (h1 t pg).2 hv
    have e2 := (h2 t pg).2 (fun hw => hv ((hVW t pg).2 hw))
    constructor
    · rw [e2, e1]
    · rintro ⟨hm, hc⟩
      have : (s1.page_tables t).attributes pg = (s.page_tables t).attributes pg :=
        congrArg Prod.fst e1
      rw [this, hm] at hc
      cases hc

/-- C20, amended: on a memory map whose aliases lie in their virtual ranges,
with no page table registered twice and no alias page visited twice, if every
alias page of the range is Unmapped or Memory in every registered table and
no alias of the range is marked in the tracker, then
RasterizerMarkRegionCached(start, size, true) followed by
RasterizerMarkRegionCached(start, size, false) returns, every page type of
every table and every tracker boolean is as it was before, each alias page
that was Memory is RasterizerCachedMemory with a null pointer in between (for
start other than 0), each page that went through RasterizerCachedMemory ends
as Memory with the arena reference of the start of its page as its pointer,
and every other entry ends as it was. -/
theorem c20_mark_then_unmark {ε : Type} (K : MemoryMap) (s : MemorySystem ε)
    (start size : Nat) (hK : K.AliasesInRanges) (hT : s.page_table_list.Nodup)
    (hP : (aliasPages K start size).Nodup)
    (hstate : ∀ t ∈ s.page_table_list, ∀ pg ∈ aliasPages K start size,
      (s.page_tables t).attributes pg = PageType.Unmapped ∨
      (s.page_tables t).attributes pg = PageType.Memory)
    (htracker : ∀ v ∈ aliasList K (num_pages start size) start,
      RasterizerCacheMarker.IsCached K s.cache_marker v = false) :
    ∃ s1 s2, RasterizerMarkRegionCached K start size true s = Except.ok s1 ∧
      RasterizerMarkRegionCached K start size false s1 = Except.ok s2 ∧
      (∀ t, (s2.page_tables t).attributes = (s.page_tables t).attributes) ∧
      s2.cache_marker = s.cache_marker ∧
      (start ≠ 0 → ∀ t ∈ s.page_table_list, ∀ pg ∈ aliasPages K start size,
        (s.page_tables t).attributes pg = PageType.Memory →
        (s1.page_tables t).entry pg = (PageType.RasterizerCachedMemory, none)) ∧
      (∀ t pg, (s.page_tables t).attributes pg = PageType.Memory →
        (s1.page_tables t).attributes pg = PageType.RasterizerCachedMemory →
        ∃ p, GetPointerForRasterizerCache K (pg * 4096) = Except.ok p ∧
          (s2.page_tables t).entry pg = (PageType.Memory, some p)) ∧
      (∀ t pg, ¬ ((s.page_tables t).attributes pg = PageType.Memory ∧
          (s1.page_tables t).attributes pg = PageType.RasterizerCachedMemory) →
        (s2.page_tables t).entry pg = (s.page_tables t).entry pg) := by
  by_cases hstart : start = 0
  · refine ⟨s, s, ?_, ?_, fun _ => rfl, rfl, fun h => absurd hstart h, ?_, fun _ _ _ => rfl⟩
    · unfold RasterizerMarkRegionCached; rw [if_pos hstart]
    · unfold RasterizerMarkRegionCached; rw [if_pos hstart]
    · intro t pg hm hc
      rw [hm] at hc; cases hc
  · have hlt : ∀ v ∈ aliasList K (num_pages start size) start, v < 4294967296 :=
      fun v hv => aliasList_lt K _ _ v hv
    have hres : ∀ v ∈ aliasList K (num_pages start size) start, v < 4294967296 ∧
        ∃ p, GetPointerForRasterizerCache K (v &&& 0xFFFFF000) = Except.ok p :=
      fun v hv => ⟨hlt v hv, alias_resolves K hK _ _ v hv⟩
    obtain ⟨s1, h1⟩ := markAliases_returns K true _ s hT hP hres (by
      intro v hv t ht
      rcases hstate t ht _ ((mem_aliasPages K start size _).2 ⟨v, hv, rfl⟩) with h | h
      · exact Or.inl h
      · exact Or.inr (Or.inl ⟨rfl, h⟩))
    obtain ⟨hrel1, hlist1⟩ := markAliases_rel K true _ s s1 hlt h1
    obtain ⟨s2, h2⟩ := markAliases_returns K false _ s1 (by rw [hlist1]; exact hT) hP hres (by
      intro v hv t ht
      rw [hlist1] at ht
      have htr := (hrel1 t (v >>> CITRA_PAGE_BITS)).1 ⟨ht, v, hv, rfl⟩
      simp only [PageTable.entry] at htr
      rcases htr with ⟨hu, he⟩ | ⟨_, _, he⟩ | ⟨hc, _, _⟩
      · rw [Prod.mk.injEq] at he
        left; rw [he.1]; exact hu
      · rw [Prod.mk.injEq] at he
        right; right; exact ⟨rfl, he.1⟩
      · cases hc)
    obtain ⟨hrel2, _⟩ := markAliases_rel K false _ s1 s2 hlt h2
    have hm1 := markAliases_marker K true _ s s1 hlt h1
    have hm2 := markAliases_marker K false _ s1 s2 hlt h2
    have hent := mark_then_unmark_entries K s s1 s2 _ _
      (fun t pg => by rw [hlist1]) hrel1 hrel2
    refine ⟨s1, s2, ?_, ?_, ?_, ?_, ?_, ?_, ?_⟩
    · unfold RasterizerMarkRegionCached
      rw [if_neg hstart, markPages_eq_markAliases]; exact h1
    · unfold RasterizerMarkRegionCached
      rw [if_neg hstart, markPages_eq_markAliases]; exact h2
    · intro t
      funext pg
      rcases hent t pg with ⟨he, _⟩ | ⟨_, hm, _, p, _, he⟩
      · exact congrArg Prod.fst he
      · rw [hm]; exact congrArg Prod.fst he
    · rw [hm2, hm1]
      exact markAll_restores K _ _ htracker
    · intro _ t ht pg hpg hm
      obtain ⟨v, hv, rfl⟩ := (mem_aliasPages K start size pg).1 hpg
      have htr := (hrel1 t (v >>> CITRA_PAGE_BITS)).1 ⟨ht, v, hv, rfl⟩
      simp only [PageTable.entry] at htr ⊢
      rcases htr with ⟨hu, _⟩ | ⟨_, _, he⟩ | ⟨hc, _, _⟩
      · simp only at hu; rw [hm] at hu; cases hu
      · exact he
      · cases hc
    · intro t pg hm hc
      rcases hent t pg with ⟨_, hno⟩ | ⟨_, _, _, p, hp, he⟩
      · exact absurd ⟨hm, hc⟩ hno
      · exact ⟨p, hp, he⟩
    · intro t pg hno
      rcases hent t pg with ⟨he, _⟩ | ⟨_, hm, he1, _⟩
      · exact he
      · exact absurd ⟨hm, congrArg Prod.fst he1⟩ hno

/-- The theorem of C20 on `aliasSystem`, over the first two pages of main
memory: table 0 maps the first page at 0x14000000 and table 1 maps it at
0x30000000, the other alias pages are Unmapped; after marking and unmarking,
both pages are Memory again with the arena reference of their page. -/
theorem c20_mark_then_unmark_witness :
    (console.AliasesInRanges ∧ aliasSystem.page_table_list.Nodup ∧
      aliasPages console 0x20000000 0x2000 = [0x14000, 0x30000, 0x14001, 0x30001] ∧
      (∀ t ∈ aliasSystem.page_table_list, ∀ pg ∈ aliasPages console 0x20000000 0x2000,
        (aliasSystem.page_tables t).attributes pg = PageType.Unmapped ∨
        (aliasSystem.page_tables t).attributes pg = PageType.Memory) ∧
      (aliasSystem.page_tables 0).attributes 0x14000 = PageType.Memory) ∧
    (∃ s1 s2, RasterizerMarkRegionCached console 0x20000000 0x2000 true aliasSystem =
        Except.ok s1 ∧
      RasterizerMarkRegionCached console 0x20000000 0x2000 false s1 = Except.ok s2 ∧
      (∀ t, (s2.page_tables t).attributes = (aliasSystem.page_tables t).attributes) ∧
      s2.cache_marker = aliasSystem.cache_marker ∧
      (0x20000000 ≠ 0 → ∀ t ∈ aliasSystem.page_table_list,
        ∀ pg ∈ aliasPages console 0x20000000 0x2000,
        (aliasSystem.page_tables t).attributes pg = PageType.Memory →
        (s1.page_tables t).entry pg = (PageType.RasterizerCachedMemory, none)) ∧
      (∀ t pg, (aliasSystem.page_tables t).attributes pg = PageType.Memory →
        (s1.page_tables t).attributes pg = PageType.RasterizerCachedMemory →
        ∃ p, GetPointerForRasterizerCache console (pg * 4096) = Except.ok p ∧
          (s2.page_tables t).entry pg = (PageType.Memory, some p)) ∧
      (∀ t pg, ¬ ((aliasSystem.page_tables t).attributes pg = PageType.Memory ∧
          (s1.page_tables t).attributes pg = PageType.RasterizerCachedMemory) →
        (s2.page_tables t).entry pg = (aliasSystem.page_tables t).entry pg)) ∧
    (RasterizerMarkRegionCached console 0x20000000 0x2000 true aliasSystem).toOption.bind
      (fun s1 => (RasterizerMarkRegionCached console 0x20000000 0x2000 false s1).toOption.map
        (fun s2 => ((s1.page_tables 0).entry 0x14000, (s2.page_tables 0).entry 0x14000,
          (s2.page_tables 1).entry 0x30000, (s2.page_tables 0).entry 0x14001,
          RasterizerCacheMarker.IsCached console s1.cache_marker 0x14000000,
          RasterizerCacheMarker.IsCached console s2.cache_marker 0x14000000))) =
      some ((PageType.RasterizerCachedMemory, none),
        (PageType.Memory, some ⟨Region.FCRAM, 0⟩), (PageType.Memory, some ⟨Region.FCRAM, 0⟩),
        (PageType.Unmapped, none), true, false) :=
  ⟨by decide,
   c20_mark_then_unmark console aliasSystem 0x20000000 0x2000 (by decide) (by decide)
     (by decide) (by decide) (by decide),
   by rfl⟩

/-! ## Runs of the two general statements next to C12 and C15 -/

/-- The fault condition of Read and Write on `blockSystem`, at an address of
the Special page 0x12, which the registered region [0x12000, 0x13000) holds:
neither access ends with a fault. -/
theorem read_write_fault_iff_witness :
    (blockSystem.current_page_table = some 0 ∧
      (∀ r ∈ (blockSystem.page_tables 0).special_regions, r.base + r.size < 4294967296) ∧
      (blockSystem.page_tables 0).attributes (0x12345 >>> CITRA_PAGE_BITS) = PageType.Special) ∧
    ((returns (Read console stub 2 0x12345 blockSystem) = false ↔
      ((blockSystem.page_tables 0).pointers (0x12345 >>> CITRA_PAGE_BITS) = none ∧
        ((blockSystem.page_tables 0).attributes (0x12345 >>> CITRA_PAGE_BITS) =
            PageType.Memory ∨
          ((blockSystem.page_tables 0).attributes (0x12345 >>> CITRA_PAGE_BITS) =
              PageType.Special ∧
            ∀ r ∈ (blockSystem.page_tables 0).special_regions,
              ¬ (r.base ≤ 0x12345 ∧ 0x12345 < r.base + r.size))))) ∧
    (returns (Write console stub 2 0x12345 7 blockSystem) = false ↔
      ((blockSystem.page_tables 0).pointers (0x12345 >>> CITRA_PAGE_BITS) = none ∧
        ((blockSystem.page_tables 0).attributes (0x12345 >>> CITRA_PAGE_BITS) =
            PageType.Memory ∨
          ((blockSystem.page_tables 0).attributes (0x12345 >>> CITRA_PAGE_BITS) =
              PageType.Special ∧
            ∀ r ∈ (blockSystem.page_tables 0).special_regions,
              ¬ (r.base ≤ 0x12345 ∧ 0x12345 < r.base + r.size)))))) ∧
    (returns (Read console stub 2 0x12345 blockSystem),
      returns (Write console stub 2 0x12345 7 blockSystem)) = (true, true) :=
  ⟨by decide,
   read_write_fault_iff console stub blockSystem 0 2 0x12345 7 (by decide) (by decide)
     (by decide),
   by decide⟩

/-- The three mapping operations on the fresh memory system, over the first
page of the linear heap: each ends in the state RasterizerFlushVirtualRegion
leaves, with the page table of the call replaced, and the rasterizer has
received FlushAndInvalidateRegion for the physical page 0x20000000. -/
theorem mapping_flushes_first_witness :
    (0x14000000 % CITRA_PAGE_SIZE = 0 ∧ 0x1000 % CITRA_PAGE_SIZE = 0) ∧
    ((RasterizerFlushVirtualRegion console stub 0x14000000 0x1000 FlushMode.FlushAndInvalidate
        freshSystem).page_tables = freshSystem.page_tables ∧
      (∃ pt', (MapMemoryRegion.outcome console stub 0 0x14000000 0x1000
          (some ⟨Region.FCRAM, 0⟩) freshSystem).1 =
        (RasterizerFlushVirtualRegion console stub 0x14000000 0x1000
          FlushMode.FlushAndInvalidate freshSystem).setTable 0 pt') ∧
      (∃ pt', (MapIoRegion.outcome console stub 0 0x14000000 0x1000 7 freshSystem).1 =
        (RasterizerFlushVirtualRegion console stub 0x14000000 0x1000
          FlushMode.FlushAndInvalidate freshSystem).setTable 0 pt') ∧
      (∃ pt', (UnmapRegion.outcome console stub 0 0x14000000 0x1000 freshSystem).1 =
        (RasterizerFlushVirtualRegion console stub 0x14000000 0x1000
          FlushMode.FlushAndInvalidate freshSystem).setTable 0 pt')) ∧
    (MapMemoryRegion.outcome console stub 0 0x14000000 0x1000 (some ⟨Region.FCRAM, 0⟩)
      freshSystem).1.calls = [Call.FlushAndInvalidateRegion 0x20000000 0x1000] :=
  ⟨by decide,
   mapping_flushes_first console stub 0 0x14000000 0x1000 7 (some ⟨Region.FCRAM, 0⟩)
     freshSystem (by decide) (by decide) (by decide) (by decide),
   by decide⟩

/-! ## C21: the physical pages of a range -/

/-- C21 at its failing input: for the empty range at 0x20000800, a start that
is not page-aligned, RasterizerMarkRegionCached computes one page and goes
through its two aliases: on `aliasSystem` the page 0x14000 of table 0 turns
RasterizerCachedMemory and the tracker boolean of 0x14000000 is set, although
no byte lies in [start, start + 0). For a page-aligned start the count is
0. -/
theorem c21_empty_range_visits_a_page :
    num_pages 0x20000800 0 = 1 ∧ num_pages 0x20000000 0 = 0 ∧
    aliasPages console 0x20000800 0 = [0x14000, 0x30000] ∧
    (aliasSystem.page_tables 0).entry 0x14000 = (PageType.Memory, some ⟨Region.FCRAM, 0⟩) ∧
    (RasterizerMarkRegionCached console 0x20000800 0 true aliasSystem).toOption.map
      (fun s => ((s.page_tables 0).entry 0x14000,
        RasterizerCacheMarker.IsCached console s.cache_marker 0x14000000)) =
      some ((PageType.RasterizerCachedMemory, none), true) := by
  decide

theorem num_pages_eq (start size : Nat) (hsize : 0 < size)
    (h32 : start + size ≤ 4294967296) :
    num_pages start size = (start + size - 1) / 4096 - start / 4096 + 1 := by
  unfold num_pages
  rw [shr_page, shr_page]
  have h1 : sub32 (u32 (start + size)) 1 = start + size - 1 := by
    simp only [sub32, u32]
    omega
  rw [h1]
  simp only [sub32, u32]
  omega

theorem pageAddress_add (start : Nat) :
    ∀ i, start + i * 4096 < 4294967296 → pageAddress start i = start + i * 4096 := by
  intro i h
  rw [pageAddress_eq start (by omega) i]
  simp only [u32, CITRA_PAGE_SIZE]
  omega

/-- Away from the failing input of C21: for a range with size above 0 that
ends inside the address space, the loop of RasterizerMarkRegionCached runs
over the physical addresses start + i * CITRA_PAGE_SIZE, one in each page
from start >> CITRA_PAGE_BITS to (start + size - 1) >> CITRA_PAGE_BITS, so a
page is visited exactly when it holds a byte of [start, start + size); and
for start other than 0 the call is that loop. -/
theorem mark_visits_pages_of_range {ε : Type} (K : MemoryMap) (cached : Bool)
    (s : MemorySystem ε) (start size : Nat) (hstart : start ≠ 0) (hsize : 0 < size)
    (h32 : start + size ≤ 4294967296) :
    RasterizerMarkRegionCached K start size cached s =
      markPages K cached (num_pages start size) start s ∧
    num_pages start size =
      ((start + size - 1) >>> CITRA_PAGE_BITS) - (start >>> CITRA_PAGE_BITS) + 1 ∧
    (∀ i, i < num_pages start size →
      pageAddress start i = start + i * CITRA_PAGE_SIZE ∧
      pageAddress start i >>> CITRA_PAGE_BITS = (start >>> CITRA_PAGE_BITS) + i) ∧
    ∀ p, (∃ i, i < num_pages start size ∧ pageAddress start i >>> CITRA_PAGE_BITS = p) ↔
      (p * CITRA_PAGE_SIZE < start + size ∧ start < (p + 1) * CITRA_PAGE_SIZE) := by
  have hn := num_pages_eq start size hsize h32
  have hpa : ∀ i, i < num_pages start size →
      pageAddress start i = start + i * CITRA_PAGE_SIZE ∧
      pageAddress start i >>> CITRA_PAGE_BITS = (start >>> CITRA_PAGE_BITS) + i := by
    intro i hi
    rw [hn] at hi
    have hlt : start + i * 4096 < 4294967296 := by omega
    rw [pageAddress_add start i hlt, shr_page, shr_page]
    simp only [CITRA_PAGE_SIZE]
    constructor
    · trivial
    · omega
  refine ⟨?_, ?_, hpa, ?_⟩
  · unfold RasterizerMarkRegionCached
    rw [if_neg hstart]
  · rw [shr_page, shr_page]; exact hn
  · intro p
    constructor
    · rintro ⟨i, hi, hp⟩
      rw [(hpa i hi).2, shr_page] at hp
      rw [hn] at hi
      simp only [CITRA_PAGE_SIZE]
      omega
    · rintro ⟨h1, h2⟩
      simp only [CITRA_PAGE_SIZE] at h1 h2
      refine ⟨p - start / 4096, ?_, ?_⟩
      · rw [hn]; omega
      · rw [(hpa _ (by rw [hn]; omega)).2, shr_page]
        omega

/-- The pages of the range of 0x2345 bytes from 0x20000800: three pages,
0x20000 to 0x20002. -/
theorem mark_visits_pages_of_range_witness :
    (0x20000800 ≠ 0 ∧ 0 < 0x2345 ∧ 0x20000800 + 0x2345 ≤ 4294967296) ∧
    (RasterizerMarkRegionCached console 0x20000800 0x2345 true freshSystem =
      markPages console true (num_pages 0x20000800 0x2345) 0x20000800 freshSystem ∧
    num_pages 0x20000800 0x2345 =
      ((0x20000800 + 0x2345 - 1) >>> CITRA_PAGE_BITS) - (0x20000800 >>> CITRA_PAGE_BITS) + 1 ∧
    (∀ i, i < num_pages 0x20000800 0x2345 →
      pageAddress 0x20000800 i = 0x20000800 + i * CITRA_PAGE_SIZE ∧
      pageAddress 0x20000800 i >>> CITRA_PAGE_BITS = (0x20000800 >>> CITRA_PAGE_BITS) + i) ∧
    ∀ p, (∃ i, i < num_pages 0x20000800 0x2345 ∧
        pageAddress 0x20000800 i >>> CITRA_PAGE_BITS = p) ↔
      (p * CITRA_PAGE_SIZE < 0x20000800 + 0x2345 ∧ 0x20000800 < (p + 1) * CITRA_PAGE_SIZE)) ∧
    (num_pages 0x20000800 0x2345, (List.range 3).map (fun i => pageAddress 0x20000800 i)) =
      (3, [0x20000800, 0x20001800, 0x20002800]) :=
  ⟨by decide,
   mark_visits_pages_of_range console true freshSystem 0x20000800 0x2345 (by decide)
     (by decide) (by decide),
   by decide⟩

/-! ## C24: a range that starts at physical address 0 -/

/-- C24: RasterizerMarkRegionCached(0, size, cached) returns the memory system
as it is, for every size, both values of `cached` and every state: no tracker
boolean and no page-table entry changes and there is no fault. -/
theorem c24_mark_from_zero_is_noop {ε : Type} (K : MemoryMap) (size : Nat) (cached : Bool)
    (s : MemorySystem ε) :
    RasterizerMarkRegionCached K 0 size cached s = Except.ok s := by
  unfold RasterizerMarkRegionCached
  rw [if_pos rfl]

/-! ## C22: the virtual aliases of a physical address -/

/-- C22, as stated, fails: the physical address 0x28000000 lies in the
main-memory region [FCRAM_PADDR, FCRAM_N3DS_PADDR_END), past FCRAM_PADDR_END,
and PhysicalToVirtualAddressForRasterizer returns one alias for it, in the
new linear heap, not two. -/
theorem c22_extended_memory_has_one_alias :
    (console.FCRAM_PADDR ≤ 0x28000000 ∧ 0x28000000 < console.FCRAM_N3DS_PADDR_END) ∧
    PhysicalToVirtualAddressForRasterizer console 0x28000000 = [0x38000000] := by
  decide

/-- C22, amended: on a memory map whose virtual ranges hold the aliases of
their physical regions, with video memory below main memory,
PhysicalToVirtualAddressForRasterizer returns exactly one alias, VRAM_VADDR +
offset, for a physical address in [VRAM_PADDR, VRAM_PADDR_END); exactly two,
LINEAR_HEAP_VADDR + offset and NEW_LINEAR_HEAP_VADDR + offset, for one in
[FCRAM_PADDR, FCRAM_PADDR_END); and exactly one, NEW_LINEAR_HEAP_VADDR +
offset, for one in [FCRAM_PADDR_END, FCRAM_N3DS_PADDR_END). The offset is
that of the physical address in its region, and each alias lies in its
virtual range. -/
theorem c22_aliases_of_physical_address (K : MemoryMap) (hK : K.AliasesInRanges)
    (hvf : K.VRAM_PADDR_END ≤ K.FCRAM_PADDR) (addr : Nat) :
    (K.VRAM_PADDR ≤ addr ∧ addr < K.VRAM_PADDR_END →
      PhysicalToVirtualAddressForRasterizer K addr = [K.VRAM_VADDR + (addr - K.VRAM_PADDR)] ∧
      K.VRAM_VADDR + (addr - K.VRAM_PADDR) < K.VRAM_VADDR_END) ∧
    (K.FCRAM_PADDR ≤ addr ∧ addr < K.FCRAM_PADDR_END →
      PhysicalToVirtualAddressForRasterizer K addr =
        [K.LINEAR_HEAP_VADDR + (addr - K.FCRAM_PADDR),
         K.NEW_LINEAR_HEAP_VADDR + (addr - K.FCRAM_PADDR)] ∧
      K.LINEAR_HEAP_VADDR + (addr - K.FCRAM_PADDR) < K.LINEAR_HEAP_VADDR_END ∧
      K.NEW_LINEAR_HEAP_VADDR + (addr - K.FCRAM_PADDR) < K.NEW_LINEAR_HEAP_VADDR_END) ∧
    (K.FCRAM_PADDR_END ≤ addr ∧ addr < K.FCRAM_N3DS_PADDR_END →
      PhysicalToVirtualAddressForRasterizer K addr =
        [K.NEW_LINEAR_HEAP_VADDR + (addr - K.FCRAM_PADDR)] ∧
      K.NEW_LINEAR_HEAP_VADDR + (addr - K.FCRAM_PADDR) < K.NEW_LINEAR_HEAP_VADDR_END) := by
  obtain ⟨_, b1, b2, b3, b4, b5, b6, b7, b8⟩ := hK
  refine ⟨?_, ?_, ?_⟩
  · rintro ⟨h1, h2⟩
    unfold PhysicalToVirtualAddressForRasterizer
    rw [if_pos ⟨h1, h2⟩]
    have hu : u32 (addr - K.VRAM_PADDR + K.VRAM_VADDR) = K.VRAM_VADDR + (addr - K.VRAM_PADDR) := by
      simp only [u32]; omega
    rw [hu]
    exact ⟨rfl, by omega⟩
  · rintro ⟨h1, h2⟩
    unfold PhysicalToVirtualAddressForRasterizer
    rw [if_neg (by omega), if_pos ⟨h1, h2⟩]
    have hu1 : u32 (addr - K.FCRAM_PADDR + K.LINEAR_HEAP_VADDR) =
        K.LINEAR_HEAP_VADDR + (addr - K.FCRAM_PADDR) := by
      simp only [u32]; omega
    have hu2 : u32 (addr - K.FCRAM_PADDR + K.NEW_LINEAR_HEAP_VADDR) =
        K.NEW_LINEAR_HEAP_VADDR + (addr - K.FCRAM_PADDR) := by
      simp only [u32]; omega
    rw [hu1, hu2]
    exact ⟨rfl, by omega, by omega⟩
  · rintro ⟨h1, h2⟩
    unfold PhysicalToVirtualAddressForRasterizer
    rw [if_neg (by omega), if_neg (by omega), if_pos ⟨h1, h2⟩]
    have hu2 : u32 (addr - K.FCRAM_PADDR + K.NEW_LINEAR_HEAP_VADDR) =
        K.NEW_LINEAR_HEAP_VADDR + (addr - K.FCRAM_PADDR) := by
      simp only [u32]; omega
    rw [hu2]
    exact ⟨rfl, by omega⟩

/-- The theorem of C22 on the console's memory map, with the aliases of a
video-memory address, a main-memory address and an address of the extended
main memory. -/
theorem c22_aliases_of_physical_address_witness :
    (console.AliasesInRanges ∧ console.VRAM_PADDR_END ≤ console.FCRAM_PADDR ∧
      (console.FCRAM_PADDR ≤ 0x20001234 ∧ 0x20001234 < console.FCRAM_PADDR_END)) ∧
    (PhysicalToVirtualAddressForRasterizer console 0x20001234 =
        [console.LINEAR_HEAP_VADDR + (0x20001234 - console.FCRAM_PADDR),
         console.NEW_LINEAR_HEAP_VADDR + (0x20001234 - console.FCRAM_PADDR)] ∧
      console.LINEAR_HEAP_VADDR + (0x20001234 - console.FCRAM_PADDR) <
        console.LINEAR_HEAP_VADDR_END ∧
      console.NEW_LINEAR_HEAP_VADDR + (0x20001234 - console.FCRAM_PADDR) <
        console.NEW_LINEAR_HEAP_VADDR_END) ∧
    (PhysicalToVirtualAddressForRasterizer console 0x18000010,
      PhysicalToVirtualAddressForRasterizer console 0x20001234,
      PhysicalToVirtualAddressForRasterizer console 0x2FFFFFFF,
      PhysicalToVirtualAddressForRasterizer console 0x18600000) =
      ([0x1F000010], [0x14001234, 0x30001234], [0x3FFFFFFF], []) :=
  ⟨by decide,
   (c22_aliases_of_physical_address console (by decide) (by decide) 0x20001234).2.1
     (by decide),
   by decide⟩

/-! ## C23: physical pages without a virtual alias -/

/-- C23, as stated, fails for a range that starts at physical address 0: the
range [0, 0x185FF000 + 0x1000) holds pages without an alias, such as page 0,
and the last page of video memory, whose alias page 0x1F5FF is Memory in
table 0; the call returns and that page is neither marked in the tracker nor
flipped in the table. -/
theorem c23_range_from_zero_marks_nothing :
    PhysicalToVirtualAddressForRasterizer console 0 = [] ∧
    PhysicalToVirtualAddressForRasterizer console 0x185FF000 = [0x1F5FF000] ∧
    (vramEndSystem.page_tables 0).entry 0x1F5FF =
      (PageType.Memory, some ⟨Region.VRAM, 0x5FF000⟩) ∧
    (RasterizerMarkRegionCached console 0 0x18600000 true vramEndSystem).toOption.map
      (fun s => ((s.page_tables 0).entry 0x1F5FF,
        RasterizerCacheMarker.IsCached console s.cache_marker 0x1F5FF000)) =
      some ((PageType.Memory, some ⟨Region.VRAM, 0x5FF000⟩), false) := by
  decide

/-- C23, amended: an iteration of the page loop on a physical page without a
virtual alias leaves the memory system as it is and the loop goes on with the
next page; and when a call with a start other than 0 returns, every alias of
every physical page of the range that has one is marked in the tracker with
`cached` and the entry of its page went through the transition in every
registered table, whatever pages of the range have no alias. -/
theorem c23_pages_without_alias_are_skipped {ε : Type} (K : MemoryMap) (cached : Bool)
    (s s' : MemorySystem ε) (start size : Nat) (hstart : start ≠ 0)
    (h32 : start < 4294967296)
    (hrun : RasterizerMarkRegionCached K start size cached s = Except.ok s') :
    (∀ (n paddr : Nat) (x : MemorySystem ε),
      PhysicalToVirtualAddressForRasterizer K paddr = [] →
      markAliases K cached (PhysicalToVirtualAddressForRasterizer K paddr) x = Except.ok x ∧
      markPages K cached (n + 1) paddr x =
        markPages K cached n (u32 (paddr + CITRA_PAGE_SIZE)) x) ∧
    ∀ i, i < num_pages start size →
      ∀ v ∈ PhysicalToVirtualAddressForRasterizer K (u32 (start + i * CITRA_PAGE_SIZE)),
        (∀ slot, RasterizerCacheMarker.At K v = some slot → s'.cache_marker.get slot = cached) ∧
        ∀ t ∈ s.page_table_list,
          Transition K cached (v >>> CITRA_PAGE_BITS)
            ((s.page_tables t).entry (v >>> CITRA_PAGE_BITS))
            ((s'.page_tables t).entry (v >>> CITRA_PAGE_BITS)) := by
  constructor
  · intro n paddr x hnone
    rw [markPages, hnone]
    exact ⟨rfl, rfl⟩
  · intro i hi v hv
    unfold RasterizerMarkRegionCached at hrun
    rw [if_neg hstart] at hrun
    rw [← pageAddress_eq start h32 i] at hv
    have hmem : v ∈ aliasList K (num_pages start size) start :=
      (mem_aliasList K v _ _).2 ⟨i, hi, hv⟩
    constructor
    · intro slot hat
      rw [markPages_eq_markAliases] at hrun
      rw [markAliases_marker K cached _ s s' (fun w hw => aliasList_lt K _ _ w hw) hrun]
      exact (get_markAll K cached slot _ _).1 ⟨v, hmem, hat⟩
    · intro t ht
      obtain ⟨hrel, _⟩ := markPages_rel K cached _ _ s s' hrun
      exact (hrel t (v >>> CITRA_PAGE_BITS)).1 ⟨ht, i, hi, v, hv, rfl⟩

/-- The theorem of C23 on `vramEndSystem`, for the two pages from the last
page of video memory on: the second page, 0x18600000, has no alias; the call
returns, the alias of the first page is marked and its entry in table 0 is
RasterizerCachedMemory. -/
theorem c23_pages_without_alias_are_skipped_witness :
    (0x185FF000 ≠ 0 ∧ num_pages 0x185FF000 0x2000 = 2 ∧
      PhysicalToVirtualAddressForRasterizer console 0x18600000 = [] ∧
      RasterizerMarkRegionCached console 0x185FF000 0x2000 true vramEndSystem =
        Except.ok (resultOr (RasterizerMarkRegionCached console 0x185FF000 0x2000 true
          vramEndSystem) vramEndSystem)) ∧
    (∀ i, i < num_pages 0x185FF000 0x2000 →
      ∀ v ∈ PhysicalToVirtualAddressForRasterizer console
          (u32 (0x185FF000 + i * CITRA_PAGE_SIZE)),
        (∀ slot, RasterizerCacheMarker.At console v = some slot →
          (resultOr (RasterizerMarkRegionCached console 0x185FF000 0x2000 true vramEndSystem)
            vramEndSystem).cache_marker.get slot = true) ∧
        ∀ t ∈ vramEndSystem.page_table_list,
          Transition console true (v >>> CITRA_PAGE_BITS)
            ((vramEndSystem.page_tables t).entry (v >>> CITRA_PAGE_BITS))
            (((resultOr (RasterizerMarkRegionCached console 0x185FF000 0x2000 true
              vramEndSystem) vramEndSystem).page_tables t).entry (v >>> CITRA_PAGE_BITS))) ∧
    (RasterizerMarkRegionCached console 0x185FF000 0x2000 true vramEndSystem).toOption.map
      (fun s => ((s.page_tables 0).entry 0x1F5FF,
        RasterizerCacheMarker.IsCached console s.cache_marker 0x1F5FF000)) =
      some ((PageType.RasterizerCachedMemory, none), true) :=
  ⟨⟨by decide, by decide, by decide, eq_ok_of_returns _ vramEndSystem (by decide)⟩,
   (c23_pages_without_alias_are_skipped console true vramEndSystem _ 0x185FF000 0x2000
     (by decide) (by decide) (eq_ok_of_returns _ vramEndSystem (by decide))).2,
   by decide⟩

/-! ## C26: what changes the tracker -/

theorem walkLoop_invariant {σ : Type} (body : Chunk → σ → Except Fault σ) (P : σ → Prop)
    (hbody : ∀ c st st', P st → body c st = Except.ok st' → P st') :
    ∀ (fuel remaining page_index page_offset : Nat) (st st' : σ), P st →
      WalkBlock.loop body fuel remaining page_index page_offset st = Except.ok st' → P st' := by
  intro fuel
  induction fuel with
  | zero =>
    intro remaining page_index page_offset st st' hP h
    simp only [WalkBlock.loop, Except.ok.injEq] at h
    exact h ▸ hP
  | succ fuel ih =>
    intro remaining page_index page_offset st st' hP h
    rw [WalkBlock.loop] at h
    split at h
    · simp only at h
      split at h
      · rename_i st1 hst1
        exact ih _ _ _ st1 st' (hbody _ st st1 hP hst1) h
      · cases h
    · simp only [Except.ok.injEq] at h
      exact h ▸ hP

theorem walkBlock_marker {ε α : Type} (K : MemoryMap) (t : Nat) (H : Handlers ε α)
    (hH : H.KeepMarker) (src_addr size : Nat) (st st' : MemorySystem ε × α)
    (h : WalkBlock K t H src_addr size st = Except.ok st') :
    st'.1.cache_marker = st.1.cache_marker := by
  unfold WalkBlock at h
  refine walkLoop_invariant (WalkBlock.body K t H)
    (fun x => x.1.cache_marker = st.1.cache_marker) ?_ _ _ _ _ st st' rfl h
  intro c x x' hx hbody
  obtain ⟨h1, h2, h3, h4⟩ := hH
  unfold WalkBlock.body at hbody
  split at hbody
  · cases hbody
  · simp only at hbody
    split at hbody
    · rename_i x1 hx1
      cases hbody
      simp only
      rw [← hx]
      split at hx1
      · exact h1 _ _ _ _ hx1
      · split at hx1
        · exact h2 _ _ _ _ hx1
        · cases hx1
      · split at hx1
        · exact h3 _ _ _ _ _ hx1
        · cases hx1
      · split at hx1
        · exact h4 _ _ _ _ _ hx1
        · cases hx1
    · cases hbody

theorem readBlock_marker {ε : Type} (K : MemoryMap) (E : Collaborators ε) (t src_addr : Nat)
    (dest_buffer : Nat → Nat) (size : Nat) (s : MemorySystem ε)
    (r : MemorySystem ε × (Nat → Nat))
    (h : ReadBlock K E t src_addr dest_buffer size s = Except.ok r) :
    r.1.cache_marker = s.cache_marker := by
  unfold ReadBlock at h
  split at h
  · rename_i st hst
    cases h
    refine walkBlock_marker K t _ ?_ _ _ _ _ hst
    refine ⟨?_, ?_, ?_, ?_⟩
    · intro a b st st' h; cases h; rfl
    · intro a b st st' h; cases h; rfl
    · intro a b c st st' h; cases h; rfl
    · intro a b c st st' h; cases h
      exact flushVirtual_cache_marker K E _ _ _ _
  · cases h

theorem writeBlockImpl_marker {ε : Type} (K : MemoryMap) (E : Collaborators ε)
    (t dest_addr : Nat) (src : Backing → Nat → Nat) (size : Nat) (s s' : MemorySystem ε)
    (h : WriteBlockImpl K E t dest_addr src size s = Except.ok s') :
    s'.cache_marker = s.cache_marker := by
  unfold WriteBlockImpl at h
  split at h
  · rename_i st hst
    cases h
    refine walkBlock_marker K t _ ?_ _ _ _ _ hst
    refine ⟨?_, ?_, ?_, ?_⟩
    · intro a b st st' h; cases h; rfl
    · intro a b st st' h; cases h; rfl
    · intro a b c st st' h; cases h; rfl
    · intro a b c st st' h; cases h
      exact flushVirtual_cache_marker K E _ _ _ _
  · cases h

theorem zeroBlock_marker {ε : Type} (K : MemoryMap) (E : Collaborators ε)
    (t dest_addr size : Nat) (s s' : MemorySystem ε)
    (h : ZeroBlock K E t dest_addr size s = Except.ok s') :
    s'.cache_marker = s.cache_marker := by
  unfold ZeroBlock at h
  split at h
  · rename_i st hst
    cases h
    refine walkBlock_marker K t _ ?_ _ _ _ _ hst
    refine ⟨?_, ?_, ?_, ?_⟩
    · intro a b st st' h; cases h; rfl
    · intro a b st st' h; cases h; rfl
    · intro a b c st st' h; cases h; rfl
    · intro a b c st st' h; cases h
      exact flushVirtual_cache_marker K E _ _ _ _
  · cases h

theorem withCaptured_marker {ε α : Type} (r : Except Fault (MemorySystem ε)) (a : α)
    (m : RasterizerCacheMarker) (hr : ∀ s', r = Except.ok s' → s'.cache_marker = m)
    (st' : MemorySystem ε × α) (h : withCaptured r a = Except.ok st') :
    st'.1.cache_marker = m := by
  unfold withCaptured at h
  split at h
  · rename_i s1
    cases h
    exact hr s1 rfl
  · cases h

theorem copyBlock_marker {ε : Type} (K : MemoryMap) (E : Collaborators ε)
    (dest_t src_t dest_addr src_addr size : Nat) (s s' : MemorySystem ε)
    (h : CopyBlock K E dest_t src_t dest_addr src_addr size s = Except.ok s') :
    s'.cache_marker = s.cache_marker := by
  unfold CopyBlock at h
  split at h
  · rename_i st hst
    cases h
    refine walkBlock_marker K src_t _ ?_ _ _ _ _ hst
    refine ⟨?_, ?_, ?_, ?_⟩
    · intro a b st st' h
      exact withCaptured_marker _ _ _ (fun s' hs' => zeroBlock_marker K E _ _ _ _ s' hs') _ h
    · intro a b st st' h
      exact withCaptured_marker _ _ _
        (fun s' hs' => writeBlockImpl_marker K E _ _ _ _ _ s' hs') _ h
    · intro a b c st st' h
      have := withCaptured_marker _ _ _
        (fun s' hs' => writeBlockImpl_marker K E _ _ _ _ _ s' hs') _ h
      rw [this]
    · intro a b c st st' h
      have := withCaptured_marker _ _ _
        (fun s' hs' => writeBlockImpl_marker K E _ _ _ _ _ s' hs') _ h
      rw [this]
      exact flushVirtual_cache_marker K E _ _ _ _
  · cases h

theorem read_marker {ε : Type} (K : MemoryMap) (E : Collaborators ε) (w vaddr : Nat)
    (s : MemorySystem ε) (r : Nat × MemorySystem ε) (h : Read K E w vaddr s = Except.ok r) :
    r.2.cache_marker = s.cache_marker := by
  unfold Read at h
  split at h
  · cases h
  · simp only at h
    split at h
    · cases h; rfl
    · split at h
      · cases h; rfl
      · cases h
      · split at h
        · cases h
          exact flushVirtual_cache_marker K E _ _ _ _
        · cases h
      · split at h
        · cases h; rfl
        · cases h

theorem write_marker {ε : Type} (K : MemoryMap) (E : Collaborators ε) (w vaddr data : Nat)
    (s s' : MemorySystem ε) (h : Write K E w vaddr data s = Except.ok s') :
    s'.cache_marker = s.cache_marker := by
  unfold Write at h
  split at h
  · cases h
  · simp only at h
    split at h
    · cases h; rfl
    · split at h
      · cases h; rfl
      · cases h
      · split at h
        · cases h
          exact flushVirtual_cache_marker K E _ _ _ _
        · cases h
      · split at h
        · cases h; rfl
        · cases h

theorem mapIoRegion_marker {ε : Type} (K : MemoryMap) (E : Collaborators ε)
    (t base size handler : Nat) (s s' : MemorySystem ε)
    (h : MapIoRegion K E t base size handler s = Except.ok s') :
    s'.cache_marker = s.cache_marker := by
  unfold MapIoRegion at h
  split at h
  · cases h
  · split at h
    · cases h
    · split at h
      · rename_i s1 hs1
        cases h
        have := (mapPages_entries K E t _ _ _ _ s s1 hs1).2.1
        simpa [MemorySystem.setTable] using this
      · cases h

theorem markRegion_marker {ε : Type} (K : MemoryMap) (start size : Nat) (cached : Bool)
    (s s' : MemorySystem ε) (h : RasterizerMarkRegionCached K start size cached s = Except.ok s') :
    (start = 0 ∧ s'.cache_marker = s.cache_marker) ∨
    (start ≠ 0 ∧
      s'.cache_marker = markAll K cached s.cache_marker (aliasList K (num_pages start size) start)) := by
  unfold RasterizerMarkRegionCached at h
  by_cases hstart : start = 0
  · rw [if_pos hstart] at h
    cases h
    exact Or.inl ⟨hstart, rfl⟩
  · rw [if_neg hstart, markPages_eq_markAliases] at h
    exact Or.inr ⟨hstart,
      markAliases_marker K cached _ s s' (fun w hw => aliasList_lt K _ _ w hw) h⟩

/-- The aliases of two physical addresses of the same page have the same
tracker booleans. -/
theorem physicalToVirtual_same_page (K : MemoryMap) (hA : K.AliasesInRanges)
    (hP : K.PhysicalAligned) (a q v : Nat) (hpage : a / 4096 = q / 4096)
    (hv : v ∈ PhysicalToVirtualAddressForRasterizer K a) :
    ∃ v', v' ∈ PhysicalToVirtualAddressForRasterizer K q ∧
      RasterizerCacheMarker.At K v' = RasterizerCacheMarker.At K v := by
  obtain ⟨hK, b1, b2, b3, b4, b5, b6, b7, b8⟩ := hA
  obtain ⟨p1, p2, p3, p4, p5⟩ := hP
  have hK' := hK
  obtain ⟨a1, a2, a3, a4, a5, a6⟩ := hK'
  have hslot : ∀ x y : Nat, x / 4096 = y / 4096 →
      RasterizerCacheMarker.At K x = RasterizerCacheMarker.At K y := by
    intro x y hxy
    rw [← at_of_page K hK x, ← at_of_page K hK y, shr_page, shr_page, hxy]
  have c1 : (q ≥ K.VRAM_PADDR ∧ q < K.VRAM_PADDR_END) ↔
      (a ≥ K.VRAM_PADDR ∧ a < K.VRAM_PADDR_END) := by omega
  have c2 : (q ≥ K.FCRAM_PADDR ∧ q < K.FCRAM_PADDR_END) ↔
      (a ≥ K.FCRAM_PADDR ∧ a < K.FCRAM_PADDR_END) := by omega
  have c3 : (q ≥ K.FCRAM_PADDR_END ∧ q < K.FCRAM_N3DS_PADDR_END) ↔
      (a ≥ K.FCRAM_PADDR_END ∧ a < K.FCRAM_N3DS_PADDR_END) := by omega
  unfold PhysicalToVirtualAddressForRasterizer at hv ⊢
  simp only [c1, c2, c3]
  split at hv
  · rename_i h
    rw [if_pos h]
    simp only [List.mem_singleton] at hv
    refine ⟨_, List.mem_singleton.2 rfl, hslot _ _ ?_⟩
    rw [hv]
    simp only [u32]
    omega
  · rename_i h
    rw [if_neg h]
    split at hv
    · rename_i h'
      rw [if_pos h']
      simp only [List.mem_cons, List.mem_singleton, List.not_mem_nil, or_false] at hv
      rcases hv with hv | hv
      · refine ⟨_, List.mem_cons_self _ _, hslot _ _ ?_⟩
        rw [hv]
        simp only [u32]
        omega
      · refine ⟨_, List.mem_cons_of_mem _ (List.mem_cons_self _ _), hslot _ _ ?_⟩
        rw [hv]
        simp only [u32]
        omega
    · rename_i h'
      rw [if_neg h']
      split at hv
      · rename_i h''
        rw [if_pos h'']
        simp only [List.mem_singleton] at hv
        refine ⟨_, List.mem_singleton.2 rfl, hslot _ _ ?_⟩
        rw [hv]
        simp only [u32]
        omega
      · cases hv

/-- For a non-empty range that ends inside the address space, the aliases the
loop of RasterizerMarkRegionCached goes through have the tracker booleans of
the aliases of the bytes of the range. -/
theorem aliasList_slots_of_range (K : MemoryMap) (hA : K.AliasesInRanges)
    (hP : K.PhysicalAligned) (start size : Nat) (hsize : 0 < size)
    (h32 : start + size ≤ 4294967296) (slot : MarkerSlot) :
    (∃ v ∈ aliasList K (num_pages start size) start,
        RasterizerCacheMarker.At K v = some slot) ↔
      ∃ a, start ≤ a ∧ a < start + size ∧
        ∃ v ∈ PhysicalToVirtualAddressForRasterizer K a,
          RasterizerCacheMarker.At K v = some slot := by
  have hn := num_pages_eq start size hsize h32
  constructor
  · rintro ⟨v, hv, hat⟩
    obtain ⟨i, hi, hvi⟩ := (mem_aliasList K v _ _).1 hv
    rw [hn] at hi
    rw [pageAddress_add start i (by omega)] at hvi
    obtain ⟨v', hv', hat'⟩ := physicalToVirtual_same_page K hA hP (start + i * 4096)
      (max start ((start / 4096 + i) * 4096)) v (by omega) hvi
    exact ⟨max start ((start / 4096 + i) * 4096), by omega, by omega, v', hv',
      hat'.trans hat⟩
  · rintro ⟨a, ha1, ha2, v, hv, hat⟩
    obtain ⟨v', hv', hat'⟩ := physicalToVirtual_same_page K hA hP a
      (start + (a / 4096 - start / 4096) * 4096) v (by omega) hv
    refine ⟨v', (mem_aliasList K v' _ _).2 ⟨a / 4096 - start / 4096, ?_, ?_⟩, hat'.trans hat⟩
    · rw [hn]; omega
    · rw [pageAddress_add start _ (by omega)]
      exact hv'

/-- C26 at its failing input, the input of C21: the range of 0 bytes at
0x20000800 holds no byte and so has no alias page, and
RasterizerMarkRegionCached(0x20000800, 0, true) on the fresh memory system
sets the tracker booleans of the two aliases of the physical page 0x20000,
the first page of the linear heap and of the new linear heap, which were
false. With the page-aligned start 0x20000000 the empty range changes no
boolean. -/
theorem c26_empty_range_sets_tracker_booleans :
    (freshSystem.cache_marker.get (MarkerSlot.linear_heap 0),
      freshSystem.cache_marker.get (MarkerSlot.new_linear_heap 0)) = (false, false) ∧
    (RasterizerMarkRegionCached console 0x20000800 0 true freshSystem).toOption.map
      (fun s => (s.cache_marker.get (MarkerSlot.linear_heap 0),
        s.cache_marker.get (MarkerSlot.new_linear_heap 0))) = some (true, true) ∧
    (RasterizerMarkRegionCached console 0x20000000 0 true freshSystem).toOption.map
      (fun s => (s.cache_marker.get (MarkerSlot.linear_heap 0),
        s.cache_marker.get (MarkerSlot.new_linear_heap 0))) = some (false, false) := by
  decide

/-- What changes the tracker, away from the failing input of C26: a call of
MapMemoryRegion, MapIoRegion, UnmapRegion, Read, Write, ReadBlock, WriteBlock,
ZeroBlock or CopyBlock that returns leaves the tracker as it was; a call of
RasterizerMarkRegionCached for a non-empty range that ends inside the address
space and that returns leaves every boolean as it was except those of the
aliases of the physical bytes of [start, start + size), which hold the
`cached` argument afterwards (all of them when start is not 0, the case in
which the loop runs). -/
theorem tracker_changed_only_by_mark {ε : Type} (K : MemoryMap) (E : Collaborators ε)
    (s s' : MemorySystem ε) (hA : K.AliasesInRanges) (hP : K.PhysicalAligned) :
    (∀ t base size target, MapMemoryRegion K E t base size target s = Except.ok s' →
      s'.cache_marker = s.cache_marker) ∧
    (∀ t base size handler, MapIoRegion K E t base size handler s = Except.ok s' →
      s'.cache_marker = s.cache_marker) ∧
    (∀ t base size, UnmapRegion K E t base size s = Except.ok s' →
      s'.cache_marker = s.cache_marker) ∧
    (∀ w vaddr x, Read K E w vaddr s = Except.ok (x, s') → s'.cache_marker = s.cache_marker) ∧
    (∀ w vaddr data, Write K E w vaddr data s = Except.ok s' →
      s'.cache_marker = s.cache_marker) ∧
    (∀ t src_addr dest_buffer size buffer,
      ReadBlock K E t src_addr dest_buffer size s = Except.ok (s', buffer) →
      s'.cache_marker = s.cache_marker) ∧
    (∀ t dest_addr src_buffer size, WriteBlock K E t dest_addr src_buffer size s = Except.ok s' →
      s'.cache_marker = s.cache_marker) ∧
    (∀ t dest_addr size, ZeroBlock K E t dest_addr size s = Except.ok s' →
      s'.cache_marker = s.cache_marker) ∧
    (∀ dest_t src_t dest_addr src_addr size,
      CopyBlock K E dest_t src_t dest_addr src_addr size s = Except.ok s' →
      s'.cache_marker = s.cache_marker) ∧
    (∀ start size cached, 0 < size → start + size ≤ 4294967296 →
      RasterizerMarkRegionCached K start size cached s = Except.ok s' →
      ∀ slot,
        ((∃ a, start ≤ a ∧ a < start + size ∧
            ∃ v ∈ PhysicalToVirtualAddressForRasterizer K a,
              RasterizerCacheMarker.At K v = some slot) →
          (start ≠ 0 → s'.cache_marker.get slot = cached) ∧
          (s'.cache_marker.get slot = cached ∨
            s'.cache_marker.get slot = s.cache_marker.get slot)) ∧
        ((¬ ∃ a, start ≤ a ∧ a < start + size ∧
            ∃ v ∈ PhysicalToVirtualAddressForRasterizer K a,
              RasterizerCacheMarker.At K v = some slot) →
          s'.cache_marker.get slot = s.cache_marker.get slot)) := by
  refine ⟨?_, ?_, ?_, ?_, ?_, ?_, ?_, ?_, ?_, ?_⟩
  · intro t base size target h
    unfold MapMemoryRegion at h
    split at h
    · cases h
    · split at h
      · cases h
      · exact (mapPages_entries K E t _ _ _ _ s s' h).2.1
  · intro t base size handler h
    exact mapIoRegion_marker K E t base size handler s s' h
  · intro t base size h
    unfold UnmapRegion at h
    split at h
    · cases h
    · split at h
      · cases h
      · exact (mapPages_entries K E t _ _ _ _ s s' h).2.1
  · intro w vaddr x h
    exact read_marker K E w vaddr s _ h
  · intro w vaddr data h
    exact write_marker K E w vaddr data s s' h
  · intro t src_addr dest_buffer size buffer h
    exact readBlock_marker K E t src_addr dest_buffer size s _ h
  · intro t dest_addr src_buffer size h
    exact writeBlockImpl_marker K E t dest_addr _ size s s' h
  · intro t dest_addr size h
    exact zeroBlock_marker K E t dest_addr size s s' h
  · intro dest_t src_t dest_addr src_addr size h
    exact copyBlock_marker K E dest_t src_t dest_addr src_addr size s s' h
  · intro start size cached hsize h32 h slot
    rw [← aliasList_slots_of_range K hA hP start size hsize h32 slot]
    rcases markRegion_marker K start size cached s s' h with ⟨h0, hm⟩ | ⟨hne, hm⟩
    · rw [hm]
      exact ⟨fun _ => ⟨fun hs => absurd h0 hs, Or.inr rfl⟩, fun _ => rfl⟩
    · rw [hm]
      constructor
      · intro hex
        have := (get_markAll K cached slot _ s.cache_marker).1 hex
        exact ⟨fun _ => this, Or.inl this⟩
      · intro hno
        exact (get_markAll K cached slot _ s.cache_marker).2 hno

/-- The theorem on the call that marks the 0x1000 bytes from 0x20000800 on the
fresh memory system: the range holds bytes of the physical pages 0x20000 and
0x20001, and the booleans of the first two pages of the linear heap and of the
new linear heap are set while every other boolean is as it was. -/
theorem tracker_changed_only_by_mark_witness :
    (∀ slot,
      ((∃ a, 0x20000800 ≤ a ∧ a < 0x20000800 + 0x1000 ∧
          ∃ v ∈ PhysicalToVirtualAddressForRasterizer console a,
            RasterizerCacheMarker.At console v = some slot) →
        (0x20000800 ≠ 0 →
          (resultOr (RasterizerMarkRegionCached console 0x20000800 0x1000 true freshSystem)
            freshSystem).cache_marker.get slot = true) ∧
        ((resultOr (RasterizerMarkRegionCached console 0x20000800 0x1000 true freshSystem)
            freshSystem).cache_marker.get slot = true ∨
          (resultOr (RasterizerMarkRegionCached console 0x20000800 0x1000 true freshSystem)
            freshSystem).cache_marker.get slot = freshSystem.cache_marker.get slot)) ∧
      ((¬ ∃ a, 0x20000800 ≤ a ∧ a < 0x20000800 + 0x1000 ∧
          ∃ v ∈ PhysicalToVirtualAddressForRasterizer console a,
            RasterizerCacheMarker.At console v = some slot) →
        (resultOr (RasterizerMarkRegionCached console 0x20000800 0x1000 true freshSystem)
          freshSystem).cache_marker.get slot = freshSystem.cache_marker.get slot)) ∧
    ((List.range 3).map (fun i =>
        ((resultOr (RasterizerMarkRegionCached console 0x20000800 0x1000 true freshSystem)
            freshSystem).cache_marker.get (MarkerSlot.linear_heap i),
          (resultOr (RasterizerMarkRegionCached console 0x20000800 0x1000 true freshSystem)
            freshSystem).cache_marker.get (MarkerSlot.new_linear_heap i),
          (resultOr (RasterizerMarkRegionCached console 0x20000800 0x1000 true freshSystem)
            freshSystem).cache_marker.get (MarkerSlot.vram i)))) =
      [(true, true, false), (true, true, false), (false, false, false)] :=
  ⟨(tracker_changed_only_by_mark console stub freshSystem
      (resultOr (RasterizerMarkRegionCached console 0x20000800 0x1000 true freshSystem)
        freshSystem) (by decide) (by decide)).2.2.2.2.2.2.2.2.2
      0x20000800 0x1000 true (by decide) (by decide)
      (eq_ok_of_returns _ freshSystem (by decide)),
   by decide⟩

/-! ## C25: no renderer -/

theorem forgetCalls_eq {ε : Type} (a b : MemorySystem ε) (h1 : a.backing = b.backing)
    (h2 : a.cache_marker = b.cache_marker) (h3 : a.page_tables = b.page_tables)
    (h4 : a.page_table_list = b.page_table_list)
    (h5 : a.current_page_table = b.current_page_table) (h6 : a.world = b.world) :
    a.forgetCalls = b.forgetCalls := by
  cases a; cases b
  simp only [MemorySystem.forgetCalls] at *
  simp [h1, h2, h3, h4, h5, h6]

theorem flushVirtual_no_renderer {ε : Type} (K : MemoryMap) (E : Collaborators ε)
    (h : E.renderer = false) (a n : Nat) (mode : FlushMode) (s : MemorySystem ε) :
    RasterizerFlushVirtualRegion K E a n mode s = s := by
  unfold RasterizerFlushVirtualRegion
  rw [if_pos h]

theorem rasterizerCall_idle {ε : Type} (E : Collaborators ε) (hE : E.IdleRasterizer)
    (mode : FlushMode) (a n : Nat) (s : MemorySystem ε) :
    (rasterizerCall E mode a n s).forgetCalls = s.forgetCalls := by
  obtain ⟨h1, h2, h3⟩ := hE
  cases mode <;> simp [rasterizerCall, MemorySystem.forgetCalls, h1, h2, h3]

theorem checkRegion_idle {ε : Type} (E : Collaborators ε) (hE : E.IdleRasterizer)
    (mode : FlushMode) (a b c d e : Nat) (s : MemorySystem ε) :
    (CheckRegion E mode a b c d e s).forgetCalls = s.forgetCalls := by
  unfold CheckRegion
  split
  · rfl
  · exact rasterizerCall_idle E hE mode _ _ s

theorem flushVirtual_idle {ε : Type} (K : MemoryMap) (E : Collaborators ε)
    (hE : E.IdleRasterizer) (a n : Nat) (mode : FlushMode) (s : MemorySystem ε) :
    (RasterizerFlushVirtualRegion K E a n mode s).forgetCalls = s.forgetCalls := by
  unfold RasterizerFlushVirtualRegion
  split
  · rfl
  · simp only
    rw [checkRegion_idle E hE, checkRegion_idle E hE, checkRegion_idle E hE]

theorem forgetCalls_fields {ε : Type} (a b : MemorySystem ε)
    (h : a.forgetCalls = b.forgetCalls) :
    a.backing = b.backing ∧ a.cache_marker = b.cache_marker ∧
    a.page_tables = b.page_tables ∧ a.world = b.world := by
  cases a; cases b
  simp only [MemorySystem.forgetCalls, MemorySystem.mk.injEq] at h
  simp only
  tauto

theorem forgetCalls_setTable {ε : Type} (a b : MemorySystem ε)
    (h : a.forgetCalls = b.forgetCalls) (t : Nat) (pt : PageTable) :
    (a.setTable t pt).forgetCalls = (b.setTable t pt).forgetCalls := by
  cases a; cases b
  simp only [MemorySystem.forgetCalls, MemorySystem.setTable, MemorySystem.mk.injEq] at h ⊢
  obtain ⟨h1, h2, h3, h4, h5, h6, _⟩ := h
  simp [h1, h2, h3, h4, h5, h6]

theorem forgetCalls_setBacking {ε : Type} (a b : MemorySystem ε)
    (h : a.forgetCalls = b.forgetCalls) (f : Backing → Backing) :
    ({ a with backing := f a.backing } : MemorySystem ε).forgetCalls =
      ({ b with backing := f b.backing } : MemorySystem ε).forgetCalls := by
  cases a; cases b
  simp only [MemorySystem.forgetCalls, MemorySystem.mk.injEq] at h ⊢
  obtain ⟨h1, h2, h3, h4, h5, h6, _⟩ := h
  simp [h1, h2, h3, h4, h5, h6]

theorem mapPages_idle {ε : Type} (K : MemoryMap) (E E' : Collaborators ε)
    (hnone : E.renderer = false) (hE' : E'.IdleRasterizer) (t base size : Nat)
    (memory : MemoryRef) (type : PageType) (s : MemorySystem ε) :
    (MapPages K E t base size memory type s).map MemorySystem.forgetCalls =
      (MapPages K E' t base size memory type s).map MemorySystem.forgetCalls := by
  unfold MapPages
  simp only [flushVirtual_no_renderer K E hnone]
  have hf := flushVirtual_idle K E' hE' (u32 (base <<< CITRA_PAGE_BITS))
    (u32 (size * CITRA_PAGE_SIZE)) FlushMode.FlushAndInvalidate s
  obtain ⟨_, hm, hp, _⟩ := forgetCalls_fields _ _ hf
  rw [hm, hp]
  cases MapPages.loop K s.cache_marker type size base memory (s.page_tables t) with
  | error e => rfl
  | ok pt =>
    simp only [Except.map]
    rw [forgetCalls_setTable _ _ hf]

theorem mapIoRegion_idle {ε : Type} (K : MemoryMap) (E E' : Collaborators ε)
    (hnone : E.renderer = false) (hE' : E'.IdleRasterizer) (t base size handler : Nat)
    (s : MemorySystem ε) :
    (MapIoRegion K E t base size handler s).map MemorySystem.forgetCalls =
      (MapIoRegion K E' t base size handler s).map MemorySystem.forgetCalls := by
  unfold MapIoRegion
  split
  · rfl
  · split
    · rfl
    · have h := mapPages_idle K E E' hnone hE' t (base / CITRA_PAGE_SIZE)
        (size / CITRA_PAGE_SIZE) none PageType.Special s
      cases h1 : MapPages K E t (base / CITRA_PAGE_SIZE) (size / CITRA_PAGE_SIZE) none
          PageType.Special s with
      | error e =>
        cases h2 : MapPages K E' t (base / CITRA_PAGE_SIZE) (size / CITRA_PAGE_SIZE) none
            PageType.Special s with
        | error e' =>
          rw [h1, h2] at h
          simp only [Except.map, Except.error.injEq] at h
          simp [Except.map, h]
        | ok s2 => rw [h1, h2] at h; simp [Except.map] at h
      | ok s1 =>
        cases h2 : MapPages K E' t (base / CITRA_PAGE_SIZE) (size / CITRA_PAGE_SIZE) none
            PageType.Special s with
        | error e' => rw [h1, h2] at h; simp [Except.map] at h
        | ok s2 =>
          rw [h1, h2] at h
          simp only [Except.map, Except.ok.injEq] at h
          simp only [Except.map, Except.ok.injEq]
          obtain ⟨_, _, hp, _⟩ := forgetCalls_fields _ _ h
          rw [hp]
          exact forgetCalls_setTable _ _ h _ _

/-- C25: with no renderer active, RasterizerFlushRegion,
RasterizerInvalidateRegion, RasterizerFlushAndInvalidateRegion,
RasterizerClearAll and RasterizerFlushVirtualRegion return the memory system
as it is, for every argument: no call is made and nothing changes. The
mapping operations, and Read and Write on a RasterizerCachedMemory page, end
as with a renderer whose calls do nothing: the same fault or the same memory
system but for the record of the calls, and the same value read; where the
address has an arena pointer, Read and Write return. -/
theorem c25_no_renderer {ε : Type} (K : MemoryMap) (E E' : Collaborators ε)
    (s : MemorySystem ε) (hnone : E.renderer = false) (hE' : E'.IdleRasterizer) :
    ((∀ a n, RasterizerFlushRegion E a n s = s) ∧
      (∀ a n, RasterizerInvalidateRegion E a n s = s) ∧
      (∀ a n, RasterizerFlushAndInvalidateRegion E a n s = s) ∧
      (∀ flush, RasterizerClearAll E flush s = s) ∧
      (∀ a n mode, RasterizerFlushVirtualRegion K E a n mode s = s)) ∧
    ((∀ t base size target,
        (MapMemoryRegion K E t base size target s).map MemorySystem.forgetCalls =
          (MapMemoryRegion K E' t base size target s).map MemorySystem.forgetCalls) ∧
      (∀ t base size handler,
        (MapIoRegion K E t base size handler s).map MemorySystem.forgetCalls =
          (MapIoRegion K E' t base size handler s).map MemorySystem.forgetCalls) ∧
      (∀ t base size,
        (UnmapRegion K E t base size s).map MemorySystem.forgetCalls =
          (UnmapRegion K E' t base size s).map MemorySystem.forgetCalls)) ∧
    ∀ t vaddr, s.current_page_table = some t →
      (s.page_tables t).pointers (vaddr >>> CITRA_PAGE_BITS) = none →
      (s.page_tables t).attributes (vaddr >>> CITRA_PAGE_BITS) =
        PageType.RasterizerCachedMemory →
      (∀ w, (Read K E w vaddr s).map (fun r => (r.1, r.2.forgetCalls)) =
          (Read K E' w vaddr s).map (fun r => (r.1, r.2.forgetCalls))) ∧
      (∀ w data, (Write K E w vaddr data s).map MemorySystem.forgetCalls =
          (Write K E' w vaddr data s).map MemorySystem.forgetCalls) ∧
      ∀ p, GetPointerForRasterizerCache K vaddr = Except.ok p →
        (∀ w, Read K E w vaddr s = Except.ok (loadLE s.backing p w, s)) ∧
        ∀ w data, Write K E w vaddr data s =
          Except.ok { s with backing := storeLE s.backing p w data } := by
  refine ⟨⟨?_, ?_, ?_, ?_, ?_⟩, ⟨?_, ?_, ?_⟩, ?_⟩
  · intro a n; unfold RasterizerFlushRegion; rw [if_pos hnone]
  · intro a n; unfold RasterizerInvalidateRegion; rw [if_pos hnone]
  · intro a n; unfold RasterizerFlushAndInvalidateRegion; rw [if_pos hnone]
  · intro flush; unfold RasterizerClearAll; rw [if_pos hnone]
  · intro a n mode; exact flushVirtual_no_renderer K E hnone a n mode s
  · intro t base size target
    unfold MapMemoryRegion
    split
    · rfl
    · split
      · rfl
      · exact mapPages_idle K E E' hnone hE' t _ _ _ _ s
  · intro t base size handler
    exact mapIoRegion_idle K E E' hnone hE' t base size handler s
  · intro t base size
    unfold UnmapRegion
    split
    · rfl
    · split
      · rfl
      · exact mapPages_idle K E E' hnone hE' t _ _ _ _ s
  · intro t vaddr hcur hp hc
    refine ⟨?_, ?_, ?_⟩
    · intro w
      have hf := flushVirtual_idle K E' hE' vaddr w FlushMode.Flush s
      obtain ⟨hb, _⟩ := forgetCalls_fields _ _ hf
      unfold Read
      simp only [hcur, hp, hc, flushVirtual_no_renderer K E hnone]
      cases GetPointerForRasterizerCache K vaddr with
      | error e => rfl
      | ok p =>
        simp only [Except.map, Except.ok.injEq, Prod.mk.injEq]
        rw [hb, hf]
        exact ⟨rfl, rfl⟩
    · intro w data
      have hf := flushVirtual_idle K E' hE' vaddr w FlushMode.Invalidate s
      obtain ⟨hb, _⟩ := forgetCalls_fields _ _ hf
      unfold Write
      simp only [hcur, hp, hc, flushVirtual_no_renderer K E hnone]
      cases GetPointerForRasterizerCache K vaddr with
      | error e => rfl
      | ok p =>
        simp only [Except.map, Except.ok.injEq]
        rw [← hcur]
        exact (forgetCalls_setBacking _ _ hf (fun b => storeLE b p w data)).symm
    · intro p hptr
      constructor
      · intro w
        unfold Read
        simp only [hcur, hp, hc, flushVirtual_no_renderer K E hnone, hptr]
      · intro w data
        unfold Write
        simp only [hcur, hp, hc, flushVirtual_no_renderer K E hnone, hptr]

/-- The theorem of C25 on `heapStartSystem`, whose first linear-heap page is
RasterizerCachedMemory, with `noRenderer` against `stub`: the five flush
functions return the state as it is; a Write and a Read of four bytes at
0x14000010 return with no renderer, with the value written read back and no
call added, where `stub` records an InvalidateRegion and a FlushRegion. -/
theorem c25_no_renderer_witness :
    (noRenderer.renderer = false ∧ stub.IdleRasterizer ∧
      (heapStartSystem.page_tables 0).entry (0x14000010 >>> CITRA_PAGE_BITS) =
        (PageType.RasterizerCachedMemory, none)) ∧
    ((∀ a n, RasterizerFlushRegion noRenderer a n heapStartSystem = heapStartSystem) ∧
      (∀ a n, RasterizerInvalidateRegion noRenderer a n heapStartSystem = heapStartSystem) ∧
      (∀ a n, RasterizerFlushAndInvalidateRegion noRenderer a n heapStartSystem =
        heapStartSystem) ∧
      (∀ flush, RasterizerClearAll noRenderer flush heapStartSystem = heapStartSystem) ∧
      (∀ a n mode, RasterizerFlushVirtualRegion console noRenderer a n mode heapStartSystem =
        heapStartSystem)) ∧
    ((Write console noRenderer 4 0x14000010 0xDEADBEEF heapStartSystem).toOption.bind
      (fun s1 => (Read console noRenderer 4 0x14000010 s1).toOption.map
        (fun r => (r.1, r.2.calls)))) =
      some (0xDEADBEEF, [Call.FlushAndInvalidateRegion 0x20000000 0x1000]) ∧
    ((Write console stub 4 0x14000010 0xDEADBEEF heapStartSystem).toOption.bind
      (fun s1 => (Read console stub 4 0x14000010 s1).toOption.map
        (fun r => (r.1, r.2.calls)))) =
      some (0xDEADBEEF, [Call.FlushAndInvalidateRegion 0x20000000 0x1000,
        Call.InvalidateRegion 0x20000010 4, Call.FlushRegion 0x20000010 4]) :=
  ⟨⟨rfl, ⟨fun _ _ _ => rfl, fun _ _ _ => rfl, fun _ _ _ => rfl⟩, by decide⟩,
   (c25_no_renderer console noRenderer stub heapStartSystem rfl
     ⟨fun _ _ _ => rfl, fun _ _ _ => rfl, fun _ _ _ => rfl⟩).1,
   by decide, by decide⟩

/-! ## C27: little-endian values and the agreement of the widths -/

/-- C27, as stated, fails for an access that crosses a page boundary: the
pages 0x20 and 0x21 are Memory, the four bytes from 0x20FFE on read 0x11,
0x22, 0x33, 0x44 with Read8, and Read32(0x20FFE) is 0x2211, not 0x44332211:
it takes its four bytes behind the pointer of the first page. -/
theorem c27_access_across_pages_reads_one_page :
    ((straddleSystem.page_tables 0).attributes 0x20,
      (straddleSystem.page_tables 0).attributes 0x21) = (PageType.Memory, PageType.Memory) ∧
    ((Read console stub 1 0x20FFE straddleSystem).toOption.map Prod.fst,
      (Read console stub 1 0x20FFF straddleSystem).toOption.map Prod.fst,
      (Read console stub 1 0x21000 straddleSystem).toOption.map Prod.fst,
      (Read console stub 1 0x21001 straddleSystem).toOption.map Prod.fst) =
      (some 0x11, some 0x22, some 0x33, some 0x44) ∧
    (Read console stub 4 0x20FFE straddleSystem).toOption.map Prod.fst = some 0x2211 := by
  decide

theorem loadLE_eq_sum (b : Backing) (p : BackingRef) :
    ∀ n, loadLE b p n =
      ((List.range n).map (fun i => 256 ^ i * b p.region (p.offset + i))).sum := by
  intro n
  induction n with
  | zero => rfl
  | succ n ih =>
    rw [loadLE, ih, List.range_succ, List.map_append, List.sum_append]
    simp

theorem same_page (v i : Nat) (h : (v &&& CITRA_PAGE_MASK) + i < CITRA_PAGE_SIZE) :
    (v + i) >>> CITRA_PAGE_BITS = v >>> CITRA_PAGE_BITS ∧
    (v + i) &&& CITRA_PAGE_MASK = (v &&& CITRA_PAGE_MASK) + i := by
  rw [and_page_mask] at h
  rw [shr_page, shr_page, and_page_mask, and_page_mask]
  simp only [CITRA_PAGE_SIZE] at h
  omega

/-- C27, amended: for every width `w` and every address `v` on a page of the
current page table with a direct pointer (a Memory page) such that the `w`
bytes from `v` on end inside that page, Read of width `w` at `v` returns the
sum of 256^i times the byte Read8(v + i) returns, for i below `w`, and after
Write of width `w` of a value `x` each Read8(v + i) returns byte `i` of `x`,
least significant first. -/
theorem c27_little_endian_within_page {ε : Type} (K : MemoryMap) (E : Collaborators ε)
    (s : MemorySystem ε) (t w v : Nat) (p : BackingRef)
    (hcur : s.current_page_table = some t)
    (hp : (s.page_tables t).pointers (v >>> CITRA_PAGE_BITS) = some p)
    (hin : (v &&& CITRA_PAGE_MASK) + w ≤ CITRA_PAGE_SIZE) :
    (∃ b : Nat → Nat, (∀ i, i < w → Read K E 1 (v + i) s = Except.ok (b i, s)) ∧
      Read K E w v s = Except.ok (((List.range w).map (fun i => 256 ^ i * b i)).sum, s)) ∧
    ∀ x, ∃ s1, Write K E w v x s = Except.ok s1 ∧
      ∀ i, i < w → Read K E 1 (v + i) s1 = Except.ok (x / 256 ^ i % 256, s1) := by
  constructor
  · refine ⟨fun i => s.backing p.region (p.offset + (v &&& CITRA_PAGE_MASK) + i), ?_, ?_⟩
    · intro i hi
      obtain ⟨h1, h2⟩ := same_page v i (by omega)
      rw [read_of_pointer K E s t 1 (v + i) p hcur (by rw [h1]; exact hp), h2]
      simp [loadLE, Nat.add_assoc]
    · rw [read_of_pointer K E s t w v p hcur hp, loadLE_eq_sum]
  · intro x
    refine ⟨_, write_of_pointer K E s t w v x p hcur hp, ?_⟩
    intro i hi
    obtain ⟨h1, h2⟩ := same_page v i (by omega)
    have hr := read_of_pointer K E
      ({ s with backing := (storeLE s.backing
          ⟨p.region, p.offset + (v &&& CITRA_PAGE_MASK)⟩ w x) } : MemorySystem ε)
      t 1 (v + i) p hcur (by rw [h1]; exact hp)
    rw [hr, h2]
    simp only [loadLE, storeLE, Nat.zero_add, pow_zero, Nat.one_mul, Nat.add_zero]
    rw [if_pos ⟨trivial, by omega, by omega⟩]
    have he : p.offset + ((v &&& CITRA_PAGE_MASK) + i) - (p.offset + (v &&& CITRA_PAGE_MASK)) =
        i := by omega
    rw [he]

/-- The theorem of C27 on `straddleSystem` for the four bytes from 0x20FF0 on,
inside page 0x20; and Read32 against the four Read8, then Write32 followed by
the four Read8, evaluated at 0x20FFC, the last four bytes of the page. -/
theorem c27_little_endian_within_page_witness :
    (straddleSystem.current_page_table = some 0 ∧
      (straddleSystem.page_tables 0).pointers (0x20FF0 >>> CITRA_PAGE_BITS) =
        some ⟨Region.FCRAM, 0x5000⟩ ∧
      (0x20FF0 &&& CITRA_PAGE_MASK) + 4 ≤ CITRA_PAGE_SIZE) ∧
    ((∃ b : Nat → Nat,
        (∀ i, i < 4 → Read console stub 1 (0x20FF0 + i) straddleSystem =
          Except.ok (b i, straddleSystem)) ∧
        Read console stub 4 0x20FF0 straddleSystem =
          Except.ok (((List.range 4).map (fun i => 256 ^ i * b i)).sum, straddleSystem)) ∧
      ∀ x, ∃ s1, Write console stub 4 0x20FF0 x straddleSystem = Except.ok s1 ∧
        ∀ i, i < 4 → Read console stub 1 (0x20FF0 + i) s1 =
          Except.ok (x / 256 ^ i % 256, s1)) ∧
    (Write console stub 4 0x20FFC 0xA1B2C3D4 straddleSystem).toOption.bind
      (fun s1 => (Read console stub 4 0x20FFC s1).toOption.bind
        (fun r4 => (Read console stub 1 0x20FFC s1).toOption.bind
          (fun r0 => (Read console stub 1 0x20FFD s1).toOption.bind
            (fun r1 => (Read console stub 1 0x20FFE s1).toOption.bind
              (fun r2 => (Read console stub 1 0x20FFF s1).toOption.map
                (fun r3 => (r4.1, r0.1, r1.1, r2.1, r3.1))))))) =
      some (0xA1B2C3D4, 0xD4, 0xC3, 0xB2, 0xA1) :=
  ⟨by decide,
   c27_little_endian_within_page console stub straddleSystem 0 4 0x20FF0
     ⟨Region.FCRAM, 0x5000⟩ (by decide) (by decide) (by decide),
   by decide⟩

/-! ## SurfaceParams::UpdateParams -/

theorem sub32_one_modEq (h : Nat) (hh : 1 ≤ h) :
    sub32 h 1 = (h - 1) % 4294967296 := by
  unfold sub32
  have : h + 4294967296 - 1 % 4294967296 = (h - 1) + 4294967296 := by omega
  rw [this, Nat.add_mod_right]

theorem u32_mul_u32 (a b : Nat) : u32 (a * (b % 4294967296)) = u32 (a * b) := by
  unfold u32
  rw [Nat.mul_mod, Nat.mod_mod, ← Nat.mul_mod]

theorem u32_u32_mul (a b : Nat) : u32 (u32 a * b) = u32 (a * b) := by
  unfold u32
  rw [Nat.mul_mod, Nat.mod_mod, ← Nat.mul_mod]

theorem u32_add_u32 (a b : Nat) : u32 (u32 a + u32 b) = u32 (a + b) := by
  unfold u32
  rw [← Nat.add_mod]

theorem u32_u32_add (a b : Nat) : u32 (u32 a + b) = u32 (a + b) := by
  unfold u32
  rw [Nat.mod_add_mod]

/-- The pixel count of a linear surface whose stride is its width. -/
theorem linear_pixels (w h : Nat) (hh : 1 ≤ h) :
    u32 (u32 (w * sub32 h 1) + w) = u32 (w * h) := by
  rw [sub32_one_modEq h hh, u32_mul_u32, u32_u32_add]
  congr 1
  obtain ⟨k, rfl⟩ : ∃ k, h = k + 1 := ⟨h - 1, by omega⟩
  simp [Nat.mul_succ]

/-- The pixel count of a tiled surface whose stride is its width and whose
height is a positive multiple of 8. -/
theorem tiled_pixels (w h : Nat) (hh : 0 < h) (h8 : 8 ∣ h) :
    u32 (u32 (u32 (w * 8) * sub32 (h / 8) 1) + u32 (w * 8)) = u32 (w * h) := by
  obtain ⟨k, rfl⟩ := h8
  have hk : 1 ≤ k := by omega
  have hd : 8 * k / 8 = k := by omega
  rw [hd, sub32_one_modEq k hk, u32_mul_u32, u32_u32_mul, u32_add_u32]
  congr 1
  obtain ⟨j, rfl⟩ : ∃ j, k = j + 1 := ⟨k - 1, by omega⟩
  simp only [Nat.add_sub_cancel]
  ring

/-- C28, where the claim fails: the size is computed in 32 bits, bits first.
A linear RGBA8 surface of 65536 x 65536 pixels, stride equal to width, gets
size 0 (its byte count 2^34 does not fit the member), and a linear RGBA8
surface of 16384 x 8192 pixels gets size 0 as well although its byte count
2^29 fits: the product of pixels and bits per pixel is 2^32. -/
theorem c28_size_wraps_in_32_bits :
    ((surfaceOf 4096 65536 65536 65536 false 0).UpdateParams sampleFormats).size = 0 ∧
    65536 * 65536 * sampleFormats.GetFormatBpp 0 / 8 = 17179869184 ∧
    ((surfaceOf 4096 16384 8192 16384 false 0).UpdateParams sampleFormats).size = 0 ∧
    ((surfaceOf 4096 16384 8192 16384 false 0).UpdateParams sampleFormats).end_ = 4096 ∧
    16384 * 8192 * sampleFormats.GetFormatBpp 0 / 8 = 536870912 := by
  decide

/-- C28: after UpdateParams, end = addr + size modulo 2^32 and GetInterval is
the right-open interval from addr to end; a stride of 0 is replaced by the
width and any other stride is kept; and when the stride is the width, the size
is width * height * bits per pixel taken modulo 2^32 and divided by 8, for a
linear surface of height at least 1 and for a tiled surface whose height is a
positive multiple of 8, which is width * height * bits per pixel / 8 when that
product is below 2^32. -/
theorem c28_update_params (F : PixelFormats) (p : SurfaceParams) :
    (p.UpdateParams F).end_ = ((p.UpdateParams F).addr + (p.UpdateParams F).size) % 2 ^ 32 ∧
    (p.UpdateParams F).addr = p.addr ∧
    (p.UpdateParams F).GetInterval = ⟨(p.UpdateParams F).addr, (p.UpdateParams F).end_⟩ ∧
    (∀ a, (p.UpdateParams F).GetInterval.contains a ↔
      (p.UpdateParams F).addr ≤ a ∧ a < (p.UpdateParams F).end_) ∧
    (p.stride = 0 → (p.UpdateParams F).stride = p.width) ∧
    (p.stride ≠ 0 → (p.UpdateParams F).stride = p.stride) ∧
    (p.UpdateParams F).width = p.width ∧ (p.UpdateParams F).height = p.height ∧
    ((p.UpdateParams F).stride = p.width →
      (p.is_tiled = false ∧ 1 ≤ p.height) ∨ (p.is_tiled = true ∧ 0 < p.height ∧ 8 ∣ p.height) →
      (p.UpdateParams F).size =
        (p.width * p.height * F.GetFormatBpp p.pixel_format) % 2 ^ 32 / 8 ∧
      (p.width * p.height * F.GetFormatBpp p.pixel_format < 2 ^ 32 →
        (p.UpdateParams F).size = p.width * p.height * F.GetFormatBpp p.pixel_format / 8)) := by
  have hsize : ((p.UpdateParams F).stride = p.width →
      (p.is_tiled = false ∧ 1 ≤ p.height) ∨ (p.is_tiled = true ∧ 0 < p.height ∧ 8 ∣ p.height) →
      (p.UpdateParams F).size =
        (p.width * p.height * F.GetFormatBpp p.pixel_format) % 2 ^ 32 / 8) := by
    intro hs hshape
    have hstride : (if p.stride = 0 then p.width else p.stride) = p.width := by
      by_cases h0 : p.stride = 0
      · simp [h0]
      · simpa [SurfaceParams.UpdateParams, h0] using hs
    by_cases h0 : p.stride = 0
    · rcases hshape with ⟨ht, hh⟩ | ⟨ht, hh, h8⟩
      · simp only [SurfaceParams.UpdateParams, h0, ht, if_true, SurfaceParams.BytesInPixels,
          SurfaceParams.GetFormatBpp]
        simp only [Bool.false_eq_true, not_false_eq_true, if_true]
        rw [linear_pixels _ _ hh, u32_u32_mul]
        rfl
      · simp only [SurfaceParams.UpdateParams, h0, ht, if_true, SurfaceParams.BytesInPixels,
          SurfaceParams.GetFormatBpp]
        simp only [not_true_eq_false, if_false]
        rw [tiled_pixels _ _ hh h8, u32_u32_mul]
        rfl
    · have hsw : p.stride = p.width := by simpa [h0] using hstride
      rcases hshape with ⟨ht, hh⟩ | ⟨ht, hh, h8⟩
      · simp only [SurfaceParams.UpdateParams, h0, ht, if_false, SurfaceParams.BytesInPixels,
          SurfaceParams.GetFormatBpp]
        simp only [Bool.false_eq_true, not_false_eq_true, if_true]
        rw [hsw, linear_pixels _ _ hh, u32_u32_mul]
        rfl
      · simp only [SurfaceParams.UpdateParams, h0, ht, if_false, SurfaceParams.BytesInPixels,
          SurfaceParams.GetFormatBpp]
        simp only [not_true_eq_false, if_false]
        rw [hsw, tiled_pixels _ _ hh h8, u32_u32_mul]
        rfl
  refine ⟨rfl, ?_, rfl, fun a => Iff.rfl, ?_, ?_, ?_, ?_, fun hs hshape => ⟨hsize hs hshape, ?_⟩⟩
  · by_cases h0 : p.stride = 0 <;> simp [SurfaceParams.UpdateParams, h0]
  · intro h0; simp [SurfaceParams.UpdateParams, h0]
  · intro h0; simp [SurfaceParams.UpdateParams, h0]
  · by_cases h0 : p.stride = 0 <;> simp [SurfaceParams.UpdateParams, h0]
  · by_cases h0 : p.stride = 0 <;> simp [SurfaceParams.UpdateParams, h0]
  · intro hlt
    rw [hsize hs hshape, Nat.mod_eq_of_lt hlt]

/-- C28 at a linear RGBA8 surface of 256 x 256 pixels at 0x1000 whose stride
is left 0, and at a tiled one of 64 x 64 pixels: the sizes are 0x40000 and
0x4000. -/
theorem c28_update_params_witness :
    ((surfaceOf 4096 256 256 0 false 0).UpdateParams sampleFormats).stride = 256 ∧
    ((surfaceOf 4096 256 256 0 false 0).UpdateParams sampleFormats).size = 262144 ∧
    ((surfaceOf 4096 256 256 0 false 0).UpdateParams sampleFormats).end_ = 266240 ∧
    ((surfaceOf 4096 64 64 64 true 0).UpdateParams sampleFormats).size = 16384 :=
  have h1 := c28_update_params sampleFormats (surfaceOf 4096 256 256 0 false 0)
  have h2 := c28_update_params sampleFormats (surfaceOf 4096 64 64 64 true 0)
  ⟨h1.2.2.2.2.1 rfl,
   (h1.2.2.2.2.2.2.2.2 (by decide) (Or.inl ⟨rfl, by decide⟩)).2 (by decide),
   by rw [h1.1]; decide,
   (h2.2.2.2.2.2.2.2.2 (by decide) (Or.inr ⟨rfl, by decide, by decide⟩)).2 (by decide)⟩

/-! ## C30: the cache-coherency invariant -/

theorem at_ne_none_iff (K : MemoryMap) (a : Nat) :
    RasterizerCacheMarker.At K a ≠ none ↔ InRasterizerRange K a := by
  unfold RasterizerCacheMarker.At InRasterizerRange
  split_ifs with h1 h2 h3
  · simp only [ne_eq, reduceCtorEq, not_false_eq_true, true_iff]; omega
  · simp only [ne_eq, reduceCtorEq, not_false_eq_true, true_iff]; omega
  · simp only [ne_eq, reduceCtorEq, not_false_eq_true, true_iff]; omega
  · simp only [ne_eq, not_true_eq_false, false_iff]; omega

/-- Two pages with the same slot are the same page. -/
theorem at_page_injective (K : MemoryMap) (hK : K.PageAligned) (pg pg' : Nat) (slot : MarkerSlot)
    (h : RasterizerCacheMarker.At K (pg * CITRA_PAGE_SIZE) = some slot)
    (h' : RasterizerCacheMarker.At K (pg' * CITRA_PAGE_SIZE) = some slot) : pg = pg' := by
  obtain ⟨a1, a2, a3, a4, a5, a6⟩ := hK
  unfold RasterizerCacheMarker.At CITRA_PAGE_SIZE at h h'
  split_ifs at h h' <;> cases h <;> simp at h' <;> omega

/-- The boolean of a page after Mark at an address the tracker covers. -/
theorem isCached_mark_page (K : MemoryMap) (hK : K.PageAligned) (m : RasterizerCacheMarker)
    (v : Nat) (c : Bool) (pg : Nat) (hat : RasterizerCacheMarker.At K v ≠ none) :
    RasterizerCacheMarker.IsCached K (RasterizerCacheMarker.Mark K m v c) (pg * CITRA_PAGE_SIZE) =
      if pg = v >>> CITRA_PAGE_BITS then c
      else RasterizerCacheMarker.IsCached K m (pg * CITRA_PAGE_SIZE) := by
  rw [isCached_eq_get, isCached_eq_get]
  by_cases hpg : pg = v >>> CITRA_PAGE_BITS
  · rw [if_pos hpg, hpg, at_of_page K hK v]
    cases hs : RasterizerCacheMarker.At K v with
    | none => exact absurd hs hat
    | some slot => simp [get_mark, hs]
  · rw [if_neg hpg]
    cases hs : RasterizerCacheMarker.At K (pg * CITRA_PAGE_SIZE) with
    | none => rfl
    | some slot =>
      simp only [get_mark]
      rw [if_neg]
      intro hv
      rw [← at_of_page K hK v] at hv
      exact hpg (at_page_injective K hK _ _ slot hs hv)

theorem coherent_markTables {ε : Type} (K : MemoryMap) (hK : K.PageAligned) (cached : Bool)
    (v : Nat) (hv : v < 4294967296) (hat : RasterizerCacheMarker.At K v ≠ none)
    (s s' : MemorySystem ε)
    (h : markTables K cached v s.page_table_list
      { s with cache_marker := RasterizerCacheMarker.Mark K s.cache_marker v cached } =
        Except.ok s')
    (hc : s.Coherent K) : s'.Coherent K := by
  obtain ⟨hrel, hlist, hmarker⟩ := markTables_rel K cached v hv _ _ _ h
  intro t ht pg hpg
  rw [hlist] at ht
  rw [hmarker]
  simp only
  rw [isCached_mark_page K hK _ v cached pg hat]
  have hold := hc t ht pg hpg
  by_cases hidx : pg = v >>> CITRA_PAGE_BITS
  · rw [if_pos hidx]
    have htr := (hrel t pg).1 ⟨ht, hidx⟩
    rcases htr with ⟨h1, h2⟩ | ⟨hcd, _, h2⟩ | ⟨hcd, _, p, _, h2⟩
    · have ha : (s'.page_tables t).attributes pg = PageType.Unmapped := by
        have := congrArg Prod.fst h2
        simp only [PageTable.entry] at this h1
        rw [this]; exact h1
      rw [ha]
      exact ⟨(fun hx => by cases hx), fun hx => by cases hx⟩
    · have ha : (s'.page_tables t).attributes pg = PageType.RasterizerCachedMemory :=
        congrArg Prod.fst h2
      rw [ha, hcd]
      exact ⟨(fun hx => by cases hx), fun _ => rfl⟩
    · have ha : (s'.page_tables t).attributes pg = PageType.Memory := congrArg Prod.fst h2
      rw [ha, hcd]
      exact ⟨fun _ => rfl, fun hx => by cases hx⟩
  · rw [if_neg hidx]
    have hsame := (hrel t pg).2 (fun hV => hidx hV.2)
    have ha : (s'.page_tables t).attributes pg = (s.page_tables t).attributes pg :=
      congrArg Prod.fst hsame
    rw [ha]
    exact hold

theorem coherent_markAliases {ε : Type} (K : MemoryMap) (hK : K.PageAligned) (cached : Bool) :
    ∀ (vs : List Nat) (s s' : MemorySystem ε),
      (∀ v ∈ vs, v < 4294967296 ∧ RasterizerCacheMarker.At K v ≠ none) →
      markAliases K cached vs s = Except.ok s' → s.Coherent K → s'.Coherent K := by
  intro vs
  induction vs with
  | nil =>
    intro s s' _ h hc
    simp only [markAliases] at h
    cases h
    exact hc
  | cons v vs ih =>
    intro s s' hvs h hc
    simp only [markAliases] at h
    split at h
    · rename_i s2 hs2
      exact ih s2 s' (fun w hw => hvs w (List.mem_cons_of_mem _ hw)) h
        (coherent_markTables K hK cached v (hvs v (List.mem_cons_self _ _)).1
          (hvs v (List.mem_cons_self _ _)).2 s s2 hs2 hc)
    · cases h

theorem coherent_markRegion {ε : Type} (K : MemoryMap) (hK : K.AliasesInRanges)
    (start size : Nat) (cached : Bool) (s s' : MemorySystem ε)
    (h : RasterizerMarkRegionCached K start size cached s = Except.ok s')
    (hc : s.Coherent K) : s'.Coherent K := by
  unfold RasterizerMarkRegionCached at h
  by_cases hstart : start = 0
  · rw [if_pos hstart] at h
    cases h
    exact hc
  · rw [if_neg hstart, markPages_eq_markAliases] at h
    refine coherent_markAliases K hK.1 cached _ s s' ?_ h hc
    intro v hv
    have hlt := aliasList_lt K _ _ v hv
    refine ⟨hlt, ?_⟩
    obtain ⟨i, _, hi⟩ := (mem_aliasList K v _ _).1 hv
    have hr := alias_in_range K hK _ v hi
    rw [and_not_page_mask v hlt] at hr
    have := (at_ne_none_iff K _).2 hr
    have hp := at_of_page K hK.1 v
    simp only [CITRA_PAGE_BITS, CITRA_PAGE_SIZE, Nat.shiftRight_eq_div_pow] at hp
    simp only [Nat.reducePow] at hp
    rw [hp] at this
    exact this

theorem coherent_mapPages {ε : Type} (K : MemoryMap) (E : Collaborators ε)
    (t base size : Nat) (memory : MemoryRef) (type : PageType)
    (htype : type ≠ PageType.RasterizerCachedMemory) (s s' : MemorySystem ε)
    (h : MapPages K E t base size memory type s = Except.ok s')
    (hc : s.Coherent K) : s'.Coherent K := by
  obtain ⟨_, hmarker, _, hent⟩ := mapPages_entries K E t base size memory type s s' h
  obtain ⟨_, hlist, hother, _⟩ := mapPages_frame K E t base size memory type s s' h
  intro t' ht' pg hpg
  rw [hlist] at ht'
  rw [hmarker]
  by_cases htt : t' = t
  · subst htt
    by_cases hin : base ≤ pg ∧ pg < base + size
    · have he := (hent pg).1 hin
      have ha : (s'.page_tables t').attributes pg =
          (mappedEntry K s.cache_marker type pg (pageRef K memory (pg - base))).1 :=
        congrArg Prod.fst he
      rw [ha]
      unfold mappedEntry
      split_ifs with hcond
      · exact ⟨(fun hx => by cases hx), fun _ => hcond.2⟩
      · refine ⟨fun hx => ?_, fun hx => absurd hx htype⟩
        simp only at hx
        cases hb : RasterizerCacheMarker.IsCached K s.cache_marker (pg * CITRA_PAGE_SIZE)
        · rfl
        · exact absurd ⟨hx, hb⟩ hcond
    · have he := (hent pg).2 hin
      have ha : (s'.page_tables t').attributes pg = (s.page_tables t').attributes pg :=
        congrArg Prod.fst he
      rw [ha]
      exact hc t' ht' pg hpg
  · rw [hother t' htt]
    exact hc t' ht' pg hpg

theorem coherent_mapIoRegion {ε : Type} (K : MemoryMap) (E : Collaborators ε)
    (t base size handler : Nat) (s s' : MemorySystem ε)
    (h : MapIoRegion K E t base size handler s = Except.ok s')
    (hc : s.Coherent K) : s'.Coherent K := by
  unfold MapIoRegion at h
  split at h
  · cases h
  · split at h
    · cases h
    · split at h
      · rename_i s1 hs1
        cases h
        have h1 := coherent_mapPages K E t _ _ none PageType.Special (by decide) s s1 hs1 hc
        intro t' ht' pg hpg
        have := h1 t' ht' pg hpg
        by_cases htt : t' = t
        · subst htt
          simpa [MemorySystem.setTable, setAt] using this
        · simpa [MemorySystem.setTable, setAt, htt] using this
      · cases h

theorem coherent_operation {ε : Type} (K : MemoryMap) (E : Collaborators ε)
    (hK : K.AliasesInRanges) (op : Operation) (s s' : MemorySystem ε)
    (h : op.apply K E s = Except.ok s') (hc : s.Coherent K) : s'.Coherent K := by
  cases op with
  | MapMemoryRegion t base size target =>
    simp only [Operation.apply, MapMemoryRegion] at h
    split at h
    · cases h
    · split at h
      · cases h
      · exact coherent_mapPages K E t _ _ target PageType.Memory (by decide) s s' h hc
  | MapIoRegion t base size handler =>
    exact coherent_mapIoRegion K E t base size handler s s' h hc
  | UnmapRegion t base size =>
    simp only [Operation.apply, UnmapRegion] at h
    split at h
    · cases h
    · split at h
      · cases h
      · exact coherent_mapPages K E t _ _ none PageType.Unmapped (by decide) s s' h hc
  | RasterizerMarkRegionCached start size cached =>
    exact coherent_markRegion K hK start size cached s s' h hc

theorem coherent_register {ε : Type} (K : MemoryMap) (t : Nat) (s : MemorySystem ε)
    (hu : (s.page_tables t).AllUnmapped) (hc : s.Coherent K) :
    (RegisterPageTable t s).Coherent K := by
  intro t' ht' pg hpg
  simp only [RegisterPageTable, List.mem_append, List.mem_singleton] at ht'
  rcases ht' with ht' | rfl
  · exact hc t' ht' pg hpg
  · have := hu pg hpg
    simp only [RegisterPageTable]
    rw [this]
    exact ⟨(fun hx => by cases hx), fun hx => by cases hx⟩

theorem coherent_runSteps {ε : Type} (K : MemoryMap) (E : Collaborators ε)
    (hK : K.AliasesInRanges) :
    ∀ (steps : List Step) (s s' : MemorySystem ε), RegistersUnmapped K E steps s →
      runSteps K E steps s = Except.ok s' → s.Coherent K → s'.Coherent K := by
  intro steps
  induction steps with
  | nil =>
    intro s s' _ h hc
    simp only [runSteps] at h
    cases h
    exact hc
  | cons st rest ih =>
    intro s s' hreg h hc
    cases st with
    | Register t =>
      simp only [runSteps, Step.apply] at h
      simp only [RegistersUnmapped] at hreg
      exact ih _ s' hreg.2 h (coherent_register K t s hreg.1 hc)
    | Apply op =>
      simp only [runSteps, Step.apply] at h
      simp only [RegistersUnmapped] at hreg
      split at h
      · rename_i s1 hs1
        rw [hs1] at hreg
        exact ih s1 s' hreg h (coherent_operation K E hK op s s1 hs1 hc)
      · cases h
theorem registersUnmapped_register {ε : Type} (K : MemoryMap) (E : Collaborators ε) (t : Nat)
    (rest : List Step) (s : MemorySystem ε) (hu : (s.page_tables t).AllUnmapped)
    (hr : RegistersUnmapped K E rest (RegisterPageTable t s)) :
    RegistersUnmapped K E (Step.Register t :: rest) s :=
  ⟨hu, hr⟩

theorem registersUnmapped_apply {ε : Type} (K : MemoryMap) (E : Collaborators ε)
    (op : Operation) (rest : List Step) (s s1 : MemorySystem ε)
    (h : op.apply K E s = Except.ok s1) (hr : RegistersUnmapped K E rest s1) :
    RegistersUnmapped K E (Step.Apply op :: rest) s := by
  simp only [RegistersUnmapped]
  rw [h]
  exact hr

/-- The registrations of `coherentRun` register tables that are all
Unmapped. -/
theorem coherentRun_registersUnmapped :
    RegistersUnmapped console stub coherentRun emptySystem :=
  registersUnmapped_register _ _ _ _ _ (fun _ _ => rfl)
    (registersUnmapped_apply _ _ _ _ _ _ (eq_ok_of_returns _ emptySystem (by decide))
      (registersUnmapped_apply _ _ _ _ _ _ (eq_ok_of_returns _ emptySystem (by decide))
        (registersUnmapped_register _ _ _ _ _ (fun _ _ => rfl)
          (registersUnmapped_apply _ _ _ _ _ _ (eq_ok_of_returns _ emptySystem (by decide))
            (registersUnmapped_apply _ _ _ _ _ _ (eq_ok_of_returns _ emptySystem (by decide))
              trivial)))))

/-- C30, the cache-coherency invariant. A run starts in a state whose
registered page tables are all Unmapped and consists of registrations of page
tables that are all Unmapped when they are registered and of calls of
MapMemoryRegion, MapIoRegion, UnmapRegion and RasterizerMarkRegionCached, none
of which ends with a fault. Then in every registered page table no page is
Memory while the tracker boolean of the address of the page is true, no page
is RasterizerCachedMemory while that boolean is false, and every
RasterizerCachedMemory page lies in one of the three virtual ranges (linear
heap, new linear heap, VRAM). The memory map is one whose aliases lie in its
virtual ranges. -/
theorem c30_cache_coherency {ε : Type} (K : MemoryMap) (E : Collaborators ε)
    (hK : K.AliasesInRanges) (steps : List Step) (s0 s : MemorySystem ε)
    (h0 : ∀ t, t ∈ s0.page_table_list → (s0.page_tables t).AllUnmapped)
    (hreg : RegistersUnmapped K E steps s0)
    (hrun : runSteps K E steps s0 = Except.ok s) :
    ∀ t, t ∈ s.page_table_list → ∀ pg, pg < PAGE_TABLE_NUM_ENTRIES →
      ¬ ((s.page_tables t).attributes pg = PageType.Memory ∧
          RasterizerCacheMarker.IsCached K s.cache_marker (pg * CITRA_PAGE_SIZE) = true) ∧
      ¬ ((s.page_tables t).attributes pg = PageType.RasterizerCachedMemory ∧
          RasterizerCacheMarker.IsCached K s.cache_marker (pg * CITRA_PAGE_SIZE) = false) ∧
      ((s.page_tables t).attributes pg = PageType.RasterizerCachedMemory →
        InRasterizerRange K (pg * CITRA_PAGE_SIZE)) := by
  have hc0 : s0.Coherent K := by
    intro t ht pg hpg
    rw [h0 t ht pg hpg]
    exact ⟨(fun hx => by cases hx), fun hx => by cases hx⟩
  have hc := coherent_runSteps K E hK steps s0 s hreg hrun hc0
  intro t ht pg hpg
  obtain ⟨h1, h2⟩ := hc t ht pg hpg
  refine ⟨fun hx => ?_, fun hx => ?_, fun hx => ?_⟩
  · rw [h1 hx.1] at hx
    cases hx.2
  · rw [h2 hx.1] at hx
    cases hx.2
  · have hb := h2 hx
    rw [← at_ne_none_iff]
    intro hn
    rw [isCached_eq_get, hn] at hb
    cases hb

/-- C30 on `coherentRun`: table 0 is registered and maps two pages of the
linear heap, the first is marked cached, then table 1 is registered and maps
the same physical page through the new linear heap. The pages 0x14000 of
table 0 and 0x30000 of table 1 are RasterizerCachedMemory, the page 0x14001 of
table 0 is Memory. -/
theorem c30_cache_coherency_witness :
    console.AliasesInRanges ∧
    runSteps console stub coherentRun emptySystem = Except.ok coherentSystem ∧
    coherentSystem.page_table_list = [0, 1] ∧
    (coherentSystem.page_tables 0).attributes 0x14000 = PageType.RasterizerCachedMemory ∧
    (coherentSystem.page_tables 0).attributes 0x14001 = PageType.Memory ∧
    (coherentSystem.page_tables 1).attributes 0x30000 = PageType.RasterizerCachedMemory ∧
    ∀ t, t ∈ coherentSystem.page_table_list → ∀ pg, pg < PAGE_TABLE_NUM_ENTRIES →
      ¬ ((coherentSystem.page_tables t).attributes pg = PageType.Memory ∧
          RasterizerCacheMarker.IsCached console coherentSystem.cache_marker
            (pg * CITRA_PAGE_SIZE) = true) ∧
      ¬ ((coherentSystem.page_tables t).attributes pg = PageType.RasterizerCachedMemory ∧
          RasterizerCacheMarker.IsCached console coherentSystem.cache_marker
            (pg * CITRA_PAGE_SIZE) = false) ∧
      ((coherentSystem.page_tables t).attributes pg = PageType.RasterizerCachedMemory →
        InRasterizerRange console (pg * CITRA_PAGE_SIZE)) :=
  ⟨by decide, eq_ok_of_returns _ emptySystem (by decide), by decide, by decide, by decide,
   by decide,
   c30_cache_coherency console stub (by decide) coherentRun emptySystem coherentSystem
    (fun _ ht => absurd ht (List.not_mem_nil _)) coherentRun_registersUnmapped
    (eq_ok_of_returns _ emptySystem (by decide))⟩

/-! ## C29: the surface matching predicates -/

/-- PixelsInBytes of the bytes of `p` pixels is `p`, when the bits of the
pixels make whole bytes and fit 32 bits. -/
theorem pixels_of_bytes (bpp p : Nat) (hb : 0 < bpp) (h8 : 8 ∣ bpp ∨ 8 ∣ p)
    (hfit : p * bpp < 4294967296) : u32 (p * bpp / 8 * 8) / bpp = p := by
  have hmul : p * bpp / 8 * 8 = p * bpp := by
    apply Nat.div_mul_cancel
    rcases h8 with h | h
    · exact Dvd.dvd.mul_left h p
    · exact Dvd.dvd.mul_right h bpp
  rw [hmul, u32_of_lt _ hfit]
  exact Nat.mul_div_cancel p hb

theorem linear_position (stride x0 y0 : Nat) (hx : x0 < stride) :
    (y0 * stride + x0) % stride = x0 ∧ (y0 * stride + x0) / stride = y0 := by
  constructor
  · rw [Nat.add_comm, Nat.add_mul_mod_self_right, Nat.mod_eq_of_lt hx]
  · rw [Nat.add_comm, Nat.add_mul_div_right _ _ (by omega), Nat.div_eq_of_lt hx, Nat.zero_add]

theorem tiled_position (stride x0 y0 : Nat) (hx : x0 < stride) (h8 : 8 ∣ y0) :
    (y0 / 8 * (stride * 8) + x0 * 8) % (stride * 8) / 8 = x0 ∧
    (y0 / 8 * (stride * 8) + x0 * 8) / (stride * 8) * 8 = y0 := by
  have hlt : x0 * 8 < stride * 8 := by omega
  obtain ⟨h1, h2⟩ := linear_position (stride * 8) (x0 * 8) (y0 / 8) hlt
  rw [h1, h2]
  constructor
  · omega
  · exact Nat.div_mul_cancel h8

/-- GetPhysicalRef after the search: the first of the four areas that holds
the address, the end included, decides. -/
theorem getPhysicalRef_find (K : MemoryMap) (hK : K.PhysicalApart) (p : Nat) :
    GetPhysicalRef K p =
      if K.VRAM_PADDR ≤ p ∧ p ≤ K.VRAM_PADDR + K.VRAM_SIZE then
        (if p - K.VRAM_PADDR ≥ K.VRAM_SIZE then Except.ok none
          else Except.ok (some ⟨Region.VRAM, p - K.VRAM_PADDR⟩))
      else if K.DSP_RAM_PADDR ≤ p ∧ p ≤ K.DSP_RAM_PADDR + K.DSP_RAM_SIZE then
        (if p - K.DSP_RAM_PADDR ≥ K.DSP_RAM_SIZE then Except.ok none
          else Except.ok (some ⟨Region.DSP, p - K.DSP_RAM_PADDR⟩))
      else if K.FCRAM_PADDR ≤ p ∧ p ≤ K.FCRAM_PADDR + K.FCRAM_N3DS_SIZE then
        (if p - K.FCRAM_PADDR ≥ K.FCRAM_N3DS_SIZE then Except.ok none
          else Except.ok (some ⟨Region.FCRAM, p - K.FCRAM_PADDR⟩))
      else if K.N3DS_EXTRA_RAM_PADDR ≤ p ∧
          p ≤ K.N3DS_EXTRA_RAM_PADDR + K.N3DS_EXTRA_RAM_SIZE then
        (if p - K.N3DS_EXTRA_RAM_PADDR ≥ K.N3DS_EXTRA_RAM_SIZE then Except.ok none
          else Except.ok (some ⟨Region.N3DS, p - K.N3DS_EXTRA_RAM_PADDR⟩))
      else Except.ok none := by
  obtain ⟨e1, e2, e3, e4, a1, a2, a3, a4, a5, a6⟩ := hK
  unfold GetPhysicalRef memory_areas
  simp only [List.find?, u32_of_lt _ e1, u32_of_lt _ e2, u32_of_lt _ e3, u32_of_lt _ e4, ge_iff_le]
  by_cases c1 : K.VRAM_PADDR ≤ p ∧ p ≤ K.VRAM_PADDR + K.VRAM_SIZE
  · rw [if_pos c1]
    simp only [c1, and_self, decide_True, GetPhysicalRef.target_mem, if_true, Impl.GetSize]
    rw [sub32_of_le _ _ c1.1 (by omega)]
  · rw [if_neg c1]
    simp only [c1, decide_False]
    by_cases c2 : K.DSP_RAM_PADDR ≤ p ∧ p ≤ K.DSP_RAM_PADDR + K.DSP_RAM_SIZE
    · rw [if_pos c2]
      have hne : ¬ K.DSP_RAM_PADDR = K.VRAM_PADDR := by omega
      simp only [c2, and_self, decide_True, GetPhysicalRef.target_mem, hne, if_false, if_true,
        Impl.GetSize]
      rw [sub32_of_le _ _ c2.1 (by omega)]
    · rw [if_neg c2]
      simp only [c2, decide_False]
      by_cases c3 : K.FCRAM_PADDR ≤ p ∧ p ≤ K.FCRAM_PADDR + K.FCRAM_N3DS_SIZE
      · rw [if_pos c3]
        have hne : ¬ K.FCRAM_PADDR = K.VRAM_PADDR := by omega
        have hne2 : ¬ K.FCRAM_PADDR = K.DSP_RAM_PADDR := by omega
        simp only [c3, and_self, decide_True, GetPhysicalRef.target_mem, hne, hne2, if_false,
          if_true, Impl.GetSize]
        rw [sub32_of_le _ _ c3.1 (by omega)]
      · rw [if_neg c3]
        simp only [c3, decide_False]
        by_cases c4 : K.N3DS_EXTRA_RAM_PADDR ≤ p ∧
            p ≤ K.N3DS_EXTRA_RAM_PADDR + K.N3DS_EXTRA_RAM_SIZE
        · rw [if_pos c4]
          have hne : ¬ K.N3DS_EXTRA_RAM_PADDR = K.VRAM_PADDR := by omega
          have hne2 : ¬ K.N3DS_EXTRA_RAM_PADDR = K.DSP_RAM_PADDR := by omega
          have hne3 : ¬ K.N3DS_EXTRA_RAM_PADDR = K.FCRAM_PADDR := by omega
          simp only [c4, and_self, decide_True, GetPhysicalRef.target_mem, hne, hne2, hne3,
            if_false, if_true, Impl.GetSize]
          rw [sub32_of_le _ _ c4.1 (by omega)]
        · rw [if_neg c4]
          simp only [c4, decide_False]

/-- GetPhysicalRef in terms of the four half-open regions. -/
theorem getPhysicalRef_cases (K : MemoryMap) (hK : K.PhysicalApart) (p : Nat) :
    GetPhysicalRef K p =
      if K.VRAM_PADDR ≤ p ∧ p < K.VRAM_PADDR + K.VRAM_SIZE then
        Except.ok (some ⟨Region.VRAM, p - K.VRAM_PADDR⟩)
      else if K.DSP_RAM_PADDR ≤ p ∧ p < K.DSP_RAM_PADDR + K.DSP_RAM_SIZE then
        Except.ok (some ⟨Region.DSP, p - K.DSP_RAM_PADDR⟩)
      else if K.FCRAM_PADDR ≤ p ∧ p < K.FCRAM_PADDR + K.FCRAM_N3DS_SIZE then
        Except.ok (some ⟨Region.FCRAM, p - K.FCRAM_PADDR⟩)
      else if K.N3DS_EXTRA_RAM_PADDR ≤ p ∧ p < K.N3DS_EXTRA_RAM_PADDR + K.N3DS_EXTRA_RAM_SIZE then
        Except.ok (some ⟨Region.N3DS, p - K.N3DS_EXTRA_RAM_PADDR⟩)
      else Except.ok none := by
  rw [getPhysicalRef_find K hK p]
  obtain ⟨e1, e2, e3, e4, a1, a2, a3, a4, a5, a6⟩ := hK
  split_ifs <;> first | rfl | omega

/-- C34: with the four physical regions apart from each other, an address in
the half-open interval [base, base + size) of one of them has the reference
(arena of the region, address - base) and is a valid physical address; an
address in none of the four intervals has the null reference and is not
valid; in particular an address equal to the end of a region, which the
inclusive check of the search accepts, has the null reference. -/
theorem c34_physical_regions (K : MemoryMap) (hK : K.PhysicalApart) (p : Nat) :
    (∀ r base size, (r, base, size) ∈ K.physicalRegions → base ≤ p → p < base + size →
      GetPhysicalRef K p = Except.ok (some ⟨r, p - base⟩) ∧
      IsValidPhysicalAddress K p = Except.ok true) ∧
    ((∀ r base size, (r, base, size) ∈ K.physicalRegions → ¬ (base ≤ p ∧ p < base + size)) →
      GetPhysicalRef K p = Except.ok none ∧ IsValidPhysicalAddress K p = Except.ok false) ∧
    (∀ r base size, (r, base, size) ∈ K.physicalRegions → p = base + size →
      ((memory_areas K).find?
        (fun area => decide (p ≥ area.1 ∧ p ≤ u32 (area.1 + area.2)))).isSome = true ∧
      GetPhysicalRef K p = Except.ok none ∧ IsValidPhysicalAddress K p = Except.ok false) := by
  have hcases := getPhysicalRef_cases K hK p
  obtain ⟨e1, e2, e3, e4, a1, a2, a3, a4, a5, a6⟩ := hK
  have hvalid : ∀ m, GetPhysicalRef K p = Except.ok m →
      IsValidPhysicalAddress K p = Except.ok m.isSome := by
    intro m hm
    simp only [IsValidPhysicalAddress, hm]
  refine ⟨?_, ?_, ?_⟩
  · intro r base size hmem hb hlt
    have hg : GetPhysicalRef K p = Except.ok (some ⟨r, p - base⟩) := by
      rw [hcases]
      simp only [MemoryMap.physicalRegions, List.mem_cons, Prod.mk.injEq, List.mem_singleton,
        List.not_mem_nil, or_false] at hmem
      rcases hmem with ⟨rfl, rfl, rfl⟩ | ⟨rfl, rfl, rfl⟩ | ⟨rfl, rfl, rfl⟩ | ⟨rfl, rfl, rfl⟩
      · rw [if_pos ⟨hb, hlt⟩]
      · rw [if_neg (by omega), if_pos ⟨hb, hlt⟩]
      · rw [if_neg (by omega), if_neg (by omega), if_pos ⟨hb, hlt⟩]
      · rw [if_neg (by omega), if_neg (by omega), if_neg (by omega), if_pos ⟨hb, hlt⟩]
    exact ⟨hg, hvalid _ hg⟩
  · intro hout
    have hg : GetPhysicalRef K p = Except.ok none := by
      rw [hcases]
      have h1 := hout Region.VRAM K.VRAM_PADDR K.VRAM_SIZE (by simp [MemoryMap.physicalRegions])
      have h2 := hout Region.DSP K.DSP_RAM_PADDR K.DSP_RAM_SIZE
        (by simp [MemoryMap.physicalRegions])
      have h3 := hout Region.FCRAM K.FCRAM_PADDR K.FCRAM_N3DS_SIZE
        (by simp [MemoryMap.physicalRegions])
      have h4 := hout Region.N3DS K.N3DS_EXTRA_RAM_PADDR K.N3DS_EXTRA_RAM_SIZE
        (by simp [MemoryMap.physicalRegions])
      rw [if_neg h1, if_neg h2, if_neg h3, if_neg h4]
    exact ⟨hg, hvalid _ hg⟩
  · intro r base size hmem hp
    have hg : GetPhysicalRef K p = Except.ok none := by
      rw [hcases]
      simp only [MemoryMap.physicalRegions, List.mem_cons, Prod.mk.injEq, List.mem_singleton,
        List.not_mem_nil, or_false] at hmem
      rcases hmem with ⟨rfl, rfl, rfl⟩ | ⟨rfl, rfl, rfl⟩ | ⟨rfl, rfl, rfl⟩ | ⟨rfl, rfl, rfl⟩ <;>
        rw [if_neg (by omega), if_neg (by omega), if_neg (by omega), if_neg (by omega)]
    refine ⟨?_, hg, hvalid _ hg⟩
    simp only [memory_areas, List.find?, u32_of_lt _ e1, u32_of_lt _ e2, u32_of_lt _ e3,
      u32_of_lt _ e4]
    simp only [MemoryMap.physicalRegions, List.mem_cons, Prod.mk.injEq, List.mem_singleton,
      List.not_mem_nil, or_false] at hmem
    rcases hmem with ⟨rfl, rfl, rfl⟩ | ⟨rfl, rfl, rfl⟩ | ⟨rfl, rfl, rfl⟩ | ⟨rfl, rfl, rfl⟩
    · have c : p ≥ K.VRAM_PADDR ∧ p ≤ K.VRAM_PADDR + K.VRAM_SIZE := by omega
      simp [c]
    · have c1 : ¬ (p ≥ K.VRAM_PADDR ∧ p ≤ K.VRAM_PADDR + K.VRAM_SIZE) := by omega
      have c : p ≥ K.DSP_RAM_PADDR ∧ p ≤ K.DSP_RAM_PADDR + K.DSP_RAM_SIZE := by omega
      simp [c1, c]
    · have c1 : ¬ (p ≥ K.VRAM_PADDR ∧ p ≤ K.VRAM_PADDR + K.VRAM_SIZE) := by omega
      have c2 : ¬ (p ≥ K.DSP_RAM_PADDR ∧ p ≤ K.DSP_RAM_PADDR + K.DSP_RAM_SIZE) := by omega
      have c : p ≥ K.FCRAM_PADDR ∧ p ≤ K.FCRAM_PADDR + K.FCRAM_N3DS_SIZE := by omega
      simp [c1, c2, c]
    · have c1 : ¬ (p ≥ K.VRAM_PADDR ∧ p ≤ K.VRAM_PADDR + K.VRAM_SIZE) := by omega
      have c2 : ¬ (p ≥ K.DSP_RAM_PADDR ∧ p ≤ K.DSP_RAM_PADDR + K.DSP_RAM_SIZE) := by omega
      have c3 : ¬ (p ≥ K.FCRAM_PADDR ∧ p ≤ K.FCRAM_PADDR + K.FCRAM_N3DS_SIZE) := by omega
      have c : p ≥ K.N3DS_EXTRA_RAM_PADDR ∧
          p ≤ K.N3DS_EXTRA_RAM_PADDR + K.N3DS_EXTRA_RAM_SIZE := by omega
      simp [c1, c2, c3, c]

/-- C34 on the console's memory map: 0x20001000 lies in main memory, at offset
0x1000; 0x30000000 is the end of main memory with the N3DS size and has the
null reference; 0x18600000 is the end of video memory. -/
theorem c34_physical_regions_witness :
    console.PhysicalApart ∧
    (GetPhysicalRef console 0x20001000 = Except.ok (some ⟨Region.FCRAM, 0x1000⟩) ∧
      IsValidPhysicalAddress console 0x20001000 = Except.ok true) ∧
    (GetPhysicalRef console 0x30000000 = Except.ok none ∧
      IsValidPhysicalAddress console 0x30000000 = Except.ok false) ∧
    GetPhysicalRef console 0x18600000 = Except.ok none :=
  ⟨by decide,
   (c34_physical_regions console (by decide) 0x20001000).1 Region.FCRAM 0x20000000 0x10000000
     (by decide) (by decide) (by decide),
   ((c34_physical_regions console (by decide) 0x30000000).2.2 Region.FCRAM 0x20000000 0x10000000
     (by decide) (by decide)).2,
   ((c34_physical_regions console (by decide) 0x18600000).2.2 Region.VRAM 0x18000000 0x00600000
     (by decide) (by decide)).2.1⟩

/-! ## C33: the aliases of a physical address resolve to its arena byte -/

/-- The arena pointer of an alias, from the physical region of the address. -/
theorem alias_pointer (K : MemoryMap) (hA : K.AliasesInRanges) (hV : K.VirtualDisjoint)
    (p v : Nat) (hv : v ∈ PhysicalToVirtualAddressForRasterizer K p) :
    (K.VRAM_PADDR ≤ p ∧ p < K.VRAM_PADDR_END ∧
      GetPointerForRasterizerCache K v = Except.ok ⟨Region.VRAM, p - K.VRAM_PADDR⟩) ∨
    (¬ (K.VRAM_PADDR ≤ p ∧ p < K.VRAM_PADDR_END) ∧
      K.FCRAM_PADDR ≤ p ∧ p < K.FCRAM_N3DS_PADDR_END ∧
      GetPointerForRasterizerCache K v = Except.ok ⟨Region.FCRAM, p - K.FCRAM_PADDR⟩) := by
  obtain ⟨_, b1, b2, b3, b4, b5, b6, b7, b8⟩ := hA
  obtain ⟨v1, v2, v3⟩ := hV
  unfold PhysicalToVirtualAddressForRasterizer at hv
  unfold GetPointerForRasterizerCache
  split at hv
  · rename_i h
    simp only [List.mem_singleton] at hv
    have hu : v = p - K.VRAM_PADDR + K.VRAM_VADDR := by
      rw [hv, u32_of_lt]; omega
    left
    refine ⟨h.1, h.2, ?_⟩
    clear v1 b3 b4 b5 b6 b7 b8 hv
    rw [if_neg (by omega), if_neg (by omega), if_pos (by omega)]
    congr 2
    omega
  · rename_i h1
    right
    split at hv
    · rename_i h
      simp only [List.mem_cons, List.mem_singleton, List.not_mem_nil, or_false] at hv
      refine ⟨h1, h.1, by omega, ?_⟩
      rcases hv with hv | hv
      · have hu : v = p - K.FCRAM_PADDR + K.LINEAR_HEAP_VADDR := by
          rw [hv, u32_of_lt]; omega
        clear v1 v2 v3 b1 b2 b5 b6 hv
        rw [if_pos (by omega)]
        congr 2
        omega
      · have hu : v = p - K.FCRAM_PADDR + K.NEW_LINEAR_HEAP_VADDR := by
          rw [hv, u32_of_lt]; omega
        clear v2 v3 b1 b2 b3 b4 hv
        rw [if_neg (by omega), if_pos (by omega)]
        congr 2
        omega
    · split at hv
      · rename_i h2 h
        simp only [List.mem_singleton] at hv
        have hu : v = p - K.FCRAM_PADDR + K.NEW_LINEAR_HEAP_VADDR := by
          rw [hv, u32_of_lt]; omega
        refine ⟨h1, by omega, h.2, ?_⟩
        clear v2 v3 b1 b2 b3 b4 hv
        rw [if_neg (by omega), if_pos (by omega)]
        congr 2
        omega
      · cases hv

/-- C33: on a memory map whose virtual ranges are disjoint and as long as the
physical regions aliased into them, and whose physical regions are apart, both
resolvers agree: every alias `v` that PhysicalToVirtualAddressForRasterizer
yields for `p` has an arena pointer, GetPointerForRasterizerCache does not
reach UNREACHABLE, and GetPhysicalRef of `p` is that pointer, the same arena
and the same offset. -/
theorem c33_alias_resolves_to_physical_ref (K : MemoryMap) (hA : K.AliasesInRanges)
    (hV : K.VirtualDisjoint) (hP : K.PhysicalApart) (hE : K.EndsAgree) (p v : Nat)
    (hv : v ∈ PhysicalToVirtualAddressForRasterizer K p) :
    ∃ r, GetPointerForRasterizerCache K v = Except.ok r ∧
      GetPhysicalRef K p = Except.ok (some r) := by
  rw [getPhysicalRef_cases K hP p]
  obtain ⟨e1, e2, e3, e4, a1, a2, a3, a4, a5, a6⟩ := hP
  obtain ⟨g1, g2⟩ := hE
  rcases alias_pointer K hA hV p v hv with ⟨h1, h2, hptr⟩ | ⟨h0, h1, h2, hptr⟩
  · refine ⟨_, hptr, ?_⟩
    rw [if_pos (by omega)]
  · refine ⟨_, hptr, ?_⟩
    clear a1 a3 a5 hptr
    rw [if_neg (by omega), if_neg (by omega), if_pos (by omega)]

/-- C33 on the console's memory map: the physical address 0x20001234 of main
memory has the aliases 0x14001234 and 0x30001234, which both resolve to offset
0x1234 of the main-memory arena, as GetPhysicalRef does. -/
theorem c33_alias_resolves_to_physical_ref_witness :
    PhysicalToVirtualAddressForRasterizer console 0x20001234 = [0x14001234, 0x30001234] ∧
    GetPhysicalRef console 0x20001234 = Except.ok (some ⟨Region.FCRAM, 0x1234⟩) ∧
    GetPointerForRasterizerCache console 0x14001234 = Except.ok ⟨Region.FCRAM, 0x1234⟩ ∧
    (∃ r, GetPointerForRasterizerCache console 0x30001234 = Except.ok r ∧
      GetPhysicalRef console 0x20001234 = Except.ok (some r)) :=
  ⟨by decide, by rfl, by rfl,
   c33_alias_resolves_to_physical_ref console (by decide) (by decide) (by decide) (by decide)
     0x20001234 0x30001234 (by decide)⟩

/-! ## C32: the calls RasterizerFlushVirtualRegion makes -/

/-- C32 at its failing input, on the console's memory map with a renderer
active: the range of 0xFC000000 bytes from 0x38000000, inside the new linear
heap, ends past the end of the address space, `end` is 0x34000000 in 32 bits,
and the rasterizer receives FlushRegion for 0xFC000000 bytes from 0x28000000,
not for the 0x08000000 bytes of the range that lie in the new linear heap,
which the range cut at the end of the heap gets. The range from 0x30000000 to
the end of the address space covers the whole new linear heap and makes no
call. -/
theorem c32_range_past_top_is_not_clipped :
    stub.renderer = true ∧
    u32 (0x38000000 + 0xFC000000) = 0x34000000 ∧
    (RasterizerFlushVirtualRegion console stub 0x38000000 0xFC000000 FlushMode.Flush
      freshSystem).calls = [Call.FlushRegion 0x28000000 0xFC000000] ∧
    (RasterizerFlushVirtualRegion console stub 0x38000000 0x08000000 FlushMode.Flush
      freshSystem).calls = [Call.FlushRegion 0x28000000 0x08000000] ∧
    u32 (0x30000000 + 0xD0000000) = 0 ∧
    (RasterizerFlushVirtualRegion console stub 0x30000000 0xD0000000 FlushMode.Flush
      freshSystem).calls = [] := by
  decide

theorem checkRegion_overlap {ε : Type} (E : Collaborators ε) (mode : FlushMode)
    (start size rs re ps : Nat) (s : MemorySystem ε) (h32 : start + size < 4294967296)
    (hsize : 0 < size) (hrs : rs < re) (hre : re ≤ 4294967296)
    (hps : ps + (re - rs) ≤ 4294967296) :
    CheckRegion E mode start (start + size) rs re ps s =
      overlapCall E mode start size rs re ps s := by
  unfold CheckRegion overlapCall
  by_cases h : start ≥ re ∨ start + size ≤ rs
  · rw [if_pos h, if_neg (by omega)]
  · rw [if_neg h, if_pos (by omega)]
    have e1 : sub32 (max start rs) rs = max start rs - rs := by
      simp only [sub32]; omega
    have e2 : sub32 (min (start + size) re) (max start rs) =
        min (start + size) re - max start rs := by
      simp only [sub32]; omega
    have e3 : u32 (ps + (max start rs - rs)) = ps + (max start rs - rs) :=
      u32_of_lt _ (by omega)
    simp only [e1, e2, e3]

/-- Away from the failing input of C32: with a renderer active, for a
non-empty range that ends below the end of the address space,
RasterizerFlushVirtualRegion goes through the linear heap, the new linear heap
and video memory and makes, for each that overlaps the range, one call of the
kind of the mode for the physical image of the overlap. For a range inside one
of the three ranges that is one call, with the size of the range and a
physical address that has `start` among its virtual aliases; for a range that
overlaps none of them it is no call. -/
theorem flush_virtual_region_calls {ε : Type} (K : MemoryMap) (E : Collaborators ε)
    (mode : FlushMode) (s : MemorySystem ε) (start size : Nat)
    (hrend : E.renderer = true) (hP : K.VirtualInPhysical) (hV : K.VirtualDisjoint)
    (hsize : 0 < size) (h32 : start + size < 4294967296) :
    RasterizerFlushVirtualRegion K E start size mode s =
      overlapCall E mode start size K.VRAM_VADDR K.VRAM_VADDR_END K.VRAM_PADDR
        (overlapCall E mode start size K.NEW_LINEAR_HEAP_VADDR K.NEW_LINEAR_HEAP_VADDR_END
          K.FCRAM_PADDR
          (overlapCall E mode start size K.LINEAR_HEAP_VADDR K.LINEAR_HEAP_VADDR_END
            K.FCRAM_PADDR s)) ∧
    (∀ rs re ps region, (rs, re, ps, region) ∈ K.rasterizerRanges → rs ≤ start →
      start + size ≤ re →
      RasterizerFlushVirtualRegion K E start size mode s =
        rasterizerCall E mode (ps + (start - rs)) size s ∧
      start ∈ PhysicalToVirtualAddressForRasterizer K (ps + (start - rs))) ∧
    ((∀ rs re ps region, (rs, re, ps, region) ∈ K.rasterizerRanges →
        start + size ≤ rs ∨ re ≤ start) →
      RasterizerFlushVirtualRegion K E start size mode s = s) := by
  obtain ⟨p1, p2, p3, p4, p5, p6, p7, p8, p9, p10, p11, p12, p13, p14, p15⟩ := hP
  obtain ⟨v1, v2, v3⟩ := hV
  have hmain : RasterizerFlushVirtualRegion K E start size mode s =
      overlapCall E mode start size K.VRAM_VADDR K.VRAM_VADDR_END K.VRAM_PADDR
        (overlapCall E mode start size K.NEW_LINEAR_HEAP_VADDR K.NEW_LINEAR_HEAP_VADDR_END
          K.FCRAM_PADDR
          (overlapCall E mode start size K.LINEAR_HEAP_VADDR K.LINEAR_HEAP_VADDR_END
            K.FCRAM_PADDR s)) := by
    unfold RasterizerFlushVirtualRegion
    rw [if_neg (by simp [hrend])]
    have hend : u32 (start + size) = start + size := u32_of_lt _ h32
    simp only [hend]
    rw [checkRegion_overlap E mode start size _ _ _ s h32 hsize p4 p5 (by omega),
      checkRegion_overlap E mode start size _ _ _ _ h32 hsize p7 p8 (by omega),
      checkRegion_overlap E mode start size _ _ _ _ h32 hsize p1 p2 (by omega)]
  refine ⟨hmain, ?_, ?_⟩
  · intro rs re ps region hmem hrs hre
    simp only [MemoryMap.rasterizerRanges, List.mem_cons, Prod.mk.injEq, List.mem_singleton,
      List.not_mem_nil, or_false] at hmem
    rw [hmain]
    rcases hmem with ⟨rfl, rfl, rfl, rfl⟩ | ⟨rfl, rfl, rfl, rfl⟩ | ⟨rfl, rfl, rfl, rfl⟩
    · constructor
      · have hl : start < K.LINEAR_HEAP_VADDR_END ∧ K.LINEAR_HEAP_VADDR < start + size := by
          omega
        have hn : ¬ (start < K.NEW_LINEAR_HEAP_VADDR_END ∧
            K.NEW_LINEAR_HEAP_VADDR < start + size) := by omega
        have hv : ¬ (start < K.VRAM_VADDR_END ∧ K.VRAM_VADDR < start + size) := by omega
        have e1 : max start K.LINEAR_HEAP_VADDR = start := by omega
        have e2 : min (start + size) K.LINEAR_HEAP_VADDR_END - start = size := by omega
        simp only [overlapCall, if_pos hl, if_neg hn, if_neg hv, e1, e2]
      · unfold PhysicalToVirtualAddressForRasterizer
        rw [if_neg (by omega), if_pos (by omega)]
        have e : K.FCRAM_PADDR + (start - K.LINEAR_HEAP_VADDR) - K.FCRAM_PADDR +
            K.LINEAR_HEAP_VADDR = start := by omega
        rw [e, u32_of_lt _ (by omega)]
        exact List.mem_cons_self _ _
    · constructor
      · have hl : ¬ (start < K.LINEAR_HEAP_VADDR_END ∧ K.LINEAR_HEAP_VADDR < start + size) := by
          omega
        have hn : start < K.NEW_LINEAR_HEAP_VADDR_END ∧
            K.NEW_LINEAR_HEAP_VADDR < start + size := by omega
        have hv : ¬ (start < K.VRAM_VADDR_END ∧ K.VRAM_VADDR < start + size) := by omega
        have e1 : max start K.NEW_LINEAR_HEAP_VADDR = start := by omega
        have e2 : min (start + size) K.NEW_LINEAR_HEAP_VADDR_END - start = size := by omega
        simp only [overlapCall, if_neg hl, if_pos hn, if_neg hv, e1, e2]
      · unfold PhysicalToVirtualAddressForRasterizer
        have e : K.FCRAM_PADDR + (start - K.NEW_LINEAR_HEAP_VADDR) - K.FCRAM_PADDR +
            K.NEW_LINEAR_HEAP_VADDR = start := by omega
        rw [if_neg (by omega)]
        by_cases hlow : K.FCRAM_PADDR + (start - K.NEW_LINEAR_HEAP_VADDR) < K.FCRAM_PADDR_END
        · rw [if_pos (by omega), e, u32_of_lt start (by omega)]
          exact List.mem_cons_of_mem _ (List.mem_cons_self _ _)
        · rw [if_neg (by omega), if_pos (by omega), e, u32_of_lt start (by omega)]
          exact List.mem_cons_self _ _
    · constructor
      · have hl : ¬ (start < K.LINEAR_HEAP_VADDR_END ∧ K.LINEAR_HEAP_VADDR < start + size) := by
          omega
        have hn : ¬ (start < K.NEW_LINEAR_HEAP_VADDR_END ∧
            K.NEW_LINEAR_HEAP_VADDR < start + size) := by omega
        have hv : start < K.VRAM_VADDR_END ∧ K.VRAM_VADDR < start + size := by omega
        have e1 : max start K.VRAM_VADDR = start := by omega
        have e2 : min (start + size) K.VRAM_VADDR_END - start = size := by omega
        simp only [overlapCall, if_neg hl, if_neg hn, if_pos hv, e1, e2]
      · unfold PhysicalToVirtualAddressForRasterizer
        have e : K.VRAM_PADDR + (start - K.VRAM_VADDR) - K.VRAM_PADDR + K.VRAM_VADDR = start := by
          omega
        rw [if_pos (by omega), e, u32_of_lt start (by omega)]
        exact List.mem_cons_self _ _
  · intro hnone
    rw [hmain]
    have h1 := hnone K.LINEAR_HEAP_VADDR K.LINEAR_HEAP_VADDR_END K.FCRAM_PADDR Region.FCRAM
      (by simp [MemoryMap.rasterizerRanges])
    have h2 := hnone K.NEW_LINEAR_HEAP_VADDR K.NEW_LINEAR_HEAP_VADDR_END K.FCRAM_PADDR
      Region.FCRAM (by simp [MemoryMap.rasterizerRanges])
    have h3 := hnone K.VRAM_VADDR K.VRAM_VADDR_END K.VRAM_PADDR Region.VRAM
      (by simp [MemoryMap.rasterizerRanges])
    have hl : ¬ (start < K.LINEAR_HEAP_VADDR_END ∧ K.LINEAR_HEAP_VADDR < start + size) := by
      omega
    have hn : ¬ (start < K.NEW_LINEAR_HEAP_VADDR_END ∧
        K.NEW_LINEAR_HEAP_VADDR < start + size) := by omega
    have hv : ¬ (start < K.VRAM_VADDR_END ∧ K.VRAM_VADDR < start + size) := by omega
    simp only [overlapCall, if_neg hl, if_neg hn, if_neg hv]

/-- The calls of RasterizerFlushVirtualRegion on the console's memory map for
the 0x2000 bytes from 0x14001000, inside the linear heap: one InvalidateRegion
for 0x2000 bytes from the physical address 0x20001000, which has 0x14001000
as its first alias. -/
theorem flush_virtual_region_calls_witness :
    (RasterizerFlushVirtualRegion console stub 0x14001000 0x2000 FlushMode.Invalidate
      freshSystem).calls = [Call.InvalidateRegion 0x20001000 0x2000] ∧
    (RasterizerFlushVirtualRegion console stub 0x14001000 0x2000 FlushMode.Invalidate
        freshSystem =
      rasterizerCall stub FlushMode.Invalidate (0x20000000 + (0x14001000 - 0x14000000)) 0x2000
        freshSystem ∧
      0x14001000 ∈
        PhysicalToVirtualAddressForRasterizer console (0x20000000 + (0x14001000 - 0x14000000))) :=
  ⟨by decide,
   (flush_virtual_region_calls console stub FlushMode.Invalidate freshSystem 0x14001000 0x2000
     rfl (by decide) (by decide) (by decide) (by decide)).2.1 0x14000000 0x1C000000 0x20000000
     Region.FCRAM (by decide) (by decide) (by decide)⟩

/-! ## C31: the pages WalkBlock goes through -/

theorem chunkList_pages :
    ∀ (fuel remaining page_index page_offset : Nat), remaining ≤ fuel → page_offset < 4096 →
      (WalkBlock.chunkList fuel remaining page_index page_offset).map Chunk.page_index =
        List.range' page_index
          (if remaining = 0 then 0 else (page_offset + remaining - 1) / 4096 + 1) := by
  intro fuel
  induction fuel with
  | zero =>
    intro remaining page_index page_offset h _
    have : remaining = 0 := by omega
    subst this
    simp [WalkBlock.chunkList]
  | succ f ih =>
    intro remaining page_index page_offset h hoff
    by_cases hr : remaining = 0
    · subst hr
      simp [chunkList_zero]
    · simp only [WalkBlock.chunkList, CITRA_PAGE_SIZE]
      rw [if_pos (by omega), if_neg hr, List.map_cons, ih _ _ 0 (by omega) (by omega)]
      by_cases hlast : remaining ≤ 4096 - page_offset
      · have e1 : remaining - min (4096 - page_offset) remaining = 0 := by omega
        have e2 : (page_offset + remaining - 1) / 4096 + 1 = 1 := by omega
        rw [e1, e2]
        simp
      · have e1 : ¬ remaining - min (4096 - page_offset) remaining = 0 := by omega
        have e2 : (page_offset + remaining - 1) / 4096 + 1 =
            ((0 + (remaining - min (4096 - page_offset) remaining) - 1) / 4096 + 1) + 1 := by
          omega
        rw [if_neg e1, e2]
        simp [List.range'_succ]

theorem chunks_pages (src_addr size : Nat) :
    (WalkBlock.chunks src_addr size).map Chunk.page_index =
      List.range' (src_addr >>> CITRA_PAGE_BITS) (pagesOverlapped src_addr size) := by
  have hoff : src_addr &&& CITRA_PAGE_MASK < 4096 := by
    rw [and_page_mask]; omega
  unfold WalkBlock.chunks
  rw [chunkList_pages size size _ _ (Nat.le_refl _) hoff]
  congr 1
  unfold pagesOverlapped
  by_cases hs : size = 0
  · rw [if_pos hs, if_pos hs]
  · rw [if_neg hs, if_neg hs, and_page_mask]
    simp only [CITRA_PAGE_SIZE]
    omega

theorem mem_pages_range (src_addr size pg : Nat) :
    pg ∈ List.range' (src_addr >>> CITRA_PAGE_BITS) (pagesOverlapped src_addr size) ↔
      ∃ a, src_addr ≤ a ∧ a < src_addr + size ∧ a >>> CITRA_PAGE_BITS = pg := by
  rw [List.mem_range'_1, shr_page]
  unfold pagesOverlapped
  simp only [CITRA_PAGE_SIZE]
  constructor
  · rintro ⟨h1, h2⟩
    by_cases hs : size = 0
    · rw [if_pos hs] at h2
      omega
    · rw [if_neg hs] at h2
      refine ⟨max src_addr (pg * 4096), by omega, by omega, ?_⟩
      rw [shr_page]
      omega
  · rintro ⟨a, h1, h2, h3⟩
    rw [shr_page] at h3
    have hs : ¬ size = 0 := by omega
    rw [if_neg hs]
    omega

theorem recorder_body {ε : Type} (K : MemoryMap) (t : Nat) (c : Chunk) (s : MemorySystem ε)
    (calls : List HandlerCall) (hok : ChunkOk K (s.page_tables t) c) :
    ∃ call, expectedCall K (s.page_tables t) c = some call ∧
      WalkBlock.body K t recorder c (s, calls) = Except.ok (s, calls ++ [call]) := by
  obtain ⟨hidx, hmem, hsp, hrc⟩ := hok
  unfold WalkBlock.body expectedCall
  rw [if_neg (by simpa using hidx)]
  simp only
  cases hty : (s.page_tables t).attributes c.page_index with
  | Unmapped =>
    exact ⟨HandlerCall.on_unmapped c.copy_amount c.current_vaddr, rfl, by simp [recorder]⟩
  | Memory =>
    obtain ⟨p, hp⟩ := Option.ne_none_iff_exists'.1 (hmem hty)
    exact ⟨HandlerCall.on_memory c.copy_amount ⟨p.region, p.offset + c.page_offset⟩,
      by simp [hp], by simp [recorder, hp]⟩
  | Special =>
    obtain ⟨h, hh⟩ := hsp hty
    exact ⟨HandlerCall.on_special h c.copy_amount c.current_vaddr,
      by simp [hh, Except.toOption], by simp [recorder, hh]⟩
  | RasterizerCachedMemory =>
    obtain ⟨p, hp⟩ := hrc hty
    exact ⟨HandlerCall.on_rasterizer c.current_vaddr c.copy_amount p,
      by simp [hp, Except.toOption], by simp [recorder, hp]⟩

theorem recorder_run {ε : Type} (K : MemoryMap) (t : Nat) (s : MemorySystem ε) :
    ∀ (cs : List Chunk) (calls : List HandlerCall),
      (∀ c ∈ cs, ChunkOk K (s.page_tables t) c) →
      ∃ more, runChunks (WalkBlock.body K t recorder) cs (s, calls) =
          Except.ok (s, calls ++ more) ∧
        cs.map (expectedCall K (s.page_tables t)) = more.map some := by
  intro cs
  induction cs with
  | nil =>
    intro calls _
    exact ⟨[], by simp [runChunks], rfl⟩
  | cons c cs ih =>
    intro calls hok
    obtain ⟨call, hexp, hbody⟩ := recorder_body K t c s calls (hok c (List.mem_cons_self _ _))
    obtain ⟨more, hrun, hmap⟩ := ih (calls ++ [call])
      (fun c' hc' => hok c' (List.mem_cons_of_mem _ hc'))
    refine ⟨call :: more, ?_, ?_⟩
    · rw [runChunks, hbody]
      simp only
      rw [hrun, List.append_assoc]
      rfl
    · rw [List.map_cons, List.map_cons, hexp, hmap]

/-- C31: for a range that ends inside the address space, the loop of WalkBlock
comes to its end: any bound of at least `size` iterations gives the result of
WalkBlock, which is its body run over the chunks of the walk. The chunks are
on the pages from `src_addr >> CITRA_PAGE_BITS` on, one for each page the
range overlaps, none when the size is 0, and every page index is below
PAGE_TABLE_NUM_ENTRIES. On a page table whose Memory pages have their
pointer, whose Special pages have a handler and whose RasterizerCachedMemory
pages lie in a rasterizer range, the walk returns and calls exactly one
callback for each chunk, the one its page type selects. -/
theorem c31_walk_visits_each_page_once {ε α : Type} (K : MemoryMap) (t : Nat)
    (H : Handlers ε α) (st : MemorySystem ε × α) (s : MemorySystem ε) (src_addr size : Nat)
    (h32 : src_addr + size ≤ 4294967296) :
    (∀ fuel, size ≤ fuel →
      WalkBlock.loop (WalkBlock.body K t H) fuel size (src_addr >>> CITRA_PAGE_BITS)
        (src_addr &&& CITRA_PAGE_MASK) st = WalkBlock K t H src_addr size st) ∧
    WalkBlock K t H src_addr size st =
      runChunks (WalkBlock.body K t H) (WalkBlock.chunks src_addr size) st ∧
    (WalkBlock.chunks src_addr size).map Chunk.page_index =
      List.range' (src_addr >>> CITRA_PAGE_BITS) (pagesOverlapped src_addr size) ∧
    (∀ pg, pg ∈ List.range' (src_addr >>> CITRA_PAGE_BITS) (pagesOverlapped src_addr size) ↔
      ∃ a, src_addr ≤ a ∧ a < src_addr + size ∧ a >>> CITRA_PAGE_BITS = pg) ∧
    (size = 0 → WalkBlock.chunks src_addr size = []) ∧
    (∀ c, c ∈ WalkBlock.chunks src_addr size → c.page_index < PAGE_TABLE_NUM_ENTRIES) ∧
    ((∀ a, src_addr ≤ a → a < src_addr + size →
        (s.page_tables t).attributes (a >>> CITRA_PAGE_BITS) = PageType.Memory →
        (s.page_tables t).pointers (a >>> CITRA_PAGE_BITS) ≠ none) →
      (∀ a, src_addr ≤ a → a < src_addr + size →
        (s.page_tables t).attributes (a >>> CITRA_PAGE_BITS) = PageType.Special →
        ∃ h, GetMMIOHandler (s.page_tables t) a = Except.ok h) →
      (∀ a, src_addr ≤ a → a < src_addr + size →
        (s.page_tables t).attributes (a >>> CITRA_PAGE_BITS) = PageType.RasterizerCachedMemory →
        InRasterizerRange K a) →
      ∃ calls, WalkBlock K t recorder src_addr size (s, []) = Except.ok (s, calls) ∧
        calls.length = pagesOverlapped src_addr size ∧
        (WalkBlock.chunks src_addr size).map (expectedCall K (s.page_tables t)) =
          calls.map some) := by
  have hoff : src_addr &&& CITRA_PAGE_MASK < 4096 := by
    rw [and_page_mask]; omega
  have hpages := chunks_pages src_addr size
  refine ⟨?_, walkBlock_eq_runChunks K t H src_addr size st, hpages,
    mem_pages_range src_addr size, ?_, ?_, ?_⟩
  · intro fuel hfuel
    unfold WalkBlock
    rw [walkLoop_eq_runChunks, walkLoop_eq_runChunks,
      chunkList_fuel fuel size size _ _ hfuel (Nat.le_refl _) hoff]
  · intro hs
    subst hs
    unfold WalkBlock.chunks
    exact chunkList_zero _ _ _
  · intro c hc
    have hmem : c.page_index ∈ (WalkBlock.chunks src_addr size).map Chunk.page_index :=
      List.mem_map_of_mem _ hc
    rw [hpages, mem_pages_range] at hmem
    obtain ⟨a, h1, h2, h3⟩ := hmem
    rw [shr_page] at h3
    simp only [PAGE_TABLE_NUM_ENTRIES]
    omega
  · intro hmem hsp hrc
    have hok := chunks_ok K (s.page_tables t) src_addr size h32 hmem hsp hrc
    obtain ⟨more, hrun, hmap⟩ := recorder_run K t s (WalkBlock.chunks src_addr size) [] hok
    refine ⟨more, ?_, ?_, hmap⟩
    · rw [walkBlock_eq_runChunks, hrun]
      rfl
    · have hlen := congrArg List.length hmap
      have hlen2 := congrArg List.length hpages
      simp only [List.length_map, List.length_range'] at hlen hlen2
      omega

/-- C31 on `blockSystem`, for the 0x1004 bytes from 0x10FFE: the range
overlaps the pages 0x10, 0x11 and 0x12, and the walk calls on_unmapped for 2
bytes, on_memory for the whole page and on_special, with handler 7, for 2
bytes. -/
theorem c31_walk_visits_each_page_once_witness :
    pagesOverlapped 0x10FFE 0x1004 = 3 ∧
    (WalkBlock.chunks 0x10FFE 0x1004).map Chunk.page_index = [0x10, 0x11, 0x12] ∧
    (WalkBlock.chunks 0x10FFE 0x1004).map (expectedCall console (blockSystem.page_tables 0)) =
      [some (HandlerCall.on_unmapped 2 0x10FFE),
       some (HandlerCall.on_memory 0x1000 ⟨Region.FCRAM, 0x101⟩),
       some (HandlerCall.on_special 7 2 0x12000)] ∧
    ∃ calls, WalkBlock console 0 recorder 0x10FFE 0x1004 (blockSystem, []) =
        Except.ok (blockSystem, calls) ∧
      calls.length = pagesOverlapped 0x10FFE 0x1004 ∧
      (WalkBlock.chunks 0x10FFE 0x1004).map (expectedCall console (blockSystem.page_tables 0)) =
        calls.map some :=
  ⟨by decide, by decide, by decide,
   (c31_walk_visits_each_page_once console 0 (recorder : Handlers Unit (List HandlerCall))
      (blockSystem, []) blockSystem 0x10FFE 0x1004 (by decide)).2.2.2.2.2.2
      (fun a _ _ ha => blockSystem_memory a ha)
      (fun a _ _ ha => blockSystem_special a ha)
      (fun a _ _ ha => absurd ha (blockTable_not_cached _))⟩

/-! ## C35: ZeroBlock against WriteBlock of zero bytes -/

/-- One iteration of the walk of ZeroBlock is the iteration of the walk of
WriteBlockImpl with a source of zero bytes, whatever the chunk and the state;
only the source position of WriteBlockImpl has no counterpart. -/
theorem zeroBody_eq_writeBody {ε : Type} (K : MemoryMap) (E : Collaborators ε) (t : Nat)
    (c : Chunk) (s : MemorySystem ε) (pos : Nat) :
    WalkBlock.body K t (ZeroBlock.handlers K E) c (s, ()) =
      match WalkBlock.body K t (WriteBlockImpl.handlers K E (fun _ _ => 0)) c (s, pos) with
      | Except.ok st => Except.ok (st.1, ())
      | Except.error e => Except.error e := by
  unfold WalkBlock.body
  by_cases hidx : c.page_index < PAGE_TABLE_NUM_ENTRIES
  · rw [if_neg (by simpa using hidx), if_neg (by simpa using hidx)]
    simp only
    cases hattr : (s.page_tables t).attributes c.page_index with
    | Unmapped => simp [ZeroBlock.handlers, WriteBlockImpl.handlers]
    | Memory =>
      cases hp : (s.page_tables t).pointers c.page_index with
      | none => simp
      | some p => simp [ZeroBlock.handlers, WriteBlockImpl.handlers]
    | Special =>
      cases hh : GetMMIOHandler (s.page_tables t) c.current_vaddr with
      | error e => simp
      | ok h => simp [ZeroBlock.handlers, WriteBlockImpl.handlers, range_map_const]
    | RasterizerCachedMemory =>
      cases hp : GetPointerForRasterizerCache K c.current_vaddr with
      | error e => simp
      | ok p => simp [ZeroBlock.handlers, WriteBlockImpl.handlers]
  · rw [if_pos (by simpa using hidx), if_pos (by simpa using hidx)]

theorem runChunks_zero_eq_write {ε : Type} (K : MemoryMap) (E : Collaborators ε) (t : Nat) :
    ∀ (cs : List Chunk) (s : MemorySystem ε) (pos : Nat),
      runChunks (WalkBlock.body K t (ZeroBlock.handlers K E)) cs (s, ()) =
        match runChunks (WalkBlock.body K t (WriteBlockImpl.handlers K E (fun _ _ => 0))) cs
            (s, pos) with
        | Except.ok st => Except.ok (st.1, ())
        | Except.error e => Except.error e := by
  intro cs
  induction cs with
  | nil => intro s pos; rfl
  | cons c cs ih =>
    intro s pos
    rw [runChunks, runChunks, zeroBody_eq_writeBody K E t c s pos]
    cases hb : WalkBlock.body K t (WriteBlockImpl.handlers K E (fun _ _ => 0)) c (s, pos) with
    | error e => rfl
    | ok st =>
      obtain ⟨s1, pos1⟩ := st
      simp only
      exact ih s1 pos1

/-- The arenas after zero bytes are written to the targets of a range: a byte
that is the target of an address of the range is 0, every other byte is as
it was. -/
theorem writeRange_zero (tgt : Nat → Option BackingRef) (addr : Nat) (b : Backing)
    (q : BackingRef) :
    ∀ n, (∃ j, j < n ∧ tgt (addr + j) = some q) →
      writeRange tgt addr (fun _ => 0) n b q.region q.offset = 0 := by
  intro n
  induction n with
  | zero => rintro ⟨j, hj, _⟩; omega
  | succ n ih =>
    rintro ⟨j, hj, hq⟩
    rw [writeRange]
    cases ht : tgt (addr + n) with
    | none =>
      simp only
      refine ih ⟨j, ?_, hq⟩
      by_cases hjn : j = n
      · subst hjn; rw [ht] at hq; cases hq
      · omega
    | some q' =>
      simp only [setByte]
      by_cases hqq : q.region = q'.region ∧ q.offset = q'.offset
      · rw [if_pos hqq]
      · rw [if_neg hqq]
        refine ih ⟨j, ?_, hq⟩
        by_cases hjn : j = n
        · subst hjn
          rw [ht] at hq
          cases hq
          exact absurd ⟨rfl, rfl⟩ hqq
        · omega

/-- C35: ZeroBlock is WriteBlock with a source of zero bytes, for every page
table, address and size: the two calls end in the same memory system, with the
same arenas, the same calls received by the MMIO handlers (WriteBlock with
zero bytes) and by the rasterizer (InvalidateRegion), or end with the same
fault. On a range inside the address space of a well-formed page table (Memory
pages have their pointer, Special pages a handler, RasterizerCachedMemory
pages lie in a rasterizer range), with a rasterizer whose InvalidateRegion
leaves the arenas alone, the call returns, every arena byte behind an address
of the range on a Memory or RasterizerCachedMemory page is 0 afterwards, every
other arena byte is as it was, and a chunk on an Unmapped page leaves the
memory system as it is. -/
theorem c35_zero_block_is_write_block {ε : Type} (K : MemoryMap) (E : Collaborators ε)
    (t dest_addr size : Nat) (s : MemorySystem ε) :
    ZeroBlock K E t dest_addr size s = WriteBlock K E t dest_addr (fun _ => 0) size s ∧
    (K.PageAligned → (∀ a n x, (E.InvalidateRegion a n x).2 = x.2) →
      dest_addr + size ≤ 4294967296 →
      (∀ a, dest_addr ≤ a → a < dest_addr + size →
        (s.page_tables t).attributes (a >>> CITRA_PAGE_BITS) = PageType.Memory →
        (s.page_tables t).pointers (a >>> CITRA_PAGE_BITS) ≠ none) →
      (∀ a, dest_addr ≤ a → a < dest_addr + size →
        (s.page_tables t).attributes (a >>> CITRA_PAGE_BITS) = PageType.Special →
        ∃ h, GetMMIOHandler (s.page_tables t) a = Except.ok h) →
      (∀ a, dest_addr ≤ a → a < dest_addr + size →
        (s.page_tables t).attributes (a >>> CITRA_PAGE_BITS) = PageType.RasterizerCachedMemory →
        InRasterizerRange K a) →
      ∃ s', ZeroBlock K E t dest_addr size s = Except.ok s' ∧
        s'.page_tables = s.page_tables ∧
        (∀ i q, i < size → writeTarget K (s.page_tables t) (dest_addr + i) = some q →
          s'.backing q.region q.offset = 0) ∧
        (∀ q : BackingRef,
          (∀ j, j < size → writeTarget K (s.page_tables t) (dest_addr + j) ≠ some q) →
          s'.backing q.region q.offset = s.backing q.region q.offset) ∧
        (∀ (c : Chunk) (s1 : MemorySystem ε), c.page_index < PAGE_TABLE_NUM_ENTRIES →
          (s1.page_tables t).attributes c.page_index = PageType.Unmapped →
          WalkBlock.body K t (ZeroBlock.handlers K E) c (s1, ()) = Except.ok (s1, ()))) := by
  refine ⟨?_, ?_⟩
  · unfold ZeroBlock WriteBlock WriteBlockImpl
    rw [walkBlock_eq_runChunks, walkBlock_eq_runChunks,
      runChunks_zero_eq_write K E t (WalkBlock.chunks dest_addr size) s 0]
    cases runChunks (WalkBlock.body K t (WriteBlockImpl.handlers K E (fun _ _ => 0)))
      (WalkBlock.chunks dest_addr size) (s, 0) <;> rfl
  · intro hK hinval h32 hmem hsp hrc
    obtain ⟨s', hrun, hpt, hbk⟩ := zeroBlock_backing K E t dest_addr size s hK hinval h32 hmem
      hsp hrc
    refine ⟨s', hrun, hpt, ?_, ?_, ?_⟩
    · intro i q hi hq
      rw [hbk]
      exact writeRange_zero _ _ _ q size ⟨i, hi, hq⟩
    · intro q hq
      rw [hbk]
      exact writeRange_untouched _ _ _ _ q size hq
    · intro c s1 hidx hun
      simp [WalkBlock.body, hidx, hun, ZeroBlock.handlers]

/-- C35 on `blockSystem`, for the 0x1004 bytes from 0x10FFE: ZeroBlock and
WriteBlock of zero bytes end in the same state; the Memory page, at offset
0x101 of main memory, is zero from its first to its last byte, the bytes next
to it (offsets 0xFF and 0x1101) are as they were, and handler 7 has received WriteBlock with two zero
bytes. -/
theorem c35_zero_block_is_write_block_witness :
    ZeroBlock console patternDevice 0 0x10FFE 0x1004 blockSystem =
      WriteBlock console patternDevice 0 0x10FFE (fun _ => 0) 0x1004 blockSystem ∧
    (∃ s', ZeroBlock console patternDevice 0 0x10FFE 0x1004 blockSystem = Except.ok s' ∧
      s'.page_tables = blockSystem.page_tables ∧
      (∀ i q, i < 0x1004 →
        writeTarget console (blockSystem.page_tables 0) (0x10FFE + i) = some q →
        s'.backing q.region q.offset = 0) ∧
      (∀ q : BackingRef,
        (∀ j, j < 0x1004 → writeTarget console (blockSystem.page_tables 0) (0x10FFE + j) ≠
          some q) →
        s'.backing q.region q.offset = blockSystem.backing q.region q.offset) ∧
      (∀ (c : Chunk) (s1 : MemorySystem Unit), c.page_index < PAGE_TABLE_NUM_ENTRIES →
        (s1.page_tables 0).attributes c.page_index = PageType.Unmapped →
        WalkBlock.body console 0 (ZeroBlock.handlers console patternDevice) c (s1, ()) =
          Except.ok (s1, ()))) ∧
    (ZeroBlock console patternDevice 0 0x10FFE 0x1004 blockSystem).toOption.map
      (fun s' => (s'.backing Region.FCRAM 0xFF, s'.backing Region.FCRAM 0x101,
        s'.backing Region.FCRAM 0x1100, s'.backing Region.FCRAM 0x1101, s'.calls)) =
      some (0xFF, 0, 0, 1, [Call.WriteBlock 7 0x12000 [0, 0]]) :=
  ⟨(c35_zero_block_is_write_block console patternDevice 0 0x10FFE 0x1004 blockSystem).1,
   (c35_zero_block_is_write_block console patternDevice 0 0x10FFE 0x1004 blockSystem).2
      (by decide) (fun _ _ _ => rfl) (by decide)
      (fun a _ _ ha => blockSystem_memory a ha)
      (fun a _ _ ha => blockSystem_special a ha)
      (fun a _ _ ha => absurd ha (blockTable_not_cached _)),
   by rfl⟩

/-! ## C36: ReadCString -/

/-- A Read at a readable address returns and leaves the page tables and the
current page table as they are. -/
theorem read_returns {ε : Type} (K : MemoryMap) (E : Collaborators ε) (w a t : Nat)
    (s : MemorySystem ε) (hcur : s.current_page_table = some t)
    (hr : Readable K (s.page_tables t) a) :
    ∃ c s1, Read K E w a s = Except.ok (c, s1) ∧ s1.page_tables = s.page_tables ∧
      s1.current_page_table = s.current_page_table := by
  unfold Read
  rw [hcur]
  simp only
  cases hp : (s.page_tables t).pointers (a >>> CITRA_PAGE_BITS) with
  | some p => exact ⟨_, _, rfl, rfl, hcur⟩
  | none =>
    simp only
    rcases hr with h | h | ⟨h, hin⟩ | ⟨h, hh, hhandler⟩
    · exact absurd hp h
    · rw [h]
      exact ⟨_, _, rfl, rfl, hcur⟩
    · rw [h]
      obtain ⟨p, hptr⟩ := getPointer_of_inRange K a hin
      simp only [hptr]
      exact ⟨_, _, rfl, by simp, by simp [hcur]⟩
    · rw [h]
      simp only [hhandler]
      exact ⟨_, _, rfl, rfl, hcur⟩

theorem u32_succ_add (vaddr i : Nat) : u32 (u32 (vaddr + 1) + i) = u32 (vaddr + (i + 1)) := by
  unfold u32
  omega

/-- The loop of ReadCString from the string `pre` on: it returns, pushes
characters that are not 0, at most as many as iterations are left, and the
characters pushed are the bytes read one after the other, up to the first 0,
which is read and not pushed. -/
theorem readCString_loop {ε : Type} (K : MemoryMap) (E : Collaborators ε) (t : Nat) :
    ∀ (n vaddr : Nat) (pre : List Nat) (s : MemorySystem ε),
      vaddr < 4294967296 → s.current_page_table = some t →
      (∀ i, i < n → Readable K (s.page_tables t) (u32 (vaddr + i))) →
      ∃ str s', ReadCString.loop K E n vaddr pre s = Except.ok (pre ++ str, s') ∧
        str.length ≤ n ∧ (∀ c ∈ str, c ≠ 0) ∧
        ((str.length < n ∧
            readBytes K E (str.length + 1) vaddr s = Except.ok (str ++ [0], s')) ∨
          (str.length = n ∧ readBytes K E n vaddr s = Except.ok (str, s'))) := by
  intro n
  induction n with
  | zero =>
    intro vaddr pre s _ _ _
    exact ⟨[], s, by simp [ReadCString.loop], Nat.le_refl _, by simp, Or.inr ⟨rfl, rfl⟩⟩
  | succ n ih =>
    intro vaddr pre s hv hcur hok
    have h0 := hok 0 (Nat.succ_pos n)
    rw [Nat.add_zero, u32_of_lt _ hv] at h0
    obtain ⟨c, s1, hread, hpt, hcur1⟩ := read_returns K E 1 vaddr t s hcur h0
    by_cases hc : c = 0
    · subst hc
      refine ⟨[], s1, ?_, Nat.zero_le _, by simp, Or.inl ⟨Nat.succ_pos n, ?_⟩⟩
      · simp [ReadCString.loop, hread]
      · simp [readBytes, hread]
    · obtain ⟨str, s', hloop, hlen, hnz, hbytes⟩ := ih (u32 (vaddr + 1)) (pre ++ [c]) s1
        (u32_lt _) (hcur1.trans hcur) (fun i hi => by
          rw [hpt, u32_succ_add]
          exact hok (i + 1) (by omega))
      refine ⟨c :: str, s', ?_, by simp; omega, ?_, ?_⟩
      · simp only [ReadCString.loop, hread, if_neg hc]
        rw [hloop, List.append_assoc]
        rfl
      · intro x hx
        rcases List.mem_cons.1 hx with rfl | hx
        · exact hc
        · exact hnz x hx
      · rcases hbytes with ⟨hlt, hb⟩ | ⟨heq, hb⟩
        · left
          refine ⟨by simp; omega, ?_⟩
          rw [List.length_cons, readBytes]
          simp only [hread, hb]
          rfl
        · right
          refine ⟨by simp; omega, ?_⟩
          rw [readBytes]
          simp only [hread, hb]

/-- C36, as stated, fails for a max_length that `string.reserve` refuses.
Above std::string::max_size() it throws std::length_error and ReadCString does
not return, whatever max_size() and the free store are; the first run takes
2^62 - 1 for max_size(). Up to max_size() and above what the allocator grants
it throws std::bad_alloc. In both runs the memory holds a string of three
characters. -/
theorem c36_reserve_above_max_size_throws :
    faultOf (ReadCString console stub 4611686018427387903 4611686018427387903 0x11000
      4611686018427387904 stringSystem) = some Fault.lengthError ∧
    (∀ max_size free_store,
      faultOf (ReadCString console stub max_size free_store 0x11000 (max_size + 1)
        stringSystem) = some Fault.lengthError) ∧
    ∀ max_size free_store,
      faultOf (ReadCString console stub (free_store + 1 + max_size) free_store 0x11000
        (free_store + 1) stringSystem) = some Fault.badAlloc := by
  refine ⟨by rfl, ?_, ?_⟩
  · intro max_size free_store
    simp only [ReadCString]
    rw [if_pos (by omega)]
    rfl
  · intro max_size free_store
    simp only [ReadCString]
    rw [if_neg (by omega), if_pos (by omega)]
    rfl

/-- C36, amended: for a max_length that `string.reserve` accepts, up to
std::string::max_size() and to what the allocator grants, when the
current page table holds a readable page at each of the addresses vaddr,
vaddr + 1, .. (in 32 bits) below max_length, ReadCString returns a string of
at most max_length characters, none of them 0. The characters are the bytes
that successive Read8 calls from vaddr on return: if the string is shorter
than max_length, the string followed by a 0 is what length + 1 reads return,
so the string ends before the first 0; if it has max_length characters, it is
what max_length reads return, none of them 0. -/
theorem c36_read_cstring {ε : Type} (K : MemoryMap) (E : Collaborators ε)
    (max_size free_store t vaddr max_length : Nat) (s : MemorySystem ε)
    (hmax : max_length ≤ max_size) (hfree : max_length ≤ free_store)
    (hv : vaddr < 4294967296) (hcur : s.current_page_table = some t)
    (hok : ∀ i, i < max_length → Readable K (s.page_tables t) (u32 (vaddr + i))) :
    ∃ str s', ReadCString K E max_size free_store vaddr max_length s = Except.ok (str, s') ∧
      str.length ≤ max_length ∧ (∀ c ∈ str, c ≠ 0) ∧
      ((str.length < max_length ∧
          readBytes K E (str.length + 1) vaddr s = Except.ok (str ++ [0], s')) ∨
        (str.length = max_length ∧ readBytes K E max_length vaddr s = Except.ok (str, s'))) := by
  obtain ⟨str, s', h, hlen, hnz, hb⟩ := readCString_loop K E t max_length vaddr [] s hv hcur hok
  refine ⟨str, s', ?_, hlen, hnz, hb⟩
  simp only [ReadCString]
  rw [if_neg (by omega), if_neg (by omega)]
  simpa using h

/-- C36 on `stringSystem`, whose Memory page 0x11 holds the bytes 0x41, 0x42,
0x43, 0 from 0x11000 on, with 2^62 - 1 for max_size() and an allocator that
grants 0x10000 characters: with max_length 16 the string is the three bytes
before the 0, with max_length 2 it is the first two bytes. -/
theorem c36_read_cstring_witness :
    (ReadCString console stub 4611686018427387903 0x10000 0x11000 16 stringSystem).toOption.map
      Prod.fst = some [0x41, 0x42, 0x43] ∧
    (ReadCString console stub 4611686018427387903 0x10000 0x11000 2 stringSystem).toOption.map
      Prod.fst = some [0x41, 0x42] ∧
    ∃ str s', ReadCString console stub 4611686018427387903 0x10000 0x11000 16 stringSystem =
        Except.ok (str, s') ∧
      str.length ≤ 16 ∧ (∀ c ∈ str, c ≠ 0) ∧
      ((str.length < 16 ∧
          readBytes console stub (str.length + 1) 0x11000 stringSystem =
            Except.ok (str ++ [0], s')) ∨
        (str.length = 16 ∧
          readBytes console stub 16 0x11000 stringSystem = Except.ok (str, s'))) :=
  ⟨by rfl, by rfl,
   c36_read_cstring console stub 4611686018427387903 0x10000 0 0x11000 16 stringSystem
    (by decide) (by decide) (by decide) (by rfl)
    (fun i hi => Or.inl (by
      have h : u32 (0x11000 + i) >>> CITRA_PAGE_BITS = 0x11 := by
        rw [shr_page]
        simp only [u32]
        omega
      rw [h]
      decide))⟩

/-! ## C39: ConvertBGRToRGB -/

/-- C39 at its failing input: for the two pixels 1, 2, 3 and 4, 5, 6 and a
destination of six zero bytes, ConvertBGRToRGB leaves 6, 5, 4, 0, 0, 0 in the
destination where the claim has 3, 2, 1, 6, 5, 4: every pixel is stored at the
start of the destination. ConvertBGRToRGBA stores 3, 2, 1 and 6, 5, 4 as the
first three bytes of its two pixels. -/
theorem c39_every_pixel_is_stored_at_offset_zero :
    bytesOf (ConvertBGRToRGB reverseBytes32 [1, 2, 3, 4, 5, 6] (fun _ => 0)) 6 =
      [6, 5, 4, 0, 0, 0] ∧
    bytesOf (ConvertBGRToRGBA [1, 2, 3, 4, 5, 6] (fun _ => 0)) 8 =
      [3, 2, 1, 0xFF, 6, 5, 4, 0xFF] := by
  decide

theorem convertBGRToRGB_loop_tail (swap32 : Nat → Nat) (source : List Nat) :
    ∀ (fuel i : Nat) (dest : Nat → Nat) (j : Nat), 3 ≤ j →
      ConvertBGRToRGB.loop swap32 source fuel i dest j = dest j := by
  intro fuel
  induction fuel with
  | zero => intro i dest j _; rfl
  | succ f ih =>
    intro i dest j hj
    simp only [ConvertBGRToRGB.loop]
    split
    · rw [ih _ _ j hj]
      exact if_neg (by omega)
    · rfl

/-- What ConvertBGRToRGB does, for every swap32: the bytes of the destination
from offset 3 on are never written. -/
theorem convertBGRToRGB_tail (swap32 : Nat → Nat) (source : List Nat) (dest : Nat → Nat)
    (j : Nat) (hj : 3 ≤ j) : ConvertBGRToRGB swap32 source dest j = dest j :=
  convertBGRToRGB_loop_tail swap32 source _ _ dest j hj

theorem byteOf_three (x y z : Nat) (hx : x < 256) (hy : y < 256) (hz : z < 256) :
    byteOf (x + 256 * y + 65536 * z) 0 = x ∧ byteOf (x + 256 * y + 65536 * z) 1 = y ∧
    byteOf (x + 256 * y + 65536 * z) 2 = z := by
  refine ⟨?_, ?_, ?_⟩
  · simp only [byteOf]; norm_num; omega
  · simp only [byteOf]; norm_num; omega
  · simp only [byteOf]; norm_num; omega

theorem reverseBytes32_shifted (b0 b1 b2 : Nat) (h0 : b0 < 256) (h1 : b1 < 256)
    (h2 : b2 < 256) :
    reverseBytes32 (256 * b0 + 65536 * b1 + 16777216 * b2) = b2 + 256 * b1 + 65536 * b0 := by
  have a0 : byteOf (256 * b0 + 65536 * b1 + 16777216 * b2) 0 = 0 := by
    simp only [byteOf]; norm_num; omega
  have a1 : byteOf (256 * b0 + 65536 * b1 + 16777216 * b2) 1 = b0 := by
    simp only [byteOf]; norm_num; omega
  have a2 : byteOf (256 * b0 + 65536 * b1 + 16777216 * b2) 2 = b1 := by
    simp only [byteOf]; norm_num; omega
  have a3 : byteOf (256 * b0 + 65536 * b1 + 16777216 * b2) 3 = b2 := by
    simp only [byteOf]; norm_num; omega
  simp only [reverseBytes32, a0, a1, a2, a3]
  omega

theorem swapped_pixel_bytes (b0 b1 b2 : Nat) (h0 : b0 < 256) (h1 : b1 < 256) (h2 : b2 < 256) :
    byteOf (reverseBytes32 (u32 ((b0 + 256 * b1 + 65536 * b2) <<< 8))) 0 = b2 ∧
    byteOf (reverseBytes32 (u32 ((b0 + 256 * b1 + 65536 * b2) <<< 8))) 1 = b1 ∧
    byteOf (reverseBytes32 (u32 ((b0 + 256 * b1 + 65536 * b2) <<< 8))) 2 = b0 := by
  have hv : u32 ((b0 + 256 * b1 + 65536 * b2) <<< 8) =
      256 * b0 + 65536 * b1 + 16777216 * b2 := by
    rw [Nat.shiftLeft_eq]
    simp only [u32]
    omega
  rw [hv, reverseBytes32_shifted b0 b1 b2 h0 h1 h2]
  exact byteOf_three b2 b1 b0 h2 h1 h0

theorem convertBGRToRGB_loop_head (swap32 : Nat → Nat)
    (hswap : ∀ v, v < 4294967296 → swap32 v = reverseBytes32 v) (source : List Nat)
    (hbytes : ∀ j, source.getD j 0 < 256) :
    ∀ (m fuel i : Nat) (dest : Nat → Nat), 0 < m → m ≤ fuel → i + 3 * m = source.length →
      ConvertBGRToRGB.loop swap32 source fuel i dest 0 = source.getD (source.length - 1) 0 ∧
      ConvertBGRToRGB.loop swap32 source fuel i dest 1 = source.getD (source.length - 2) 0 ∧
      ConvertBGRToRGB.loop swap32 source fuel i dest 2 = source.getD (source.length - 3) 0 := by
  intro m
  induction m with
  | zero => intro fuel i dest h; omega
  | succ m ih =>
    intro fuel i dest _ hfuel hlen
    obtain ⟨f, rfl⟩ : ∃ f, fuel = f + 1 := ⟨fuel - 1, by omega⟩
    simp only [ConvertBGRToRGB.loop]
    rw [if_pos (by omega)]
    by_cases hm : m = 0
    · subst hm
      have hi : i + 3 = source.length := by omega
      have hstop : ∀ (d : Nat → Nat), ConvertBGRToRGB.loop swap32 source f (i + 3) d = d := by
        intro d
        cases f with
        | zero => rfl
        | succ g =>
          simp only [ConvertBGRToRGB.loop]
          rw [if_neg (by omega)]
      rw [hstop]
      rw [hswap _ (u32_lt _)]
      obtain ⟨e0, e1, e2⟩ := swapped_pixel_bytes _ _ _ (hbytes i) (hbytes (i + 1))
        (hbytes (i + 2))
      have i1 : source.length - 1 = i + 2 := by omega
      have i2 : source.length - 2 = i + 1 := by omega
      have i3 : source.length - 3 = i := by omega
      rw [i1, i2, i3]
      exact ⟨e0, e1, e2⟩
    · exact ih f (i + 3) _ (by omega) (by omega) (by omega)

/-- What ConvertBGRToRGB does with a source of `n` pixels of three bytes, for
a swap32 that reverses the four bytes of its argument: the first three bytes
of the destination end as the last pixel of the source with its bytes
reversed, and no other byte of the destination is written. For one pixel this
is the conversion of the pixel. -/
theorem convertBGRToRGB_result (swap32 : Nat → Nat) (source : List Nat) (dest : Nat → Nat)
    (n : Nat) (hswap : ∀ v, v < 4294967296 → swap32 v = reverseBytes32 v)
    (hlen : source.length = 3 * n) (hn : 0 < n) (hbytes : ∀ b, b ∈ source → b < 256) :
    ConvertBGRToRGB swap32 source dest 0 = source.getD (3 * (n - 1) + 2) 0 ∧
    ConvertBGRToRGB swap32 source dest 1 = source.getD (3 * (n - 1) + 1) 0 ∧
    ConvertBGRToRGB swap32 source dest 2 = source.getD (3 * (n - 1)) 0 ∧
    (∀ j, 3 ≤ j → ConvertBGRToRGB swap32 source dest j = dest j) := by
  have hb : ∀ j, source.getD j 0 < 256 := by
    intro j
    by_cases hj : j < source.length
    · rw [List.getD_eq_getElem _ _ hj]
      exact hbytes _ (List.getElem_mem _)
    · rw [List.getD_eq_default _ _ (by omega)]
      decide
  obtain ⟨h0, h1, h2⟩ := convertBGRToRGB_loop_head swap32 hswap source hb n source.length 0 dest
    hn (by omega) (by omega)
  have i1 : source.length - 1 = 3 * (n - 1) + 2 := by omega
  have i2 : source.length - 2 = 3 * (n - 1) + 1 := by omega
  have i3 : source.length - 3 = 3 * (n - 1) := by omega
  rw [i1] at h0
  rw [i2] at h1
  rw [i3] at h2
  exact ⟨h0, h1, h2, fun j hj => convertBGRToRGB_tail swap32 source dest j hj⟩

/-- The result of ConvertBGRToRGB on the single pixel 0x11, 0x22, 0x33 and on
the two pixels 1, 2, 3 and 4, 5, 6, over a destination filled with 0xEE. -/
theorem convertBGRToRGB_result_witness :
    bytesOf (ConvertBGRToRGB reverseBytes32 [0x11, 0x22, 0x33] (fun _ => 0xEE)) 4 =
      [0x33, 0x22, 0x11, 0xEE] ∧
    (ConvertBGRToRGB reverseBytes32 [1, 2, 3, 4, 5, 6] (fun _ => 0xEE) 0 =
        [1, 2, 3, 4, 5, 6].getD (3 * (2 - 1) + 2) 0 ∧
      ConvertBGRToRGB reverseBytes32 [1, 2, 3, 4, 5, 6] (fun _ => 0xEE) 1 =
        [1, 2, 3, 4, 5, 6].getD (3 * (2 - 1) + 1) 0 ∧
      ConvertBGRToRGB reverseBytes32 [1, 2, 3, 4, 5, 6] (fun _ => 0xEE) 2 =
        [1, 2, 3, 4, 5, 6].getD (3 * (2 - 1)) 0 ∧
      (∀ j, 3 ≤ j →
        ConvertBGRToRGB reverseBytes32 [1, 2, 3, 4, 5, 6] (fun _ => 0xEE) j =
          (fun _ => 0xEE) j)) :=
  ⟨by decide,
   convertBGRToRGB_result reverseBytes32 [1, 2, 3, 4, 5, 6] (fun _ => 0xEE) 2 (fun _ _ => rfl)
     (by decide) (by decide) (by decide)⟩

/-! ## C38: the swizzle decoders and LookupTexelInTile -/

set_option maxRecDepth 100000 in
theorem high_nibble (s : Nat) (h : s < 256) : (s &&& 0xF0) >>> 4 = s >>> 4 := by
  revert s
  decide

theorem subspan_ok (sp : Span) (offset count : Nat) (h : offset + count ≤ sp.size) :
    sp.subspan offset count = Except.ok ⟨sp.data + offset, count⟩ := by
  simp only [Span.subspan]
  rw [if_pos ⟨by omega, by omega⟩]

theorem fill_three_set (dest : Nat → Nat) (d a b : Nat) (k : Nat) (hk : k < 4) :
    setAt (fill dest d 3 (fun _ => a)) (d + 3) b (d + k) = (Vec4.mk a a a b).AsArray k := by
  simp only [setAt, fill]
  have : k = 0 ∨ k = 1 ∨ k = 2 ∨ k = 3 := by omega
  rcases this with rfl | rfl | rfl | rfl
  · rw [if_neg (by omega), if_pos ⟨by omega, by omega⟩]; rfl
  · rw [if_neg (by omega), if_pos ⟨by omega, by omega⟩]; rfl
  · rw [if_neg (by omega), if_pos ⟨by omega, by omega⟩]; rfl
  · rw [if_pos rfl]; rfl

/-- C38: in the tiled-to-linear direction the body of MortonCopyTile, for a
pixel (x, y) of the tile and each of the formats IA8, I8, A8, IA4 (DecodePixel)
and I4, A4 (DecodePixel4), leaves the tile as it was and writes at the linear
pixel the four bytes of the vector that LookupTexelInTile returns for the same
tile, x, y and format with disable_alpha = false. The bits per pixel of the
formats and the range of MortonInterleave are those of the missing headers;
the tile holds bytes, and the two spans hold the tile and the linear pixel. -/
theorem c38_decoders_agree_with_texel_lookup (U : VideoFns) (format : PixelFormat)
    (stride : Nat) (tile_buffer linear_buffer : Span) (x y : Nat)
    (st : (Nat → Nat) × (Nat → Nat))
    (hformat : format ∈ [PixelFormat.IA8, PixelFormat.I8, PixelFormat.A8, PixelFormat.IA4,
      PixelFormat.I4, PixelFormat.A4])
    (hIA8 : U.GetFormatBpp PixelFormat.IA8 = 16) (hI8 : U.GetFormatBpp PixelFormat.I8 = 8)
    (hA8 : U.GetFormatBpp PixelFormat.A8 = 8) (hIA4 : U.GetFormatBpp PixelFormat.IA4 = 8)
    (hI4 : U.GetFormatBpp PixelFormat.I4 = 4) (hA4 : U.GetFormatBpp PixelFormat.A4 = 4)
    (hmorton : ∀ a, a < 8 → ∀ b, b < 8 → U.MortonInterleave a b < 64)
    (hx : x < 8) (hy : y < 8) (hbytes : ∀ i, st.1 i < 256)
    (htile : 64 * U.GetFormatBpp format / 8 ≤ tile_buffer.size)
    (hlinear : u32 (u32 (u32 ((7 - y) * stride) + x) * U.GetBytesPerPixel format) +
      U.GetBytesPerPixel format ≤ linear_buffer.size) :
    ∃ out, MortonCopyTile.pixel U true format stride tile_buffer linear_buffer x y st =
        Except.ok out ∧ out.1 = st.1 ∧
      ∀ k, k < 4 →
        out.2 (linear_buffer.data +
            u32 (u32 (u32 ((7 - y) * stride) + x) * U.GetBytesPerPixel format) + k) =
          (LookupTexelInTile U (fun i => st.1 (tile_buffer.data + i)) x y
            format.toTextureFormat false).AsArray k := by
  have hm := hmorton x hx y hy
  have hl := subspan_ok linear_buffer _ _ hlinear
  have e2 : u32 (U.MortonInterleave x y * 2) = U.MortonInterleave x y * 2 :=
    u32_of_lt _ (by omega)
  have e1 : u32 (U.MortonInterleave x y) = U.MortonInterleave x y := u32_of_lt _ (by omega)
  have e0 : u32 0 = 0 := rfl
  simp only [List.mem_cons, List.mem_singleton, List.not_mem_nil, or_false] at hformat
  rcases hformat with rfl | rfl | rfl | rfl | rfl | rfl
  · rw [hIA8] at htile
    have ht := subspan_ok tile_buffer (U.MortonInterleave x y * 2) 2 (by omega)
    simp [MortonCopyTile.pixel, hIA8, ht, hl, e2]
    intro k hk
    simp only [DecodePixel, LookupTexelInTile, PixelFormat.toTextureFormat]
    rw [fill_three_set _ _ _ _ k hk]
    simp [Nat.add_assoc, e2]
  · rw [hI8] at htile
    have ht := subspan_ok tile_buffer (U.MortonInterleave x y) 1 (by omega)
    simp [MortonCopyTile.pixel, hI8, ht, hl, e1]
    intro k hk
    simp only [DecodePixel, LookupTexelInTile, PixelFormat.toTextureFormat]
    rw [fill_three_set _ _ _ _ k hk]
    simp
  · rw [hA8] at htile
    have ht := subspan_ok tile_buffer (U.MortonInterleave x y) 1 (by omega)
    simp [MortonCopyTile.pixel, hA8, ht, hl, e1]
    intro k hk
    simp only [DecodePixel, LookupTexelInTile, PixelFormat.toTextureFormat]
    rw [fill_three_set _ _ _ _ k hk]
    simp
  · rw [hIA4] at htile
    have ht := subspan_ok tile_buffer (U.MortonInterleave x y) 1 (by omega)
    simp [MortonCopyTile.pixel, hIA4, ht, hl, e1]
    intro k hk
    simp only [DecodePixel, LookupTexelInTile, PixelFormat.toTextureFormat]
    rw [fill_three_set _ _ _ _ k hk]
    simp [high_nibble _ (hbytes _)]
  · have ht := subspan_ok tile_buffer 0 0 (by omega)
    simp [MortonCopyTile.pixel, hI4, ht, hl, e0]
    intro k hk
    simp only [DecodePixel4, LookupTexelInTile, PixelFormat.toTextureFormat, if_true]
    rw [fill_three_set _ _ _ _ k hk]
    simp [Nat.shiftRight_one, high_nibble _ (hbytes _)]
  · have ht := subspan_ok tile_buffer 0 0 (by omega)
    simp [MortonCopyTile.pixel, hA4, ht, hl, e0]
    intro k hk
    simp only [DecodePixel4, LookupTexelInTile, PixelFormat.toTextureFormat, reduceCtorEq,
      if_false]
    rw [fill_three_set _ _ _ _ k hk]
    simp [Nat.shiftRight_one, high_nibble _ (hbytes _)]

/-- The pixel (3, 5) of a tile of the bytes `(37 * i + 5) % 256` in the format
IA4, decoded into a linear buffer of 8 x 8 pixels of four bytes: the byte of
the pixel is 0xA8, the pixel is written at offset 76 as 0xAA, 0xAA, 0xAA, 0x88.
-/
theorem c38_decoders_agree_with_texel_lookup_witness :
    (∃ out, MortonCopyTile.pixel sampleVideo true PixelFormat.IA4 8 ⟨0, 64⟩ ⟨0, 256⟩ 3 5
          (fun i => (37 * i + 5) % 256, fun _ => 0) = Except.ok out ∧
        out.1 = (fun i => (37 * i + 5) % 256) ∧
        ∀ k, k < 4 →
          out.2 ((⟨0, 256⟩ : Span).data +
              u32 (u32 (u32 ((7 - 5) * 8) + 3) * sampleVideo.GetBytesPerPixel PixelFormat.IA4) +
              k) =
            (LookupTexelInTile sampleVideo
              (fun i => (fun i => (37 * i + 5) % 256) ((⟨0, 64⟩ : Span).data + i)) 3 5
              PixelFormat.IA4.toTextureFormat false).AsArray k) ∧
      LookupTexelInTile sampleVideo (fun i => (37 * i + 5) % 256) 3 5 TextureFormat.IA4 false =
        ⟨0xAA, 0xAA, 0xAA, 0x88⟩ ∧
      u32 (u32 (u32 ((7 - 5) * 8) + 3) * sampleVideo.GetBytesPerPixel PixelFormat.IA4) = 76 :=
  ⟨c38_decoders_agree_with_texel_lookup sampleVideo PixelFormat.IA4 8 ⟨0, 64⟩ ⟨0, 256⟩ 3 5
      (fun i => (37 * i + 5) % 256, fun _ => 0) (by decide) rfl rfl rfl rfl rfl rfl (by decide)
      (by decide) (by decide) (fun _ => Nat.mod_lt _ (by decide)) (by decide) (by decide),
    by decide, by decide⟩

/-! ## C37: MortonCopy -/

theorem mortonCopy_loop_count (U : VideoFns) (morton_to_linear : Bool) (format : PixelFormat)
    (stride height : Nat) (linear_buffer tiled_buffer : Span) (buffer_end : Nat) :
    ∀ (fuel count : Nat) (v : MortonCopy.Vars) (st : (Nat → Nat) × (Nat → Nat))
      (r : Nat × MortonCopy.Vars × ((Nat → Nat) × (Nat → Nat))),
      MortonCopy.loop U morton_to_linear format stride height linear_buffer tiled_buffer
        buffer_end fuel count v st = Except.ok r → count ≤ r.1 := by
  intro fuel
  induction fuel with
  | zero =>
    intro count v st r h
    simp only [MortonCopy.loop, Except.ok.injEq] at h
    rw [← h]
  | succ f ih =>
    intro count v st r h
    simp only [MortonCopy.loop] at h
    split at h
    · split at h
      · cases h
      · split at h
        · cases h
        · split at h
          · cases h
          · split at h
            · cases h
            · have := ih _ _ _ _ h
              omega
    · simp only [Except.ok.injEq] at h
      rw [← h]

theorem mortonCopy_loop_enters (U : VideoFns) (morton_to_linear : Bool) (format : PixelFormat)
    (stride height : Nat) (linear_buffer tiled_buffer : Span) (buffer_end fuel : Nat)
    (v : MortonCopy.Vars) (st : (Nat → Nat) × (Nat → Nat))
    (hguard : v.tiled_offset < buffer_end)
    (r : Nat × MortonCopy.Vars × ((Nat → Nat) × (Nat → Nat)))
    (h : MortonCopy.loop U morton_to_linear format stride height linear_buffer tiled_buffer
      buffer_end (fuel + 1) 0 v st = Except.ok r) : 1 ≤ r.1 := by
  simp only [MortonCopy.loop] at h
  rw [if_pos hguard] at h
  split at h
  · cases h
  · split at h
    · cases h
    · split at h
      · cases h
      · split at h
        · cases h
        · exact mortonCopy_loop_count _ _ _ _ _ _ _ _ _ _ _ _ _ h

theorem mortonCopy_loop_small_buffer (U : VideoFns) (morton_to_linear : Bool)
    (format : PixelFormat) (stride height : Nat) (linear_buffer tiled_buffer : Span)
    (buffer_end fuel count : Nat) (v : MortonCopy.Vars) (st : (Nat → Nat) × (Nat → Nat))
    (hguard : v.tiled_offset < buffer_end)
    (hsmall : tiled_buffer.size < v.tiled_offset + u32 (U.GetFormatBpp format * 64) / 8) :
    ∃ e, MortonCopy.loop U morton_to_linear format stride height linear_buffer tiled_buffer
      buffer_end (fuel + 1) count v st = Except.error e := by
  simp only [MortonCopy.loop]
  rw [if_pos hguard]
  split
  · exact ⟨_, rfl⟩
  · have hs : tiled_buffer.subspan v.tiled_offset (u32 (U.GetFormatBpp format * 64) / 8) =
        Except.error Fault.outOfBounds := by
      simp only [Span.subspan]
      rw [if_neg (by omega)]
    rw [hs]
    exact ⟨_, rfl⟩

theorem mortonCopy_first_tiled_offset (U : VideoFns) (morton_to_linear : Bool)
    (format : PixelFormat) (stride height start_offset end_offset : Nat)
    (linear_buffer tiled_buffer : Span) (tmp_buf : Nat → Nat) (v : MortonCopy.Vars)
    (st : (Nat → Nat) × (Nat → Nat)) (r : MortonCopy.Vars × ((Nat → Nat) × (Nat → Nat)))
    (h : MortonCopy.first U morton_to_linear format stride height start_offset end_offset
      linear_buffer tiled_buffer tmp_buf v st = Except.ok r) :
    r.1.tiled_offset = u32 (v.tiled_offset +
      sub32 (u32 (U.AlignUp start_offset (u32 (U.GetFormatBpp format * 64) / 8)))
        start_offset) := by
  simp only [MortonCopy.first] at h
  split at h
  · cases h
  · split at h
    · cases h
    · split at h
      · split at h
        · cases h
        · rename_i v1 hv
          simp only [Except.ok.injEq] at h
          rw [← h]
          simp only [MortonCopy.linear_next_tile] at hv
          split_ifs at hv <;> cases hv <;> rfl
      · cases h
theorem linear_next_tile_tiled_offset (a stride height : Nat) (v v1 : MortonCopy.Vars)
    (h : MortonCopy.linear_next_tile a stride height v = Except.ok v1) :
    v1.tiled_offset = v.tiled_offset := by
  simp only [MortonCopy.linear_next_tile] at h
  split_ifs at h <;> cases h <;> rfl

theorem mortonCopy_loop_never_exits (U : VideoFns) (morton_to_linear : Bool)
    (format : PixelFormat) (stride height : Nat) (linear_buffer tiled_buffer : Span)
    (buffer_end : Nat) (hts : 0 < u32 (U.GetFormatBpp format * 64) / 8)
    (hsize : tiled_buffer.size < buffer_end) (hend : buffer_end ≤ 4294967296) :
    ∀ (fuel count : Nat) (v : MortonCopy.Vars) (st : (Nat → Nat) × (Nat → Nat)),
      v.tiled_offset < buffer_end → tiled_buffer.size - v.tiled_offset < fuel →
      ∃ e, MortonCopy.loop U morton_to_linear format stride height linear_buffer tiled_buffer
        buffer_end fuel count v st = Except.error e := by
  intro fuel
  induction fuel with
  | zero => intro count v st _ h; omega
  | succ f ih =>
    intro count v st hguard hfuel
    simp only [MortonCopy.loop]
    rw [if_pos hguard]
    split
    · exact ⟨_, rfl⟩
    · split
      · exact ⟨_, rfl⟩
      · rename_i tiled_data hsub
        have hfit : v.tiled_offset + u32 (U.GetFormatBpp format * 64) / 8 ≤ tiled_buffer.size := by
          simp only [Span.subspan] at hsub
          split_ifs at hsub with hc
          · omega
        split
        · exact ⟨_, rfl⟩
        · split
          · exact ⟨_, rfl⟩
          · rename_i v1 hv1
            have e := linear_next_tile_tiled_offset _ _ _ _ _ hv1
            simp only at e
            rw [u32_of_lt _ (by omega)] at e
            exact ih _ v1 _ (by omega) (by omega)
theorem mortonCopy_run_same_tile (U : VideoFns) (format : PixelFormat)
    (stride height start_offset end_offset : Nat) (linear_buffer tiled_buffer : Span)
    (tmp_buf : Nat → Nat) (st : (Nat → Nat) × (Nat → Nat))
    (hts : 0 < u32 (U.GetFormatBpp format * 64) / 8)
    (hup : start_offset < U.AlignUp start_offset (u32 (U.GetFormatBpp format * 64) / 8))
    (hup32 : U.AlignUp start_offset (u32 (U.GetFormatBpp format * 64) / 8) < 4294967296)
    (hdown : U.AlignDown end_offset (u32 (U.GetFormatBpp format * 64) / 8) < start_offset)
    (hsize : tiled_buffer.size +
      (start_offset - U.AlignDown end_offset (u32 (U.GetFormatBpp format * 64) / 8)) <
        4294967296) :
    ∃ e, MortonCopy.run U false format stride height start_offset end_offset linear_buffer
      tiled_buffer tmp_buf st = Except.error e := by
  have eup := u32_of_lt _ hup32
  have edown := u32_of_lt (U.AlignDown end_offset (u32 (U.GetFormatBpp format * 64) / 8))
    (by omega)
  simp only [MortonCopy.run, eup, edown]
  rw [if_neg (by simp)]
  split
  · exact ⟨_, rfl⟩
  · rw [if_pos ⟨hup, by simp⟩]
    split
    · exact ⟨_, rfl⟩
    · rename_i v1 st1 hfirst
      have ht := mortonCopy_first_tiled_offset _ _ _ _ _ _ _ _ _ _ _ _ _ hfirst
      simp only [eup, Nat.zero_add] at ht
      have hsub : sub32 (U.AlignUp start_offset (u32 (U.GetFormatBpp format * 64) / 8))
          start_offset =
          U.AlignUp start_offset (u32 (U.GetFormatBpp format * 64) / 8) - start_offset := by
        simp only [sub32]; omega
      rw [hsub, u32_of_lt _ (by omega)] at ht
      have hend : sub32 (u32 (v1.tiled_offset +
            U.AlignDown end_offset (u32 (U.GetFormatBpp format * 64) / 8)))
          (U.AlignUp start_offset (u32 (U.GetFormatBpp format * 64) / 8)) =
          4294967296 -
            (start_offset - U.AlignDown end_offset (u32 (U.GetFormatBpp format * 64) / 8)) := by
        rw [u32_of_lt _ (by omega)]
        simp only [sub32]; omega
      rw [hend]
      obtain ⟨e, he⟩ := mortonCopy_loop_never_exits U false format stride height linear_buffer
        tiled_buffer
        (4294967296 -
          (start_offset - U.AlignDown end_offset (u32 (U.GetFormatBpp format * 64) / 8)))
        hts (by omega) (by omega) (tiled_buffer.size + 1) 0 v1 st1 (by omega) (by omega)
      rw [he]
      exact ⟨_, rfl⟩

/-- C37 at its failing input: the linear-to-tiled copy of the RGB565 bytes 10
to 20, which lie inside the first tile of 128 bytes, from a linear buffer of
8 x 8 pixels to a tiled buffer of 10 bytes. MortonCopy ends with an
out-of-bounds fault where the claim has it return. The first block copies the
10 bytes and leaves the tiled offset at 118; the bound of the full-tile loop,
118 + 0 - 128 in 32 bits, is 4294967286, so the loop is entered where the
claim has it run zero times, and its `tiled_buffer.subspan(118, 128)` leaves
the 10 bytes of the buffer. -/
theorem c37_same_tile_range_enters_full_tile_loop :
    faultOf (MortonCopy sampleVideo false PixelFormat.RGB565 8 8 10 20 ⟨0, 128⟩ ⟨0, 10⟩
      (fun _ => 0) (fun _ => 0xFF, fun i => i % 251)) = some Fault.outOfBounds ∧
    (MortonCopy.first sampleVideo false PixelFormat.RGB565 8 8 10 20 ⟨0, 128⟩ ⟨0, 10⟩
      (fun _ => 0) ⟨0, 0, 0, 0⟩ (fun _ => 0xFF, fun i => i % 251)).toOption.map
        (fun r => (r.1, changedOffsets (fun _ => 0xFF) r.2.1 128)) =
      some (⟨0, 0, 16, 118⟩, List.range 10) ∧
    sub32 (u32 (118 + u32 (sampleVideo.AlignDown 20 128))) (u32 (sampleVideo.AlignUp 10 128)) =
      4294967286 ∧
    faultOf ((⟨0, 10⟩ : Span).subspan 118 128) = some Fault.outOfBounds := by
  decide

/-- What MortonCopy does with a range inside one tile: for a linear-to-tiled
copy whose start is below its aligned-up start and whose aligned-down end is
below the start, and a tiled buffer that does not reach up to the wrapped
loop bound, MortonCopy never returns, whatever the linear buffer, the format
and the memory are: the tiled offset after the first block is below the loop
bound `tiled_offset + aligned_end_offset - aligned_start_offset`, which has
wrapped in 32 bits, and the loop only ends by leaving one of the buffers. -/
theorem mortonCopy_same_tile_range (U : VideoFns) (format : PixelFormat)
    (stride height start_offset end_offset : Nat) (linear_buffer tiled_buffer : Span)
    (tmp_buf : Nat → Nat) (st : (Nat → Nat) × (Nat → Nat))
    (hts : 0 < u32 (U.GetFormatBpp format * 64) / 8)
    (hup : start_offset < U.AlignUp start_offset (u32 (U.GetFormatBpp format * 64) / 8))
    (hup32 : U.AlignUp start_offset (u32 (U.GetFormatBpp format * 64) / 8) < 4294967296)
    (hdown : U.AlignDown end_offset (u32 (U.GetFormatBpp format * 64) / 8) < start_offset)
    (hsize : tiled_buffer.size +
      (start_offset - U.AlignDown end_offset (u32 (U.GetFormatBpp format * 64) / 8)) <
        4294967296) :
    ∃ e, MortonCopy U false format stride height start_offset end_offset linear_buffer
      tiled_buffer tmp_buf st = Except.error e := by
  obtain ⟨e, he⟩ := mortonCopy_run_same_tile U format stride height start_offset end_offset
    linear_buffer tiled_buffer tmp_buf st hts hup hup32 hdown hsize
  exact ⟨e, by simp only [MortonCopy, he]⟩

/-- The copy of the RGBA8 bytes 300 to 500, inside the second tile of 256
bytes, from a linear buffer of 16 x 8 pixels to a tiled buffer of 200 bytes
does not return. -/
theorem mortonCopy_same_tile_range_witness :
    ∃ e, MortonCopy sampleVideo false PixelFormat.RGBA8 16 8 300 500 ⟨0, 512⟩ ⟨0, 200⟩
      (fun _ => 0) (fun _ => 0xFF, fun i => i % 251) = Except.error e :=
  mortonCopy_same_tile_range sampleVideo PixelFormat.RGBA8 16 8 300 500 ⟨0, 512⟩ ⟨0, 200⟩
    (fun _ => 0) (fun _ => 0xFF, fun i => i % 251) (by decide) (by decide) (by decide)
    (by decide) (by decide)

theorem encodePixel_frame (U : VideoFns) (format : PixelFormat) (source dest : Nat → Nat)
    (d j : Nat) (hfmt : format = PixelFormat.D24S8 → 4 ≤ U.GetFormatBpp format / 8)
    (hj : j < d ∨ d + U.GetFormatBpp format / 8 ≤ j) :
    EncodePixel U format source dest d j = dest j := by
  simp only [EncodePixel]
  split_ifs with hf
  · have := hfmt hf
    simp only [fill]
    rw [if_neg (by omega)]
  · simp only [fill]
    rw [if_neg (by omega)]

theorem mortonCopyTile_pixel_frame (U : VideoFns) (format : PixelFormat) (stride : Nat)
    (tile_buffer linear_buffer : Span) (x y : Nat) (st out : (Nat → Nat) × (Nat → Nat))
    (hfmt : format = PixelFormat.D24S8 → 4 ≤ U.GetFormatBpp format / 8)
    (h : MortonCopyTile.pixel U false format stride tile_buffer linear_buffer x y st =
      Except.ok out) :
    out.2 = st.2 ∧
    ∀ j, j < tile_buffer.data ∨ tile_buffer.data + tile_buffer.size ≤ j → out.1 j = st.1 j := by
  simp only [MortonCopyTile.pixel] at h
  split at h
  · cases h
  · rename_i tiled_pixel ht
    split at h
    · cases h
    · simp only [Bool.false_eq_true, if_false, Except.ok.injEq] at h
      rw [← h]
      refine ⟨rfl, ?_⟩
      intro j hj
      simp only [Span.subspan] at ht
      split_ifs at ht with hc
      simp only [Except.ok.injEq] at ht
      rw [← ht]
      apply encodePixel_frame U format _ _ _ j hfmt
      dsimp only
      omega

theorem mortonCopyTile_run_frame (U : VideoFns) (format : PixelFormat) (stride : Nat)
    (tile_buffer linear_buffer : Span)
    (hfmt : format = PixelFormat.D24S8 → 4 ≤ U.GetFormatBpp format / 8) :
    ∀ (pixels : List (Nat × Nat)) (st out : (Nat → Nat) × (Nat → Nat)),
      MortonCopyTile.run U false format stride tile_buffer linear_buffer pixels st =
        Except.ok out →
      out.2 = st.2 ∧
      ∀ j, j < tile_buffer.data ∨ tile_buffer.data + tile_buffer.size ≤ j →
        out.1 j = st.1 j := by
  intro pixels
  induction pixels with
  | nil =>
    intro st out h
    simp only [MortonCopyTile.run, Except.ok.injEq] at h
    rw [← h]
    exact ⟨rfl, fun _ _ => rfl⟩
  | cons p rest ih =>
    intro st out h
    obtain ⟨x, y⟩ := p
    simp only [MortonCopyTile.run] at h
    split at h
    · rename_i st1 h1
      obtain ⟨a1, b1⟩ := mortonCopyTile_pixel_frame U format stride tile_buffer linear_buffer
        x y st st1 hfmt h1
      obtain ⟨a2, b2⟩ := ih st1 out h
      exact ⟨a2.trans a1, fun j hj => (b2 j hj).trans (b1 j hj)⟩
    · cases h

theorem mortonCopyTile_frame (U : VideoFns) (format : PixelFormat) (stride : Nat)
    (tile_buffer linear_buffer : Span) (st out : (Nat → Nat) × (Nat → Nat))
    (hfmt : format = PixelFormat.D24S8 → 4 ≤ U.GetFormatBpp format / 8)
    (h : MortonCopyTile U false format stride tile_buffer linear_buffer st = Except.ok out) :
    out.2 = st.2 ∧
    ∀ j, j < tile_buffer.data ∨ tile_buffer.data + tile_buffer.size ≤ j → out.1 j = st.1 j :=
  mortonCopyTile_run_frame U format stride tile_buffer linear_buffer hfmt tilePixels st out h

theorem mortonCopy_loop_result (U : VideoFns) (format : PixelFormat) (stride height : Nat)
    (linear_buffer tiled_buffer : Span) (buffer_end : Nat)
    (hfmt : format = PixelFormat.D24S8 → 4 ≤ U.GetFormatBpp format / 8)
    (hts : 0 < u32 (U.GetFormatBpp format * 64) / 8)
    (hsize : tiled_buffer.size < 4294967296) :
    ∀ (fuel k count : Nat) (v : MortonCopy.Vars) (st : (Nat → Nat) × (Nat → Nat))
      (r : Nat × MortonCopy.Vars × ((Nat → Nat) × (Nat → Nat))),
      buffer_end = v.tiled_offset + k * (u32 (U.GetFormatBpp format * 64) / 8) →
      tiled_buffer.size - v.tiled_offset < fuel →
      MortonCopy.loop U false format stride height linear_buffer tiled_buffer buffer_end fuel
        count v st = Except.ok r →
      r.1 = count + k ∧ r.2.1.tiled_offset = buffer_end ∧
      ∀ j, j < tiled_buffer.data + v.tiled_offset ∨ tiled_buffer.data + buffer_end ≤ j →
        r.2.2.1 j = st.1 j := by
  intro fuel
  induction fuel with
  | zero => intro k count v st r _ h; omega
  | succ f ih =>
    intro k count v st r hk hfuel h
    simp only [MortonCopy.loop] at h
    split at h
    · rename_i hguard
      split at h
      · cases h
      · split at h
        · cases h
        · rename_i tiled_data hsub
          have hfit : v.tiled_offset + u32 (U.GetFormatBpp format * 64) / 8 ≤
              tiled_buffer.size ∧
              tiled_data = ⟨tiled_buffer.data + v.tiled_offset,
                u32 (U.GetFormatBpp format * 64) / 8⟩ := by
            simp only [Span.subspan] at hsub
            split_ifs at hsub with hc
            simp only [Except.ok.injEq] at hsub
            exact ⟨by omega, hsub.symm⟩
          split at h
          · cases h
          · rename_i st1 htile
            split at h
            · cases h
            · rename_i v1 hv1
              have e := linear_next_tile_tiled_offset _ _ _ _ _ hv1
              simp only at e
              rw [u32_of_lt _ (by omega)] at e
              obtain ⟨k1, rfl⟩ : ∃ k1, k = k1 + 1 := ⟨k - 1, by
                rcases Nat.eq_zero_or_pos k with h0 | h0
                · subst h0; omega
                · omega⟩
              have hk1 : buffer_end =
                  v1.tiled_offset + k1 * (u32 (U.GetFormatBpp format * 64) / 8) := by
                rw [e, hk, Nat.add_mul]; omega
              obtain ⟨c1, c2, c3⟩ := ih k1 (count + 1) v1 st1 r hk1 (by omega) h
              obtain ⟨_, f2⟩ := mortonCopyTile_frame U format stride tiled_data _ st st1 hfmt
                htile
              refine ⟨by omega, c2, ?_⟩
              intro j hj
              rw [c3 j (by omega)]
              apply f2
              rw [hfit.2]
              simp only
              have : v.tiled_offset + u32 (U.GetFormatBpp format * 64) / 8 ≤ buffer_end := by
                rw [hk, Nat.add_mul]; omega
              omega
    · rename_i hguard
      simp only [Except.ok.injEq] at h
      rw [← h]
      have hk0 : k = 0 := by
        rcases Nat.eq_zero_or_pos k with h0 | h0
        · exact h0
        · exfalso
          have : 1 * (u32 (U.GetFormatBpp format * 64) / 8) ≤
              k * (u32 (U.GetFormatBpp format * 64) / 8) := Nat.mul_le_mul_right _ h0
          omega
      subst hk0
      exact ⟨by omega, by simp only; omega, fun _ _ => rfl⟩
theorem mortonCopy_first_frame (U : VideoFns) (morton_to_linear : Bool)
    (format : PixelFormat) (stride height start_offset end_offset : Nat)
    (linear_buffer tiled_buffer : Span) (tmp_buf : Nat → Nat) (v : MortonCopy.Vars)
    (st : (Nat → Nat) × (Nat → Nat)) (r : MortonCopy.Vars × ((Nat → Nat) × (Nat → Nat)))
    (h : MortonCopy.first U morton_to_linear format stride height start_offset end_offset
      linear_buffer tiled_buffer tmp_buf v st = Except.ok r) (j : Nat)
    (hj : j < tiled_buffer.data ∨ tiled_buffer.data +
      sub32 (min (u32 (U.AlignUp start_offset (u32 (U.GetFormatBpp format * 64) / 8)))
        end_offset) start_offset ≤ j) :
    r.2.1 j = st.1 j := by
  simp only [MortonCopy.first] at h
  split at h
  · cases h
  · split at h
    · cases h
    · split at h
      · split at h
        · cases h
        · simp only [Except.ok.injEq] at h
          rw [← h]
          simp only [fill]
          rw [if_neg (by omega)]
      · cases h

theorem mortonCopy_last_frame (U : VideoFns) (morton_to_linear : Bool)
    (format : PixelFormat) (stride end_offset : Nat)
    (linear_buffer tiled_buffer : Span) (tmp_buf : Nat → Nat) (v : MortonCopy.Vars)
    (st out : (Nat → Nat) × (Nat → Nat))
    (h : MortonCopy.last U morton_to_linear format stride end_offset linear_buffer tiled_buffer
      tmp_buf v st = Except.ok out) (j : Nat)
    (hj : j < tiled_buffer.data + v.tiled_offset ∨ tiled_buffer.data + v.tiled_offset +
      sub32 end_offset (u32 (U.AlignDown end_offset (u32 (U.GetFormatBpp format * 64) / 8)))
        ≤ j) :
    out.1 j = st.1 j := by
  simp only [MortonCopy.last] at h
  split at h
  · cases h
  · split at h
    · cases h
    · split at h
      · simp only [Except.ok.injEq] at h
        rw [← h]
        simp only [fill]
        rw [if_neg (by omega)]
      · cases h

theorem mortonCopy_run_result (U : VideoFns) (format : PixelFormat)
    (stride height start_offset end_offset k : Nat) (linear_buffer tiled_buffer : Span)
    (tmp_buf : Nat → Nat) (st : (Nat → Nat) × (Nat → Nat))
    (r : Nat × ((Nat → Nat) × (Nat → Nat)))
    (hfmt : format = PixelFormat.D24S8 → 4 ≤ U.GetFormatBpp format / 8)
    (hts : 0 < u32 (U.GetFormatBpp format * 64) / 8)
    (hsize : tiled_buffer.size < 4294967296)
    (hup : start_offset ≤ U.AlignUp start_offset (u32 (U.GetFormatBpp format * 64) / 8))
    (hk : U.AlignDown end_offset (u32 (U.GetFormatBpp format * 64) / 8) =
      U.AlignUp start_offset (u32 (U.GetFormatBpp format * 64) / 8) +
        k * (u32 (U.GetFormatBpp format * 64) / 8))
    (hdown : U.AlignDown end_offset (u32 (U.GetFormatBpp format * 64) / 8) ≤ end_offset)
    (hend : end_offset < 4294967296)
    (h : MortonCopy.run U false format stride height start_offset end_offset linear_buffer
      tiled_buffer tmp_buf st = Except.ok r) :
    r.1 = k ∧
    ∀ j, j < tiled_buffer.data ∨ tiled_buffer.data + (end_offset - start_offset) ≤ j →
      r.2.1 j = st.1 j := by
  have edown := u32_of_lt (U.AlignDown end_offset (u32 (U.GetFormatBpp format * 64) / 8))
    (by omega)
  have eup := u32_of_lt (U.AlignUp start_offset (u32 (U.GetFormatBpp format * 64) / 8))
    (by omega)
  simp only [MortonCopy.run, eup, edown, Bool.false_eq_true, false_and, if_false,
    not_false_eq_true, and_true] at h
  split at h
  · cases h
  · split at h
    · cases h
    · rename_i v1 st1 hfirst
      have hv1 : v1.tiled_offset =
            U.AlignUp start_offset (u32 (U.GetFormatBpp format * 64) / 8) - start_offset ∧
          ∀ j, j < tiled_buffer.data ∨ tiled_buffer.data + (end_offset - start_offset) ≤ j →
            st1.1 j = st.1 j := by
        split_ifs at hfirst with hc
        · have ht := mortonCopy_first_tiled_offset _ _ _ _ _ _ _ _ _ _ _ _ _ hfirst
          simp only [eup, Nat.zero_add] at ht
          have hsub : sub32 (U.AlignUp start_offset (u32 (U.GetFormatBpp format * 64) / 8))
              start_offset =
              U.AlignUp start_offset (u32 (U.GetFormatBpp format * 64) / 8) - start_offset := by
            simp only [sub32]; omega
          rw [hsub, u32_of_lt _ (by omega)] at ht
          refine ⟨ht, ?_⟩
          intro j hj
          apply mortonCopy_first_frame _ _ _ _ _ _ _ _ _ _ _ _ _ hfirst j
          rw [eup]
          have hmin : sub32 (min (U.AlignUp start_offset (u32 (U.GetFormatBpp format * 64) / 8))
              end_offset) start_offset =
              U.AlignUp start_offset (u32 (U.GetFormatBpp format * 64) / 8) - start_offset := by
            rw [Nat.min_eq_left (by omega)]
            exact hsub
          rw [hmin]
          omega
        · simp only [Except.ok.injEq, Prod.mk.injEq] at hfirst
          obtain ⟨e1, e2⟩ := hfirst
          rw [← e1, ← e2]
          refine ⟨?_, fun _ _ => rfl⟩
          simp only
          omega
      obtain ⟨ht, hf1⟩ := hv1
      have hbe : sub32 (u32 (v1.tiled_offset +
            U.AlignDown end_offset (u32 (U.GetFormatBpp format * 64) / 8)))
          (U.AlignUp start_offset (u32 (U.GetFormatBpp format * 64) / 8)) =
          v1.tiled_offset + k * (u32 (U.GetFormatBpp format * 64) / 8) := by
        clear h hf1 hfirst
        generalize u32 (U.GetFormatBpp format * 64) / 8 = ts at *
        generalize U.AlignUp start_offset ts = a at *
        generalize U.AlignDown end_offset ts = b at *
        generalize k * ts = kt at *
        simp only [sub32, u32]; omega
      rw [hbe] at h
      split at h
      · cases h
      · rename_i count v2 st2 hloop
        obtain ⟨c1, c2, c3⟩ := mortonCopy_loop_result U format stride height linear_buffer
          tiled_buffer _ hfmt hts hsize _ k 0 v1 st1 _ rfl (by omega) hloop
        simp only at c1 c2 c3
        have hframe2 : ∀ j, j < tiled_buffer.data ∨
            tiled_buffer.data + (end_offset - start_offset) ≤ j → st2.1 j = st.1 j := by
          intro j hj
          rcases hj with hj | hj
          · rw [c3 j (by omega)]
            exact hf1 j (Or.inl hj)
          · rw [c3 j (by omega)]
            exact hf1 j (Or.inr hj)
        split_ifs at h with hc
        · split at h
          · cases h
          · rename_i st3 hlast
            simp only [Except.ok.injEq] at h
            rw [← h]
            refine ⟨by simp only; omega, ?_⟩
            intro j hj
            simp only
            rw [mortonCopy_last_frame _ _ _ _ _ _ _ _ _ _ _ hlast j (by
              rw [edown]
              have : sub32 end_offset
                  (U.AlignDown end_offset (u32 (U.GetFormatBpp format * 64) / 8)) =
                  end_offset - U.AlignDown end_offset (u32 (U.GetFormatBpp format * 64) / 8) := by
                simp only [sub32]; omega
              rw [this]
              omega)]
            exact hframe2 j hj
        · simp only [Except.ok.injEq] at h
          rw [← h]
          exact ⟨by simp only; omega, hframe2⟩

/-- What MortonCopy does with a range that is not inside one tile: for a
linear-to-tiled copy with start_offset up to its aligned-up start, the
aligned-up start up to the aligned-down end, a whole number of tiles between
the two, and the aligned-down end up to end_offset, whenever MortonCopy
returns, the body of the full-tile loop has run
(aligned_end_offset - aligned_start_offset) / tile_size times and every byte
of the tiled memory outside the first end_offset - start_offset bytes of the
tiled buffer is as before. A D24S8 pixel is stored as four bytes, so its
format has four bytes per pixel. -/
theorem mortonCopy_across_tiles (U : VideoFns) (format : PixelFormat)
    (stride height start_offset end_offset : Nat) (linear_buffer tiled_buffer : Span)
    (tmp_buf : Nat → Nat) (st : (Nat → Nat) × (Nat → Nat))
    (hfmt : format = PixelFormat.D24S8 → 4 ≤ U.GetFormatBpp format / 8)
    (hts : 0 < u32 (U.GetFormatBpp format * 64) / 8)
    (hsize : tiled_buffer.size < 4294967296)
    (hup : start_offset ≤ U.AlignUp start_offset (u32 (U.GetFormatBpp format * 64) / 8))
    (hle : U.AlignUp start_offset (u32 (U.GetFormatBpp format * 64) / 8) ≤
      U.AlignDown end_offset (u32 (U.GetFormatBpp format * 64) / 8))
    (hdvd : u32 (U.GetFormatBpp format * 64) / 8 ∣
      U.AlignDown end_offset (u32 (U.GetFormatBpp format * 64) / 8) -
        U.AlignUp start_offset (u32 (U.GetFormatBpp format * 64) / 8))
    (hdown : U.AlignDown end_offset (u32 (U.GetFormatBpp format * 64) / 8) ≤ end_offset)
    (hend : end_offset < 4294967296) :
    match MortonCopy.run U false format stride height start_offset end_offset linear_buffer
      tiled_buffer tmp_buf st with
    | Except.ok r =>
        r.1 = (U.AlignDown end_offset (u32 (U.GetFormatBpp format * 64) / 8) -
          U.AlignUp start_offset (u32 (U.GetFormatBpp format * 64) / 8)) /
            (u32 (U.GetFormatBpp format * 64) / 8) ∧
        ∀ j, j < tiled_buffer.data ∨ tiled_buffer.data + (end_offset - start_offset) ≤ j →
          r.2.1 j = st.1 j
    | Except.error _ => True := by
  split
  · rename_i r h
    obtain ⟨k, hk⟩ := hdvd
    have hk1 : U.AlignDown end_offset (u32 (U.GetFormatBpp format * 64) / 8) =
        U.AlignUp start_offset (u32 (U.GetFormatBpp format * 64) / 8) +
          k * (u32 (U.GetFormatBpp format * 64) / 8) := by
      rw [Nat.mul_comm k]; omega
    obtain ⟨c1, c2⟩ := mortonCopy_run_result U format stride height start_offset end_offset k
      linear_buffer tiled_buffer tmp_buf st r hfmt hts hsize hup hk1 hdown hend h
    refine ⟨?_, c2⟩
    rw [c1, hk, Nat.mul_div_cancel_left _ hts]
  · trivial

set_option maxRecDepth 1000000 in
set_option maxHeartbeats 4000000 in
/-- The copy of the RGB565 bytes 10 to 300, which end in the third tile of 128
bytes, from a linear buffer of 24 x 8 pixels to a tiled buffer of 290 bytes,
all 0xFF before: MortonCopy returns, the body of the full-tile loop has run
once, and the tiled offsets that have changed are the 290 offsets below
end_offset - start_offset. -/
theorem mortonCopy_across_tiles_witness :
    (match MortonCopy.run sampleVideo false PixelFormat.RGB565 24 8 10 300 ⟨0, 384⟩ ⟨0, 290⟩
        (fun _ => 0) (fun _ => 0xFF, fun i => i % 251) with
      | Except.ok r =>
          r.1 = (sampleVideo.AlignDown 300
              (u32 (sampleVideo.GetFormatBpp PixelFormat.RGB565 * 64) / 8) -
            sampleVideo.AlignUp 10
              (u32 (sampleVideo.GetFormatBpp PixelFormat.RGB565 * 64) / 8)) /
              (u32 (sampleVideo.GetFormatBpp PixelFormat.RGB565 * 64) / 8) ∧
          ∀ j, j < (⟨0, 290⟩ : Span).data ∨ (⟨0, 290⟩ : Span).data + (300 - 10) ≤ j →
            r.2.1 j = (fun _ => 0xFF, fun i => i % 251).1 j
      | Except.error _ => True) ∧
    (MortonCopy.run sampleVideo false PixelFormat.RGB565 24 8 10 300 ⟨0, 384⟩ ⟨0, 290⟩
      (fun _ => 0) (fun _ => 0xFF, fun i => i % 251)).toOption.map
        (fun r => (r.1, changedOffsets (fun _ => 0xFF) r.2.1 512)) =
      some (1, List.range 290) :=
  ⟨mortonCopy_across_tiles sampleVideo PixelFormat.RGB565 24 8 10 300 ⟨0, 384⟩ ⟨0, 290⟩
      (fun _ => 0) (fun _ => 0xFF, fun i => i % 251) (by decide) (by decide) (by decide)
      (by decide) (by decide) (by decide) (by decide) (by decide),
    by decide⟩

/-! ## C7: CopyBlock against ReadBlock followed by WriteBlock -/

theorem walkBlock_invariant {ε α : Type} (K : MemoryMap) (t : Nat) (H : Handlers ε α)
    (P : MemorySystem ε → Prop)
    (h1 : ∀ a b st st', P st.1 → H.on_unmapped a b st = Except.ok st' → P st'.1)
    (h2 : ∀ a b st st', P st.1 → H.on_memory a b st = Except.ok st' → P st'.1)
    (h3 : ∀ a b c st st', P st.1 → H.on_special a b c st = Except.ok st' → P st'.1)
    (h4 : ∀ a b c st st', P st.1 → H.on_rasterizer a b c st = Except.ok st' → P st'.1)
    (src_addr size : Nat) (st st' : MemorySystem ε × α) (hP : P st.1)
    (h : WalkBlock K t H src_addr size st = Except.ok st') : P st'.1 := by
  unfold WalkBlock at h
  refine walkLoop_invariant (WalkBlock.body K t H) (fun x => P x.1) ?_ _ _ _ _ st st' hP h
  intro c x x' hx hbody
  unfold WalkBlock.body at hbody
  split at hbody
  · cases hbody
  · simp only at hbody
    split at hbody
    · rename_i x1 hx1
      cases hbody
      simp only
      split at hx1
      · exact h1 _ _ _ _ hx hx1
      · split at hx1
        · exact h2 _ _ _ _ hx hx1
        · cases hx1
      · split at hx1
        · exact h3 _ _ _ _ _ hx hx1
        · cases hx1
      · split at hx1
        · exact h4 _ _ _ _ _ hx hx1
        · cases hx1
    · cases hbody

theorem checkRegion_invalidate_sim {ε : Type} (K : MemoryMap) (E : Collaborators ε)
    (Sim : ε → ε → Prop) (hE : E.Decoupled K Sim) (a b c d e : Nat) (s : MemorySystem ε) :
    Sim (CheckRegion E FlushMode.Invalidate a b c d e s).world s.world := by
  unfold CheckRegion
  split
  · exact hE.sim_refl _
  · exact hE.invalidate_sim _ _ _

theorem flushVirtual_invalidate_sim {ε : Type} (K : MemoryMap) (E : Collaborators ε)
    (Sim : ε → ε → Prop) (hE : E.Decoupled K Sim) (a n : Nat) (s : MemorySystem ε) :
    Sim (RasterizerFlushVirtualRegion K E a n FlushMode.Invalidate s).world s.world := by
  unfold RasterizerFlushVirtualRegion
  split
  · exact hE.sim_refl _
  · exact hE.sim_trans _ _ _ (checkRegion_invalidate_sim K E Sim hE _ _ _ _ _ _)
      (hE.sim_trans _ _ _ (checkRegion_invalidate_sim K E Sim hE _ _ _ _ _ _)
        (checkRegion_invalidate_sim K E Sim hE _ _ _ _ _ _))

/-- WriteBlockImpl leads to an equivalent state of the collaborators. -/
theorem writeBlockImpl_sim {ε : Type} (K : MemoryMap) (E : Collaborators ε)
    (Sim : ε → ε → Prop) (hE : E.Decoupled K Sim) (t dest_addr : Nat)
    (src : Backing → Nat → Nat) (size : Nat) (s s' : MemorySystem ε)
    (h : WriteBlockImpl K E t dest_addr src size s = Except.ok s') : Sim s'.world s.world := by
  unfold WriteBlockImpl at h
  split at h
  · rename_i st hst
    cases h
    refine walkBlock_invariant K t _ (fun x => Sim x.world s.world) ?_ ?_ ?_ ?_ _ _ _ _
      (hE.sim_refl _) hst
    · intro a b st st' hP h; cases h; exact hP
    · intro a b st st' hP h; cases h; exact hP
    · intro a b c st st' hP h; cases h
      exact hE.sim_trans _ _ _ (hE.write_sim _ _ _ _) hP
    · intro a b c st st' hP h; cases h
      exact hE.sim_trans _ _ _ (flushVirtual_invalidate_sim K E Sim hE _ _ _) hP
  · cases h

/-- ZeroBlock leads to an equivalent state of the collaborators. -/
theorem zeroBlock_sim {ε : Type} (K : MemoryMap) (E : Collaborators ε)
    (Sim : ε → ε → Prop) (hE : E.Decoupled K Sim) (t dest_addr size : Nat)
    (s s' : MemorySystem ε)
    (h : ZeroBlock K E t dest_addr size s = Except.ok s') : Sim s'.world s.world := by
  unfold ZeroBlock at h
  split at h
  · rename_i st hst
    cases h
    refine walkBlock_invariant K t _ (fun x => Sim x.world s.world) ?_ ?_ ?_ ?_ _ _ _ _
      (hE.sim_refl _) hst
    · intro a b st st' hP h; cases h; exact hP
    · intro a b st st' hP h; cases h; exact hP
    · intro a b c st st' hP h; cases h
      exact hE.sim_trans _ _ _ (hE.write_sim _ _ _ _) hP
    · intro a b c st st' hP h; cases h
      exact hE.sim_trans _ _ _ (flushVirtual_invalidate_sim K E Sim hE _ _ _) hP
  · cases h

/-- The registered tables and the current table are not touched by
WriteBlockImpl. -/
theorem writeBlockImpl_registry {ε : Type} (K : MemoryMap) (E : Collaborators ε)
    (t dest_addr : Nat) (src : Backing → Nat → Nat) (size : Nat) (s s' : MemorySystem ε)
    (h : WriteBlockImpl K E t dest_addr src size s = Except.ok s') :
    s'.page_table_list = s.page_table_list ∧ s'.current_page_table = s.current_page_table := by
  unfold WriteBlockImpl at h
  split at h
  · rename_i st hst
    cases h
    refine walkBlock_invariant K t _ (fun x => x.page_table_list = s.page_table_list ∧
      x.current_page_table = s.current_page_table) ?_ ?_ ?_ ?_ _ _ _ _ ⟨rfl, rfl⟩ hst
    · intro a b st st' hP h; cases h; exact hP
    · intro a b st st' hP h; cases h; exact hP
    · intro a b c st st' hP h; cases h; exact hP
    · intro a b c st st' hP h; cases h
      simpa using hP
  · cases h

theorem zeroBlock_registry {ε : Type} (K : MemoryMap) (E : Collaborators ε)
    (t dest_addr size : Nat) (s s' : MemorySystem ε)
    (h : ZeroBlock K E t dest_addr size s = Except.ok s') :
    s'.page_table_list = s.page_table_list ∧ s'.current_page_table = s.current_page_table := by
  unfold ZeroBlock at h
  split at h
  · rename_i st hst
    cases h
    refine walkBlock_invariant K t _ (fun x => x.page_table_list = s.page_table_list ∧
      x.current_page_table = s.current_page_table) ?_ ?_ ?_ ?_ _ _ _ _ ⟨rfl, rfl⟩ hst
    · intro a b st st' hP h; cases h; exact hP
    · intro a b st st' hP h; cases h; exact hP
    · intro a b c st st' hP h; cases h; exact hP
    · intro a b c st st' hP h; cases h
      simpa using hP
  · cases h

theorem readBlock_registry {ε : Type} (K : MemoryMap) (E : Collaborators ε) (t src_addr : Nat)
    (dest_buffer : Nat → Nat) (size : Nat) (s : MemorySystem ε)
    (r : MemorySystem ε × (Nat → Nat))
    (h : ReadBlock K E t src_addr dest_buffer size s = Except.ok r) :
    r.1.page_table_list = s.page_table_list ∧
      r.1.current_page_table = s.current_page_table := by
  unfold ReadBlock at h
  split at h
  · rename_i st hst
    cases h
    refine walkBlock_invariant K t (ReadBlockImpl.handlers K E)
      (fun x => x.page_table_list = s.page_table_list ∧
        x.current_page_table = s.current_page_table) ?_ ?_ ?_ ?_ src_addr size
      (s, (dest_buffer, 0)) st ⟨rfl, rfl⟩ hst
    · intro a b st st' hP h; cases h; exact hP
    · intro a b st st' hP h; cases h; exact hP
    · intro a b c st st' hP h; cases h; exact hP
    · intro a b c st st' hP h; cases h
      simpa using hP
  · cases h

theorem withCaptured_invariant {ε α : Type} (r : Except Fault (MemorySystem ε)) (a : α)
    (P : MemorySystem ε → Prop) (hr : ∀ s', r = Except.ok s' → P s')
    (st' : MemorySystem ε × α) (h : withCaptured r a = Except.ok st') : P st'.1 := by
  unfold withCaptured at h
  split at h
  · rename_i s1
    cases h
    exact hr s1 rfl
  · cases h

theorem copyBlock_registry {ε : Type} (K : MemoryMap) (E : Collaborators ε)
    (dest_t src_t dest_addr src_addr size : Nat) (s s' : MemorySystem ε)
    (h : CopyBlock K E dest_t src_t dest_addr src_addr size s = Except.ok s') :
    s'.page_table_list = s.page_table_list ∧ s'.current_page_table = s.current_page_table := by
  unfold CopyBlock at h
  split at h
  · rename_i st hst
    cases h
    refine walkBlock_invariant K src_t _ (fun x => x.page_table_list = s.page_table_list ∧
      x.current_page_table = s.current_page_table) ?_ ?_ ?_ ?_ _ _ _ _ ⟨rfl, rfl⟩ hst
    · intro a b st st' hP h
      refine withCaptured_invariant _ _ (fun x => x.page_table_list = s.page_table_list ∧
        x.current_page_table = s.current_page_table) (fun s' hs' => ?_) _ h
      have := zeroBlock_registry K E _ _ _ _ s' hs'
      exact ⟨this.1.trans hP.1, this.2.trans hP.2⟩
    · intro a b st st' hP h
      refine withCaptured_invariant _ _ (fun x => x.page_table_list = s.page_table_list ∧
        x.current_page_table = s.current_page_table) (fun s' hs' => ?_) _ h
      have := writeBlockImpl_registry K E _ _ _ _ _ s' hs'
      exact ⟨this.1.trans hP.1, this.2.trans hP.2⟩
    · intro a b c st st' hP h
      refine withCaptured_invariant _ _ (fun x => x.page_table_list = s.page_table_list ∧
        x.current_page_table = s.current_page_table) (fun s' hs' => ?_) _ h
      have := writeBlockImpl_registry K E _ _ _ _ _ s' hs'
      exact ⟨this.1.trans hP.1, this.2.trans hP.2⟩
    · intro a b c st st' hP h
      refine withCaptured_invariant _ _ (fun x => x.page_table_list = s.page_table_list ∧
        x.current_page_table = s.current_page_table) (fun s' hs' => ?_) _ h
      have := writeBlockImpl_registry K E _ _ _ _ _ s' hs'
      simp only [flushVirtual_page_table_list, flushVirtual_current] at this
      exact ⟨this.1.trans hP.1, this.2.trans hP.2⟩
  · cases h

theorem writeRange_base (tgt : Nat → Option BackingRef) (addr : Nat) (data : Nat → Nat)
    (b b' : Backing) (q : BackingRef) (h : b q.region q.offset = b' q.region q.offset) :
    ∀ n, writeRange tgt addr data n b q.region q.offset =
      writeRange tgt addr data n b' q.region q.offset := by
  intro n
  induction n with
  | zero => exact h
  | succ n ih =>
    rw [writeRange, writeRange]
    cases tgt (addr + n) with
    | none => exact ih
    | some q' =>
      simp only [setByte]
      split
      · rfl
      · exact ih

theorem getPhysicalRef_fcram (K : MemoryMap) (hK : K.PhysicalApart) (x : Nat)
    (hx : x < K.FCRAM_N3DS_SIZE) :
    GetPhysicalRef K (K.FCRAM_PADDR + x) = Except.ok (some ⟨Region.FCRAM, x⟩) := by
  rw [getPhysicalRef_cases K hK]
  obtain ⟨q1, q2, q3, q4, q5, q6, q7, q8, q9, q10⟩ := hK
  rw [if_neg (by omega), if_neg (by omega), if_pos (by omega), Nat.add_sub_cancel_left]

theorem getPhysicalRef_vram (K : MemoryMap) (hK : K.PhysicalApart) (x : Nat)
    (hx : x < K.VRAM_SIZE) :
    GetPhysicalRef K (K.VRAM_PADDR + x) = Except.ok (some ⟨Region.VRAM, x⟩) := by
  rw [getPhysicalRef_cases K hK]
  rw [if_pos (by omega), Nat.add_sub_cancel_left]

/-- With a renderer, RasterizerFlushVirtualRegion for a chunk inside one page
of a rasterizer range is one call of the rasterizer, for a physical range
whose bytes are the arena bytes from the arena pointer of the chunk on. -/
theorem flushVirtual_chunk {ε : Type} (K : MemoryMap) (E : Collaborators ε) (mode : FlushMode)
    (v n : Nat) (p : BackingRef) (hrend : E.renderer = true) (hK : K.WellFormed)
    (hp : GetPointerForRasterizerCache K v = Except.ok p) (hn : 0 < n)
    (hpage : v % 4096 + n ≤ 4096) :
    ∃ a, (∀ s : MemorySystem ε,
        RasterizerFlushVirtualRegion K E v n mode s = rasterizerCall E mode a n s) ∧
      ∀ i, i < n → GetPhysicalRef K (a + i) = Except.ok (some ⟨p.region, p.offset + i⟩) := by
  obtain ⟨⟨a1, a2, a3, a4, a5, a6⟩, ⟨r1, r2, r3, r4, r5, r6⟩,
    ⟨p1, p2, p3, p4, p5, p6, p7, p8, p9, p10, p11, p12, p13, p14, _⟩, hPA, ⟨e1, e2⟩⟩ := hK
  have hmain : ∀ s : MemorySystem ε, v + n < 4294967296 →
      RasterizerFlushVirtualRegion K E v n mode s =
      overlapCall E mode v n K.VRAM_VADDR K.VRAM_VADDR_END K.VRAM_PADDR
        (overlapCall E mode v n K.NEW_LINEAR_HEAP_VADDR K.NEW_LINEAR_HEAP_VADDR_END
          K.FCRAM_PADDR
          (overlapCall E mode v n K.LINEAR_HEAP_VADDR K.LINEAR_HEAP_VADDR_END
            K.FCRAM_PADDR s)) := by
    intro s h32
    unfold RasterizerFlushVirtualRegion
    rw [if_neg (by simp [hrend])]
    have hend : u32 (v + n) = v + n := u32_of_lt _ h32
    simp only [hend]
    rw [checkRegion_overlap E mode v n _ _ _ s h32 hn p4 p5 (by omega),
      checkRegion_overlap E mode v n _ _ _ _ h32 hn p7 p8 (by omega),
      checkRegion_overlap E mode v n _ _ _ _ h32 hn p1 p2 (by omega)]
  unfold GetPointerForRasterizerCache at hp
  split_ifs at hp with h1 h2 h3
  · cases hp
    have hend : v + n ≤ K.LINEAR_HEAP_VADDR_END := by omega
    refine ⟨K.FCRAM_PADDR + (v - K.LINEAR_HEAP_VADDR), ?_, ?_⟩
    · intro s
      rw [hmain s (by omega)]
      have hl : v < K.LINEAR_HEAP_VADDR_END ∧ K.LINEAR_HEAP_VADDR < v + n := by omega
      have hnw : ¬ (v < K.NEW_LINEAR_HEAP_VADDR_END ∧ K.NEW_LINEAR_HEAP_VADDR < v + n) := by
        omega
      have hv : ¬ (v < K.VRAM_VADDR_END ∧ K.VRAM_VADDR < v + n) := by omega
      have d1 : max v K.LINEAR_HEAP_VADDR = v := by omega
      have d2 : min (v + n) K.LINEAR_HEAP_VADDR_END - v = n := by omega
      simp only [overlapCall, if_pos hl, if_neg hnw, if_neg hv, d1, d2]
    · intro i hi
      rw [Nat.add_assoc]
      exact getPhysicalRef_fcram K hPA _ (by omega)
  · cases hp
    have hend : v + n ≤ K.NEW_LINEAR_HEAP_VADDR_END := by omega
    refine ⟨K.FCRAM_PADDR + (v - K.NEW_LINEAR_HEAP_VADDR), ?_, ?_⟩
    · intro s
      rw [hmain s (by omega)]
      have hl : ¬ (v < K.LINEAR_HEAP_VADDR_END ∧ K.LINEAR_HEAP_VADDR < v + n) := by omega
      have hnw : v < K.NEW_LINEAR_HEAP_VADDR_END ∧ K.NEW_LINEAR_HEAP_VADDR < v + n := by omega
      have hv : ¬ (v < K.VRAM_VADDR_END ∧ K.VRAM_VADDR < v + n) := by omega
      have d1 : max v K.NEW_LINEAR_HEAP_VADDR = v := by omega
      have d2 : min (v + n) K.NEW_LINEAR_HEAP_VADDR_END - v = n := by omega
      simp only [overlapCall, if_neg hl, if_pos hnw, if_neg hv, d1, d2]
    · intro i hi
      rw [Nat.add_assoc]
      exact getPhysicalRef_fcram K hPA _ (by omega)
  · cases hp
    have hend : v + n ≤ K.VRAM_VADDR_END := by omega
    refine ⟨K.VRAM_PADDR + (v - K.VRAM_VADDR), ?_, ?_⟩
    · intro s
      rw [hmain s (by omega)]
      have hl : ¬ (v < K.LINEAR_HEAP_VADDR_END ∧ K.LINEAR_HEAP_VADDR < v + n) := by omega
      have hnw : ¬ (v < K.NEW_LINEAR_HEAP_VADDR_END ∧ K.NEW_LINEAR_HEAP_VADDR < v + n) := by
        omega
      have hv : v < K.VRAM_VADDR_END ∧ K.VRAM_VADDR < v + n := by omega
      have d1 : max v K.VRAM_VADDR = v := by omega
      have d2 : min (v + n) K.VRAM_VADDR_END - v = n := by omega
      simp only [overlapCall, if_neg hl, if_neg hnw, if_pos hv, d1, d2]
    · intro i hi
      rw [Nat.add_assoc]
      exact getPhysicalRef_vram K hPA _ (by omega)

/-- The flush of a source chunk in two states that differ by writes away from
the arena bytes of the chunk: the collaborators stay equivalent and the
arenas differ by the same writes. -/
theorem flushChunk_sim {ε : Type} (K : MemoryMap) (E : Collaborators ε)
    (Sim : ε → ε → Prop) (hE : E.Decoupled K Sim) (hK : K.WellFormed) (v n : Nat)
    (p : BackingRef) (hp : GetPointerForRasterizerCache K v = Except.ok p) (hn : 0 < n)
    (hpage : v % 4096 + n ≤ 4096) (tgt : Nat → Option BackingRef) (A : Nat) (d : Nat → Nat)
    (pos : Nat) (sC sR : MemorySystem ε) (hsim : Sim sC.world sR.world)
    (hbk : sC.backing = writeRange tgt A d pos sR.backing)
    (hfree : ∀ i, i < n → ∀ j, j < pos → tgt (A + j) ≠ some ⟨p.region, p.offset + i⟩) :
    Sim (RasterizerFlushVirtualRegion K E v n FlushMode.Flush sC).world
        (RasterizerFlushVirtualRegion K E v n FlushMode.Flush sR).world ∧
      (RasterizerFlushVirtualRegion K E v n FlushMode.Flush sC).backing =
        writeRange tgt A d pos (RasterizerFlushVirtualRegion K E v n FlushMode.Flush sR).backing := by
  by_cases hrend : E.renderer = true
  · obtain ⟨a, hcall, hphys⟩ := flushVirtual_chunk K E FlushMode.Flush v n p hrend hK hp hn hpage
    rw [hcall sC, hcall sR]
    simp only [rasterizerCall]
    have hagree : ∀ i, i < n → ∀ q : BackingRef, GetPhysicalRef K (a + i) = Except.ok (some q) →
        sC.backing q.region q.offset = sR.backing q.region q.offset := by
      intro i hi q hq
      rw [hphys i hi] at hq
      cases hq
      rw [hbk]
      exact writeRange_untouched tgt A d _ ⟨p.region, p.offset + i⟩ pos
        (fun j hj => hfree i hi j hj)
    obtain ⟨hs, hb⟩ := hE.flush_sim a n sC.world sR.world sC.backing sR.backing hsim hagree
    refine ⟨hs, ?_⟩
    funext r o
    by_cases hin : ∃ i, i < n ∧ GetPhysicalRef K (a + i) = Except.ok (some ⟨r, o⟩)
    · obtain ⟨i, hi, hq⟩ := hin
      have := hb i hi ⟨r, o⟩ hq
      simp only at this
      rw [this]
      have hq' := hq
      rw [hphys i hi] at hq'
      cases hq'
      exact (writeRange_untouched tgt A d _ ⟨p.region, p.offset + i⟩ pos
        (fun j hj => hfree i hi j hj)).symm
    · have hout : ∀ i, i < n → GetPhysicalRef K (a + i) ≠ Except.ok (some ⟨r, o⟩) := by
        intro i hi hq
        exact hin ⟨i, hi, hq⟩
      have f1 := hE.flush_frame a n (sC.world, sC.backing) ⟨r, o⟩ hout
      have f2 := hE.flush_frame a n (sR.world, sR.backing) ⟨r, o⟩ hout
      simp only at f1 f2
      rw [f1, hbk]
      exact writeRange_base tgt A d _ _ ⟨r, o⟩ f2.symm pos
  · have hr : E.renderer = false := by
      cases h : E.renderer
      · rfl
      · exact absurd h hrend
    unfold RasterizerFlushVirtualRegion
    rw [if_pos hr, if_pos hr]
    exact ⟨hsim, hbk⟩

theorem readChunk_sourceBytes {ε : Type} (K : MemoryMap) (E : Collaborators ε) (t : Nat)
    (c : Chunk) (s : MemorySystem ε) :
    (readChunk K E t c s).2 =
      sourceBytes K E (s.page_tables t) (readChunk K E t c s).1.backing s.world c := by
  unfold readChunk sourceBytes
  split
  · rfl
  · split <;> rfl
  · split <;> rfl
  · split <;> rfl

/-- One source chunk read in two states that differ by writes away from the
arena bytes of the chunk: the same bytes are read, the collaborators stay
equivalent and the arenas differ by the same writes. -/
theorem readChunk_sim {ε : Type} (K : MemoryMap) (E : Collaborators ε)
    (Sim : ε → ε → Prop) (hE : E.Decoupled K Sim) (hK : K.WellFormed) (t : Nat) (c : Chunk)
    (addr : Nat) (hva : c.current_vaddr = addr)
    (haddr : c.page_index * 4096 + c.page_offset = addr)
    (hin : c.page_offset + c.copy_amount ≤ 4096) (hpos : 0 < c.copy_amount)
    (tgt : Nat → Option BackingRef) (A : Nat) (d : Nat → Nat) (pos : Nat)
    (sC sR : MemorySystem ε) (hpt : sC.page_tables = sR.page_tables)
    (hsim : Sim sC.world sR.world) (hbk : sC.backing = writeRange tgt A d pos sR.backing)
    (hfree : ∀ i, i < c.copy_amount → ∀ j, j < pos → ∀ q,
      writeTarget K (sR.page_tables t) (addr + i) = some q → tgt (A + j) ≠ some q) :
    Sim (readChunk K E t c sC).1.world (readChunk K E t c sR).1.world ∧
      (readChunk K E t c sC).1.backing =
        writeRange tgt A d pos (readChunk K E t c sR).1.backing ∧
      ∀ k, k < c.copy_amount → (readChunk K E t c sC).2 k = (readChunk K E t c sR).2 k := by
  have hpage : ∀ i, i < c.copy_amount → (addr + i) >>> CITRA_PAGE_BITS = c.page_index := by
    intro i hi
    rw [shr_page]; omega
  have hoffs : ∀ i, i < c.copy_amount → (addr + i) &&& CITRA_PAGE_MASK = c.page_offset + i := by
    intro i hi
    rw [and_page_mask]; omega
  unfold readChunk
  rw [hpt]
  cases hattr : (sR.page_tables t).attributes c.page_index with
  | Unmapped => exact ⟨hsim, hbk, fun _ _ => rfl⟩
  | Memory =>
    cases hp : (sR.page_tables t).pointers c.page_index with
    | none => exact ⟨hsim, hbk, fun _ _ => rfl⟩
    | some p =>
      refine ⟨hsim, hbk, ?_⟩
      intro k hk
      simp only [bytesAt]
      rw [hbk]
      refine writeRange_untouched tgt A d _ ⟨p.region, p.offset + c.page_offset + k⟩ pos ?_
      intro j hj
      refine hfree k hk j hj _ ?_
      simp only [writeTarget, hpage k hk, hattr, hp, hoffs k hk, Option.map_some',
        Nat.add_assoc]
  | Special =>
    cases hh : GetMMIOHandler (sR.page_tables t) c.current_vaddr with
    | error e => exact ⟨hsim, hbk, fun _ _ => rfl⟩
    | ok h =>
      obtain ⟨hd, hs⟩ := hE.read_sim h c.current_vaddr c.copy_amount sC.world sR.world hsim
      exact ⟨hs, hbk, hd⟩
  | RasterizerCachedMemory =>
    cases hp : GetPointerForRasterizerCache K c.current_vaddr with
    | error e => exact ⟨hsim, hbk, fun _ _ => rfl⟩
    | ok p =>
      have hu : u32 c.copy_amount = c.copy_amount := u32_of_lt _ (by omega)
      have hq : ∀ i, i < c.copy_amount →
          writeTarget K (sR.page_tables t) (addr + i) = some ⟨p.region, p.offset + i⟩ := by
        intro i hi
        rw [hva] at hp
        have hq := getPointer_add K hK.1 addr i p hp (by omega)
        simp only [writeTarget, hpage i hi, hattr, hq]
      have hfree' : ∀ i, i < c.copy_amount → ∀ j, j < pos →
          tgt (A + j) ≠ some ⟨p.region, p.offset + i⟩ :=
        fun i hi j hj => hfree i hi j hj _ (hq i hi)
      obtain ⟨hs, hb⟩ := flushChunk_sim K E Sim hE hK c.current_vaddr c.copy_amount p hp hpos
        (by omega) tgt A d pos sC sR hsim hbk hfree'
      simp only [hu]
      refine ⟨hs, hb, ?_⟩
      intro k hk
      simp only [bytesAt]
      rw [hb]
      exact writeRange_untouched tgt A d _ ⟨p.region, p.offset + k⟩ pos
        (fun j hj => hfree' k hk j hj)

/-- One chunk of CopyBlock: the source chunk is read as ReadBlock reads it,
and what was read is written to the destination at `da`. -/
theorem copyBody_step {ε : Type} (K : MemoryMap) (E : Collaborators ε) (Sim : ε → ε → Prop)
    (hE : E.Decoupled K Sim) (dest_t src_t : Nat) (c : Chunk) (s : MemorySystem ε)
    (da sa : Nat) (hK : K.PageAligned)
    (hsrc_ok : ChunkOk K (s.page_tables src_t) c)
    (hn : c.copy_amount ≤ 4096) (h32d : da + c.copy_amount ≤ 4294967296)
    (hmem : ∀ a, da ≤ a → a < da + c.copy_amount →
      (s.page_tables dest_t).attributes (a >>> CITRA_PAGE_BITS) = PageType.Memory →
      (s.page_tables dest_t).pointers (a >>> CITRA_PAGE_BITS) ≠ none)
    (hsp : ∀ a, da ≤ a → a < da + c.copy_amount →
      (s.page_tables dest_t).attributes (a >>> CITRA_PAGE_BITS) = PageType.Special →
      ∃ h, GetMMIOHandler (s.page_tables dest_t) a = Except.ok h)
    (hrc : ∀ a, da ≤ a → a < da + c.copy_amount →
      (s.page_tables dest_t).attributes (a >>> CITRA_PAGE_BITS) =
        PageType.RasterizerCachedMemory → InRasterizerRange K a)
    (hstable : ∀ b' : Backing,
      (∀ r o, (∀ j, j < c.copy_amount →
          writeTarget K (s.page_tables dest_t) (da + j) ≠ some ⟨r, o⟩) →
        b' r o = (readChunk K E src_t c s).1.backing r o) →
      ∀ k, k < c.copy_amount →
        sourceBytes K E (s.page_tables src_t) b' s.world c k = (readChunk K E src_t c s).2 k) :
    ∃ s1, WalkBlock.body K src_t (CopyBlock.handlers K E dest_t) c (s, (da, sa)) =
        Except.ok (s1, (u32 (da + c.copy_amount), u32 (sa + c.copy_amount))) ∧
      s1.page_tables = s.page_tables ∧
      s1.backing = writeRange (writeTarget K (s.page_tables dest_t)) da
        (readChunk K E src_t c s).2 c.copy_amount (readChunk K E src_t c s).1.backing ∧
      Sim s1.world (readChunk K E src_t c s).1.world := by
  obtain ⟨hidx, hmem_s, hsp_s, hrc_s⟩ := hsrc_ok
  have hinval := hE.invalidate_backing
  have hu : u32 c.copy_amount = c.copy_amount := by
    simp only [u32]; omega
  unfold WalkBlock.body
  rw [if_neg (by simpa using hidx)]
  simp only
  cases hattr : (s.page_tables src_t).attributes c.page_index with
  | Unmapped =>
    have hr : readChunk K E src_t c s = (s, fun _ => 0) := by
      simp only [readChunk, hattr]
    obtain ⟨s1, hz, hpt, hbk⟩ := zeroBlock_backing K E dest_t da c.copy_amount s hK hinval h32d
      hmem hsp hrc
    rw [hr]
    refine ⟨s1, ?_, hpt, hbk, zeroBlock_sim K E Sim hE _ _ _ _ _ hz⟩
    simp only [CopyBlock.handlers, withCaptured_ok _ s1 (da, sa) hz, hu]
  | Memory =>
    obtain ⟨p, hp⟩ := Option.ne_none_iff_exists'.1 (hmem_s hattr)
    have hr : readChunk K E src_t c s =
        (s, bytesAt s.backing ⟨p.region, p.offset + c.page_offset⟩) := by
      simp only [readChunk, hattr, hp]
    have hsb : ∀ b', sourceBytes K E (s.page_tables src_t) b' s.world c =
        bytesAt b' ⟨p.region, p.offset + c.page_offset⟩ := by
      intro b'
      simp only [sourceBytes, hattr, hp]
    rw [hr] at hstable ⊢
    obtain ⟨s1, hw, hpt, hbk⟩ := writeBlockImpl_backing K E dest_t da c.copy_amount
      (fun b => bytesAt b ⟨p.region, p.offset + c.page_offset⟩)
      (bytesAt s.backing ⟨p.region, p.offset + c.page_offset⟩) s hK hinval h32d hmem hsp hrc
      (fun b' hagree k hk => by
        have := hstable b' hagree k hk
        rw [hsb b'] at this
        exact this)
    refine ⟨s1, ?_, hpt, hbk, writeBlockImpl_sim K E Sim hE _ _ _ _ _ _ hw⟩
    simp only [hp, CopyBlock.handlers, withCaptured_ok _ s1 (da, sa) hw, hu]
  | Special =>
    obtain ⟨h, hh⟩ := hsp_s hattr
    have hr : readChunk K E src_t c s =
        ({ s with world := (E.ReadBlock h c.current_vaddr c.copy_amount s.world).2,
                  calls := s.calls ++ [Call.ReadBlock h c.current_vaddr c.copy_amount] },
          (E.ReadBlock h c.current_vaddr c.copy_amount s.world).1) := by
      simp only [readChunk, hattr, hh]
    rw [hr]
    obtain ⟨s1, hw, hpt, hbk⟩ := writeBlockImpl_backing K E dest_t da c.copy_amount
      (fun _ => (E.ReadBlock h c.current_vaddr c.copy_amount s.world).1)
      (E.ReadBlock h c.current_vaddr c.copy_amount s.world).1
      { s with world := (E.ReadBlock h c.current_vaddr c.copy_amount s.world).2,
               calls := s.calls ++ [Call.ReadBlock h c.current_vaddr c.copy_amount] }
      hK hinval h32d hmem hsp hrc (fun _ _ _ _ => rfl)
    refine ⟨s1, ?_, hpt, hbk, writeBlockImpl_sim K E Sim hE _ _ _ _ _ _ hw⟩
    simp only [hh, CopyBlock.handlers, withCaptured_ok _ s1 (da, sa) hw, hu]
  | RasterizerCachedMemory =>
    obtain ⟨p, hp⟩ := hrc_s hattr
    have hr : readChunk K E src_t c s =
        (RasterizerFlushVirtualRegion K E c.current_vaddr c.copy_amount FlushMode.Flush s,
          bytesAt (RasterizerFlushVirtualRegion K E c.current_vaddr c.copy_amount
            FlushMode.Flush s).backing p) := by
      simp only [readChunk, hattr, hp, hu]
    have hsb : ∀ b', sourceBytes K E (s.page_tables src_t) b' s.world c = bytesAt b' p := by
      intro b'
      simp only [sourceBytes, hattr, hp]
    rw [hr] at hstable ⊢
    obtain ⟨s1, hw, hpt, hbk⟩ := writeBlockImpl_backing K E dest_t da c.copy_amount
      (fun b => bytesAt b p)
      (bytesAt (RasterizerFlushVirtualRegion K E c.current_vaddr c.copy_amount
        FlushMode.Flush s).backing p)
      (RasterizerFlushVirtualRegion K E c.current_vaddr c.copy_amount FlushMode.Flush s)
      hK hinval h32d (by simpa using hmem) (by simpa using hsp) (by simpa using hrc)
      (fun b' hagree k hk => by
        have := hstable b' (by
          intro r o hfree
          exact hagree r o (by simpa using hfree)) k hk
        rw [hsb b'] at this
        exact this)
    refine ⟨s1, ?_, ?_, ?_, writeBlockImpl_sim K E Sim hE _ _ _ _ _ _ hw⟩
    · simp only [hp, CopyBlock.handlers, hu, withCaptured_ok _ s1 (da, sa) hw]
    · rw [hpt]; simp
    · rw [hbk]
      simp

/-- CopyBlock and ReadBlock over the same source chunks, from two states that
differ by the writes of the `pos` destination bytes already copied: both
return, and the states they end in differ by the writes of all the bytes
ReadBlock stored. -/
theorem runChunks_copy_sim {ε : Type} (K : MemoryMap) (E : Collaborators ε)
    (Sim : ε → ε → Prop) (hE : E.Decoupled K Sim) (hK : K.WellFormed) (dest_t src_t : Nat)
    (PT : Nat → PageTable) (A : Nat) :
    ∀ (cs : List Chunk) (sC sR : MemorySystem ε) (addr da x pos : Nat) (d : Nat → Nat),
      ChunksFrom addr cs → (∀ c ∈ cs, ChunkOk K (PT src_t) c) →
      (cs ≠ [] → da = A + pos) →
      sC.page_tables = PT → sR.page_tables = PT → Sim sC.world sR.world →
      sC.backing = writeRange (writeTarget K (PT dest_t)) A d pos sR.backing →
      A + pos + (cs.map Chunk.copy_amount).sum ≤ 4294967296 →
      (∀ a, A + pos ≤ a → a < A + pos + (cs.map Chunk.copy_amount).sum →
        (PT dest_t).attributes (a >>> CITRA_PAGE_BITS) = PageType.Memory →
        (PT dest_t).pointers (a >>> CITRA_PAGE_BITS) ≠ none) →
      (∀ a, A + pos ≤ a → a < A + pos + (cs.map Chunk.copy_amount).sum →
        (PT dest_t).attributes (a >>> CITRA_PAGE_BITS) = PageType.Special →
        ∃ h, GetMMIOHandler (PT dest_t) a = Except.ok h) →
      (∀ a, A + pos ≤ a → a < A + pos + (cs.map Chunk.copy_amount).sum →
        (PT dest_t).attributes (a >>> CITRA_PAGE_BITS) = PageType.RasterizerCachedMemory →
        InRasterizerRange K a) →
      (∀ i j, i < (cs.map Chunk.copy_amount).sum → j < pos + (cs.map Chunk.copy_amount).sum →
        ∀ q, writeTarget K (PT src_t) (addr + i) = some q →
          writeTarget K (PT dest_t) (A + j) ≠ some q) →
      ∃ sC' a' sR' d',
        runChunks (WalkBlock.body K src_t (CopyBlock.handlers K E dest_t)) cs (sC, (da, x)) =
          Except.ok (sC', a') ∧
        runChunks (WalkBlock.body K src_t (ReadBlockImpl.handlers K E)) cs (sR, (d, pos)) =
          Except.ok (sR', (d', pos + (cs.map Chunk.copy_amount).sum)) ∧
        sC'.page_tables = PT ∧ sR'.page_tables = PT ∧ Sim sC'.world sR'.world ∧
        sC'.backing = writeRange (writeTarget K (PT dest_t)) A d'
          (pos + (cs.map Chunk.copy_amount).sum) sR'.backing ∧
        (∀ j, j < pos → d' j = d j) ∧
        (∀ i, i < (cs.map Chunk.copy_amount).sum →
          (PT src_t).attributes ((addr + i) >>> CITRA_PAGE_BITS) = PageType.Unmapped →
          d' (pos + i) = 0) := by
  intro cs
  induction cs with
  | nil =>
    intro sC sR addr da x pos d _ _ _ hptC hptR hsim hbk _ _ _ _ _
    refine ⟨sC, (da, x), sR, d, rfl, rfl, hptC, hptR, hsim, hbk, fun _ _ => rfl, ?_⟩
    intro i hi
    simp at hi
  | cons c cs ih =>
    intro sC sR addr da x pos d hfrom hok hda hptC hptR hsim hbk h32 hmem hsp hrc hdisj
    obtain ⟨hva, haddr, hin, hpos, hrest⟩ := hfrom
    simp only [List.map_cons, List.sum_cons] at h32 hmem hsp hrc hdisj ⊢
    have hda' : da = A + pos := hda (List.cons_ne_nil _ _)
    subst hda'
    have hcok := hok c (List.mem_cons_self _ _)
    obtain ⟨hs1, hb1, hd1⟩ := readChunk_sim K E Sim hE hK src_t c addr hva haddr hin hpos
      (writeTarget K (PT dest_t)) A d pos sC sR (hptC.trans hptR.symm) hsim hbk
      (by
        intro i hi j hj q hq
        rw [hptR] at hq
        exact hdisj i j (by omega) (by omega) q hq)
    obtain ⟨sC1, hcb, hpt1, hbk1, hsim1⟩ := copyBody_step K E Sim hE dest_t src_t c sC
      (A + pos) x hK.1 (by rw [hptC]; exact hcok) (by omega) (by omega)
      (fun a h1 h2 => by rw [hptC]; exact hmem a h1 (by omega))
      (fun a h1 h2 => by rw [hptC]; exact hsp a h1 (by omega))
      (fun a h1 h2 => by rw [hptC]; exact hrc a h1 (by omega))
      (by
        intro b' hag k hk
        rw [readChunk_sourceBytes, hptC]
        refine sourceBytes_agree K E (PT src_t) (readChunk K E src_t c sC).1.backing b'
          sC.world c addr hK.1 hva haddr hin ?_ k hk
        intro i hi q hq
        apply hag
        intro j hj
        rw [hptC]
        have := hdisj i (pos + j) (by omega) (by omega) q hq
        rwa [← Nat.add_assoc] at this)
    have hrb := readBody_ok K E src_t c sR d pos (by rw [hptR]; exact hcok)
    have hbk2 : sC1.backing = writeRange (writeTarget K (PT dest_t)) A
        (fill d pos c.copy_amount (readChunk K E src_t c sR).2) (pos + c.copy_amount)
        (readChunk K E src_t c sR).1.backing := by
      rw [hbk1, hb1, hptC, writeRange_split]
      rw [writeRange_congr (writeTarget K (PT dest_t)) A
        (fill d pos c.copy_amount (readChunk K E src_t c sR).2) d _ pos
        (fun k hk => fill_of_lt _ _ _ _ _ hk)]
      exact writeRange_congr _ _ _ _ _ c.copy_amount (fun k hk => by
        rw [fill_of_mem _ _ _ _ _ hk]
        exact hd1 k hk)
    have hda2 : cs ≠ [] → u32 (A + pos + c.copy_amount) = A + (pos + c.copy_amount) := by
      intro hne
      cases cs with
      | nil => exact absurd rfl hne
      | cons c2 cs2 =>
        have hpos2 : 0 < c2.copy_amount := hrest.2.2.2.1
        simp only [List.map_cons, List.sum_cons] at h32
        rw [u32_of_lt _ (by omega), Nat.add_assoc]
    obtain ⟨sC', a', sR', d', hrunC, hrunR, hptC', hptR', hsim', hbk', hlow, hzero⟩ :=
      ih sC1 (readChunk K E src_t c sR).1 (addr + c.copy_amount) (u32 (A + pos + c.copy_amount))
        (u32 (x + c.copy_amount)) (pos + c.copy_amount)
        (fill d pos c.copy_amount (readChunk K E src_t c sR).2) hrest
        (fun c' hc' => hok c' (List.mem_cons_of_mem _ hc')) hda2 (hpt1.trans hptC)
        ((readChunk_page_tables K E src_t c sR).trans hptR) (hE.sim_trans _ _ _ hsim1 hs1) hbk2
        (by omega)
        (fun a h1 h2 => hmem a (by omega) (by omega))
        (fun a h1 h2 => hsp a (by omega) (by omega))
        (fun a h1 h2 => hrc a (by omega) (by omega))
        (fun i j hi hj q hq => hdisj (c.copy_amount + i) j (by omega) (by omega) q
          (by rw [← Nat.add_assoc]; exact hq))
    refine ⟨sC', a', sR', d', ?_, ?_, hptC', hptR', hsim', ?_, ?_, ?_⟩
    · rw [runChunks, hcb]
      exact hrunC
    · rw [runChunks, hrb]
      simp only
      rw [← Nat.add_assoc]
      exact hrunR
    · rw [← Nat.add_assoc]
      exact hbk'
    · intro j hj
      rw [hlow j (by omega), fill_of_lt _ _ _ _ _ hj]
    · intro i hi hun
      by_cases hlt : i < c.copy_amount
      · rw [hlow (pos + i) (by omega), fill_of_mem _ _ _ _ _ hlt]
        have hpg : (addr + i) >>> CITRA_PAGE_BITS = c.page_index := by
          rw [shr_page]; omega
        rw [hpg] at hun
        simp only [readChunk, hptR, hun]
      · have := hzero (i - c.copy_amount) (by omega) (by
          have e : addr + c.copy_amount + (i - c.copy_amount) = addr + i := by omega
          rw [e]
          exact hun)
        have e2 : pos + c.copy_amount + (i - c.copy_amount) = pos + i := by omega
        rw [e2] at this
        exact this

/-- C7, amended: with collaborators for which what is done for the
destination does not reach what is done for the source (`Decoupled`), on a
well-formed memory map, for ranges inside the address space of well-formed
page tables, when no arena byte of the source range is a write target of the
destination range:
ReadBlock of the source into a buffer, WriteBlock of the buffer to the
destination, and CopyBlock all return, and CopyBlock ends in the state that
ReadBlock followed by WriteBlock ends in: the same arenas, page tables,
tracker, registered tables and current table, and an equivalent state of the
collaborators. The arenas are those ReadBlock left with the buffer written to
the destination: the buffer holds 0 at every offset whose source page is
Unmapped, and an arena byte that is the target of the destination offset `j`
and of no later one holds the buffer byte `j`. -/
theorem c7_copy_block_as_read_then_write {ε : Type} (K : MemoryMap) (E : Collaborators ε)
    (Sim : ε → ε → Prop) (dest_t src_t dest_addr src_addr size : Nat) (buffer : Nat → Nat)
    (s : MemorySystem ε) (hK : K.WellFormed) (hE : E.Decoupled K Sim)
    (h32s : src_addr + size ≤ 4294967296) (h32d : dest_addr + size ≤ 4294967296)
    (hmem_s : ∀ a, src_addr ≤ a → a < src_addr + size →
      (s.page_tables src_t).attributes (a >>> CITRA_PAGE_BITS) = PageType.Memory →
      (s.page_tables src_t).pointers (a >>> CITRA_PAGE_BITS) ≠ none)
    (hsp_s : ∀ a, src_addr ≤ a → a < src_addr + size →
      (s.page_tables src_t).attributes (a >>> CITRA_PAGE_BITS) = PageType.Special →
      ∃ h, GetMMIOHandler (s.page_tables src_t) a = Except.ok h)
    (hrc_s : ∀ a, src_addr ≤ a → a < src_addr + size →
      (s.page_tables src_t).attributes (a >>> CITRA_PAGE_BITS) =
        PageType.RasterizerCachedMemory → InRasterizerRange K a)
    (hmem_d : ∀ a, dest_addr ≤ a → a < dest_addr + size →
      (s.page_tables dest_t).attributes (a >>> CITRA_PAGE_BITS) = PageType.Memory →
      (s.page_tables dest_t).pointers (a >>> CITRA_PAGE_BITS) ≠ none)
    (hsp_d : ∀ a, dest_addr ≤ a → a < dest_addr + size →
      (s.page_tables dest_t).attributes (a >>> CITRA_PAGE_BITS) = PageType.Special →
      ∃ h, GetMMIOHandler (s.page_tables dest_t) a = Except.ok h)
    (hrc_d : ∀ a, dest_addr ≤ a → a < dest_addr + size →
      (s.page_tables dest_t).attributes (a >>> CITRA_PAGE_BITS) =
        PageType.RasterizerCachedMemory → InRasterizerRange K a)
    (hdisjoint : ∀ i j, i < size → j < size → ∀ q,
      writeTarget K (s.page_tables src_t) (src_addr + i) = some q →
      writeTarget K (s.page_tables dest_t) (dest_addr + j) ≠ some q) :
    ∃ s1 buf s2 s3,
      ReadBlock K E src_t src_addr buffer size s = Except.ok (s1, buf) ∧
      WriteBlock K E dest_t dest_addr buf size s1 = Except.ok s2 ∧
      CopyBlock K E dest_t src_t dest_addr src_addr size s = Except.ok s3 ∧
      s3.backing = s2.backing ∧ s3.page_tables = s2.page_tables ∧
      s3.cache_marker = s2.cache_marker ∧ s3.page_table_list = s2.page_table_list ∧
      s3.current_page_table = s2.current_page_table ∧ Sim s3.world s2.world ∧
      s3.backing = writeRange (writeTarget K (s.page_tables dest_t)) dest_addr buf size
        s1.backing ∧
      (∀ j, j < size →
        (s.page_tables src_t).attributes ((src_addr + j) >>> CITRA_PAGE_BITS) =
          PageType.Unmapped → buf j = 0) ∧
      (∀ j q, j < size → writeTarget K (s.page_tables dest_t) (dest_addr + j) = some q →
        (∀ j', j < j' → j' < size →
          writeTarget K (s.page_tables dest_t) (dest_addr + j') ≠ some q) →
        s3.backing q.region q.offset = buf j) := by
  have hoff : src_addr &&& CITRA_PAGE_MASK < 4096 := by
    rw [and_page_mask]; omega
  have hsum : ((WalkBlock.chunks src_addr size).map Chunk.copy_amount).sum = size :=
    chunkList_sum size size _ _ (Nat.le_refl _) hoff
  have hok_s := chunks_ok K (s.page_tables src_t) src_addr size h32s hmem_s hsp_s hrc_s
  have hfrom := chunks_chunksFrom src_addr size h32s
  obtain ⟨s3, a3, s1, buf, hC, hR, hpt3, hpt1, hsim31, hbk3, _, hzero⟩ :=
    runChunks_copy_sim K E Sim hE hK dest_t src_t s.page_tables dest_addr
      (WalkBlock.chunks src_addr size) s s src_addr dest_addr src_addr 0 buffer hfrom hok_s
      (fun _ => rfl) rfl rfl (hE.sim_refl _) rfl
      (by rw [hsum]; exact h32d) (by rw [hsum]; exact hmem_d) (by rw [hsum]; exact hsp_d)
      (by rw [hsum]; exact hrc_d)
      (by
        rw [hsum]
        intro i j hi hj q hq
        exact hdisjoint i j hi (by omega) q hq)
  rw [hsum] at hR hbk3 hzero
  simp only [Nat.zero_add] at hR hbk3 hzero
  have hRead : ReadBlock K E src_t src_addr buffer size s = Except.ok (s1, buf) :=
    readBlock_eq K E src_t src_addr buffer size s s1 buf _ hR
  have hCopy : CopyBlock K E dest_t src_t dest_addr src_addr size s = Except.ok s3 := by
    unfold CopyBlock
    rw [walkBlock_eq_runChunks, hC]
  obtain ⟨s2, hW, hpt2, hbk2⟩ := writeBlockImpl_backing K E dest_t dest_addr size
    (fun _ => buf) buf s1 hK.1 hE.invalidate_backing h32d (by rw [hpt1]; exact hmem_d)
    (by rw [hpt1]; exact hsp_d) (by rw [hpt1]; exact hrc_d) (fun _ _ _ _ => rfl)
  have hm3 := copyBlock_marker K E dest_t src_t dest_addr src_addr size s s3 hCopy
  have hm1 := readBlock_marker K E src_t src_addr buffer size s (s1, buf) hRead
  have hm2 := writeBlockImpl_marker K E dest_t dest_addr (fun _ => buf) size s1 s2 hW
  have hg3 := copyBlock_registry K E dest_t src_t dest_addr src_addr size s s3 hCopy
  have hg1 := readBlock_registry K E src_t src_addr buffer size s (s1, buf) hRead
  have hg2 := writeBlockImpl_registry K E dest_t dest_addr (fun _ => buf) size s1 s2 hW
  have hs2 := writeBlockImpl_sim K E Sim hE dest_t dest_addr (fun _ => buf) size s1 s2 hW
  refine ⟨s1, buf, s2, s3, hRead, hW, hCopy, ?_, ?_, ?_, ?_, ?_, ?_, hbk3, hzero, ?_⟩
  · rw [hbk3, hbk2, hpt1]
  · rw [hpt3, hpt2, hpt1]
  · rw [hm3, hm2, hm1]
  · rw [hg3.1, hg2.1, hg1.1]
  · rw [hg3.2, hg2.2, hg1.2]
  · exact hE.sim_trans _ _ _ hsim31 (hE.sim_symm _ _ hs2)
  · intro j q hj hq hlast
    rw [hbk3]
    exact writeRange_get _ _ _ _ q j hq size hj hlast

/-- C7 as stated fails by design: CopyBlock writes each source chunk to the
destination before it reads the next one. With the handlers of `latchDevice`,
two bytes are copied from two Special source pages, which have no backing
byte, to a destination whose first byte is on a Special page and whose second
byte is on a Memory page. CopyBlock reads the second byte after the
destination handler was written, and stores 1; ReadBlock followed by
WriteBlock reads both bytes first, and stores 0. -/
theorem c7_handler_write_reaches_later_read :
    (∀ i, i < 2 → writeTarget console (latchSystem.page_tables 0) (0x50FFF + i) = none) ∧
    (CopyBlock console latchDevice 1 0 0x60FFF 0x50FFF 2 latchSystem).toOption.map
      (fun s => s.backing Region.FCRAM 0x100000) = some 1 ∧
    (ReadBlock console latchDevice 0 0x50FFF (fun _ => 0xEE) 2 latchSystem).toOption.bind
      (fun r => (WriteBlock console latchDevice 1 0x60FFF r.2 2 r.1).toOption.map
        (fun s => s.backing Region.FCRAM 0x100000)) = some 0 := by
  decide

theorem queueDevice_decoupled : queueDevice.Decoupled console sameReads where
  sim_refl := fun _ => rfl
  sim_symm := fun _ _ h => Eq.symm h
  sim_trans := fun _ _ _ h1 h2 => Eq.trans h1 h2
  invalidate_backing := fun _ _ _ => rfl
  invalidate_sim := fun _ _ _ => rfl
  write_sim := fun _ _ _ _ => rfl
  read_sim := by
    intro h va n w w' hs
    have hs' : w.1 = w'.1 := hs
    simp only [queueDevice, sameReads, hs']
    exact ⟨fun _ _ => trivial, trivial⟩
  flush_frame := by
    intro a n x q hq
    simp only [queueDevice]
    rw [if_neg]
    rintro ⟨h1, h2, h3, h4, h5⟩
    refine hq (q.offset - (a - 0x20000000)) (by omega) ?_
    have e : a + (q.offset - (a - 0x20000000)) = console.FCRAM_PADDR + q.offset := by
      simp only [console]; omega
    rw [e, getPhysicalRef_fcram console (by decide) q.offset (by simp only [console]; omega)]
    cases q
    simp only at h1
    rw [h1]
  flush_sim := by
    intro a n w w' b b' hs hag
    refine ⟨hs, ?_⟩
    intro i hi q hq
    simp only [queueDevice]
    split
    · rfl
    · exact hag i hi q hq

theorem mixedSource_pages (i : Nat) :
    (mixedSource.attributes i = PageType.Memory → i = 0x13FFE) ∧
    (mixedSource.attributes i = PageType.Special → i = 0x13FFF) ∧
    (mixedSource.attributes i = PageType.RasterizerCachedMemory → i = 0x14000) := by
  simp only [mixedSource]
  split_ifs <;> simp_all

theorem mixedDest_pages (i : Nat) :
    (mixedDest.attributes i = PageType.Memory → i = 0x1EFFE) ∧
    (mixedDest.attributes i = PageType.Special → i = 0x1EFFF) ∧
    (mixedDest.attributes i = PageType.RasterizerCachedMemory → i = 0x1F000) := by
  simp only [mixedDest]
  split_ifs <;> simp_all

/-- The arena bytes behind the pages of `mixedSource`: main memory, in the
first page or from offset 0x200000 on. -/
theorem mixedSource_target (a : Nat) (q : BackingRef)
    (h : writeTarget console mixedSource a = some q) :
    q.region = Region.FCRAM ∧ (q.offset < 0x1000 ∨ 0x200000 ≤ q.offset) := by
  unfold writeTarget at h
  split at h
  · rename_i hm
    have hi := (mixedSource_pages _).1 hm
    rw [hi] at h
    simp only [mixedSource, if_true, Option.map_some', Option.some.injEq] at h
    rw [← h]
    exact ⟨rfl, Or.inr (by simp only; omega)⟩
  · rename_i hc
    have hi := (mixedSource_pages _).2.2 hc
    rw [shr_page] at hi
    unfold GetPointerForRasterizerCache at h
    simp only [console] at h
    rw [if_pos (by omega)] at h
    simp only [Option.some.injEq] at h
    rw [← h]
    exact ⟨rfl, Or.inl (by simp only; omega)⟩
  · cases h

/-- The arena bytes behind the pages of `mixedDest`: video memory, or the
page at offset 0x100000 of main memory. -/
theorem mixedDest_target (a : Nat) (q : BackingRef)
    (h : writeTarget console mixedDest a = some q) :
    q.region = Region.VRAM ∨ (0x100000 ≤ q.offset ∧ q.offset < 0x101000) := by
  unfold writeTarget at h
  split at h
  · rename_i hm
    have hi := (mixedDest_pages _).1 hm
    rw [hi] at h
    simp only [mixedDest, if_true, Option.map_some', Option.some.injEq] at h
    rw [← h, and_page_mask]
    exact Or.inr (by simp only; omega)
  · rename_i hc
    have hi := (mixedDest_pages _).2.2 hc
    rw [shr_page] at hi
    unfold GetPointerForRasterizerCache at h
    simp only [console] at h
    rw [if_neg (by omega), if_neg (by omega), if_pos (by omega)] at h
    simp only [Option.some.injEq] at h
    rw [← h]
    exact Or.inl rfl
  · cases h

/-- The theorem of C7 on `mixedSystem` with the collaborators `queueDevice`:
0x2004 bytes from 0x13FFDFFE of the source (an Unmapped, a Memory, a Special
and a RasterizerCachedMemory page, in the linear heap) copied to 0x1EFFE800 of
the destination (a Memory, a Special and a RasterizerCachedMemory page, in
video memory); and the destination bytes CopyBlock leaves: zeros for the
Unmapped source bytes, then arena bytes, handler bytes and, at the end, the
bytes the flush of the source wrote back; the byte past the range is as it
was. -/
theorem c7_copy_block_as_read_then_write_witness :
    (∃ s1 buf s2 s3,
      ReadBlock console queueDevice 0 0x13FFDFFE (fun _ => 0xEE) 0x2004 mixedSystem =
        Except.ok (s1, buf) ∧
      WriteBlock console queueDevice 1 0x1EFFE800 buf 0x2004 s1 = Except.ok s2 ∧
      CopyBlock console queueDevice 1 0 0x1EFFE800 0x13FFDFFE 0x2004 mixedSystem =
        Except.ok s3 ∧
      s3.backing = s2.backing ∧ s3.page_tables = s2.page_tables ∧
      s3.cache_marker = s2.cache_marker ∧ s3.page_table_list = s2.page_table_list ∧
      s3.current_page_table = s2.current_page_table ∧ sameReads s3.world s2.world ∧
      s3.backing = writeRange (writeTarget console (mixedSystem.page_tables 1)) 0x1EFFE800 buf
        0x2004 s1.backing ∧
      (∀ j, j < 0x2004 →
        (mixedSystem.page_tables 0).attributes ((0x13FFDFFE + j) >>> CITRA_PAGE_BITS) =
          PageType.Unmapped → buf j = 0) ∧
      (∀ j q, j < 0x2004 →
        writeTarget console (mixedSystem.page_tables 1) (0x1EFFE800 + j) = some q →
        (∀ j', j < j' → j' < 0x2004 →
          writeTarget console (mixedSystem.page_tables 1) (0x1EFFE800 + j') ≠ some q) →
        s3.backing q.region q.offset = buf j)) ∧
    (CopyBlock console queueDevice 1 0 0x1EFFE800 0x13FFDFFE 0x2004 mixedSystem).toOption.map
      (fun s3 => (s3.backing Region.FCRAM 0x1007FF, s3.backing Region.FCRAM 0x100801,
        s3.backing Region.FCRAM 0x100803, s3.backing Region.FCRAM 0x100FFF,
        s3.backing Region.VRAM 0, s3.backing Region.VRAM 0x801, s3.backing Region.VRAM 0x802,
        s3.backing Region.VRAM 0x803, s3.backing Region.VRAM 0x804)) =
      some (0xFF, 0, 1, 0xFD, 0xFE, 0xFF, 0xC0, 0xC1, 4) :=
  ⟨c7_copy_block_as_read_then_write console queueDevice sameReads 1 0 0x1EFFE800 0x13FFDFFE
      0x2004 (fun _ => 0xEE) mixedSystem (by decide) queueDevice_decoupled (by decide)
      (by decide)
      (fun a _ _ ha => by
        have := (mixedSource_pages _).1 ha
        simp [mixedSystem, mixedSource, this])
      (fun a _ _ ha => by
        have := (mixedSource_pages _).2.1 ha
        rw [shr_page] at this
        refine ⟨7, ?_⟩
        simp only [mixedSystem, mixedSource, GetMMIOHandler, GetMMIOHandler.find, u32]
        rw [if_pos (by omega)])
      (fun a _ _ ha => by
        have := (mixedSource_pages _).2.2 ha
        rw [shr_page] at this
        exact Or.inl (by simp only [console]; omega))
      (fun a _ _ ha => by
        have := (mixedDest_pages _).1 ha
        simp [mixedSystem, mixedDest, this])
      (fun a _ _ ha => by
        have := (mixedDest_pages _).2.1 ha
        rw [shr_page] at this
        refine ⟨9, ?_⟩
        simp only [mixedSystem, mixedDest, GetMMIOHandler, GetMMIOHandler.find, u32]
        rw [if_pos (by omega)])
      (fun a _ _ ha => by
        have := (mixedDest_pages _).2.2 ha
        rw [shr_page] at this
        exact Or.inr (Or.inr (by simp only [console]; omega)))
      (fun i j _ _ q hs hd => by
        have h1 := mixedSource_target _ q hs
        have h2 := mixedDest_target _ q hd
        rcases h2 with h2 | h2
        · rw [h1.1] at h2
          cases h2
        · omega),
   by rfl⟩

end Memory
